import Mathlib

/-! # Pool-cover controller: motion driver, position tracker and command arbiter

A shallow embedding of `RelaysModule.h`, `ClickCounter.cpp` and the control
loop of `main.cpp`.

Conventions of the embedding

* `millis()` is a 32-bit unsigned counter.  Every clock reading is an explicit
  argument (a `Nat` below `2^32`), and every `uint32_t` / `unsigned long`
  computation is written with an explicit `% 2^32`.
* `(long)(a - b)` is the 32-bit two's-complement reading of the wrapped
  difference (`asLong (subU32 a b)`).
* `int32_t` quantities (positions, spans) are `Int`; signed overflow is
  undefined behaviour in C++ and is not given a meaning here.
* Status rows and log lines are write-only outputs and are left out; relay
  pins are kept as electrical levels (`true` = HIGH).
-/

namespace PoolCover

/-! ## Machine arithmetic -/

/-- Modulus of `uint32_t` / `unsigned long` on the target. -/
def U32 : Nat := 4294967296

/-- Wrapped 32-bit addition `a + b`. -/
def addU32 (a b : Nat) : Nat := (a + b) % U32

/-- Wrapped 32-bit subtraction `a - b`. -/
def subU32 (a b : Nat) : Nat := (a % U32 + U32 - b % U32) % U32

/-- The cast `(long)x` of a 32-bit unsigned value. -/
def asLong (x : Nat) : Int :=
  if x % U32 < 2147483648 then ((x % U32 : Nat) : Int) else ((x % U32 : Nat) : Int) - 4294967296

/-! ## MotionState (AnalogController.h) -/

/-- The enum class MotionState of AnalogController.h. -/
inductive MotionState where
  | IDLE
  | OPENING
  | CLOSING
  deriving DecidableEq, Repr, Inhabited

/-! ## RelaysModule (RelaysModule.h) -/

/-- Fields of `RelaysModule`, plus the electrical level of its four pins. -/
structure RelaysModule where
  activeLow : Bool
  psuOn : Bool
  enableOn : Bool
  cur : MotionState
  want : MotionState
  latchedDrive : MotionState
  tChangeAllowed : Nat
  tPsuReady : Nat
  tEnableReady : Nat
  deadMs : Nat
  psuSpinMs : Nat
  psuHoldActive : Bool
  tPsuHoldOff : Nat
  pinFwd : Bool
  pinRev : Bool
  pinPsu : Bool
  pinEn : Bool
  deriving DecidableEq, Repr

namespace RelaysModule

/-- Constant `_enableDelayMs`. -/
def enableDelayMs : Nat := 200

/-- Constant `_psuHoldMs`. -/
def psuHoldMs : Nat := 60000

/-- Level written by `drive(pin, on)`: `_activeLow ? !on : on`. -/
def level (s : RelaysModule) (isOn : Bool) : Bool := if s.activeLow then !isOn else isOn

/-- A relay is energized when its pin carries the active level. -/
def energized (s : RelaysModule) (pin : Bool) : Bool := if s.activeLow then !pin else pin

/-- Forward (Opening) relay energized. -/
def fwdOn (s : RelaysModule) : Bool := s.energized s.pinFwd

/-- Reverse (Closing) relay energized. -/
def revOn (s : RelaysModule) : Bool := s.energized s.pinRev

/-- Power-supply relay energized. -/
def psuRelayOn (s : RelaysModule) : Bool := s.energized s.pinPsu

/-- Enable relay energized. -/
def enRelayOn (s : RelaysModule) : Bool := s.energized s.pinEn

/-- The helper `driveEnable(on)`. -/
def driveEnable (s : RelaysModule) (isOn : Bool) : RelaysModule :=
  { s with pinEn := s.level isOn, enableOn := isOn,
           tEnableReady := if isOn then s.tEnableReady else 0 }

/-- The helper `stopDirections()`. -/
def stopDirections (s : RelaysModule) : RelaysModule :=
  { s with pinFwd := s.level false, pinRev := s.level false }

/-- The helper `allStop()`. -/
def allStop (s : RelaysModule) : RelaysModule :=
  let s1 := (s.stopDirections).driveEnable false
  { s1 with latchedDrive := MotionState.IDLE, tEnableReady := 0 }

/-- The state right after `begin(activeLow, deadMs, psuSpinMs)`. -/
def begin (activeLow : Bool) (deadMs psuSpinMs : Nat) : RelaysModule :=
  let offLevel : Bool := if activeLow then true else false
  let s : RelaysModule :=
    { activeLow := activeLow, psuOn := false, enableOn := false,
      cur := MotionState.IDLE, want := MotionState.IDLE, latchedDrive := MotionState.IDLE,
      tChangeAllowed := 0, tPsuReady := 0, tEnableReady := 0,
      deadMs := deadMs % U32, psuSpinMs := psuSpinMs % U32,
      psuHoldActive := false, tPsuHoldOff := 0,
      pinFwd := offLevel, pinRev := offLevel, pinPsu := offLevel, pinEn := offLevel }
  s.driveEnable false

/-- The local `active` of `request`: `(_cur != IDLE) ? _cur : _latchedDrive`. -/
def active (s : RelaysModule) : MotionState :=
  if s.cur ≠ MotionState.IDLE then s.cur else s.latchedDrive

/-- The method `request(want)`; `millis` is the clock reading taken inside. -/
def request (s : RelaysModule) (want : MotionState) (millis : Nat) : RelaysModule :=
  let s1 := if want ≠ MotionState.IDLE then { s with psuHoldActive := false } else s
  let active := s1.active
  let s2 :=
    if want ≠ MotionState.IDLE ∧ active ≠ MotionState.IDLE ∧ want ≠ active then
      let s3 := s1.allStop
      { s3 with cur := MotionState.IDLE, latchedDrive := MotionState.IDLE,
                tChangeAllowed := addU32 millis s3.deadMs }
    else s1
  { s2 with want := want }

/-- The method `emergencyPanicOff(reason)`. -/
def emergencyPanicOff (s : RelaysModule) : RelaysModule :=
  let s1 := s.allStop
  { s1 with pinPsu := s1.level false, psuOn := false, cur := MotionState.IDLE,
            want := MotionState.IDLE, psuHoldActive := false }

/-- Lines 88-94 of `update()`: stop a running drive and start the power hold-off. -/
def idleStop (s : RelaysModule) (now : Nat) : RelaysModule :=
  if s.cur ≠ MotionState.IDLE then
    { s.allStop with cur := MotionState.IDLE, latchedDrive := MotionState.IDLE,
                     psuHoldActive := true, tPsuHoldOff := addU32 now psuHoldMs }
  else s

/-- The statement `if (_enableOn) driveEnable(false);` (lines 95, 124, 139, 147). -/
def enableOffIfOn (s : RelaysModule) : RelaysModule :=
  if s.enableOn then s.driveEnable false else s

/-- Lines 96-99 of `update()`: release a latched direction. -/
def idleDirOff (s : RelaysModule) : RelaysModule :=
  if s.latchedDrive ≠ MotionState.IDLE then
    { s.stopDirections with latchedDrive := MotionState.IDLE }
  else s

/-- Lines 101-103 of `update()`: the hold-off window has elapsed. -/
def idleHoldExpire (s : RelaysModule) (now : Nat) : RelaysModule :=
  if s.psuHoldActive ∧ asLong (subU32 s.tPsuHoldOff now) ≤ 0 then
    { s with psuHoldActive := false }
  else s

/-- Lines 105-113 of `update()`: the power relay follows the hold-off flag. -/
def idlePsu (s : RelaysModule) : RelaysModule :=
  if s.psuHoldActive then
    if !s.psuOn then { s with pinPsu := s.level true, psuOn := true } else s
  else if s.psuOn then { s with pinPsu := s.level false, psuOn := false }
  else s

/-- The idle branch of `update()` (lines 87-120). -/
def updateIdle (s : RelaysModule) (now : Nat) : RelaysModule :=
  ((((s.idleStop now).enableOffIfOn).idleDirOff).idleHoldExpire now).idlePsu

/-- Lines 130-132 of `update()`: switch the power supply on. -/
def psuStart (s : RelaysModule) (now : Nat) : RelaysModule :=
  { s with pinPsu := s.level true, psuOn := true, tPsuReady := addU32 now s.psuSpinMs }

/-- Lines 149-153 of `update()`: engage the direction relay of the target. -/
def driveTarget (s : RelaysModule) : RelaysModule :=
  if s.want = MotionState.OPENING then { s with pinFwd := s.level true }
  else if s.want = MotionState.CLOSING then { s with pinRev := s.level true }
  else s

/-- Lines 146-162 of `update()`: set the direction relays, start the arming delay. -/
def arm (s : RelaysModule) (now : Nat) : RelaysModule :=
  { ((s.enableOffIfOn).stopDirections).driveTarget with
      latchedDrive := s.want, tEnableReady := addU32 now enableDelayMs }

/-- Lines 167-168 of `update()`: close the enable relay. -/
def engage (s : RelaysModule) : RelaysModule :=
  { s.driveEnable true with cur := s.latchedDrive }

/-- The method `update()`; `now` is the value of `millis()` read at its top. -/
def update (s : RelaysModule) (now : Nat) : RelaysModule :=
  if s.want = MotionState.IDLE then s.updateIdle now
  else if now < s.tChangeAllowed then s.enableOffIfOn
  else if !s.psuOn then s.psuStart now
  else if now < s.tPsuReady then s.enableOffIfOn
  else if s.latchedDrive ≠ s.want then s.arm now
  else if !s.enableOn then
    (if now < s.tEnableReady then s else s.engage)
  else { s with cur := s.latchedDrive }

/-- The accessor `current()`. -/
def current (s : RelaysModule) : MotionState := s.cur

end RelaysModule

/-- One call made on the driver, with the clock reading it sees. -/
inductive RelayCall where
  | request (want : MotionState) (t : Nat)
  | update (t : Nat)
  deriving DecidableEq, Repr

namespace RelayCall

/-- Clock reading of a call. -/
def time : RelayCall → Nat
  | request _ t => t
  | update t => t

/-- Effect of one call on the driver. -/
def apply (s : RelaysModule) : RelayCall → RelaysModule
  | request w t => s.request w t
  | update t => s.update t

/-- Effect of a sequence of calls, in order. -/
def run (s : RelaysModule) (cs : List RelayCall) : RelaysModule := cs.foldl apply s

/-- The clock never goes back along the sequence, starting from `t0`. -/
def monotoneFrom : Nat → List RelayCall → Prop
  | _, [] => True
  | t0, c :: cs => t0 ≤ c.time ∧ monotoneFrom c.time cs


instance decMonotoneFrom : ∀ (t0 : Nat) (cs : List RelayCall), Decidable (monotoneFrom t0 cs)
  | _, [] => isTrue trivial
  | t0, c :: cs =>
    match Nat.decLe t0 c.time, decMonotoneFrom c.time cs with
    | isTrue h1, isTrue h2 => isTrue ⟨h1, h2⟩
    | isFalse h1, _ => isFalse (fun h => h1 h.1)
    | _, isFalse h2 => isFalse (fun h => h2 h.2)

/-- Clock reading of the call at index `i` (0 past the end). -/
def timeAt (cs : List RelayCall) (i : Nat) : Nat :=
  match cs.get? i with
  | some c => c.time
  | none => 0

/-- Driver state after the first `i` calls of `cs`. -/
def stateAt (s0 : RelaysModule) (cs : List RelayCall) (i : Nat) : RelaysModule :=
  run s0 (cs.take i)

/-- The dead-time rule read over a whole call sequence: whenever call `i` opens
the enable relay while a direction is driven, and call `j` is the next one that
closes it, for the opposite direction, at least `deadMs` lie between the two. -/
def DeadTimeKept (s0 : RelaysModule) (cs : List RelayCall) : Prop :=
  ∀ i j : Nat, i < j → j < cs.length →
    (stateAt s0 cs i).enRelayOn = true →
    (stateAt s0 cs i).cur ≠ MotionState.IDLE →
    (∀ k, i < k → k ≤ j → (stateAt s0 cs k).enRelayOn = false) →
    (stateAt s0 cs (j + 1)).enRelayOn = true →
    (stateAt s0 cs (j + 1)).cur ≠ MotionState.IDLE →
    (stateAt s0 cs (j + 1)).cur ≠ (stateAt s0 cs i).cur →
    timeAt cs i + s0.deadMs ≤ timeAt cs j

/-- A run of the driver as `setup()` configures it: drive Opening, return to
Idle at 5000 ms, then ask for Closing 5 ms later. -/
def idleGapTrace : List RelayCall :=
  [ request MotionState.OPENING 1000, update 1000, update 3000, update 3200,
    request MotionState.IDLE 5000, update 5000,
    request MotionState.CLOSING 5005, update 5005, update 5205 ]

/-- The driver while it drives Opening, as reached from `begin(true, 1000, 2000)`. -/
def drivingOpening : RelaysModule :=
  run (RelaysModule.begin true 1000 2000)
    [ request MotionState.OPENING 1000, update 1000, update 3000, update 3200 ]


/-- The driver while it drives Opening shortly before the millisecond counter
reaches `2^32`, as reached from `begin(true, 1000, 2000)`. -/
def drivingNearWrap : RelaysModule :=
  run (RelaysModule.begin true 1000 2000)
    [ request MotionState.OPENING 4294960000, update 4294960000, update 4294962000,
      update 4294962200 ]

end RelayCall


/-! ## Call sequences and invariants of the motion driver -/

/-- One call made on the driver after `begin`, with the clock reading at the
call: `request(want)`, `update()` or `emergencyPanicOff()`. -/
inductive DriverOp where
  | request (want : MotionState) (t : Nat)
  | update (t : Nat)
  | panicOff (t : Nat)
  deriving DecidableEq, Repr

namespace RelaysModule

/-- The relay that drives direction `d` is energized. -/
def dirRelayOn (s : RelaysModule) : MotionState → Bool
  | MotionState.OPENING => s.fwdOn
  | MotionState.CLOSING => s.revOn
  | MotionState.IDLE => false

/-- The flags mirror the pins: the power and enable relays are energized exactly
when `_psuOn` and `_enableOn` are set, the forward relay exactly when Opening is
latched and the reverse relay exactly when Closing is latched. -/
def PinsOk (s : RelaysModule) : Prop :=
  s.psuRelayOn = s.psuOn ∧ s.enRelayOn = s.enableOn ∧
  s.fwdOn = decide (s.latchedDrive = MotionState.OPENING) ∧
  s.revOn = decide (s.latchedDrive = MotionState.CLOSING)

instance decPinsOk (s : RelaysModule) : Decidable (PinsOk s) := by
  unfold PinsOk; infer_instance

/-- What holds of the driver between two calls, whatever the clock does: the
flags mirror the pins, with the power supply off nothing else is on, and a
running hold-off keeps the power supply on. -/
def Sound (s : RelaysModule) : Prop :=
  PinsOk s ∧
  (s.psuOn = false →
    s.enableOn = false ∧ s.latchedDrive = MotionState.IDLE ∧ s.cur = MotionState.IDLE) ∧
  (s.psuHoldActive = true → s.psuOn = true)

instance decSound (s : RelaysModule) : Decidable (Sound s) := by
  unfold Sound; infer_instance

/-- What holds of the driver between two calls when no clock reading so far
was above `t`: the enable relay is closed exactly while a direction is
reported, and then the reported direction is the latched one, the power supply
is on, the dead-time and spin-up deadlines lie behind and the request is that
direction or Idle. -/
def Steady (s : RelaysModule) (t : Nat) : Prop :=
  (s.enableOn = true → s.cur ≠ MotionState.IDLE) ∧
  (s.cur ≠ MotionState.IDLE →
    s.cur = s.latchedDrive ∧ s.enableOn = true ∧ s.psuOn = true ∧
    s.tChangeAllowed ≤ t ∧ s.tPsuReady ≤ t ∧
    (s.want = s.cur ∨ s.want = MotionState.IDLE))

instance decSteady (s : RelaysModule) (t : Nat) : Decidable (Steady s t) := by
  unfold Steady; infer_instance

/-- The power supply is not ready before `T`: nothing is latched or reported,
the enable relay is off, and a power supply that is on has its spin-up deadline
at `T` or later. -/
def SpinningUp (T : Nat) (s : RelaysModule) : Prop :=
  s.latchedDrive = MotionState.IDLE ∧ s.enableOn = false ∧ s.cur = MotionState.IDLE ∧
    (s.psuOn = true → T ≤ s.tPsuReady)

/-- What the stopping `update` at time `t` leaves behind: request and report
Idle, nothing latched, the enable relay off, the power supply on and the
hold-off running until `t + 60000`. -/
def Holding (t : Nat) (s : RelaysModule) : Prop :=
  s.want = MotionState.IDLE ∧ s.cur = MotionState.IDLE ∧ s.enableOn = false ∧
    s.latchedDrive = MotionState.IDLE ∧ s.psuHoldActive = true ∧
    s.tPsuHoldOff = addU32 t psuHoldMs ∧ s.psuOn = true

end RelaysModule

namespace DriverOp

/-- Clock reading at a call. -/
def time : DriverOp → Nat
  | request _ t => t
  | update t => t
  | panicOff t => t

/-- Effect of one call on the driver. -/
def apply (s : RelaysModule) : DriverOp → RelaysModule
  | request w t => s.request w t
  | update _t => s.update _t
  | panicOff _ => s.emergencyPanicOff

/-- Effect of a sequence of calls, in order. -/
def run (s : RelaysModule) (ops : List DriverOp) : RelaysModule := ops.foldl apply s

/-- The clock never goes back along the sequence, starting from `t0`. -/
def inOrder : Nat → List DriverOp → Prop
  | _, [] => True
  | t0, op :: ops => t0 ≤ op.time ∧ inOrder op.time ops

instance decInOrder : ∀ (t0 : Nat) (ops : List DriverOp), Decidable (inOrder t0 ops)
  | _, [] => isTrue trivial
  | t0, op :: ops =>
    haveI := decInOrder op.time ops
    inferInstanceAs (Decidable (t0 ≤ op.time ∧ inOrder op.time ops))

/-- Driver state before the call at index `i` (after the first `i` calls). -/
def stateAt (s0 : RelaysModule) (ops : List DriverOp) (i : Nat) : RelaysModule :=
  run s0 (ops.take i)

/-- A call that keeps the request Idle within `w` ms after the stop at `t`: an
`update` whose clock reading is less than `w` ms past `t` on the 32-bit
millisecond counter, or a `request(IDLE)`. -/
def idleWithin (t w : Nat) : DriverOp → Prop
  | request want _ => want = MotionState.IDLE
  | update t2 => subU32 t2 t < w
  | panicOff _ => False

instance decIdleWithin (t w : Nat) : ∀ op : DriverOp, Decidable (idleWithin t w op)
  | request want _ => inferInstanceAs (Decidable (want = MotionState.IDLE))
  | update t2 => inferInstanceAs (Decidable (subU32 t2 t < w))
  | panicOff _ => isFalse (fun h => h)

/-- The driver as `setup()` configures it, asked for Opening at 4294966000 ms,
1296 ms before the millisecond counter wraps. -/
def askedNearWrap : RelaysModule :=
  (RelaysModule.begin true 1000 2000).request MotionState.OPENING 4294966000

/-- The driver as `setup()` configures it, asked for Opening at 4294965000 ms
and powered since then: the pass at 4294967200 ms, 96 ms before the millisecond
counter wraps, is past the spin-up window. -/
def poweredNearWrap : RelaysModule :=
  ((RelaysModule.begin true 1000 2000).request MotionState.OPENING 4294965000).update 4294965000

/-- The driver as `setup()` configures it, while it drives Closing: asked at
1000 ms, powered, armed at 3000 ms, enable relay closed at 3200 ms. -/
def drivingClosing : RelaysModule :=
  run (RelaysModule.begin true 1000 2000)
    [ request MotionState.CLOSING 1000, update 1000, update 3000, update 3200 ]

end DriverOp

/-! ## ClickCounter (ClickCounter.h, ClickCounter.cpp) -/

/-- Fields of `ClickCounter`, plus the part of the `Preferences` store it owns:
the key `end` and the eight record slots `pos_0 .. pos_7` (raw bytes). -/
structure ClickCounter where
  simulate : Bool
  edgeCountIsr : Nat
  lastIsrUs : Nat
  isrAttached : Bool
  motion : MotionState
  lastMotion : MotionState
  pos : Int
  endPos : Int
  panicFlag : Bool
  epoch : Nat
  lastSimTickMs : Nat
  lastPersistMs : Nat
  lastPersistPos : Int
  lastPersistLevelLow : Bool
  prefsOpen : Bool
  calibrationActive : Bool
  calibOpenSet : Bool
  calibClosedSet : Bool
  calibEntryPos : Int
  calibEntryEnd : Int
  calibOpenRaw : Int
  calibClosedRaw : Int
  sensorExpectedLow : Bool
  sensorLiveLow : Bool
  sensorPersisted : Bool
  simSensorLow : Bool
  overshootLogged : Bool
  lastActiveDirection : MotionState
  tailHoldUntil : Nat
  edgePhase : Nat
  nvsEnd : Option Int
  nvsSlots : List (Option (List Nat))
  deriving DecidableEq, Repr

namespace ClickCounter

/-- Constant `POS_SLOTS`. -/
def POS_SLOTS : Nat := 8

/-- Constant `ISR_GATE_US`. -/
def ISR_GATE_US : Nat := 2250

/-- Constant `SET_MIN_POS`. -/
def SET_MIN_POS : Int := -512

/-- Constant `SET_MAX_POS`. -/
def SET_MAX_POS : Int := 8192

/-- Constant `DEFAULT_END`. -/
def DEFAULT_END : Int := 256

/-- Constant `TAIL_HOLD_MS`. -/
def TAIL_HOLD_MS : Nat := 100

/-- The value `INT32_MIN`, used as "no candidate" in `recomputeSpanFromMarks`. -/
def INT32_MIN : Int := -2147483648

/-! ### Record checksum and layout -/

/-- One round of the inner loop of `crc32`:
`mask = -(crc & 1); crc = (crc >> 1) ^ (0xEDB88320 & mask)`. -/
def crcBit (crc : Nat) : Nat :=
  let mask := (U32 - (crc &&& 1)) % U32
  (crc >>> 1) ^^^ (0xEDB88320 &&& mask)

/-- One byte of `crc32`: `crc ^= *p++` and eight rounds. -/
def crcByte (crc : Nat) (b : Nat) : Nat :=
  crcBit (crcBit (crcBit (crcBit (crcBit (crcBit (crcBit (crcBit (crc ^^^ b))))))))

/-- The function `crc32(data, len)` on a byte string. -/
def crc32 (data : List Nat) : Nat :=
  (data.foldl crcByte 0xFFFFFFFF) ^^^ 0xFFFFFFFF

/-- Little-endian bytes of a `uint32_t`. -/
def le32 (n : Nat) : List Nat :=
  [n % 256, n / 256 % 256, n / 65536 % 256, n / 16777216 % 256]

/-- Value of four little-endian bytes. -/
def ofLe32 (b0 b1 b2 b3 : Nat) : Nat :=
  b0 + 256 * b1 + 65536 * b2 + 16777216 * b3

/-- Two's-complement bits of an `int32_t`. -/
def i32Bits (z : Int) : Nat := (z % 4294967296).toNat

/-- The `int32_t` with the given bits. -/
def i32OfBits (n : Nat) : Int :=
  if n < 2147483648 then (n : Int) else (n : Int) - 4294967296

/-- The function `computeRecCrc(epoch, pos, level)`. -/
def computeRecCrc (epoch : Nat) (pos : Int) (level : Nat) : Nat :=
  crc32 (le32 epoch ++ le32 (i32Bits pos) ++ [level])

/-- The function `computeRecCrcLegacy(epoch, pos)`. -/
def computeRecCrcLegacy (epoch : Nat) (pos : Int) : Nat :=
  crc32 (le32 epoch ++ le32 (i32Bits pos))

/-- Bytes of a `PosRecV1` (16 bytes). -/
def encodeRecV1 (epoch : Nat) (pos : Int) (level : Nat) : List Nat :=
  le32 epoch ++ le32 (i32Bits pos) ++ [level, 0, 0, 0] ++ le32 (computeRecCrc epoch pos level)

/-! ### Persistence -/

/-- The method `persistEnd()`. -/
def persistEnd (s : ClickCounter) : ClickCounter :=
  if !s.prefsOpen then s
  else
    let s1 := if s.endPos < 0 then { s with endPos := 0 } else s
    { s1 with nvsEnd := some s1.endPos }

/-- The method `persistPos(force)`; the write to the slot is taken to succeed. -/
def persistPos (s : ClickCounter) (force : Bool) (now : Nat) : ClickCounter :=
  if !s.prefsOpen then s
  else if !force ∧ s.pos = s.lastPersistPos ∧ s.sensorExpectedLow = s.lastPersistLevelLow then s
  else
    let epoch := (s.epoch + 1) % U32
    let level : Nat := if s.sensorExpectedLow then 1 else 0
    { s with epoch := epoch,
             nvsSlots := s.nvsSlots.set (epoch % POS_SLOTS) (some (encodeRecV1 epoch s.pos level)),
             lastPersistPos := s.pos,
             lastPersistLevelLow := s.sensorExpectedLow,
             lastPersistMs := now,
             sensorPersisted := true }

/-- The method `forcePersist()`. -/
def forcePersist (s : ClickCounter) (now : Nat) : ClickCounter := s.persistPos true now

/-! ### Edge capture and counting -/

/-- The interrupt handler `onIsr()`; `nowUs` is the value of `micros()`. -/
def onIsr (s : ClickCounter) (nowUs : Nat) : ClickCounter :=
  if subU32 nowUs s.lastIsrUs < ISR_GATE_US then s
  else { s with lastIsrUs := nowUs % U32, edgeCountIsr := (s.edgeCountIsr + 1) % U32 }

/-- The method `computeEffectiveDirection(&tailHoldUsed)`: the direction, the
flag written through the pointer, and the new state. -/
def computeEffectiveDirection (s : ClickCounter) (now : Nat) :
    MotionState × Bool × ClickCounter :=
  if s.motion ≠ MotionState.IDLE then
    (s.motion, false, { s with lastActiveDirection := s.motion })
  else if s.lastActiveDirection ≠ MotionState.IDLE then
    if 0 ≤ asLong (subU32 s.tailHoldUntil now) then
      (s.lastActiveDirection, true, s)
    else
      (MotionState.IDLE, false,
        { s with lastActiveDirection := MotionState.IDLE, tailHoldUntil := 0 })
  else (MotionState.IDLE, false, s)

/-- One pass of the `for` loop of `processEdgeBatch`: one sensor edge.  The
second component is `usedTailHold` of that pass. -/
def processEdge (s : ClickCounter) (now : Nat) : ClickCounter × Bool :=
  let s1 := { s with edgePhase := (s.edgePhase ^^^ 1) % 256, sensorLiveLow := !s.sensorLiveLow }
  if s1.edgePhase = 0 then
    let r := s1.computeEffectiveDirection now
    let dir := r.1
    let s2 := r.2.2
    let s3 :=
      if dir = MotionState.CLOSING then ({ s2 with pos := s2.pos + 1 }).persistPos false now
      else if dir = MotionState.OPENING then ({ s2 with pos := s2.pos - 1 }).persistPos false now
      else s2
    (s3, r.2.1)
  else (s1, false)

/-- The `for` loop of `processEdgeBatch`, carrying `anyTailHoldUsed`. -/
def edgeLoop : Nat → ClickCounter × Bool → Nat → ClickCounter × Bool
  | 0, st, _ => st
  | n + 1, st, now =>
    let r := st.1.processEdge now
    edgeLoop n (r.1, st.2 || r.2) now

/-- The method `processEdgeBatch(edges)`. -/
def processEdgeBatch (s : ClickCounter) (edges : Nat) (now : Nat) : ClickCounter :=
  if edges = 0 then s
  else
    let r := edgeLoop edges (s, false) now
    let s1 := r.1
    let s2 := { s1 with sensorExpectedLow := s1.sensorLiveLow, sensorPersisted := true }
    let s3 := if s2.simulate then { s2 with simSensorLow := s2.sensorLiveLow } else s2
    if s3.motion = MotionState.IDLE ∧ r.2 then
      { s3 with tailHoldUntil := addU32 now TAIL_HOLD_MS }
    else s3

/-- The `while` loop of `simulateTicks`: the new `_lastSimTickMs` and
`pendingEdges`.  The first argument bounds the number of passes. -/
def simTickLoop : Nat → Nat → Nat → Nat → Nat × Nat
  | 0, _, last, pending => (last, pending)
  | fuel + 1, now, last, pending =>
    if 200 ≤ subU32 now last then simTickLoop fuel now (addU32 last 200) (addU32 pending 2)
    else (last, pending)

/-- The method `simulateTicks()`. -/
def simulateTicks (s : ClickCounter) (now : Nat) : ClickCounter :=
  if s.motion = MotionState.IDLE then
    { s with lastSimTickMs := now, sensorLiveLow := s.simSensorLow }
  else
    let s1 := if now < s.lastSimTickMs then { s with lastSimTickMs := now } else s
    let r := simTickLoop (subU32 now s1.lastSimTickMs / 200 + 1) now s1.lastSimTickMs 0
    let s2 := { s1 with lastSimTickMs := r.1 }
    if r.2 ≠ 0 then s2.processEdgeBatch r.2 now else s2

/-- The method `drainHardwareEdges()`. -/
def drainHardwareEdges (s : ClickCounter) (now : Nat) : ClickCounter :=
  let edges := s.edgeCountIsr
  let s1 := { s with edgeCountIsr := 0 }
  if edges = 0 then s1 else s1.processEdgeBatch edges now

/-- First statement of `update`: take in the edges of this cycle. -/
def drain (s : ClickCounter) (now : Nat) : ClickCounter :=
  if s.simulate then s.simulateTicks now else s.drainHardwareEdges now

/-- Lines 145-158 of `update`: an overshoot is logged once. -/
def noteOvershoot (s : ClickCounter) : ClickCounter :=
  let overshoot : Bool := decide (s.pos < 0) || decide (s.pos > s.endPos)
  if overshoot ∧ !s.overshootLogged then { s with overshootLogged := true }
  else if !overshoot ∧ s.overshootLogged then { s with overshootLogged := false }
  else s

/-- Lines 160-162 of `update`: the out-of-range panic. -/
def rangePanic (s : ClickCounter) : ClickCounter :=
  if s.pos < -2 ∨ s.pos > s.endPos + 2 then { s with panicFlag := true } else s

/-- Lines 163-164 of `update`: the soft clamp. -/
def softClamp (s : ClickCounter) : ClickCounter :=
  let s1 := if s.pos < -1 then { s with pos := -1 } else s
  if s1.pos > s1.endPos + 1 then { s1 with pos := s1.endPos + 1 } else s1

/-- Lines 166-168 of `update`: the wide clamp of calibration mode. -/
def calibrationClamp (s : ClickCounter) : ClickCounter :=
  let s1 := if s.pos < SET_MIN_POS then { s with pos := SET_MIN_POS } else s
  let s2 := if s1.pos > SET_MAX_POS then { s1 with pos := SET_MAX_POS } else s1
  { s2 with overshootLogged := false }

/-- Lines 144-169 of `update`: overshoot bookkeeping, panic and clamping. -/
def applyLimits (s : ClickCounter) (allowBeyondLimits : Bool) : ClickCounter :=
  if !allowBeyondLimits then ((s.noteOvershoot).rangePanic).softClamp
  else s.calibrationClamp

/-- Lines 171-175 of `update`: persist when motion has just stopped. -/
def finishUpdate (s : ClickCounter) (now : Nat) : ClickCounter :=
  let s1 :=
    if s.motion = MotionState.IDLE ∧ s.lastMotion ≠ MotionState.IDLE then s.persistPos true now
    else s
  { s1 with lastMotion := s1.motion }

/-- The method `update(allowBeyondLimits)`. -/
def update (s : ClickCounter) (allowBeyondLimits : Bool) (now : Nat) : ClickCounter :=
  ((s.drain now).applyLimits allowBeyondLimits).finishUpdate now

/-! ### Motion context -/

/-- The method `refreshLiveLevel()`; `pinLow` is `digitalRead(_pin) == LOW`. -/
def refreshLiveLevel (s : ClickCounter) (pinLow : Bool) : ClickCounter :=
  if s.simulate then { s with sensorLiveLow := s.simSensorLow }
  else { s with sensorLiveLow := pinLow }

/-- The method `clearPendingEdges()`. -/
def clearPendingEdges (s : ClickCounter) : ClickCounter :=
  let s1 := { s with edgePhase := 0, sensorExpectedLow := s.sensorLiveLow }
  if s1.simulate then s1 else { s1 with edgeCountIsr := 0, lastIsrUs := 0 }

/-- The method `prepareForMotion()`. -/
def prepareForMotion (s : ClickCounter) (now : Nat) (pinLow : Bool) : ClickCounter :=
  if s.simulate then
    { s with sensorLiveLow := s.sensorExpectedLow, simSensorLow := s.sensorExpectedLow }
  else
    let hadPersisted := s.sensorPersisted
    let previousExpected := s.sensorExpectedLow
    let s1 := s.refreshLiveLevel pinLow
    let mismatch : Bool := hadPersisted && (s1.sensorLiveLow != previousExpected)
    let s2 := s1.clearPendingEdges
    let s3 := { s2 with sensorExpectedLow := s2.sensorLiveLow, sensorPersisted := true }
    if !hadPersisted ∨ mismatch ∨ s3.sensorExpectedLow ≠ s3.lastPersistLevelLow then
      s3.persistPos true now
    else s3

/-- The method `setMotion(m)`. -/
def setMotion (s : ClickCounter) (m : MotionState) (now : Nat) (pinLow : Bool) : ClickCounter :=
  let s1 :=
    if s.motion = MotionState.IDLE ∧ m ≠ MotionState.IDLE then
      { s.prepareForMotion now pinLow with lastActiveDirection := m, tailHoldUntil := 0 }
    else if s.motion ≠ MotionState.IDLE ∧ m = MotionState.IDLE then
      { s with tailHoldUntil := addU32 now TAIL_HOLD_MS }
    else s
  let s2 := if m ≠ MotionState.IDLE then { s1 with lastActiveDirection := m } else s1
  { s2 with motion := m }

/-- The method `setSimulation(simulate)`; attaching the interrupt handler is
taken to succeed. -/
def setSimulation (s : ClickCounter) (sim : Bool) (now : Nat) (pinLow : Bool) : ClickCounter :=
  if s.simulate = sim then s
  else
    let s1 :=
      if !s.simulate ∧ s.isrAttached then
        { s with isrAttached := false, edgeCountIsr := 0, lastIsrUs := 0 }
      else s
    let s2 := { s1 with simulate := sim }
    let s3 :=
      if s2.simulate then
        { s2 with lastSimTickMs := now, sensorLiveLow := s2.sensorExpectedLow,
                  simSensorLow := s2.sensorExpectedLow,
                  lastActiveDirection := MotionState.IDLE, tailHoldUntil := 0 }
      else
        let a :=
          if s2.isrAttached then s2
          else { s2 with isrAttached := true, edgeCountIsr := 0, lastIsrUs := 0 }
        let b := a.refreshLiveLevel pinLow
        let c :=
          if !b.sensorPersisted then
            { b with sensorExpectedLow := b.sensorLiveLow, sensorPersisted := true }
          else b
        { c with lastActiveDirection := MotionState.IDLE, tailHoldUntil := 0 }
    { s3 with edgePhase := 0 }

/-! ### Calibration -/

/-- The method `shiftCoordinateFrame(delta, adjustEnd)`. -/
def shiftCoordinateFrame (s : ClickCounter) (delta : Int) (adjustEnd : Bool) : ClickCounter :=
  if delta = 0 then s
  else
    let s1 := { s with pos := s.pos - delta }
    let s2 := if adjustEnd then { s1 with endPos := s1.endPos - delta } else s1
    let s3 := { s2 with lastPersistPos := s2.pos }
    if s3.calibrationActive then
      let a := { s3 with calibEntryPos := s3.calibEntryPos - delta }
      let b := if a.calibOpenSet then { a with calibOpenRaw := a.calibOpenRaw - delta } else a
      if b.calibClosedSet then { b with calibClosedRaw := b.calibClosedRaw - delta } else b
    else s3

/-- The candidate span of `recomputeSpanFromMarks`, before it is normalised. -/
def spanCandidate (s : ClickCounter) : Int :=
  if s.calibClosedSet then s.calibClosedRaw
  else if s.calibOpenSet ∧ s.calibEntryPos ≠ 0 then s.calibEntryPos
  else INT32_MIN

/-- Lines 488-491 of `recomputeSpanFromMarks`: the candidate made a valid span. -/
def normaliseCandidate (s : ClickCounter) (candidate : Int) : Int :=
  let c1 := if candidate < 0 then -candidate else candidate
  let c2 := if c1 = 0 ∧ s.calibEntryEnd > 0 then s.calibEntryEnd else c1
  let c3 := if c2 < 0 then 0 else c2
  if c3 > SET_MAX_POS then SET_MAX_POS else c3

/-- The method `recomputeSpanFromMarks()`. -/
def recomputeSpanFromMarks (s : ClickCounter) : ClickCounter :=
  if !s.calibrationActive then s
  else
    let candidate := s.spanCandidate
    let s1 :=
      if candidate ≠ INT32_MIN then { s with endPos := s.normaliseCandidate candidate }
      else if s.calibEntryEnd > 0 then { s with endPos := s.calibEntryEnd }
      else s
    let s2 :=
      if s1.calibOpenSet then
        let a := if s1.pos < 0 then { s1 with pos := 0 } else s1
        if a.pos > a.endPos then { a with pos := a.endPos } else a
      else s1
    if s2.calibClosedSet ∧ s2.pos > s2.endPos then { s2 with pos := s2.endPos } else s2

/-- The method `clampCalibrationRange()`. -/
def clampCalibrationRange (s : ClickCounter) : ClickCounter :=
  let s1 := if s.pos < SET_MIN_POS then { s with pos := SET_MIN_POS } else s
  let s2 := if s1.pos > SET_MAX_POS then { s1 with pos := SET_MAX_POS } else s1
  let s3 := if s2.endPos < 0 then { s2 with endPos := 0 } else s2
  if s3.endPos > SET_MAX_POS then { s3 with endPos := SET_MAX_POS } else s3

/-- The method `beginCalibration()`. -/
def beginCalibration (s : ClickCounter) : ClickCounter :=
  { s with calibrationActive := true, calibEntryPos := s.pos, calibEntryEnd := s.endPos,
           calibOpenSet := false, calibClosedSet := false, calibOpenRaw := 0,
           calibClosedRaw := 0 }

/-- The method `setOpenHere()`. -/
def setOpenHere (s : ClickCounter) (now : Nat) : ClickCounter :=
  let beforeEnd := s.endPos
  let raw := s.pos
  let s1 := if s.calibrationActive then { s with calibOpenSet := true, calibOpenRaw := raw } else s
  let s2 := s1.shiftCoordinateFrame raw s1.calibrationActive
  let s3 :=
    if s2.calibrationActive then ({ s2 with calibOpenRaw := 0 }).recomputeSpanFromMarks else s2
  let s4 := s3.clampCalibrationRange
  let s5 := { s4 with panicFlag := false }
  let s6 := if s5.endPos ≠ beforeEnd then s5.persistEnd else s5
  s6.persistPos true now

/-- The method `setClosedHere()`. -/
def setClosedHere (s : ClickCounter) (now : Nat) : ClickCounter :=
  let s1 := if s.pos < 0 then { s with pos := 0 } else s
  let s2 :=
    if s1.calibrationActive then { s1 with calibClosedSet := true, calibClosedRaw := s1.pos }
    else s1
  let beforeEnd := s2.endPos
  let s3 := { s2 with endPos := s2.pos }
  let s4 := if s3.calibrationActive then s3.recomputeSpanFromMarks else s3
  let s5 := s4.clampCalibrationRange
  let s6 := { s5 with panicFlag := false }
  let s7 := if s6.endPos ≠ beforeEnd then s6.persistEnd else s6
  s7.persistPos true now

/-- The method `finalizeCalibration()`. -/
def finalizeCalibration (s : ClickCounter) (now : Nat) : ClickCounter :=
  let s1 := (s.recomputeSpanFromMarks).clampCalibrationRange
  let s2 := if s1.pos < 0 then { s1 with pos := 0 } else s1
  let s3 := if s2.pos > s2.endPos then { s2 with pos := s2.endPos } else s2
  let s4 := { s3 with panicFlag := false, calibrationActive := false, calibOpenSet := false,
                      calibClosedSet := false }
  (s4.persistEnd).persistPos true now

/-- The method `clearPanic()`. -/
def clearPanic (s : ClickCounter) : ClickCounter := { s with panicFlag := false }

/-! ### Start-up -/

/-- A `ClickCounter` object as its member initialisers leave it, next to a
store holding `nvsEnd` under the key `end` and `nvsSlots` in the record slots. -/
def constructed (nvsEnd : Option Int) (nvsSlots : List (Option (List Nat))) : ClickCounter :=
  { simulate := true, edgeCountIsr := 0, lastIsrUs := 0, isrAttached := false,
    motion := MotionState.IDLE, lastMotion := MotionState.IDLE, pos := 0,
    endPos := DEFAULT_END, panicFlag := false, epoch := 0, lastSimTickMs := 0,
    lastPersistMs := 0, lastPersistPos := 0, lastPersistLevelLow := false,
    prefsOpen := false, calibrationActive := false, calibOpenSet := false,
    calibClosedSet := false, calibEntryPos := 0, calibEntryEnd := DEFAULT_END,
    calibOpenRaw := 0, calibClosedRaw := 0, sensorExpectedLow := false,
    sensorLiveLow := false, sensorPersisted := false, simSensorLow := false,
    overshootLogged := false, lastActiveDirection := MotionState.IDLE, tailHoldUntil := 0,
    edgePhase := 0, nvsEnd := nvsEnd, nvsSlots := nvsSlots }

/-- The method `loadEnd()`. -/
def loadEnd (s : ClickCounter) : ClickCounter :=
  let s1 :=
    match s.nvsEnd with
    | some e => { s with endPos := e }
    | none => { s with endPos := DEFAULT_END, nvsEnd := some DEFAULT_END }
  if s1.endPos < 0 then { s1 with endPos := DEFAULT_END } else s1

/-- The locals `found, bestEpoch, bestPos, bestLevelLow, bestHasLevel` of `loadPos`. -/
structure BestRec where
  found : Bool
  bestEpoch : Nat
  bestPos : Int
  bestLevelLow : Bool
  bestHasLevel : Bool
  deriving DecidableEq, Repr

/-- Result of `_prefs.getBytes(key, buffer, 16)`: the stored length, or 0 when
the blob does not fit the buffer. -/
def getBytesLen (bytes : List Nat) : Nat :=
  if bytes.length > 16 then 0 else bytes.length

/-- Body of the `for` loop of `loadPos`, for the content of one slot. -/
def loadSlot (best : BestRec) (slot : Option (List Nat)) : BestRec :=
  match slot with
  | none => best
  | some bytes =>
    let n := getBytesLen bytes
    if n = 0 then best
    else if n = 16 then
      match bytes with
      | [e0, e1, e2, e3, p0, p1, p2, p3, lv, _, _, _, c0, c1, c2, c3] =>
        let epoch := ofLe32 e0 e1 e2 e3
        let pos := i32OfBits (ofLe32 p0 p1 p2 p3)
        if computeRecCrc epoch pos lv ≠ ofLe32 c0 c1 c2 c3 then best
        else if !best.found ∨ epoch > best.bestEpoch then
          { found := true, bestEpoch := epoch, bestPos := pos, bestLevelLow := decide (lv ≠ 0),
            bestHasLevel := true }
        else best
      | _ => best
    else if n = 12 then
      match bytes with
      | [e0, e1, e2, e3, p0, p1, p2, p3, c0, c1, c2, c3] =>
        let epoch := ofLe32 e0 e1 e2 e3
        let pos := i32OfBits (ofLe32 p0 p1 p2 p3)
        if computeRecCrcLegacy epoch pos ≠ ofLe32 c0 c1 c2 c3 then best
        else if !best.found ∨ epoch > best.bestEpoch then
          { found := true, bestEpoch := epoch, bestPos := pos, bestLevelLow := false,
            bestHasLevel := false }
        else best
      | _ => best
    else best

/-- The method `loadPos()`. -/
def loadPos (s : ClickCounter) : ClickCounter :=
  let init : BestRec :=
    { found := false, bestEpoch := 0, bestPos := 0, bestLevelLow := false, bestHasLevel := false }
  let best := (s.nvsSlots.take POS_SLOTS).foldl loadSlot init
  let s1 :=
    if best.found then
      { s with epoch := best.bestEpoch, pos := best.bestPos,
               sensorExpectedLow := best.bestLevelLow, sensorPersisted := best.bestHasLevel }
    else
      { s with epoch := 0, pos := 0, sensorExpectedLow := false, sensorPersisted := false }
  let s2 := if s1.pos < SET_MIN_POS then { s1 with pos := SET_MIN_POS } else s1
  let s3 := if s2.pos > SET_MAX_POS then { s2 with pos := SET_MAX_POS } else s2
  { s3 with sensorLiveLow := s3.sensorExpectedLow, lastPersistLevelLow := s3.sensorExpectedLow }

/-- The method `loadFromNvs()`. -/
def loadFromNvs (s : ClickCounter) : ClickCounter := (s.loadEnd).loadPos

/-- The method `begin(pinClick, simulate)`; `prefsOk` is the result of
`_prefs.begin(...)`, and attaching the interrupt handler is taken to succeed. -/
def begin (s : ClickCounter) (sim : Bool) (prefsOk : Bool) (now : Nat) (pinLow : Bool) :
    ClickCounter :=
  let s1 := { s with simulate := sim, motion := MotionState.IDLE, lastMotion := MotionState.IDLE,
                     pos := 0, epoch := 0, panicFlag := false, lastPersistPos := 0,
                     lastPersistMs := now, lastPersistLevelLow := false,
                     sensorExpectedLow := false, sensorLiveLow := false,
                     sensorPersisted := false, simSensorLow := false, overshootLogged := false,
                     lastActiveDirection := MotionState.IDLE, tailHoldUntil := 0, edgePhase := 0,
                     edgeCountIsr := 0, lastIsrUs := 0, prefsOpen := prefsOk }
  let s2 :=
    if s1.prefsOpen then
      let a := s1.loadFromNvs
      { a with lastPersistPos := a.pos, lastPersistLevelLow := a.sensorExpectedLow }
    else
      { s1 with endPos := DEFAULT_END, pos := 0, sensorExpectedLow := false,
                sensorPersisted := false, lastPersistLevelLow := false }
  let s3 := { s2 with calibrationActive := false, calibOpenSet := false, calibClosedSet := false,
                      calibEntryPos := s2.pos, calibEntryEnd := s2.endPos, calibOpenRaw := 0,
                      calibClosedRaw := 0 }
  if s3.simulate then
    { s3 with lastSimTickMs := now, sensorLiveLow := s3.sensorExpectedLow,
              simSensorLow := s3.sensorExpectedLow }
  else
    let a :=
      if s3.isrAttached then s3
      else { s3 with isrAttached := true, edgeCountIsr := 0, lastIsrUs := 0 }
    let b := a.refreshLiveLevel pinLow
    if !b.sensorPersisted then
      { b with sensorExpectedLow := b.sensorLiveLow, sensorPersisted := true,
               lastPersistLevelLow := b.sensorLiveLow }
    else b

/-! ### Queries -/

/-- The method `canOpen()`. -/
def canOpen (s : ClickCounter) : Bool := decide (s.pos > 0)

/-- The method `canClose()`. -/
def canClose (s : ClickCounter) : Bool := decide (s.pos < s.endPos)

/-- The method `panic()`. -/
def panicked (s : ClickCounter) : Bool := s.panicFlag

/-- The method `position()`. -/
def position (s : ClickCounter) : Int := s.pos

/-- The method `end()`. -/
def endOf (s : ClickCounter) : Int := s.endPos

/-! ### Runs of edge batches -/

/-- The fields an edge batch works on: direction, edge phase and position. -/
def countView (s : ClickCounter) : MotionState × Nat × Int := (s.motion, s.edgePhase, s.pos)

/-- The fields the limit handling of `update` works on: span and panic flag. -/
def limitsView (s : ClickCounter) : Int × Bool := (s.endPos, s.panicFlag)

/-- Change of position per completed pulse: +1 towards Closing, -1 towards
Opening. -/
def stepOf : MotionState → Int
  | MotionState.CLOSING => 1
  | MotionState.OPENING => -1
  | MotionState.IDLE => 0

/-- Consecutive calls of `processEdgeBatch`, each batch `(edges, now)` with its
own clock reading, with no `setMotion` in between. -/
def processBatches (s : ClickCounter) : List (Nat × Nat) → ClickCounter
  | [] => s
  | b :: rest => processBatches (s.processEdgeBatch b.1 b.2) rest

/-- Total number of edges of a list of batches. -/
def totalEdges (bs : List (Nat × Nat)) : Nat := (bs.map Prod.fst).sum

/-- A tracker in hardware mode at position `p` of span 200, driven in direction
`m`, with `edges` sensor edges waiting to be drained. -/
def trackerAt (p : Int) (m : MotionState) (edges : Nat) : ClickCounter :=
  { (constructed (some 200) (List.replicate 8 none)).begin false true 200 false with
      pos := p, motion := m, lastMotion := m, lastActiveDirection := m, edgeCountIsr := edges }

end ClickCounter

namespace ClickCounter

/-! ### Reference checksum

The checksum as its definition words it, to be compared with `crc32`. -/

/-- One round of the reflected CRC-32 division: the register moves one place
to the right, and the polynomial `0xEDB88320` is added (XOR) when a one was
shifted out. -/
def stdCrcRound (r : Nat) : Nat :=
  if r % 2 = 1 then (r / 2) ^^^ 0xEDB88320 else r / 2

/-- The standard reflected CRC-32 of a byte string: register preset to
`0xFFFFFFFF`, each byte added to the low end of the register and followed by
eight rounds, final XOR with `0xFFFFFFFF`. -/
def stdCrc32 (data : List Nat) : Nat :=
  (data.foldl (fun r b => Nat.iterate stdCrcRound 8 (r ^^^ b)) 0xFFFFFFFF) ^^^ 0xFFFFFFFF

/-- The nine ASCII bytes of the usual check string `123456789`. -/
def checkString : List Nat := [49, 50, 51, 52, 53, 54, 55, 56, 57]

/-! ### Records of the store -/

/-- The record a slot holds, when its content is a record of 16 bytes or of 12
bytes (legacy layout) whose stored checksum is the checksum of its fields;
`none` for a slot that is missing, has another size or fails the checksum. -/
def validRecord : Option (List Nat) → Option BestRec
  | some [e0, e1, e2, e3, p0, p1, p2, p3, lv, _, _, _, c0, c1, c2, c3] =>
    if computeRecCrc (ofLe32 e0 e1 e2 e3) (i32OfBits (ofLe32 p0 p1 p2 p3)) lv
        = ofLe32 c0 c1 c2 c3 then
      some { found := true, bestEpoch := ofLe32 e0 e1 e2 e3,
             bestPos := i32OfBits (ofLe32 p0 p1 p2 p3), bestLevelLow := decide (lv ≠ 0),
             bestHasLevel := true }
    else none
  | some [e0, e1, e2, e3, p0, p1, p2, p3, c0, c1, c2, c3] =>
    if computeRecCrcLegacy (ofLe32 e0 e1 e2 e3) (i32OfBits (ofLe32 p0 p1 p2 p3))
        = ofLe32 c0 c1 c2 c3 then
      some { found := true, bestEpoch := ofLe32 e0 e1 e2 e3,
             bestPos := i32OfBits (ofLe32 p0 p1 p2 p3), bestLevelLow := false,
             bestHasLevel := false }
    else none
  | _ => none

/-- The locals of `loadPos` before its loop. -/
def noRecord : BestRec :=
  { found := false, bestEpoch := 0, bestPos := 0, bestLevelLow := false, bestHasLevel := false }

/-- The loop of `loadPos` over the slots `pos_0 .. pos_7`. -/
def scanSlots (slots : List (Option (List Nat))) : BestRec :=
  (slots.take POS_SLOTS).foldl loadSlot noRecord

/-- A position limited to `[SET_MIN_POS, SET_MAX_POS]`, as `loadPos` leaves it. -/
def limitPos (p : Int) : Int := max SET_MIN_POS (min p SET_MAX_POS)

/-- Bytes of a legacy record `PosRecV0` (12 bytes): little-endian epoch,
little-endian position, and the CRC-32 of those eight bytes. -/
def encodeRecV0 (epoch : Nat) (pos : Int) : List Nat :=
  le32 epoch ++ le32 (i32Bits pos) ++ le32 (stdCrc32 (le32 epoch ++ le32 (i32Bits pos)))

/-- Every valid record among the slots has an epoch of at most `n`. -/
def epochsAtMost (slots : List (Option (List Nat))) (n : Nat) : Bool :=
  (slots.take POS_SLOTS).all fun slot =>
    match validRecord slot with
    | some r => decide (r.bestEpoch ≤ n)
    | none => true

/-- One save: the position is `x.1` and the expected sensor level `x.2.1` when
`persistPos(true)` runs at clock time `x.2.2`. -/
def saveAt (s : ClickCounter) (x : Int × Bool × Nat) : ClickCounter :=
  ({ s with pos := x.1, sensorExpectedLow := x.2.1 }).persistPos true x.2.2

/-- A sequence of saves. -/
def saveRun (s : ClickCounter) (xs : List (Int × Bool × Nat)) : ClickCounter :=
  xs.foldl saveAt s

/-- A store whose only record is position 8192 with epoch 1, next to a span of
8192. -/
def storeAtEnd : List (Option (List Nat)) :=
  [none, some (encodeRecV1 1 8192 0), none, none, none, none, none, none]

/-- The tracker booted in hardware mode from `storeAtEnd`, driven towards
Closing for one pulse (position 8193, one step past the span, which
`update(false)` tolerates), then stopped: the stop saves the position. -/
def savedPastEnd : ClickCounter :=
  ((((((constructed (some 8192) storeAtEnd).begin false true 200 false).setMotion
    MotionState.CLOSING 1000 false).onIsr 5000).onIsr 10000).update false 1010).setMotion
    MotionState.IDLE 1020 false |>.update false 1030

/-- A store holding one legacy record (epoch 7, position 120) in slot 3, a
16-byte record with a wrong checksum in slot 0 and 5 stray bytes in slot 5. -/
def legacyStore : List (Option (List Nat)) :=
  [some (le32 9 ++ le32 50 ++ [1, 0, 0, 0] ++ le32 0), none, none,
   some (encodeRecV0 7 120), none, some [1, 2, 3, 4, 5], none, none]

/-! ### Tail hold -/

/-- The fields the tail hold works on: direction, last active direction, edge
phase, position and the end of the hold window. -/
def tailView (s : ClickCounter) : MotionState × MotionState × Nat × Int × Nat :=
  (s.motion, s.lastActiveDirection, s.edgePhase, s.pos, s.tailHoldUntil)

/-- A tracker at position 100 of 200 that was driven towards Closing and is
stopped (`setMotion(IDLE)`) at clock time 1000. -/
def stoppedAt1000 : ClickCounter :=
  (trackerAt 100 MotionState.CLOSING 0).setMotion MotionState.IDLE 1000 false

/-- One pulse in hardware mode: two sensor edges are captured by the interrupt
handler (at `us` and `us + 5000` microseconds) and `update(false)` runs at
clock time `now`. -/
def pulseAt (s : ClickCounter) (us now : Nat) : ClickCounter :=
  ((s.onIsr us).onIsr (us + 5000)).update false now

/-- The tail hold is running at `now`: the test `diff >= 0` of
`computeEffectiveDirection`. -/
def holdRunning (s : ClickCounter) (now : Nat) : Bool :=
  decide (0 ≤ asLong (subU32 s.tailHoldUntil now))

/-- The clock reading `now` is more than `TAIL_HOLD_MS` and at most `2^31` ms
after the reading `t`. -/
def pastHold (t now : Nat) : Bool :=
  decide (TAIL_HOLD_MS < subU32 now t) && decide (subU32 now t ≤ 2147483648)

/-! ### Calibration runs -/

/-- The fields calibration works on. -/
def calibView (s : ClickCounter) :
    Int × Int × Bool × Bool × Bool × Bool × Int × Int × Int × Int :=
  (s.pos, s.endPos, s.panicFlag, s.calibrationActive, s.calibOpenSet, s.calibClosedSet,
    s.calibEntryPos, s.calibEntryEnd, s.calibOpenRaw, s.calibClosedRaw)

/-- Lines 479-495 of `recomputeSpanFromMarks`: the span is set from the marks,
or from the span at calibration entry. -/
def spanFromMarks (s : ClickCounter) : ClickCounter :=
  if s.spanCandidate ≠ INT32_MIN then { s with endPos := s.normaliseCandidate s.spanCandidate }
  else if s.calibEntryEnd > 0 then { s with endPos := s.calibEntryEnd }
  else s

/-- Lines 497-500 of `recomputeSpanFromMarks`: with the open mark set the
position is clamped to `[0, end]`. -/
def clampAfterOpenMark (s : ClickCounter) : ClickCounter :=
  if s.calibOpenSet then
    let a := if s.pos < 0 then { s with pos := 0 } else s
    if a.pos > a.endPos then { a with pos := a.endPos } else a
  else s

/-- Lines 502-504 of `recomputeSpanFromMarks`: with the closed mark set the
position is kept at or below the span. -/
def clampAfterClosedMark (s : ClickCounter) : ClickCounter :=
  if s.calibClosedSet ∧ s.pos > s.endPos then { s with pos := s.endPos } else s

/-- Calibration entered at position 0 of span 200. -/
def calibAtZero : ClickCounter := (trackerAt 0 MotionState.IDLE 0).beginCalibration

/-- From `calibAtZero` the cover is driven towards Closing for two pulses and
stopped, all in calibration mode (`update(true)`). -/
def calibMovedTwo : ClickCounter :=
  ((((((calibAtZero.setMotion MotionState.CLOSING 1000 false).onIsr 5000).onIsr 10000).onIsr
    15000).onIsr 20000).update true 1010).setMotion MotionState.IDLE 1020 false
    |>.update true 1030

/-- The tracker booted in hardware mode with span 0 at position 0, then driven
towards Closing for one pulse and stopped: position 1, one step past the span,
which `update(false)` tolerates. -/
def onePastZeroSpan : ClickCounter :=
  ((((((constructed (some 0) (List.replicate 8 none)).begin false true 200 false).setMotion
    MotionState.CLOSING 1000 false).onIsr 5000).onIsr 10000).update false 1010).setMotion
    MotionState.IDLE 1020 false |>.update false 1030

end ClickCounter

/-! ### Edges taken in by one update, and movement between two marks -/

namespace ClickCounter

/-- Number of sensor edges `update` hands to `processEdgeBatch`: the local
`pendingEdges` of `simulateTicks` in simulation, the local `edges` of
`drainHardwareEdges` otherwise. -/
def drainedEdges (s : ClickCounter) (now : Nat) : Nat :=
  if s.simulate then
    if s.motion = MotionState.IDLE then 0
    else
      let s1 := if now < s.lastSimTickMs then { s with lastSimTickMs := now } else s
      (simTickLoop (subU32 now s1.lastSimTickMs / 200 + 1) now s1.lastSimTickMs 0).2
  else s.edgeCountIsr

/-- The interrupt handler has counted the `2 * n` edges of `n` pulses and
`update(true)` takes them in at clock time `t`. -/
def pulsesTaken (t : Nat) (s : ClickCounter) (n : Nat) : ClickCounter :=
  ({ s with edgeCountIsr := 2 * n }).update true t

/-- The cover is driven in direction `d` from clock time `t`, pulses arrive and
are taken in by `update(true)` in the batches `ns`, and the cover is stopped at
`t + 20`. -/
def movedInCalibration (s : ClickCounter) (d : MotionState) (ns : List Nat) (t : Nat) :
    ClickCounter :=
  (ns.foldl (pulsesTaken (t + 10)) (s.setMotion d t false)).setMotion MotionState.IDLE (t + 20)
    false

/-- A tracker in hardware mode without a store, at position 0 of the default
span 256, in calibration. -/
def calibFresh : ClickCounter :=
  (((constructed none []).begin false false 200 false)).beginCalibration

/-- A tracker at position 100 of 200 that is put in simulation mode at 500 ms,
driven towards Closing from 600 ms, and put back in hardware mode
(`setSimulation(false)`) at 900 ms while the drive goes on. -/
def modeSwitched : ClickCounter :=
  (((trackerAt 100 MotionState.IDLE 0).setSimulation true 500 false).setMotion
    MotionState.CLOSING 600 false).setSimulation false 900 false

/-- Some batch of the run completes a pulse (its edges, with the edge left over
from before, make a pair) and leaves the position as it is. -/
def pulseIgnored : ClickCounter → List (Nat × Nat) → Prop
  | _, [] => False
  | s, b :: rest =>
    (1 ≤ (s.edgePhase + b.1) / 2 ∧ (s.processEdgeBatch b.1 b.2).position = s.position) ∨
      pulseIgnored (s.processEdgeBatch b.1 b.2) rest

instance decPulseIgnored :
    ∀ (s : ClickCounter) (bs : List (Nat × Nat)), Decidable (pulseIgnored s bs)
  | _, [] => isFalse not_false
  | s, b :: rest =>
    haveI := decPulseIgnored (s.processEdgeBatch b.1 b.2) rest
    inferInstanceAs (Decidable
      ((1 ≤ (s.edgePhase + b.1) / 2 ∧ (s.processEdgeBatch b.1 b.2).position = s.position) ∨
        pulseIgnored (s.processEdgeBatch b.1 b.2) rest))

end ClickCounter

/-! ## The control loop (main.cpp)

One pass of `loop()` is a function of the controller state and of what the
pass reads from outside.  The clock readings of one pass see the value `now`
read at its top, except the readings taken inside `resetSafetyRuntime()`: what
that function stores is subtracted from `now` later on (line 527), so these
readings are inputs of their own. -/

/-- The enum class CommandSource of main.cpp. -/
inductive CommandSource where
  | NONE
  | WALL_SWITCH
  | HOME_ASSISTANT
  deriving DecidableEq, Repr, Inhabited

/-- The reason strings passed to `triggerPanic`. -/
inductive PanicReason where
  | maxRuntimeExceeded
  | noClickAfterEnable
  | clickOutOfRange
  deriving DecidableEq, Repr

/-- Entries of the MQTT command queue read by `processHaCommands`. -/
inductive HaCommand where
  | setOpenHere
  | setClosedHere
  | enterSetMode
  | exitSetMode
  | other
  deriving DecidableEq, Repr

/-- Messages handled by the MQTT callback during `mqtt->update(...)`. -/
inductive MqttMsg where
  | openCover
  | closeCover
  | stop
  | command (c : HaCommand)
  | setMaxRuntime (seconds : Nat)
  deriving DecidableEq, Repr

/-- The file-level state of main.cpp with the modules it owns.  `haDesired` and
`cmdQueue` are the two fields of `MqttModule` the loop reads, `analogCtlState`
is `AnalogController::_state`, `maxRunStored` the preference `max_run_s`.
`panicLog` lists the reasons of the panics raised so far (newest first) and
`restartRequested` records a call of `ESP.restart()`. -/
structure Controller where
  relays : RelaysModule
  clicks : ClickCounter
  haDesired : MotionState
  cmdQueue : List HaCommand
  analogCtlState : MotionState
  lastAnalogRaw : MotionState
  lastAnalogEffective : MotionState
  lastRelay : MotionState
  commandedMotion : MotionState
  setModeActive : Bool
  panicLatched : Bool
  clickSimulationEnabled : Bool
  mqttSetModeStreak : Nat
  loggedOpenLimit : Bool
  loggedCloseLimit : Bool
  analogEdgeArmed : Bool
  configPrefsOpen : Bool
  maxRunStored : Option Nat
  safetyMaxRunSeconds : Nat
  driveActive : Bool
  driveLastUpdateMs : Nat
  driveAccumMs : Nat
  noClickMonitorActive : Bool
  noClickStartMs : Nat
  noClickPosAtEnable : Int
  panicRebootPending : Bool
  panicRebootAtMs : Nat
  manualResetArmed : Bool
  analogLatched : MotionState
  haLatched : MotionState
  commandSeqCounter : Nat
  analogCommandSeq : Nat
  haCommandSeq : Nat
  activeCommandSource : CommandSource
  haClearedLocally : Bool
  lastHaDesired : MotionState
  panicLog : List PanicReason
  restartRequested : Bool
  deriving DecidableEq, Repr

/-- What one pass of `loop()` reads from outside. -/
structure CycleInput where
  /-- Value of `millis()` at the top of the pass. -/
  now : Nat
  /-- Value of `analogCtl->state()` after `analogCtl->update()`. -/
  analogRaw : MotionState
  /-- Whether `digitalRead` of the click pin gives LOW. -/
  pinLow : Bool
  /-- Values of `micros()` at the sensor interrupts before `clicks.setMotion`. -/
  isrBeforeMotion : List Nat
  /-- Values of `micros()` at the sensor interrupts before `clicks.update`. -/
  isrBeforeUpdate : List Nat
  /-- Messages delivered during `mqtt->update`. -/
  mqttIn : List MqttMsg
  /-- Value of `millis()` read inside `resetSafetyRuntime()` when lines 440-483
  call it (lines 442, 458, 472).  A second call of the pass overwrites what the
  first has stored, so the reading of the last call is the one that counts. -/
  resetMillis : Nat
  /-- Value of `millis()` read inside `resetSafetyRuntime()` when the MQTT
  callback calls it during `mqtt->update` (line 218); again the reading of the
  last call of the pass. -/
  mqttMillis : Nat
  deriving Repr

namespace Controller

/-- Constant `DEFAULT_SAFETY_MAX_RUN_SECONDS`. -/
def DEFAULT_SAFETY_MAX_RUN_SECONDS : Nat := 300

/-- Constant `NO_CLICK_PANIC_WINDOW_MS`. -/
def NO_CLICK_PANIC_WINDOW_MS : Nat := 5000

/-- Constant `MQTT_TOGGLE_THRESHOLD`. -/
def MQTT_TOGGLE_THRESHOLD : Nat := 3

/-- The function `resetMqttSetModeStreak()`. -/
def resetMqttSetModeStreak (c : Controller) : Controller := { c with mqttSetModeStreak := 0 }

/-- The function `clearHaDesiredLocal()`. -/
def clearHaDesiredLocal (c : Controller) : Controller :=
  { c with haDesired := MotionState.IDLE, haClearedLocally := true }

/-- The function `resetSafetyRuntime(reason)`; `fresh` is the value `millis()`
returns inside the function (line 163). -/
def resetSafetyRuntime (c : Controller) (fresh : Nat) : Controller :=
  { c with driveAccumMs := 0, driveLastUpdateMs := if c.driveActive then fresh else 0 }

/-- The function `schedulePanicReboot(now)`. -/
def schedulePanicReboot (c : Controller) (now : Nat) : Controller :=
  { c with panicRebootPending := true, panicRebootAtMs := addU32 now 500 }

/-- The function `triggerPanic(reason, requestReboot)`. -/
def triggerPanic (c : Controller) (reason : PanicReason) (requestReboot : Bool) (now : Nat) :
    Controller :=
  if c.panicLatched then c
  else
    let c1 := { c with panicLatched := true, panicLog := reason :: c.panicLog }
    let c2 := { c1 with relays := c1.relays.emergencyPanicOff }
    let c3 := (c2.clearHaDesiredLocal).resetMqttSetModeStreak
    let seq := (c3.commandSeqCounter + 1) % U32
    let c4 := { c3 with analogLatched := MotionState.IDLE, commandSeqCounter := seq,
                        analogCommandSeq := seq, driveActive := false, driveAccumMs := 0,
                        driveLastUpdateMs := 0, noClickMonitorActive := false }
    if requestReboot then c4.schedulePanicReboot now else c4

/-- The function `persistSafetyMaxRunSeconds(seconds)`. -/
def persistSafetyMaxRunSeconds (c : Controller) (seconds : Nat) : Controller :=
  if !c.configPrefsOpen then c else { c with maxRunStored := some seconds }

/-- The function `onMqttSetMaxRuntime(seconds)`; `fresh` is the clock reading
of its call of `resetSafetyRuntime`. -/
def onMqttSetMaxRuntime (c : Controller) (seconds : Nat) (fresh : Nat) : Controller :=
  let clamped := if seconds < 30 then 30 else if seconds > 1800 then 1800 else seconds
  if clamped = c.safetyMaxRunSeconds then c
  else
    let c1 := { c with safetyMaxRunSeconds := clamped }
    (c1.persistSafetyMaxRunSeconds c1.safetyMaxRunSeconds).resetSafetyRuntime fresh

/-- The function `applySimulationMode(enable, origin)`. -/
def applySimulationMode (c : Controller) (enable : Bool) (now : Nat) (pinLow : Bool) :
    Controller :=
  if c.clickSimulationEnabled = enable then c
  else { c with clicks := c.clicks.setSimulation enable now pinLow,
                clickSimulationEnabled := enable }

/-- The function `toggleSimulationMode(origin)`. -/
def toggleSimulationMode (c : Controller) (now : Nat) (pinLow : Bool) : Controller :=
  (c.applySimulationMode (!c.clickSimulationEnabled) now pinLow).resetMqttSetModeStreak

/-- The function `enterSetMode(origin)`. -/
def enterSetMode (c : Controller) (now : Nat) : Controller :=
  if c.setModeActive then c
  else
    let c1 := { c with setModeActive := true }
    let c2 := { c1 with relays := (c1.relays.request MotionState.IDLE now).update now }
    let c3 := { c2 with clicks := ((c2.clicks.clearPanic).beginCalibration).forcePersist now }
    let c4 := c3.clearHaDesiredLocal
    let seq := (c4.commandSeqCounter + 1) % U32
    { c4 with panicLatched := false, analogEdgeArmed := false,
              lastAnalogEffective := MotionState.IDLE, lastAnalogRaw := c4.analogCtlState,
              analogLatched := MotionState.IDLE, commandSeqCounter := seq,
              analogCommandSeq := seq }

/-- The function `exitSetMode(origin)`. -/
def exitSetMode (c : Controller) (now : Nat) : Controller :=
  if !c.setModeActive then c
  else
    let c1 := { c with setModeActive := false }
    let c2 := { c1 with relays := (c1.relays.request MotionState.IDLE now).update now }
    let c3 := { c2 with clicks := c2.clicks.finalizeCalibration now }
    let c4 := c3.clearHaDesiredLocal
    let seq := (c4.commandSeqCounter + 1) % U32
    { c4 with lastAnalogRaw := c4.analogCtlState,
              analogEdgeArmed := decide (c4.analogCtlState = MotionState.IDLE),
              analogLatched := MotionState.IDLE, commandSeqCounter := seq,
              analogCommandSeq := seq }

/-- Body of the `while` loop of `processHaCommands` for one popped command. -/
def handleHaCommand (c : Controller) (cmd : HaCommand) (now : Nat) (pinLow : Bool) :
    Controller :=
  match cmd with
  | HaCommand.setOpenHere =>
    let c1 := c.resetMqttSetModeStreak
    { c1 with clicks := c1.clicks.setOpenHere now }
  | HaCommand.setClosedHere =>
    let c1 := c.resetMqttSetModeStreak
    { c1 with clicks := c1.clicks.setClosedHere now }
  | HaCommand.enterSetMode =>
    let c1 :=
      if c.mqttSetModeStreak < 255 then
        let a := { c with mqttSetModeStreak := c.mqttSetModeStreak + 1 }
        if a.mqttSetModeStreak ≥ MQTT_TOGGLE_THRESHOLD then a.toggleSimulationMode now pinLow
        else a
      else c
    c1.enterSetMode now
  | HaCommand.exitSetMode => (c.resetMqttSetModeStreak).exitSetMode now
  | HaCommand.other => c.resetMqttSetModeStreak

/-- The function `processHaCommands()`: the queue is emptied in order. -/
def processHaCommands (c : Controller) (now : Nat) (pinLow : Bool) : Controller :=
  (c.cmdQueue.foldl (fun a cmd => a.handleHaCommand cmd now pinLow) { c with cmdQueue := [] })

/-- Lines 367-405 of `loop()`: the wall switch and its edge arming. -/
def analogStep (c : Controller) (raw : MotionState) : Controller :=
  let c0 := { c with analogCtlState := raw }
  let c1 := if c0.setModeActive then { c0 with analogEdgeArmed := false } else c0
  if raw ≠ c1.lastAnalogRaw then
    let c2 := { c1 with lastAnalogRaw := raw }
    let armed := c2.analogEdgeArmed
    let c3 :=
      if raw = MotionState.IDLE then { c2 with analogEdgeArmed := true }
      else if armed then { c2 with analogEdgeArmed := false }
      else c2
    let newEffective :=
      if raw = MotionState.IDLE then MotionState.IDLE
      else if armed then raw
      else MotionState.IDLE
    if newEffective ≠ c3.lastAnalogEffective then
      let c4 := if newEffective ≠ MotionState.IDLE then c3.clearHaDesiredLocal else c3
      let c5 := c4.resetMqttSetModeStreak
      let seq := (c5.commandSeqCounter + 1) % U32
      { c5 with lastAnalogEffective := newEffective, analogLatched := newEffective,
                commandSeqCounter := seq, analogCommandSeq := seq }
    else c3
  else c1

/-- Lines 409-419 of `loop()`: a change of the automation's desired direction. -/
def haStep (c : Controller) : Controller :=
  let haDesired := c.haDesired
  if haDesired ≠ c.lastHaDesired then
    let c1 := { c with lastHaDesired := haDesired, haLatched := haDesired }
    if c1.haClearedLocally ∧ haDesired = MotionState.IDLE then
      { c1 with haClearedLocally := false }
    else
      let seq := (c1.commandSeqCounter + 1) % U32
      { c1 with haClearedLocally := false, commandSeqCounter := seq, haCommandSeq := seq }
  else c

/-- Lines 421-436 of `loop()`: the locals `selectedSource` and `target`. -/
def selectCommand (c : Controller) : CommandSource × MotionState :=
  let target0 := if c.panicLatched then MotionState.IDLE else c.commandedMotion
  if !c.panicLatched then
    let a : Nat × MotionState × CommandSource :=
      if c.analogCommandSeq > 0 then (c.analogCommandSeq, c.analogLatched, CommandSource.WALL_SWITCH)
      else (0, target0, CommandSource.NONE)
    let b : Nat × MotionState × CommandSource :=
      if c.haCommandSeq > a.1 then (c.haCommandSeq, c.haLatched, CommandSource.HOME_ASSISTANT)
      else a
    (b.2.2, b.2.1)
  else (CommandSource.NONE, target0)

/-- Lines 440-447 of `loop()`: a manual interaction restarts the runtime guard;
`fresh` is the clock reading of `resetSafetyRuntime`. -/
def manualStep (c : Controller) (selectedSource : CommandSource) (fresh : Nat) : Controller :=
  if selectedSource = CommandSource.WALL_SWITCH then
    let c1 := if !c.manualResetArmed ∧ c.driveActive then c.resetSafetyRuntime fresh else c
    { c1 with manualResetArmed := true }
  else { c with manualResetArmed := false }

/-- Lines 453-465 of `loop()`: the open limit; `fresh` is the clock reading of
`resetSafetyRuntime`. -/
def openLimitStep (c : Controller) (selectedSource : CommandSource) (target : MotionState)
    (fresh : Nat) : Controller × MotionState :=
  let canOpen := c.clicks.canOpen
  if target = MotionState.OPENING ∧ !canOpen then
    let c1 := { c with loggedOpenLimit := true }
    let c2 := c1.resetSafetyRuntime fresh
    let c3 := if selectedSource = CommandSource.HOME_ASSISTANT then c2.clearHaDesiredLocal else c2
    (c3, MotionState.IDLE)
  else if canOpen ∧ c.loggedOpenLimit then ({ c with loggedOpenLimit := false }, target)
  else (c, target)

/-- Lines 467-479 of `loop()`: the close limit; `fresh` is the clock reading of
`resetSafetyRuntime`. -/
def closeLimitStep (c : Controller) (selectedSource : CommandSource) (target : MotionState)
    (fresh : Nat) : Controller × MotionState :=
  let canClose := c.clicks.canClose
  if target = MotionState.CLOSING ∧ !canClose then
    let c1 := { c with loggedCloseLimit := true }
    let c2 := c1.resetSafetyRuntime fresh
    let c3 := if selectedSource = CommandSource.HOME_ASSISTANT then c2.clearHaDesiredLocal else c2
    (c3, MotionState.IDLE)
  else if canClose ∧ c.loggedCloseLimit then ({ c with loggedCloseLimit := false }, target)
  else (c, target)

/-- Lines 449-483 of `loop()`: the travel-limit veto; `fresh` is the clock
reading of `resetSafetyRuntime`. -/
def limitStep (c : Controller) (selectedSource : CommandSource) (target : MotionState)
    (fresh : Nat) : Controller × MotionState :=
  if !c.setModeActive then
    let r := c.openLimitStep selectedSource target fresh
    r.1.closeLimitStep selectedSource r.2 fresh
  else ({ c with loggedOpenLimit := false, loggedCloseLimit := false }, target)

/-- Lines 485-496 of `loop()`: a wall-switch command is used up at once. -/
def consumeStep (c : Controller) (selectedSource : CommandSource) : Controller :=
  if selectedSource = CommandSource.WALL_SWITCH then
    let c1 :=
      if c.lastAnalogEffective ≠ MotionState.IDLE then { c with analogEdgeArmed := false } else c
    { c1 with analogLatched := MotionState.IDLE, analogCommandSeq := 0,
              haLatched := MotionState.IDLE, haCommandSeq := 0,
              lastHaDesired := MotionState.IDLE }
  else c

/-- Lines 421-510 of `loop()`: from the latched commands to `commandedMotion`.
The clock is read in these lines by `resetSafetyRuntime` only: `fresh` is that
reading. -/
def arbitrate (c : Controller) (fresh : Nat) : Controller :=
  let sel := c.selectCommand
  let c1 := c.manualStep sel.1 fresh
  let r := c1.limitStep sel.1 sel.2 fresh
  let c2 := r.1.consumeStep sel.1
  { c2 with activeCommandSource := sel.1, commandedMotion := r.2 }

/-- Lines 513-514 of `loop()`: the direction is passed to the driver. -/
def driveRelays (c : Controller) (now : Nat) : Controller :=
  { c with relays := (c.relays.request c.commandedMotion now).update now }

/-- Lines 517-539 of `loop()`: the two safety guards follow the realized
direction `_cur` of the driver. -/
def guardCount (c : Controller) (now : Nat) : Controller :=
  if c.relays.current ≠ MotionState.IDLE then
    if !c.driveActive ∨ c.lastRelay = MotionState.IDLE then
      { c with driveActive := true, driveAccumMs := 0, driveLastUpdateMs := now,
               noClickMonitorActive := true, noClickStartMs := now,
               noClickPosAtEnable := c.clicks.position }
    else
      let a :=
        if c.driveLastUpdateMs ≠ 0 then
          { c with driveAccumMs := addU32 c.driveAccumMs (subU32 now c.driveLastUpdateMs) }
        else c
      { a with driveLastUpdateMs := now }
  else
    let a :=
      if c.driveActive then
        { c with driveActive := false, driveAccumMs := 0, driveLastUpdateMs := 0 }
      else c
    { a with noClickMonitorActive := false }

/-- Lines 540-543 of `loop()`: the realized direction is remembered. -/
def noteRelay (c : Controller) : Controller :=
  if c.relays.current ≠ c.lastRelay then { c with lastRelay := c.relays.current } else c

/-- Lines 517-543 of `loop()`: bookkeeping of the two safety guards. -/
def guardBookkeeping (c : Controller) (now : Nat) : Controller :=
  (c.guardCount now).noteRelay

/-- Lines 545-550 of `loop()`: the maximum-runtime guard. -/
def maxRuntimeCheck (c : Controller) (now : Nat) : Controller :=
  if c.driveActive ∧ c.safetyMaxRunSeconds > 0 then
    if c.driveAccumMs ≥ c.safetyMaxRunSeconds * 1000 then
      c.triggerPanic PanicReason.maxRuntimeExceeded true now
    else c
  else c

/-- Lines 559-567 of `loop()`: the no-movement guard. -/
def noClickCheck (c : Controller) (now : Nat) : Controller :=
  if c.noClickMonitorActive then
    if c.clicks.position ≠ c.noClickPosAtEnable then { c with noClickMonitorActive := false }
    else if asLong (subU32 now c.noClickStartMs) ≥ (NO_CLICK_PANIC_WINDOW_MS : Int) then
      { c.triggerPanic PanicReason.noClickAfterEnable true now with
          noClickMonitorActive := false }
    else c
  else c

/-- Lines 569-571 of `loop()`: the tracker's out-of-range panic. -/
def rangePanicCheck (c : Controller) (now : Nat) : Controller :=
  if !c.setModeActive ∧ c.clicks.panicked ∧ !c.panicLatched then
    c.triggerPanic PanicReason.clickOutOfRange false now
  else c

/-- The MQTT callback for one message; `fresh` is the clock reading of
`resetSafetyRuntime`, the only reading in the callback. -/
def mqttReceive (c : Controller) (m : MqttMsg) (fresh : Nat) : Controller :=
  match m with
  | MqttMsg.openCover => { c with haDesired := MotionState.OPENING }
  | MqttMsg.closeCover => { c with haDesired := MotionState.CLOSING }
  | MqttMsg.stop => { c with haDesired := MotionState.IDLE }
  | MqttMsg.command cmd => { c with cmdQueue := c.cmdQueue ++ [cmd] }
  | MqttMsg.setMaxRuntime seconds =>
    if seconds % U32 > 0 then c.onMqttSetMaxRuntime (seconds % U32) fresh else c

/-- Lines 627-635 of `loop()`: the delayed restart after a panic. -/
def rebootCheck (c : Controller) (now : Nat) : Controller :=
  if c.panicRebootPending then
    if asLong (subU32 now c.panicRebootAtMs) ≥ 0 then
      { c with panicRebootPending := false, restartRequested := true }
    else c
  else c

/-- Sensor interrupts reach the tracker while its handler is attached. -/
def deliverIsr (c : Controller) (stamps : List Nat) : Controller :=
  if c.clicks.isrAttached then { c with clicks := stamps.foldl ClickCounter.onIsr c.clicks }
  else c

/-- Lines 367-419 of `loop()`: the inputs of the pass are taken in. -/
def preArbitration (c : Controller) (i : CycleInput) : Controller :=
  ((c.analogStep i.analogRaw).processHaCommands i.now i.pinLow).haStep

/-- Lines 367-514 of `loop()`: the pass up to and including the driver update. -/
def commandPhase (c : Controller) (i : CycleInput) : Controller :=
  ((c.preArbitration i).arbitrate i.resetMillis).driveRelays i.now

/-- Lines 517-550 of `loop()`: guard bookkeeping and the maximum-runtime check. -/
def guardStep (c : Controller) (now : Nat) : Controller :=
  (c.guardBookkeeping now).maxRuntimeCheck now

/-- Lines 552-557 of `loop()`: the tracker is told the realized direction
`relayState` and updated. -/
def trackerPhase (c : Controller) (i : CycleInput) (relayState : MotionState) : Controller :=
  let c2 := c.deliverIsr i.isrBeforeMotion
  let c3 := { c2 with clicks := c2.clicks.setMotion relayState i.now i.pinLow }
  let c4 := c3.deliverIsr i.isrBeforeUpdate
  { c4 with clicks := c4.clicks.update c4.setModeActive i.now }

/-- Lines 515-571 of `loop()`: guards, tracker update and panic checks.  The
realized direction `relayState` is read once, right after the driver update. -/
def safetyPhase (c : Controller) (i : CycleInput) : Controller :=
  ((((c.guardStep i.now).trackerPhase i c.relays.current).noClickCheck i.now).rangePanicCheck
    i.now)

/-- The state of a pass when it reaches the no-movement check (line 559). -/
def beforeNoClick (c : Controller) (i : CycleInput) : Controller :=
  ((c.commandPhase i).guardStep i.now).trackerPhase i (c.commandPhase i).relays.current

/-- One pass of `loop()`. -/
def loop (c : Controller) (i : CycleInput) : Controller :=
  let c1 := (c.commandPhase i).safetyPhase i
  let c2 := i.mqttIn.foldl (fun a m => a.mqttReceive m i.mqttMillis) c1
  c2.rebootCheck i.now

/-- What `setup()` reads from outside. -/
structure BootInput where
  /-- Value of `millis()` during `setup()`. -/
  now : Nat
  /-- Value of `analogCtl->state()` right after `analogCtl->begin()`. -/
  analogAtBoot : MotionState
  /-- Result of `configPrefs.begin(...)`. -/
  configPrefsOk : Bool
  /-- The stored preference `max_run_s`, if any. -/
  maxRunStored : Option Nat
  /-- Result of the tracker's `_prefs.begin(...)`. -/
  clickPrefsOk : Bool
  /-- The tracker's stored `end`, if any. -/
  nvsEnd : Option Int
  /-- The tracker's record slots. -/
  nvsSlots : List (Option (List Nat))
  /-- Whether `digitalRead` of the click pin gives LOW. -/
  pinLow : Bool
  deriving Repr

/-- The function `loadSafetyConfig()`: the limit and the stored preference. -/
def loadSafetyConfig (configPrefsOk : Bool) (maxRunStored : Option Nat) : Nat × Option Nat :=
  if !configPrefsOk then (DEFAULT_SAFETY_MAX_RUN_SECONDS, maxRunStored)
  else
    let stored := maxRunStored.getD 0
    if stored = 0 then (DEFAULT_SAFETY_MAX_RUN_SECONDS, some DEFAULT_SAFETY_MAX_RUN_SECONDS)
    else (stored, maxRunStored)

/-- The controller after `setup()`. -/
def setup (b : BootInput) : Controller :=
  let cfg := loadSafetyConfig b.configPrefsOk b.maxRunStored
  let relays := ((RelaysModule.begin true 1000 2000).request MotionState.IDLE b.now).update b.now
  { relays := relays,
    clicks := (ClickCounter.constructed b.nvsEnd b.nvsSlots).begin false b.clickPrefsOk b.now
      b.pinLow,
    haDesired := MotionState.IDLE, cmdQueue := [], analogCtlState := b.analogAtBoot,
    lastAnalogRaw := b.analogAtBoot, lastAnalogEffective := MotionState.IDLE,
    lastRelay := MotionState.IDLE, commandedMotion := MotionState.IDLE,
    setModeActive := false, panicLatched := false, clickSimulationEnabled := false,
    mqttSetModeStreak := 0, loggedOpenLimit := false, loggedCloseLimit := false,
    analogEdgeArmed := decide (b.analogAtBoot = MotionState.IDLE),
    configPrefsOpen := b.configPrefsOk, maxRunStored := cfg.2, safetyMaxRunSeconds := cfg.1,
    driveActive := false, driveLastUpdateMs := 0, driveAccumMs := 0,
    noClickMonitorActive := false, noClickStartMs := 0, noClickPosAtEnable := 0,
    panicRebootPending := false, panicRebootAtMs := 0, manualResetArmed := false,
    analogLatched := MotionState.IDLE, haLatched := MotionState.IDLE, commandSeqCounter := 0,
    analogCommandSeq := 0, haCommandSeq := 0, activeCommandSource := CommandSource.NONE,
    haClearedLocally := false, lastHaDesired := MotionState.IDLE, panicLog := [],
    restartRequested := false }

/-- A boot with the wall switch in Neutral, an empty record store and a stored
span of 200. -/
def bootNeutral : BootInput :=
  { now := 200, analogAtBoot := MotionState.IDLE, configPrefsOk := true, maxRunStored := none,
    clickPrefsOk := true, nvsEnd := some 200, nvsSlots := List.replicate 8 none,
    pinLow := false }

/-- A pass in which nothing arrives: switch in Neutral, no interrupt, no
message; the clock does not advance during the pass. -/
def quietInput (now : Nat) : CycleInput :=
  { now := now, analogRaw := MotionState.IDLE, pinLow := false, isrBeforeMotion := [],
    isrBeforeUpdate := [], mqttIn := [], resetMillis := now, mqttMillis := now }

/-- The controller booted by `bootNeutral` with the cover at position `p`. -/
def coverAt (p : Int) : Controller :=
  let c := setup bootNeutral
  { c with clicks := { c.clicks with pos := p } }

/-- The controller `coverAt p` once the automation has asked for Closing. -/
def closingAskedAt (p : Int) : Controller :=
  { coverAt p with haDesired := MotionState.CLOSING }

/-- A pass whose switch is put on Closing while the automation asks for Opening. -/
def pushyInput (now : Nat) : CycleInput :=
  { now := now, analogRaw := MotionState.CLOSING, pinLow := false, isrBeforeMotion := [],
    isrBeforeUpdate := [], mqttIn := [MqttMsg.openCover], resetMillis := now,
    mqttMillis := now }

/-- The state of the maximum-runtime guard: `driveActive`, `driveAccumMs`,
`driveLastUpdateMs`, `lastRelay` and the configured limit. -/
def driveFields (c : Controller) : Bool × Nat × Nat × MotionState × Nat :=
  (c.driveActive, c.driveAccumMs, c.driveLastUpdateMs, c.lastRelay, c.safetyMaxRunSeconds)

/-- A pass whose realized direction is not Idle and whose command part does not
write the state of the maximum-runtime guard. -/
def DrivenPass (c : Controller) (i : CycleInput) : Prop :=
  (c.commandPhase i).relays.current ≠ MotionState.IDLE ∧
    driveFields (c.commandPhase i) = driveFields c

instance decDrivenPass (c : Controller) (i : CycleInput) : Decidable (DrivenPass c i) := by
  unfold DrivenPass; infer_instance

/-- Passes in a row, every one driven, in which the state of the
maximum-runtime guard is written by the guard step only. -/
def DrivenRun : Controller → List CycleInput → Prop
  | _, [] => True
  | c, i :: is =>
    DrivenPass c i ∧
      driveFields (c.loop i) = driveFields ((c.commandPhase i).guardStep i.now) ∧
      DrivenRun (c.loop i) is

instance decDrivenRun : ∀ (c : Controller) (is : List CycleInput), Decidable (DrivenRun c is)
  | _, [] => isTrue trivial
  | c, i :: is =>
    haveI := decDrivenRun (c.loop i) is
    inferInstanceAs (Decidable (DrivenPass c i ∧
      driveFields (c.loop i) = driveFields ((c.commandPhase i).guardStep i.now) ∧
      DrivenRun (c.loop i) is))

/-- The clock readings of the passes never go back, starting from `t`. -/
def clockFrom : Nat → List CycleInput → Prop
  | _, [] => True
  | t, i :: is => t ≤ i.now ∧ clockFrom i.now is

instance decClockFrom : ∀ (t : Nat) (is : List CycleInput), Decidable (clockFrom t is)
  | _, [] => isTrue trivial
  | t, i :: is =>
    haveI := decClockFrom i.now is
    inferInstanceAs (Decidable (t ≤ i.now ∧ clockFrom i.now is))

/-- The 32-bit clock has not come round since the reading `t0`: for every pass,
the time from `t0` to the reading before it (`t` for the first pass) plus the
time from there to its own reading stays below `2^32` ms.  The differences are
those of the 32-bit clock, so the readings themselves may wrap. -/
def lapFrom (t0 : Nat) : Nat → List CycleInput → Prop
  | _, [] => True
  | t, i :: is => subU32 t t0 + subU32 i.now t < U32 ∧ lapFrom t0 i.now is

instance decLapFrom (t0 : Nat) : ∀ (t : Nat) (is : List CycleInput), Decidable (lapFrom t0 t is)
  | _, [] => isTrue trivial
  | t, i :: is =>
    haveI := decLapFrom t0 i.now is
    inferInstanceAs (Decidable (subU32 t t0 + subU32 i.now t < U32 ∧ lapFrom t0 i.now is))

/-- What the state of the maximum-runtime guard looks like after the pass at
time `t` of a driven stretch that began in the pass at time `t0`, under the
limit of `M` seconds: the accumulated time is the 32-bit difference `t - t0`. -/
def RunningSince (t0 M t : Nat) (f : Bool × Nat × Nat × MotionState × Nat) : Prop :=
  f.1 = true ∧ f.2.1 = subU32 t t0 ∧ f.2.2.1 = t ∧ f.2.2.2.1 ≠ MotionState.IDLE ∧ f.2.2.2.2 = M

/-- The state the no-movement guard depends on: its three fields, `driveActive`
and `lastRelay`. -/
def stallView (c : Controller) : Bool × Nat × Int × Bool × MotionState :=
  (c.noClickMonitorActive, c.noClickStartMs, c.noClickPosAtEnable, c.driveActive, c.lastRelay)

/-- A pass in which the realized direction is not Idle after the driver update
and still not Idle at the no-movement check, where the position read is `p0`. -/
def StalledPass (p0 : Int) (c : Controller) (i : CycleInput) : Prop :=
  (c.commandPhase i).relays.current ≠ MotionState.IDLE ∧
    (c.beforeNoClick i).relays.current ≠ MotionState.IDLE ∧
    (c.beforeNoClick i).clicks.position = p0

instance decStalledPass (p0 : Int) (c : Controller) (i : CycleInput) :
    Decidable (StalledPass p0 c i) := by
  unfold StalledPass; infer_instance

/-- Passes in a row, every one stalled at position `p0`, the realized direction
still not Idle when the pass ends. -/
def StalledRun (p0 : Int) : Controller → List CycleInput → Prop
  | _, [] => True
  | c, i :: is =>
    StalledPass p0 c i ∧ (c.loop i).relays.current ≠ MotionState.IDLE ∧
      StalledRun p0 (c.loop i) is

instance decStalledRun (p0 : Int) :
    ∀ (c : Controller) (is : List CycleInput), Decidable (StalledRun p0 c is)
  | _, [] => isTrue trivial
  | c, i :: is =>
    haveI := decStalledRun p0 (c.loop i) is
    inferInstanceAs (Decidable (StalledPass p0 c i ∧
      (c.loop i).relays.current ≠ MotionState.IDLE ∧ StalledRun p0 (c.loop i) is))

/-- What `stallView` looks like while the no-movement guard, armed in the pass
at time `t0` with position `p0`, is still armed. -/
def StalledSince (t0 : Nat) (p0 : Int) (v : Bool × Nat × Int × Bool × MotionState) : Prop :=
  v.1 = true ∧ v.2.1 = t0 ∧ v.2.2.1 = p0 ∧ v.2.2.2.1 = true ∧ v.2.2.2.2 ≠ MotionState.IDLE

/-- What the command part of a pass never writes: the state of the no-movement
guard, `driveActive`, `lastRelay`, the panic log and the configured limit. -/
def quietView (c : Controller) :
    Bool × Nat × Int × Bool × MotionState × List PanicReason × Nat :=
  (c.noClickMonitorActive, c.noClickStartMs, c.noClickPosAtEnable, c.driveActive, c.lastRelay,
    c.panicLog, c.safetyMaxRunSeconds)

/-- Several passes of `loop()` in a row. -/
def loops (c : Controller) (is : List CycleInput) : Controller := is.foldl loop c

/-- The controller booted with a stored limit of 2 s, the cover at position
100 of 200, once the automation has asked for Closing. -/
def shortLimitClosing : Controller :=
  let c := setup { bootNeutral with maxRunStored := some 2 }
  { c with clicks := { c.clicks with pos := 100 }, haDesired := MotionState.CLOSING }

/-- The controller `shortLimitClosing` after the passes at 1000 ms (power on)
and 3000 ms (direction relay set): the next pass closes the enable relay. -/
def shortLimitArmed : Controller :=
  loops shortLimitClosing [quietInput 1000, quietInput 3000]

/-- Two driven stretches of 1500 ms each under a limit of 2 s: Closing runs from
3200 ms, is stopped by the automation (message in the pass at 4700 ms, Idle
realized at 4800 ms), asked again, runs again from 5100 ms, up to 6600 ms. -/
def twoStretches : List CycleInput :=
  [ quietInput 3200, { quietInput 4700 with mqttIn := [MqttMsg.stop] },
    { quietInput 4800 with mqttIn := [MqttMsg.closeCover] },
    quietInput 4900, quietInput 5100, quietInput 6600 ]

/-- The controller `closingAskedAt 100` (limit 300 s) after the passes at
1000 ms (power on) and 3000 ms (direction relay set). -/
def closingArmed : Controller :=
  loops (closingAskedAt 100) [quietInput 1000, quietInput 3000]

end Controller

/-! ## Command authority (main.cpp, lines 367-436 and 485-496) -/

namespace Controller

/-- Lines 369-374 of `loop()`: the switch is read and, in calibration mode, the
edge logic disarmed. -/
def analogRead (c : Controller) (raw : MotionState) : Controller :=
  let c0 := { c with analogCtlState := raw }
  if c0.setModeActive then { c0 with analogEdgeArmed := false } else c0

/-- Lines 390-399 of `loop()`: a changed effective switch state is latched as a
wall-switch command. -/
def analogLatch (c : Controller) (newEffective : MotionState) : Controller :=
  if newEffective ≠ c.lastAnalogEffective then
    let c4 := if newEffective ≠ MotionState.IDLE then c.clearHaDesiredLocal else c
    let c5 := c4.resetMqttSetModeStreak
    let seq := (c5.commandSeqCounter + 1) % U32
    { c5 with lastAnalogEffective := newEffective, analogLatched := newEffective,
              commandSeqCounter := seq, analogCommandSeq := seq }
  else c

/-- Lines 376-400 of `loop()`: the edge logic on a changed switch reading. -/
def analogEdge (c1 : Controller) (raw : MotionState) : Controller :=
  if raw ≠ c1.lastAnalogRaw then
    let c2 := { c1 with lastAnalogRaw := raw }
    let armed := c2.analogEdgeArmed
    let c3 :=
      if raw = MotionState.IDLE then { c2 with analogEdgeArmed := true }
      else if armed then { c2 with analogEdgeArmed := false }
      else c2
    let newEffective :=
      if raw = MotionState.IDLE then MotionState.IDLE
      else if armed then raw
      else MotionState.IDLE
    c3.analogLatch newEffective
  else c1

/-- What the part of a pass after line 496 never writes: the state of the
wall-switch edge logic, the automation's latch and sequence number, the
commanded direction, the calibration flag and the selected source. -/
def standingView (c : Controller) :
    Bool × MotionState × MotionState × MotionState × MotionState × Nat × MotionState ×
      MotionState × Bool × CommandSource :=
  (c.analogEdgeArmed, c.analogCtlState, c.lastAnalogRaw, c.lastAnalogEffective, c.haLatched,
    c.haCommandSeq, c.lastHaDesired, c.commandedMotion, c.setModeActive, c.activeCommandSource)

/-- The panic latch and the command queue, followed by the latch fields that
`triggerPanic` writes: the wall-switch latch and its sequence number, the
sequence counter, the automation's desired direction and `haClearedLocally`. -/
def panicView (c : Controller) :
    Bool × List HaCommand × MotionState × Nat × Nat × MotionState × Bool :=
  (c.panicLatched, c.cmdQueue, c.analogLatched, c.analogCommandSeq, c.commandSeqCounter,
    c.haDesired, c.haClearedLocally)

/-- What a first `triggerPanic` does to the fields of `panicView`. -/
def panicked (v : Bool × List HaCommand × MotionState × Nat × Nat × MotionState × Bool) :
    Bool × List HaCommand × MotionState × Nat × Nat × MotionState × Bool :=
  (true, v.2.1, MotionState.IDLE, (v.2.2.2.2.1 + 1) % U32, (v.2.2.2.2.1 + 1) % U32,
    MotionState.IDLE, true)

/-- What the limit veto (lines 440-483) never writes: the state of the edge
logic, both latches and sequence numbers, the calibration flag, the panic latch
and the command queue. -/
def latchView (c : Controller) :
    Bool × MotionState × MotionState × MotionState × MotionState × Nat × MotionState × Nat ×
      Nat × MotionState × Bool × Bool × List HaCommand :=
  (c.analogEdgeArmed, c.analogCtlState, c.lastAnalogRaw, c.lastAnalogEffective, c.analogLatched,
    c.analogCommandSeq, c.haLatched, c.haCommandSeq, c.commandSeqCounter, c.lastHaDesired,
    c.setModeActive, c.panicLatched, c.cmdQueue)

/-- The sequence counter with the two sequence numbers. -/
def seqView (c : Controller) : Nat × Nat × Nat :=
  (c.commandSeqCounter, c.analogCommandSeq, c.haCommandSeq)

/-- What the simulation toggle and the marks of `processHaCommands` never
write: the sequence bookkeeping, the queue, the automation's latch and desired
direction, the switch reading and the arming flag. -/
def inputView (c : Controller) :
    Nat × Nat × Nat × List HaCommand × MotionState × MotionState × MotionState × MotionState ×
      Bool :=
  (c.commandSeqCounter, c.analogCommandSeq, c.haCommandSeq, c.cmdQueue, c.lastHaDesired,
    c.haLatched, c.haDesired, c.analogCtlState, c.analogEdgeArmed)

/-- One step of the sequence bookkeeping: nothing, a number issued to the wall
switch, a number issued to the automation, or both numbers reset to 0. -/
def Issued (v w : Nat × Nat × Nat) : Prop :=
  w = v ∨ w = ((v.1 + 1) % U32, (v.1 + 1) % U32, v.2.2) ∨
    w = ((v.1 + 1) % U32, v.2.1, (v.1 + 1) % U32) ∨ w = (v.1, 0, 0)

/-- The automation's latch is left alone, and its desired direction is left
alone or cleared. -/
def HaKept (c d : Controller) : Prop :=
  d.lastHaDesired = c.lastHaDesired ∧ d.haCommandSeq = c.haCommandSeq ∧
    d.haLatched = c.haLatched ∧ (d.haDesired = c.haDesired ∨ d.haDesired = MotionState.IDLE)

/-- The sequence numbers are in step: none is above the counter, and the two
are different unless both are 0. -/
def SeqFresh (v : Nat × Nat × Nat) : Prop :=
  v.2.1 ≤ v.1 ∧ v.2.2 ≤ v.1 ∧ (v.2.1 = v.2.2 → v.2.1 = 0)

instance decSeqFresh (v : Nat × Nat × Nat) : Decidable (SeqFresh v) := by
  unfold SeqFresh; infer_instance

/-- An upper bound on the sequence numbers issued in the passes `is`: per pass
one for the wall switch, one for the automation, one for a panic, and one for
each command queued by a message of the pass. -/
def seqBudget (is : List CycleInput) : Nat := (is.map (fun i => i.mqttIn.length + 3)).sum

/-- The state in which the pass `i`, run after the passes `is` since boot,
reaches the arbitration (line 421). -/
def atArbitration (b : BootInput) (is : List CycleInput) (i : CycleInput) : Controller :=
  (loops (setup b) is).preArbitration i

/-- The automation is silent: its desired direction and what the loop has
latched of it are Idle, its sequence number is 0. -/
def HaQuiet (c : Controller) : Prop :=
  c.haDesired = MotionState.IDLE ∧ c.lastHaDesired = MotionState.IDLE ∧ c.haCommandSeq = 0 ∧
    c.haLatched = MotionState.IDLE

instance decHaQuiet (c : Controller) : Decidable (HaQuiet c) := by
  unfold HaQuiet; infer_instance

/-- No message of the pass sets the automation's desired direction to Opening
or Closing. -/
def noDirectionMsg (i : CycleInput) : Prop :=
  ∀ m ∈ i.mqttIn, m ≠ MqttMsg.openCover ∧ m ≠ MqttMsg.closeCover

instance decNoDirectionMsg (i : CycleInput) : Decidable (noDirectionMsg i) := by
  unfold noDirectionMsg; infer_instance

/-- The wall-switch step of a pass latches a non-idle direction: it issues a
sequence number and the wall-switch latch is not Idle after it. -/
def latchesDirection (c : Controller) (raw : MotionState) : Prop :=
  (c.analogStep raw).commandSeqCounter ≠ c.commandSeqCounter ∧
    (c.analogStep raw).analogLatched ≠ MotionState.IDLE

instance decLatchesDirection (c : Controller) (raw : MotionState) :
    Decidable (latchesDirection c raw) := by
  unfold latchesDirection; infer_instance

/-- Number of passes of a run whose wall-switch step latches a non-idle
direction. -/
def directionsLatched : Controller → List CycleInput → Nat
  | _, [] => 0
  | c, i :: is =>
    (if latchesDirection c i.analogRaw then 1 else 0) + directionsLatched (c.loop i) is

/-- Passes without new input in which Closing stays possible: the switch stays
on Closing, no message arrives, `canClose()` holds when the pass starts and no
panic is latched when it ends. -/
def HoldsClosing : Controller → List CycleInput → Prop
  | _, [] => True
  | c, j :: js =>
    j.analogRaw = MotionState.CLOSING ∧ j.mqttIn = [] ∧ c.clicks.canClose = true ∧
      (c.loop j).panicLatched = false ∧ HoldsClosing (c.loop j) js

instance decHoldsClosing : ∀ (c : Controller) (js : List CycleInput),
    Decidable (HoldsClosing c js)
  | _, [] => isTrue trivial
  | c, j :: js =>
    haveI := decHoldsClosing (c.loop j) js
    inferInstanceAs (Decidable (j.analogRaw = MotionState.CLOSING ∧ j.mqttIn = [] ∧
      c.clicks.canClose = true ∧ (c.loop j).panicLatched = false ∧ HoldsClosing (c.loop j) js))

/-- A pass with the wall switch at `raw` in which nothing else arrives. -/
def switchInput (now : Nat) (raw : MotionState) : CycleInput :=
  { quietInput now with analogRaw := raw }

end Controller

/-! ## Scenarios of the command arbitration -/

namespace Controller

/-- A pass with the switch in Neutral during which the automation's Opening
command arrives. -/
def askOpening (now : Nat) : CycleInput :=
  { quietInput now with mqttIn := [MqttMsg.openCover] }

/-- The wall switch is put on Closing (pass at 1000 ms) and held; the
automation's Opening command arrives during the pass at 1100 ms and is latched in
the pass at 1200 ms; in the pass at 1300 ms the switch is back in Neutral. -/
def neutralReturn : List CycleInput :=
  [ switchInput 1000 MotionState.CLOSING,
    { switchInput 1100 MotionState.CLOSING with mqttIn := [MqttMsg.openCover] },
    switchInput 1200 MotionState.CLOSING, switchInput 1300 MotionState.IDLE ]

/-- The controller `coverAt 100` once the automation's Opening command, arrived
during the pass at 1000 ms, has been latched in the pass at 1100 ms. -/
def openingAsked : Controller :=
  loops (coverAt 100) [askOpening 1000, quietInput 1100]

/-- The controller `coverAt 100` once the wall switch has been put on Opening
and the command accepted (pass at 1000 ms). -/
def openingAccepted : Controller :=
  loops (coverAt 100) [switchInput 1000 MotionState.OPENING]

/-- A boot with the wall switch held on Closing. -/
def bootHeld : BootInput :=
  { bootNeutral with analogAtBoot := MotionState.CLOSING }

end Controller

/-! ## Calibration mode and continuous runs: scenarios -/

namespace Controller

/-- The controller `coverAt 100` in calibration mode, entered at 1000 ms, after
the wall switch has been on Closing (pass at 1100 ms) and back in Neutral (pass
at 1200 ms): the edge logic is armed when the next pass starts. -/
def calibrating : Controller :=
  loops ((coverAt 100).enterSetMode 1000)
    [switchInput 1100 MotionState.CLOSING, quietInput 1200]

/-- A pass in which the realized direction is not Idle after the driver
update and still not Idle at the no-movement check. -/
def RunningPass (c : Controller) (i : CycleInput) : Prop :=
  (c.commandPhase i).relays.current ≠ MotionState.IDLE ∧
    (c.beforeNoClick i).relays.current ≠ MotionState.IDLE

instance decRunningPass (c : Controller) (i : CycleInput) : Decidable (RunningPass c i) := by
  unfold RunningPass; infer_instance

/-- Passes in a row of one continuous run: in each the realized direction is
not Idle after the driver update, at the no-movement check and when the pass
ends. -/
def ContinuousRun : Controller → List CycleInput → Prop
  | _, [] => True
  | c, i :: is =>
    RunningPass c i ∧ (c.loop i).relays.current ≠ MotionState.IDLE ∧
      ContinuousRun (c.loop i) is

instance decContinuousRun :
    ∀ (c : Controller) (is : List CycleInput), Decidable (ContinuousRun c is)
  | _, [] => isTrue trivial
  | c, i :: is =>
    haveI := decContinuousRun (c.loop i) is
    inferInstanceAs (Decidable (RunningPass c i ∧
      (c.loop i).relays.current ≠ MotionState.IDLE ∧ ContinuousRun (c.loop i) is))

/-- A pass in which nothing arrives but the sensor interrupts at the given
values of `micros()`, delivered before `clicks.update`. -/
def moveInput (now : Nat) (stamps : List Nat) : CycleInput :=
  { quietInput now with isrBeforeUpdate := stamps }

/-- Passes in a row whose realized direction is Idle. -/
def IdleRun : Controller → List CycleInput → Prop
  | _, [] => True
  | c, i :: is => (c.commandPhase i).relays.current = MotionState.IDLE ∧ IdleRun (c.loop i) is

instance decIdleRun : ∀ (c : Controller) (is : List CycleInput), Decidable (IdleRun c is)
  | _, [] => isTrue trivial
  | c, i :: is =>
    haveI := decIdleRun (c.loop i) is
    inferInstanceAs (Decidable ((c.commandPhase i).relays.current = MotionState.IDLE ∧
      IdleRun (c.loop i) is))

/-- A drive across the wrap of `millis()`, limit 300 s.  The controller has
been idle since boot; the automation's Closing command arrives during the pass
at 4294760000 ms, the power relay closes at 4294761000 ms, the direction relay
at 4294764000 ms, and the enable relay in the pass at 4294767296 ms, which is
`2^32 - 200000`.  The sensor gives one pulse (edges 300 ms and 400 ms later,
in microseconds of the 32-bit `micros()`), taken in by the pass at
4294768296 ms.  The clock wraps, and the following passes read 0 ms, 50000 ms,
100000 ms and 150000 ms; in these the driver reports Closing as before. -/
def wrapRun : List CycleInput :=
  [ { quietInput 4294760000 with mqttIn := [MqttMsg.closeCover] },
    quietInput 4294761000, quietInput 4294764000, quietInput 4294767296,
    { quietInput 4294768296 with isrBeforeMotion := [4095267296, 4095367296] },
    quietInput 0, quietInput 50000, quietInput 100000, quietInput 150000 ]

/-- The wall switch is put on Closing while the automation's Closing is driven
(limit 300 s): passes at 3200 ms (enable relay closes), 3300 ms (one pulse of
the sensor is taken in), and 3400 ms, in which the switch is read on Closing
and `resetSafetyRuntime` reads the clock as `fresh`. -/
def switchDuringDrive (fresh : Nat) : List CycleInput :=
  [ quietInput 3200, { quietInput 3300 with isrBeforeMotion := [3250000, 3260000] },
    { switchInput 3400 MotionState.CLOSING with resetMillis := fresh } ]

end Controller
/-! ## Lemmas on the motion driver -/

set_option linter.all false
set_option linter.unusedTactic false
set_option linter.unreachableTactic false

namespace RelaysModule

theorem addU32_eq (a b : Nat) (h : a + b < U32) : addU32 a b = a + b := by
  unfold addU32; exact Nat.mod_eq_of_lt h

/-! ### Field-by-field effect of every step -/

@[simp] theorem driveEnable_activeLow (s : RelaysModule) (isOn : Bool) :
    (s.driveEnable isOn).activeLow = s.activeLow := by
  rfl

@[simp] theorem driveEnable_psuOn (s : RelaysModule) (isOn : Bool) :
    (s.driveEnable isOn).psuOn = s.psuOn := by
  rfl

@[simp] theorem driveEnable_enableOn (s : RelaysModule) (isOn : Bool) :
    (s.driveEnable isOn).enableOn = isOn := by
  rfl

@[simp] theorem driveEnable_cur (s : RelaysModule) (isOn : Bool) :
    (s.driveEnable isOn).cur = s.cur := by
  rfl

@[simp] theorem driveEnable_want (s : RelaysModule) (isOn : Bool) :
    (s.driveEnable isOn).want = s.want := by
  rfl

@[simp] theorem driveEnable_latchedDrive (s : RelaysModule) (isOn : Bool) :
    (s.driveEnable isOn).latchedDrive = s.latchedDrive := by
  rfl

@[simp] theorem driveEnable_tChangeAllowed (s : RelaysModule) (isOn : Bool) :
    (s.driveEnable isOn).tChangeAllowed = s.tChangeAllowed := by
  rfl

@[simp] theorem driveEnable_tPsuReady (s : RelaysModule) (isOn : Bool) :
    (s.driveEnable isOn).tPsuReady = s.tPsuReady := by
  rfl

@[simp] theorem driveEnable_tEnableReady (s : RelaysModule) (isOn : Bool) :
    (s.driveEnable isOn).tEnableReady = (if isOn then s.tEnableReady else 0) := by
  rfl

@[simp] theorem driveEnable_deadMs (s : RelaysModule) (isOn : Bool) :
    (s.driveEnable isOn).deadMs = s.deadMs := by
  rfl

@[simp] theorem driveEnable_psuSpinMs (s : RelaysModule) (isOn : Bool) :
    (s.driveEnable isOn).psuSpinMs = s.psuSpinMs := by
  rfl

@[simp] theorem driveEnable_psuHoldActive (s : RelaysModule) (isOn : Bool) :
    (s.driveEnable isOn).psuHoldActive = s.psuHoldActive := by
  rfl

@[simp] theorem driveEnable_tPsuHoldOff (s : RelaysModule) (isOn : Bool) :
    (s.driveEnable isOn).tPsuHoldOff = s.tPsuHoldOff := by
  rfl

@[simp] theorem driveEnable_pinFwd (s : RelaysModule) (isOn : Bool) :
    (s.driveEnable isOn).pinFwd = s.pinFwd := by
  rfl

@[simp] theorem driveEnable_pinRev (s : RelaysModule) (isOn : Bool) :
    (s.driveEnable isOn).pinRev = s.pinRev := by
  rfl

@[simp] theorem driveEnable_pinPsu (s : RelaysModule) (isOn : Bool) :
    (s.driveEnable isOn).pinPsu = s.pinPsu := by
  rfl

@[simp] theorem driveEnable_pinEn (s : RelaysModule) (isOn : Bool) :
    (s.driveEnable isOn).pinEn = s.level isOn := by
  rfl

@[simp] theorem stopDirections_activeLow (s : RelaysModule) :
    (s.stopDirections).activeLow = s.activeLow := by
  rfl

@[simp] theorem stopDirections_psuOn (s : RelaysModule) :
    (s.stopDirections).psuOn = s.psuOn := by
  rfl

@[simp] theorem stopDirections_enableOn (s : RelaysModule) :
    (s.stopDirections).enableOn = s.enableOn := by
  rfl

@[simp] theorem stopDirections_cur (s : RelaysModule) :
    (s.stopDirections).cur = s.cur := by
  rfl

@[simp] theorem stopDirections_want (s : RelaysModule) :
    (s.stopDirections).want = s.want := by
  rfl

@[simp] theorem stopDirections_latchedDrive (s : RelaysModule) :
    (s.stopDirections).latchedDrive = s.latchedDrive := by
  rfl

@[simp] theorem stopDirections_tChangeAllowed (s : RelaysModule) :
    (s.stopDirections).tChangeAllowed = s.tChangeAllowed := by
  rfl

@[simp] theorem stopDirections_tPsuReady (s : RelaysModule) :
    (s.stopDirections).tPsuReady = s.tPsuReady := by
  rfl

@[simp] theorem stopDirections_tEnableReady (s : RelaysModule) :
    (s.stopDirections).tEnableReady = s.tEnableReady := by
  rfl

@[simp] theorem stopDirections_deadMs (s : RelaysModule) :
    (s.stopDirections).deadMs = s.deadMs := by
  rfl

@[simp] theorem stopDirections_psuSpinMs (s : RelaysModule) :
    (s.stopDirections).psuSpinMs = s.psuSpinMs := by
  rfl

@[simp] theorem stopDirections_psuHoldActive (s : RelaysModule) :
    (s.stopDirections).psuHoldActive = s.psuHoldActive := by
  rfl

@[simp] theorem stopDirections_tPsuHoldOff (s : RelaysModule) :
    (s.stopDirections).tPsuHoldOff = s.tPsuHoldOff := by
  rfl

@[simp] theorem stopDirections_pinFwd (s : RelaysModule) :
    (s.stopDirections).pinFwd = s.level false := by
  rfl

@[simp] theorem stopDirections_pinRev (s : RelaysModule) :
    (s.stopDirections).pinRev = s.level false := by
  rfl

@[simp] theorem stopDirections_pinPsu (s : RelaysModule) :
    (s.stopDirections).pinPsu = s.pinPsu := by
  rfl

@[simp] theorem stopDirections_pinEn (s : RelaysModule) :
    (s.stopDirections).pinEn = s.pinEn := by
  rfl

@[simp] theorem allStop_activeLow (s : RelaysModule) :
    (s.allStop).activeLow = s.activeLow := by
  rfl

@[simp] theorem allStop_psuOn (s : RelaysModule) :
    (s.allStop).psuOn = s.psuOn := by
  rfl

@[simp] theorem allStop_enableOn (s : RelaysModule) :
    (s.allStop).enableOn = false := by
  rfl

@[simp] theorem allStop_cur (s : RelaysModule) :
    (s.allStop).cur = s.cur := by
  rfl

@[simp] theorem allStop_want (s : RelaysModule) :
    (s.allStop).want = s.want := by
  rfl

@[simp] theorem allStop_latchedDrive (s : RelaysModule) :
    (s.allStop).latchedDrive = MotionState.IDLE := by
  rfl

@[simp] theorem allStop_tChangeAllowed (s : RelaysModule) :
    (s.allStop).tChangeAllowed = s.tChangeAllowed := by
  rfl

@[simp] theorem allStop_tPsuReady (s : RelaysModule) :
    (s.allStop).tPsuReady = s.tPsuReady := by
  rfl

@[simp] theorem allStop_tEnableReady (s : RelaysModule) :
    (s.allStop).tEnableReady = 0 := by
  rfl

@[simp] theorem allStop_deadMs (s : RelaysModule) :
    (s.allStop).deadMs = s.deadMs := by
  rfl

@[simp] theorem allStop_psuSpinMs (s : RelaysModule) :
    (s.allStop).psuSpinMs = s.psuSpinMs := by
  rfl

@[simp] theorem allStop_psuHoldActive (s : RelaysModule) :
    (s.allStop).psuHoldActive = s.psuHoldActive := by
  rfl

@[simp] theorem allStop_tPsuHoldOff (s : RelaysModule) :
    (s.allStop).tPsuHoldOff = s.tPsuHoldOff := by
  rfl

@[simp] theorem allStop_pinFwd (s : RelaysModule) :
    (s.allStop).pinFwd = s.level false := by
  rfl

@[simp] theorem allStop_pinRev (s : RelaysModule) :
    (s.allStop).pinRev = s.level false := by
  rfl

@[simp] theorem allStop_pinPsu (s : RelaysModule) :
    (s.allStop).pinPsu = s.pinPsu := by
  rfl

@[simp] theorem allStop_pinEn (s : RelaysModule) :
    (s.allStop).pinEn = s.level false := by
  rfl

@[simp] theorem idleStop_activeLow (s : RelaysModule) (now : Nat) :
    (s.idleStop now).activeLow = s.activeLow := by
  unfold idleStop; split_ifs <;> first | rfl | simp_all [level]

@[simp] theorem idleStop_psuOn (s : RelaysModule) (now : Nat) :
    (s.idleStop now).psuOn = s.psuOn := by
  unfold idleStop; split_ifs <;> first | rfl | simp_all [level]

@[simp] theorem idleStop_enableOn (s : RelaysModule) (now : Nat) :
    (s.idleStop now).enableOn = (if s.cur ≠ MotionState.IDLE then false else s.enableOn) := by
  unfold idleStop; split_ifs <;> first | rfl | simp_all [level]

@[simp] theorem idleStop_cur (s : RelaysModule) (now : Nat) :
    (s.idleStop now).cur = (if s.cur ≠ MotionState.IDLE then MotionState.IDLE else s.cur) := by
  unfold idleStop; split_ifs <;> first | rfl | simp_all [level]

@[simp] theorem idleStop_want (s : RelaysModule) (now : Nat) :
    (s.idleStop now).want = s.want := by
  unfold idleStop; split_ifs <;> first | rfl | simp_all [level]

@[simp] theorem idleStop_latchedDrive (s : RelaysModule) (now : Nat) :
    (s.idleStop now).latchedDrive = (if s.cur ≠ MotionState.IDLE then MotionState.IDLE else s.latchedDrive) := by
  unfold idleStop; split_ifs <;> first | rfl | simp_all [level]

@[simp] theorem idleStop_tChangeAllowed (s : RelaysModule) (now : Nat) :
    (s.idleStop now).tChangeAllowed = s.tChangeAllowed := by
  unfold idleStop; split_ifs <;> first | rfl | simp_all [level]

@[simp] theorem idleStop_tPsuReady (s : RelaysModule) (now : Nat) :
    (s.idleStop now).tPsuReady = s.tPsuReady := by
  unfold idleStop; split_ifs <;> first | rfl | simp_all [level]

@[simp] theorem idleStop_tEnableReady (s : RelaysModule) (now : Nat) :
    (s.idleStop now).tEnableReady = (if s.cur ≠ MotionState.IDLE then 0 else s.tEnableReady) := by
  unfold idleStop; split_ifs <;> first | rfl | simp_all [level]

@[simp] theorem idleStop_deadMs (s : RelaysModule) (now : Nat) :
    (s.idleStop now).deadMs = s.deadMs := by
  unfold idleStop; split_ifs <;> first | rfl | simp_all [level]

@[simp] theorem idleStop_psuSpinMs (s : RelaysModule) (now : Nat) :
    (s.idleStop now).psuSpinMs = s.psuSpinMs := by
  unfold idleStop; split_ifs <;> first | rfl | simp_all [level]

@[simp] theorem idleStop_psuHoldActive (s : RelaysModule) (now : Nat) :
    (s.idleStop now).psuHoldActive = (if s.cur ≠ MotionState.IDLE then true else s.psuHoldActive) := by
  unfold idleStop; split_ifs <;> first | rfl | simp_all [level]

@[simp] theorem idleStop_tPsuHoldOff (s : RelaysModule) (now : Nat) :
    (s.idleStop now).tPsuHoldOff = (if s.cur ≠ MotionState.IDLE then addU32 now psuHoldMs else s.tPsuHoldOff) := by
  unfold idleStop; split_ifs <;> first | rfl | simp_all [level]

@[simp] theorem idleStop_pinFwd (s : RelaysModule) (now : Nat) :
    (s.idleStop now).pinFwd = (if s.cur ≠ MotionState.IDLE then s.level false else s.pinFwd) := by
  unfold idleStop; split_ifs <;> first | rfl | simp_all [level]

@[simp] theorem idleStop_pinRev (s : RelaysModule) (now : Nat) :
    (s.idleStop now).pinRev = (if s.cur ≠ MotionState.IDLE then s.level false else s.pinRev) := by
  unfold idleStop; split_ifs <;> first | rfl | simp_all [level]

@[simp] theorem idleStop_pinPsu (s : RelaysModule) (now : Nat) :
    (s.idleStop now).pinPsu = s.pinPsu := by
  unfold idleStop; split_ifs <;> first | rfl | simp_all [level]

@[simp] theorem idleStop_pinEn (s : RelaysModule) (now : Nat) :
    (s.idleStop now).pinEn = (if s.cur ≠ MotionState.IDLE then s.level false else s.pinEn) := by
  unfold idleStop; split_ifs <;> first | rfl | simp_all [level]

@[simp] theorem enableOffIfOn_activeLow (s : RelaysModule) :
    (s.enableOffIfOn).activeLow = s.activeLow := by
  unfold enableOffIfOn; split_ifs <;> first | rfl | simp_all [level]

@[simp] theorem enableOffIfOn_psuOn (s : RelaysModule) :
    (s.enableOffIfOn).psuOn = s.psuOn := by
  unfold enableOffIfOn; split_ifs <;> first | rfl | simp_all [level]

@[simp] theorem enableOffIfOn_enableOn (s : RelaysModule) :
    (s.enableOffIfOn).enableOn = (if s.enableOn = true then false else s.enableOn) := by
  unfold enableOffIfOn; split_ifs <;> first | rfl | simp_all [level]

@[simp] theorem enableOffIfOn_cur (s : RelaysModule) :
    (s.enableOffIfOn).cur = s.cur := by
  unfold enableOffIfOn; split_ifs <;> first | rfl | simp_all [level]

@[simp] theorem enableOffIfOn_want (s : RelaysModule) :
    (s.enableOffIfOn).want = s.want := by
  unfold enableOffIfOn; split_ifs <;> first | rfl | simp_all [level]

@[simp] theorem enableOffIfOn_latchedDrive (s : RelaysModule) :
    (s.enableOffIfOn).latchedDrive = s.latchedDrive := by
  unfold enableOffIfOn; split_ifs <;> first | rfl | simp_all [level]

@[simp] theorem enableOffIfOn_tChangeAllowed (s : RelaysModule) :
    (s.enableOffIfOn).tChangeAllowed = s.tChangeAllowed := by
  unfold enableOffIfOn; split_ifs <;> first | rfl | simp_all [level]

@[simp] theorem enableOffIfOn_tPsuReady (s : RelaysModule) :
    (s.enableOffIfOn).tPsuReady = s.tPsuReady := by
  unfold enableOffIfOn; split_ifs <;> first | rfl | simp_all [level]

@[simp] theorem enableOffIfOn_tEnableReady (s : RelaysModule) :
    (s.enableOffIfOn).tEnableReady = (if s.enableOn = true then 0 else s.tEnableReady) := by
  unfold enableOffIfOn; split_ifs <;> first | rfl | simp_all [level]

@[simp] theorem enableOffIfOn_deadMs (s : RelaysModule) :
    (s.enableOffIfOn).deadMs = s.deadMs := by
  unfold enableOffIfOn; split_ifs <;> first | rfl | simp_all [level]

@[simp] theorem enableOffIfOn_psuSpinMs (s : RelaysModule) :
    (s.enableOffIfOn).psuSpinMs = s.psuSpinMs := by
  unfold enableOffIfOn; split_ifs <;> first | rfl | simp_all [level]

@[simp] theorem enableOffIfOn_psuHoldActive (s : RelaysModule) :
    (s.enableOffIfOn).psuHoldActive = s.psuHoldActive := by
  unfold enableOffIfOn; split_ifs <;> first | rfl | simp_all [level]

@[simp] theorem enableOffIfOn_tPsuHoldOff (s : RelaysModule) :
    (s.enableOffIfOn).tPsuHoldOff = s.tPsuHoldOff := by
  unfold enableOffIfOn; split_ifs <;> first | rfl | simp_all [level]

@[simp] theorem enableOffIfOn_pinFwd (s : RelaysModule) :
    (s.enableOffIfOn).pinFwd = s.pinFwd := by
  unfold enableOffIfOn; split_ifs <;> first | rfl | simp_all [level]

@[simp] theorem enableOffIfOn_pinRev (s : RelaysModule) :
    (s.enableOffIfOn).pinRev = s.pinRev := by
  unfold enableOffIfOn; split_ifs <;> first | rfl | simp_all [level]

@[simp] theorem enableOffIfOn_pinPsu (s : RelaysModule) :
    (s.enableOffIfOn).pinPsu = s.pinPsu := by
  unfold enableOffIfOn; split_ifs <;> first | rfl | simp_all [level]

@[simp] theorem enableOffIfOn_pinEn (s : RelaysModule) :
    (s.enableOffIfOn).pinEn = (if s.enableOn = true then s.level false else s.pinEn) := by
  unfold enableOffIfOn; split_ifs <;> first | rfl | simp_all [level]

@[simp] theorem idleDirOff_activeLow (s : RelaysModule) :
    (s.idleDirOff).activeLow = s.activeLow := by
  unfold idleDirOff; split_ifs <;> first | rfl | simp_all [level]

@[simp] theorem idleDirOff_psuOn (s : RelaysModule) :
    (s.idleDirOff).psuOn = s.psuOn := by
  unfold idleDirOff; split_ifs <;> first | rfl | simp_all [level]

@[simp] theorem idleDirOff_enableOn (s : RelaysModule) :
    (s.idleDirOff).enableOn = s.enableOn := by
  unfold idleDirOff; split_ifs <;> first | rfl | simp_all [level]

@[simp] theorem idleDirOff_cur (s : RelaysModule) :
    (s.idleDirOff).cur = s.cur := by
  unfold idleDirOff; split_ifs <;> first | rfl | simp_all [level]

@[simp] theorem idleDirOff_want (s : RelaysModule) :
    (s.idleDirOff).want = s.want := by
  unfold idleDirOff; split_ifs <;> first | rfl | simp_all [level]

@[simp] theorem idleDirOff_latchedDrive (s : RelaysModule) :
    (s.idleDirOff).latchedDrive = (if s.latchedDrive ≠ MotionState.IDLE then MotionState.IDLE else s.latchedDrive) := by
  unfold idleDirOff; split_ifs <;> first | rfl | simp_all [level]

@[simp] theorem idleDirOff_tChangeAllowed (s : RelaysModule) :
    (s.idleDirOff).tChangeAllowed = s.tChangeAllowed := by
  unfold idleDirOff; split_ifs <;> first | rfl | simp_all [level]

@[simp] theorem idleDirOff_tPsuReady (s : RelaysModule) :
    (s.idleDirOff).tPsuReady = s.tPsuReady := by
  unfold idleDirOff; split_ifs <;> first | rfl | simp_all [level]

@[simp] theorem idleDirOff_tEnableReady (s : RelaysModule) :
    (s.idleDirOff).tEnableReady = s.tEnableReady := by
  unfold idleDirOff; split_ifs <;> first | rfl | simp_all [level]

@[simp] theorem idleDirOff_deadMs (s : RelaysModule) :
    (s.idleDirOff).deadMs = s.deadMs := by
  unfold idleDirOff; split_ifs <;> first | rfl | simp_all [level]

@[simp] theorem idleDirOff_psuSpinMs (s : RelaysModule) :
    (s.idleDirOff).psuSpinMs = s.psuSpinMs := by
  unfold idleDirOff; split_ifs <;> first | rfl | simp_all [level]

@[simp] theorem idleDirOff_psuHoldActive (s : RelaysModule) :
    (s.idleDirOff).psuHoldActive = s.psuHoldActive := by
  unfold idleDirOff; split_ifs <;> first | rfl | simp_all [level]

@[simp] theorem idleDirOff_tPsuHoldOff (s : RelaysModule) :
    (s.idleDirOff).tPsuHoldOff = s.tPsuHoldOff := by
  unfold idleDirOff; split_ifs <;> first | rfl | simp_all [level]

@[simp] theorem idleDirOff_pinFwd (s : RelaysModule) :
    (s.idleDirOff).pinFwd = (if s.latchedDrive ≠ MotionState.IDLE then s.level false else s.pinFwd) := by
  unfold idleDirOff; split_ifs <;> first | rfl | simp_all [level]

@[simp] theorem idleDirOff_pinRev (s : RelaysModule) :
    (s.idleDirOff).pinRev = (if s.latchedDrive ≠ MotionState.IDLE then s.level false else s.pinRev) := by
  unfold idleDirOff; split_ifs <;> first | rfl | simp_all [level]

@[simp] theorem idleDirOff_pinPsu (s : RelaysModule) :
    (s.idleDirOff).pinPsu = s.pinPsu := by
  unfold idleDirOff; split_ifs <;> first | rfl | simp_all [level]

@[simp] theorem idleDirOff_pinEn (s : RelaysModule) :
    (s.idleDirOff).pinEn = s.pinEn := by
  unfold idleDirOff; split_ifs <;> first | rfl | simp_all [level]

@[simp] theorem idleHoldExpire_activeLow (s : RelaysModule) (now : Nat) :
    (s.idleHoldExpire now).activeLow = s.activeLow := by
  unfold idleHoldExpire; split_ifs <;> first | rfl | simp_all

@[simp] theorem idleHoldExpire_psuOn (s : RelaysModule) (now : Nat) :
    (s.idleHoldExpire now).psuOn = s.psuOn := by
  unfold idleHoldExpire; split_ifs <;> first | rfl | simp_all

@[simp] theorem idleHoldExpire_enableOn (s : RelaysModule) (now : Nat) :
    (s.idleHoldExpire now).enableOn = s.enableOn := by
  unfold idleHoldExpire; split_ifs <;> first | rfl | simp_all

@[simp] theorem idleHoldExpire_cur (s : RelaysModule) (now : Nat) :
    (s.idleHoldExpire now).cur = s.cur := by
  unfold idleHoldExpire; split_ifs <;> first | rfl | simp_all

@[simp] theorem idleHoldExpire_want (s : RelaysModule) (now : Nat) :
    (s.idleHoldExpire now).want = s.want := by
  unfold idleHoldExpire; split_ifs <;> first | rfl | simp_all

@[simp] theorem idleHoldExpire_latchedDrive (s : RelaysModule) (now : Nat) :
    (s.idleHoldExpire now).latchedDrive = s.latchedDrive := by
  unfold idleHoldExpire; split_ifs <;> first | rfl | simp_all

@[simp] theorem idleHoldExpire_tChangeAllowed (s : RelaysModule) (now : Nat) :
    (s.idleHoldExpire now).tChangeAllowed = s.tChangeAllowed := by
  unfold idleHoldExpire; split_ifs <;> first | rfl | simp_all

@[simp] theorem idleHoldExpire_tPsuReady (s : RelaysModule) (now : Nat) :
    (s.idleHoldExpire now).tPsuReady = s.tPsuReady := by
  unfold idleHoldExpire; split_ifs <;> first | rfl | simp_all

@[simp] theorem idleHoldExpire_tEnableReady (s : RelaysModule) (now : Nat) :
    (s.idleHoldExpire now).tEnableReady = s.tEnableReady := by
  unfold idleHoldExpire; split_ifs <;> first | rfl | simp_all

@[simp] theorem idleHoldExpire_deadMs (s : RelaysModule) (now : Nat) :
    (s.idleHoldExpire now).deadMs = s.deadMs := by
  unfold idleHoldExpire; split_ifs <;> first | rfl | simp_all

@[simp] theorem idleHoldExpire_psuSpinMs (s : RelaysModule) (now : Nat) :
    (s.idleHoldExpire now).psuSpinMs = s.psuSpinMs := by
  unfold idleHoldExpire; split_ifs <;> first | rfl | simp_all

@[simp] theorem idleHoldExpire_psuHoldActive (s : RelaysModule) (now : Nat) :
    (s.idleHoldExpire now).psuHoldActive = (if s.psuHoldActive = true ∧ asLong (subU32 s.tPsuHoldOff now) ≤ 0 then false else s.psuHoldActive) := by
  unfold idleHoldExpire; split_ifs <;> first | rfl | simp_all

@[simp] theorem idleHoldExpire_tPsuHoldOff (s : RelaysModule) (now : Nat) :
    (s.idleHoldExpire now).tPsuHoldOff = s.tPsuHoldOff := by
  unfold idleHoldExpire; split_ifs <;> first | rfl | simp_all

@[simp] theorem idleHoldExpire_pinFwd (s : RelaysModule) (now : Nat) :
    (s.idleHoldExpire now).pinFwd = s.pinFwd := by
  unfold idleHoldExpire; split_ifs <;> first | rfl | simp_all

@[simp] theorem idleHoldExpire_pinRev (s : RelaysModule) (now : Nat) :
    (s.idleHoldExpire now).pinRev = s.pinRev := by
  unfold idleHoldExpire; split_ifs <;> first | rfl | simp_all

@[simp] theorem idleHoldExpire_pinPsu (s : RelaysModule) (now : Nat) :
    (s.idleHoldExpire now).pinPsu = s.pinPsu := by
  unfold idleHoldExpire; split_ifs <;> first | rfl | simp_all

@[simp] theorem idleHoldExpire_pinEn (s : RelaysModule) (now : Nat) :
    (s.idleHoldExpire now).pinEn = s.pinEn := by
  unfold idleHoldExpire; split_ifs <;> first | rfl | simp_all

@[simp] theorem idlePsu_activeLow (s : RelaysModule) :
    (s.idlePsu).activeLow = s.activeLow := by
  unfold idlePsu; split_ifs <;> first | rfl | simp_all [level]

@[simp] theorem idlePsu_psuOn (s : RelaysModule) :
    (s.idlePsu).psuOn = (if s.psuHoldActive ≠ s.psuOn then s.psuHoldActive else s.psuOn) := by
  unfold idlePsu; split_ifs <;> first | rfl | simp_all [level]

@[simp] theorem idlePsu_enableOn (s : RelaysModule) :
    (s.idlePsu).enableOn = s.enableOn := by
  unfold idlePsu; split_ifs <;> first | rfl | simp_all [level]

@[simp] theorem idlePsu_cur (s : RelaysModule) :
    (s.idlePsu).cur = s.cur := by
  unfold idlePsu; split_ifs <;> first | rfl | simp_all [level]

@[simp] theorem idlePsu_want (s : RelaysModule) :
    (s.idlePsu).want = s.want := by
  unfold idlePsu; split_ifs <;> first | rfl | simp_all [level]

@[simp] theorem idlePsu_latchedDrive (s : RelaysModule) :
    (s.idlePsu).latchedDrive = s.latchedDrive := by
  unfold idlePsu; split_ifs <;> first | rfl | simp_all [level]

@[simp] theorem idlePsu_tChangeAllowed (s : RelaysModule) :
    (s.idlePsu).tChangeAllowed = s.tChangeAllowed := by
  unfold idlePsu; split_ifs <;> first | rfl | simp_all [level]

@[simp] theorem idlePsu_tPsuReady (s : RelaysModule) :
    (s.idlePsu).tPsuReady = s.tPsuReady := by
  unfold idlePsu; split_ifs <;> first | rfl | simp_all [level]

@[simp] theorem idlePsu_tEnableReady (s : RelaysModule) :
    (s.idlePsu).tEnableReady = s.tEnableReady := by
  unfold idlePsu; split_ifs <;> first | rfl | simp_all [level]

@[simp] theorem idlePsu_deadMs (s : RelaysModule) :
    (s.idlePsu).deadMs = s.deadMs := by
  unfold idlePsu; split_ifs <;> first | rfl | simp_all [level]

@[simp] theorem idlePsu_psuSpinMs (s : RelaysModule) :
    (s.idlePsu).psuSpinMs = s.psuSpinMs := by
  unfold idlePsu; split_ifs <;> first | rfl | simp_all [level]

@[simp] theorem idlePsu_psuHoldActive (s : RelaysModule) :
    (s.idlePsu).psuHoldActive = s.psuHoldActive := by
  unfold idlePsu; split_ifs <;> first | rfl | simp_all [level]

@[simp] theorem idlePsu_tPsuHoldOff (s : RelaysModule) :
    (s.idlePsu).tPsuHoldOff = s.tPsuHoldOff := by
  unfold idlePsu; split_ifs <;> first | rfl | simp_all [level]

@[simp] theorem idlePsu_pinFwd (s : RelaysModule) :
    (s.idlePsu).pinFwd = s.pinFwd := by
  unfold idlePsu; split_ifs <;> first | rfl | simp_all [level]

@[simp] theorem idlePsu_pinRev (s : RelaysModule) :
    (s.idlePsu).pinRev = s.pinRev := by
  unfold idlePsu; split_ifs <;> first | rfl | simp_all [level]

@[simp] theorem idlePsu_pinPsu (s : RelaysModule) :
    (s.idlePsu).pinPsu = (if s.psuHoldActive ≠ s.psuOn then s.level s.psuHoldActive else s.pinPsu) := by
  unfold idlePsu; split_ifs <;> first | rfl | simp_all [level]

@[simp] theorem idlePsu_pinEn (s : RelaysModule) :
    (s.idlePsu).pinEn = s.pinEn := by
  unfold idlePsu; split_ifs <;> first | rfl | simp_all [level]

@[simp] theorem psuStart_activeLow (s : RelaysModule) (now : Nat) :
    (s.psuStart now).activeLow = s.activeLow := by
  rfl

@[simp] theorem psuStart_psuOn (s : RelaysModule) (now : Nat) :
    (s.psuStart now).psuOn = true := by
  rfl

@[simp] theorem psuStart_enableOn (s : RelaysModule) (now : Nat) :
    (s.psuStart now).enableOn = s.enableOn := by
  rfl

@[simp] theorem psuStart_cur (s : RelaysModule) (now : Nat) :
    (s.psuStart now).cur = s.cur := by
  rfl

@[simp] theorem psuStart_want (s : RelaysModule) (now : Nat) :
    (s.psuStart now).want = s.want := by
  rfl

@[simp] theorem psuStart_latchedDrive (s : RelaysModule) (now : Nat) :
    (s.psuStart now).latchedDrive = s.latchedDrive := by
  rfl

@[simp] theorem psuStart_tChangeAllowed (s : RelaysModule) (now : Nat) :
    (s.psuStart now).tChangeAllowed = s.tChangeAllowed := by
  rfl

@[simp] theorem psuStart_tPsuReady (s : RelaysModule) (now : Nat) :
    (s.psuStart now).tPsuReady = addU32 now s.psuSpinMs := by
  rfl

@[simp] theorem psuStart_tEnableReady (s : RelaysModule) (now : Nat) :
    (s.psuStart now).tEnableReady = s.tEnableReady := by
  rfl

@[simp] theorem psuStart_deadMs (s : RelaysModule) (now : Nat) :
    (s.psuStart now).deadMs = s.deadMs := by
  rfl

@[simp] theorem psuStart_psuSpinMs (s : RelaysModule) (now : Nat) :
    (s.psuStart now).psuSpinMs = s.psuSpinMs := by
  rfl

@[simp] theorem psuStart_psuHoldActive (s : RelaysModule) (now : Nat) :
    (s.psuStart now).psuHoldActive = s.psuHoldActive := by
  rfl

@[simp] theorem psuStart_tPsuHoldOff (s : RelaysModule) (now : Nat) :
    (s.psuStart now).tPsuHoldOff = s.tPsuHoldOff := by
  rfl

@[simp] theorem psuStart_pinFwd (s : RelaysModule) (now : Nat) :
    (s.psuStart now).pinFwd = s.pinFwd := by
  rfl

@[simp] theorem psuStart_pinRev (s : RelaysModule) (now : Nat) :
    (s.psuStart now).pinRev = s.pinRev := by
  rfl

@[simp] theorem psuStart_pinPsu (s : RelaysModule) (now : Nat) :
    (s.psuStart now).pinPsu = s.level true := by
  rfl

@[simp] theorem psuStart_pinEn (s : RelaysModule) (now : Nat) :
    (s.psuStart now).pinEn = s.pinEn := by
  rfl

@[simp] theorem driveTarget_activeLow (s : RelaysModule) :
    (s.driveTarget).activeLow = s.activeLow := by
  unfold driveTarget; split_ifs <;> first | rfl | simp_all [level]

@[simp] theorem driveTarget_psuOn (s : RelaysModule) :
    (s.driveTarget).psuOn = s.psuOn := by
  unfold driveTarget; split_ifs <;> first | rfl | simp_all [level]

@[simp] theorem driveTarget_enableOn (s : RelaysModule) :
    (s.driveTarget).enableOn = s.enableOn := by
  unfold driveTarget; split_ifs <;> first | rfl | simp_all [level]

@[simp] theorem driveTarget_cur (s : RelaysModule) :
    (s.driveTarget).cur = s.cur := by
  unfold driveTarget; split_ifs <;> first | rfl | simp_all [level]

@[simp] theorem driveTarget_want (s : RelaysModule) :
    (s.driveTarget).want = s.want := by
  unfold driveTarget; split_ifs <;> first | rfl | simp_all [level]

@[simp] theorem driveTarget_latchedDrive (s : RelaysModule) :
    (s.driveTarget).latchedDrive = s.latchedDrive := by
  unfold driveTarget; split_ifs <;> first | rfl | simp_all [level]

@[simp] theorem driveTarget_tChangeAllowed (s : RelaysModule) :
    (s.driveTarget).tChangeAllowed = s.tChangeAllowed := by
  unfold driveTarget; split_ifs <;> first | rfl | simp_all [level]

@[simp] theorem driveTarget_tPsuReady (s : RelaysModule) :
    (s.driveTarget).tPsuReady = s.tPsuReady := by
  unfold driveTarget; split_ifs <;> first | rfl | simp_all [level]

@[simp] theorem driveTarget_tEnableReady (s : RelaysModule) :
    (s.driveTarget).tEnableReady = s.tEnableReady := by
  unfold driveTarget; split_ifs <;> first | rfl | simp_all [level]

@[simp] theorem driveTarget_deadMs (s : RelaysModule) :
    (s.driveTarget).deadMs = s.deadMs := by
  unfold driveTarget; split_ifs <;> first | rfl | simp_all [level]

@[simp] theorem driveTarget_psuSpinMs (s : RelaysModule) :
    (s.driveTarget).psuSpinMs = s.psuSpinMs := by
  unfold driveTarget; split_ifs <;> first | rfl | simp_all [level]

@[simp] theorem driveTarget_psuHoldActive (s : RelaysModule) :
    (s.driveTarget).psuHoldActive = s.psuHoldActive := by
  unfold driveTarget; split_ifs <;> first | rfl | simp_all [level]

@[simp] theorem driveTarget_tPsuHoldOff (s : RelaysModule) :
    (s.driveTarget).tPsuHoldOff = s.tPsuHoldOff := by
  unfold driveTarget; split_ifs <;> first | rfl | simp_all [level]

@[simp] theorem driveTarget_pinFwd (s : RelaysModule) :
    (s.driveTarget).pinFwd = (if s.want = MotionState.OPENING then s.level true else s.pinFwd) := by
  unfold driveTarget; split_ifs <;> first | rfl | simp_all [level]

@[simp] theorem driveTarget_pinRev (s : RelaysModule) :
    (s.driveTarget).pinRev = (if s.want = MotionState.CLOSING then s.level true else s.pinRev) := by
  unfold driveTarget; split_ifs <;> first | rfl | simp_all [level]

@[simp] theorem driveTarget_pinPsu (s : RelaysModule) :
    (s.driveTarget).pinPsu = s.pinPsu := by
  unfold driveTarget; split_ifs <;> first | rfl | simp_all [level]

@[simp] theorem driveTarget_pinEn (s : RelaysModule) :
    (s.driveTarget).pinEn = s.pinEn := by
  unfold driveTarget; split_ifs <;> first | rfl | simp_all [level]

@[simp] theorem arm_activeLow (s : RelaysModule) (now : Nat) :
    (s.arm now).activeLow = s.activeLow := by
  unfold arm; first | rfl | simp [level]

@[simp] theorem arm_psuOn (s : RelaysModule) (now : Nat) :
    (s.arm now).psuOn = s.psuOn := by
  unfold arm; first | rfl | simp [level]

@[simp] theorem arm_enableOn (s : RelaysModule) (now : Nat) :
    (s.arm now).enableOn = false := by
  unfold arm; first | rfl | simp [level]

@[simp] theorem arm_cur (s : RelaysModule) (now : Nat) :
    (s.arm now).cur = s.cur := by
  unfold arm; first | rfl | simp [level]

@[simp] theorem arm_want (s : RelaysModule) (now : Nat) :
    (s.arm now).want = s.want := by
  unfold arm; first | rfl | simp [level]

@[simp] theorem arm_latchedDrive (s : RelaysModule) (now : Nat) :
    (s.arm now).latchedDrive = s.want := by
  unfold arm; first | rfl | simp [level]

@[simp] theorem arm_tChangeAllowed (s : RelaysModule) (now : Nat) :
    (s.arm now).tChangeAllowed = s.tChangeAllowed := by
  unfold arm; first | rfl | simp [level]

@[simp] theorem arm_tPsuReady (s : RelaysModule) (now : Nat) :
    (s.arm now).tPsuReady = s.tPsuReady := by
  unfold arm; first | rfl | simp [level]

@[simp] theorem arm_tEnableReady (s : RelaysModule) (now : Nat) :
    (s.arm now).tEnableReady = addU32 now enableDelayMs := by
  unfold arm; first | rfl | simp [level]

@[simp] theorem arm_deadMs (s : RelaysModule) (now : Nat) :
    (s.arm now).deadMs = s.deadMs := by
  unfold arm; first | rfl | simp [level]

@[simp] theorem arm_psuSpinMs (s : RelaysModule) (now : Nat) :
    (s.arm now).psuSpinMs = s.psuSpinMs := by
  unfold arm; first | rfl | simp [level]

@[simp] theorem arm_psuHoldActive (s : RelaysModule) (now : Nat) :
    (s.arm now).psuHoldActive = s.psuHoldActive := by
  unfold arm; first | rfl | simp [level]

@[simp] theorem arm_tPsuHoldOff (s : RelaysModule) (now : Nat) :
    (s.arm now).tPsuHoldOff = s.tPsuHoldOff := by
  unfold arm; first | rfl | simp [level]

@[simp] theorem arm_pinFwd (s : RelaysModule) (now : Nat) :
    (s.arm now).pinFwd = (if s.want = MotionState.OPENING then s.level true else s.level false) := by
  unfold arm; first | rfl | simp [level]

@[simp] theorem arm_pinRev (s : RelaysModule) (now : Nat) :
    (s.arm now).pinRev = (if s.want = MotionState.CLOSING then s.level true else s.level false) := by
  unfold arm; first | rfl | simp [level]

@[simp] theorem arm_pinPsu (s : RelaysModule) (now : Nat) :
    (s.arm now).pinPsu = s.pinPsu := by
  unfold arm; first | rfl | simp [level]

@[simp] theorem arm_pinEn (s : RelaysModule) (now : Nat) :
    (s.arm now).pinEn = (if s.enableOn = true then s.level false else s.pinEn) := by
  unfold arm; first | rfl | simp [level]

@[simp] theorem engage_activeLow (s : RelaysModule) :
    (s.engage).activeLow = s.activeLow := by
  rfl

@[simp] theorem engage_psuOn (s : RelaysModule) :
    (s.engage).psuOn = s.psuOn := by
  rfl

@[simp] theorem engage_enableOn (s : RelaysModule) :
    (s.engage).enableOn = true := by
  rfl

@[simp] theorem engage_cur (s : RelaysModule) :
    (s.engage).cur = s.latchedDrive := by
  rfl

@[simp] theorem engage_want (s : RelaysModule) :
    (s.engage).want = s.want := by
  rfl

@[simp] theorem engage_latchedDrive (s : RelaysModule) :
    (s.engage).latchedDrive = s.latchedDrive := by
  rfl

@[simp] theorem engage_tChangeAllowed (s : RelaysModule) :
    (s.engage).tChangeAllowed = s.tChangeAllowed := by
  rfl

@[simp] theorem engage_tPsuReady (s : RelaysModule) :
    (s.engage).tPsuReady = s.tPsuReady := by
  rfl

@[simp] theorem engage_tEnableReady (s : RelaysModule) :
    (s.engage).tEnableReady = s.tEnableReady := by
  rfl

@[simp] theorem engage_deadMs (s : RelaysModule) :
    (s.engage).deadMs = s.deadMs := by
  rfl

@[simp] theorem engage_psuSpinMs (s : RelaysModule) :
    (s.engage).psuSpinMs = s.psuSpinMs := by
  rfl

@[simp] theorem engage_psuHoldActive (s : RelaysModule) :
    (s.engage).psuHoldActive = s.psuHoldActive := by
  rfl

@[simp] theorem engage_tPsuHoldOff (s : RelaysModule) :
    (s.engage).tPsuHoldOff = s.tPsuHoldOff := by
  rfl

@[simp] theorem engage_pinFwd (s : RelaysModule) :
    (s.engage).pinFwd = s.pinFwd := by
  rfl

@[simp] theorem engage_pinRev (s : RelaysModule) :
    (s.engage).pinRev = s.pinRev := by
  rfl

@[simp] theorem engage_pinPsu (s : RelaysModule) :
    (s.engage).pinPsu = s.pinPsu := by
  rfl

@[simp] theorem engage_pinEn (s : RelaysModule) :
    (s.engage).pinEn = s.level true := by
  rfl

@[simp] theorem request_activeLow (s : RelaysModule) (w : MotionState) (t : Nat) :
    (s.request w t).activeLow = s.activeLow := by
  unfold request active; dsimp only; split_ifs <;> first | rfl | simp_all [level, active]

@[simp] theorem request_psuOn (s : RelaysModule) (w : MotionState) (t : Nat) :
    (s.request w t).psuOn = s.psuOn := by
  unfold request active; dsimp only; split_ifs <;> first | rfl | simp_all [level, active]

@[simp] theorem request_enableOn (s : RelaysModule) (w : MotionState) (t : Nat) :
    (s.request w t).enableOn = (if w ≠ MotionState.IDLE ∧ s.active ≠ MotionState.IDLE ∧ w ≠ s.active then false else s.enableOn) := by
  unfold request active; dsimp only; split_ifs <;> first | rfl | simp_all [level, active]

@[simp] theorem request_cur (s : RelaysModule) (w : MotionState) (t : Nat) :
    (s.request w t).cur = (if w ≠ MotionState.IDLE ∧ s.active ≠ MotionState.IDLE ∧ w ≠ s.active then MotionState.IDLE else s.cur) := by
  unfold request active; dsimp only; split_ifs <;> first | rfl | simp_all [level, active]

@[simp] theorem request_want (s : RelaysModule) (w : MotionState) (t : Nat) :
    (s.request w t).want = w := by
  unfold request; dsimp only

@[simp] theorem request_latchedDrive (s : RelaysModule) (w : MotionState) (t : Nat) :
    (s.request w t).latchedDrive = (if w ≠ MotionState.IDLE ∧ s.active ≠ MotionState.IDLE ∧ w ≠ s.active then MotionState.IDLE else s.latchedDrive) := by
  unfold request active; dsimp only; split_ifs <;> first | rfl | simp_all [level, active]

@[simp] theorem request_tChangeAllowed (s : RelaysModule) (w : MotionState) (t : Nat) :
    (s.request w t).tChangeAllowed = (if w ≠ MotionState.IDLE ∧ s.active ≠ MotionState.IDLE ∧ w ≠ s.active then addU32 t s.deadMs else s.tChangeAllowed) := by
  unfold request active; dsimp only; split_ifs <;> first | rfl | simp_all [level, active]

@[simp] theorem request_tPsuReady (s : RelaysModule) (w : MotionState) (t : Nat) :
    (s.request w t).tPsuReady = s.tPsuReady := by
  unfold request active; dsimp only; split_ifs <;> first | rfl | simp_all [level, active]

@[simp] theorem request_tEnableReady (s : RelaysModule) (w : MotionState) (t : Nat) :
    (s.request w t).tEnableReady = (if w ≠ MotionState.IDLE ∧ s.active ≠ MotionState.IDLE ∧ w ≠ s.active then 0 else s.tEnableReady) := by
  unfold request active; dsimp only; split_ifs <;> first | rfl | simp_all [level, active]

@[simp] theorem request_deadMs (s : RelaysModule) (w : MotionState) (t : Nat) :
    (s.request w t).deadMs = s.deadMs := by
  unfold request active; dsimp only; split_ifs <;> first | rfl | simp_all [level, active]

@[simp] theorem request_psuSpinMs (s : RelaysModule) (w : MotionState) (t : Nat) :
    (s.request w t).psuSpinMs = s.psuSpinMs := by
  unfold request active; dsimp only; split_ifs <;> first | rfl | simp_all [level, active]

@[simp] theorem request_psuHoldActive (s : RelaysModule) (w : MotionState) (t : Nat) :
    (s.request w t).psuHoldActive = (if w ≠ MotionState.IDLE then false else s.psuHoldActive) := by
  unfold request active; dsimp only; split_ifs <;> first | rfl | simp_all [level, active]

@[simp] theorem request_tPsuHoldOff (s : RelaysModule) (w : MotionState) (t : Nat) :
    (s.request w t).tPsuHoldOff = s.tPsuHoldOff := by
  unfold request active; dsimp only; split_ifs <;> first | rfl | simp_all [level, active]

@[simp] theorem request_pinFwd (s : RelaysModule) (w : MotionState) (t : Nat) :
    (s.request w t).pinFwd = (if w ≠ MotionState.IDLE ∧ s.active ≠ MotionState.IDLE ∧ w ≠ s.active then s.level false else s.pinFwd) := by
  unfold request active; dsimp only; split_ifs <;> first | rfl | simp_all [level, active]

@[simp] theorem request_pinRev (s : RelaysModule) (w : MotionState) (t : Nat) :
    (s.request w t).pinRev = (if w ≠ MotionState.IDLE ∧ s.active ≠ MotionState.IDLE ∧ w ≠ s.active then s.level false else s.pinRev) := by
  unfold request active; dsimp only; split_ifs <;> first | rfl | simp_all [level, active]

@[simp] theorem request_pinPsu (s : RelaysModule) (w : MotionState) (t : Nat) :
    (s.request w t).pinPsu = s.pinPsu := by
  unfold request active; dsimp only; split_ifs <;> first | rfl | simp_all [level, active]

@[simp] theorem request_pinEn (s : RelaysModule) (w : MotionState) (t : Nat) :
    (s.request w t).pinEn = (if w ≠ MotionState.IDLE ∧ s.active ≠ MotionState.IDLE ∧ w ≠ s.active then s.level false else s.pinEn) := by
  unfold request active; dsimp only; split_ifs <;> first | rfl | simp_all [level, active]

@[simp] theorem emergencyPanicOff_activeLow (s : RelaysModule) :
    (s.emergencyPanicOff).activeLow = s.activeLow := by
  rfl

@[simp] theorem emergencyPanicOff_psuOn (s : RelaysModule) :
    (s.emergencyPanicOff).psuOn = false := by
  rfl

@[simp] theorem emergencyPanicOff_enableOn (s : RelaysModule) :
    (s.emergencyPanicOff).enableOn = false := by
  rfl

@[simp] theorem emergencyPanicOff_cur (s : RelaysModule) :
    (s.emergencyPanicOff).cur = MotionState.IDLE := by
  rfl

@[simp] theorem emergencyPanicOff_want (s : RelaysModule) :
    (s.emergencyPanicOff).want = MotionState.IDLE := by
  rfl

@[simp] theorem emergencyPanicOff_latchedDrive (s : RelaysModule) :
    (s.emergencyPanicOff).latchedDrive = MotionState.IDLE := by
  rfl

@[simp] theorem emergencyPanicOff_tChangeAllowed (s : RelaysModule) :
    (s.emergencyPanicOff).tChangeAllowed = s.tChangeAllowed := by
  rfl

@[simp] theorem emergencyPanicOff_tPsuReady (s : RelaysModule) :
    (s.emergencyPanicOff).tPsuReady = s.tPsuReady := by
  rfl

@[simp] theorem emergencyPanicOff_tEnableReady (s : RelaysModule) :
    (s.emergencyPanicOff).tEnableReady = 0 := by
  rfl

@[simp] theorem emergencyPanicOff_deadMs (s : RelaysModule) :
    (s.emergencyPanicOff).deadMs = s.deadMs := by
  rfl

@[simp] theorem emergencyPanicOff_psuSpinMs (s : RelaysModule) :
    (s.emergencyPanicOff).psuSpinMs = s.psuSpinMs := by
  rfl

@[simp] theorem emergencyPanicOff_psuHoldActive (s : RelaysModule) :
    (s.emergencyPanicOff).psuHoldActive = false := by
  rfl

@[simp] theorem emergencyPanicOff_tPsuHoldOff (s : RelaysModule) :
    (s.emergencyPanicOff).tPsuHoldOff = s.tPsuHoldOff := by
  rfl

@[simp] theorem emergencyPanicOff_pinFwd (s : RelaysModule) :
    (s.emergencyPanicOff).pinFwd = s.level false := by
  rfl

@[simp] theorem emergencyPanicOff_pinRev (s : RelaysModule) :
    (s.emergencyPanicOff).pinRev = s.level false := by
  rfl

@[simp] theorem emergencyPanicOff_pinPsu (s : RelaysModule) :
    (s.emergencyPanicOff).pinPsu = s.level false := by
  rfl

@[simp] theorem emergencyPanicOff_pinEn (s : RelaysModule) :
    (s.emergencyPanicOff).pinEn = s.level false := by
  rfl

/-! ### Fields that `update` never writes -/

@[simp] theorem update_activeLow (s : RelaysModule) (now : Nat) :
    (s.update now).activeLow = s.activeLow := by
  unfold update; split_ifs <;> simp [updateIdle]

@[simp] theorem update_deadMs (s : RelaysModule) (now : Nat) :
    (s.update now).deadMs = s.deadMs := by
  unfold update; split_ifs <;> simp [updateIdle]

@[simp] theorem update_psuSpinMs (s : RelaysModule) (now : Nat) :
    (s.update now).psuSpinMs = s.psuSpinMs := by
  unfold update; split_ifs <;> simp [updateIdle]

@[simp] theorem update_tChangeAllowed (s : RelaysModule) (now : Nat) :
    (s.update now).tChangeAllowed = s.tChangeAllowed := by
  unfold update; split_ifs <;> simp [updateIdle]

@[simp] theorem update_want (s : RelaysModule) (now : Nat) :
    (s.update now).want = s.want := by
  unfold update; split_ifs <;> simp [updateIdle]

/-! ### Relay read-back -/

@[simp] theorem energized_level (s : RelaysModule) (b : Bool) :
    (if s.activeLow = true then !(s.level b) else s.level b) = b := by
  unfold level; cases s.activeLow <;> simp

theorem enRelayOn_update_cases (s : RelaysModule) (now : Nat)
    (hoff : s.enRelayOn = false) (hon : (s.update now).enRelayOn = true) :
    s.want ≠ MotionState.IDLE ∧ ¬ now < s.tChangeAllowed ∧ s.psuOn = true ∧
      ¬ now < s.tPsuReady ∧ s.latchedDrive = s.want ∧ s.enableOn = false ∧
      ¬ now < s.tEnableReady := by
  unfold enRelayOn energized at hoff hon
  unfold update at hon
  split_ifs at hon <;> simp_all [updateIdle, level]

theorem enRelayOn_request (s : RelaysModule) (w : MotionState) (t : Nat)
    (hoff : s.enRelayOn = false) : (s.request w t).enRelayOn = false := by
  unfold enRelayOn energized at hoff ⊢
  simp only [request_activeLow, request_pinEn]
  split_ifs <;> simp_all [level]

end RelaysModule

namespace RelayCall

theorem monotoneFrom_le : ∀ (cs : List RelayCall) (t0 : Nat) (c : RelayCall),
    monotoneFrom t0 (cs ++ [c]) → t0 ≤ c.time
  | [], _, _, h => h.1
  | x :: xs, _, c, h => le_trans h.1 (monotoneFrom_le xs x.time c h.2)

/-- Along a run after a reversal at `t1`, the dead-time deadline never moves
before `t1 + deadMs`, as long as no deadline wraps around `2^32`. -/
theorem run_deadline : ∀ (cs : List RelayCall) (s : RelaysModule) (t0 T tmax : Nat),
    monotoneFrom t0 cs → (∀ x ∈ cs, x.time ≤ tmax) → tmax + s.deadMs < U32 →
    T ≤ t0 + s.deadMs → T ≤ s.tChangeAllowed →
    T ≤ (run s cs).tChangeAllowed ∧ (run s cs).deadMs = s.deadMs
  | [], s, _, _, _, _, _, _, _, h => ⟨h, rfl⟩
  | x :: xs, s, t0, T, tmax, hm, hmax, hw, hT, h => by
    have hx : x.time ≤ tmax := hmax x (List.mem_cons_self _ _)
    have hd : (apply s x).deadMs = s.deadMs := by cases x <;> simp [apply]
    have hstep : T ≤ (apply s x).tChangeAllowed := by
      cases x with
      | request w t =>
        simp only [apply, RelaysModule.request_tChangeAllowed]
        have ht : t0 ≤ t := hm.1
        have : t ≤ tmax := hx
        split_ifs
        · rw [RelaysModule.addU32_eq _ _ (by omega)]; omega
        · exact h
      | update t => simpa [apply] using h
    have hrec := run_deadline xs (apply s x) x.time T tmax hm.2
      (fun y hy => hmax y (List.mem_cons_of_mem _ hy)) (by rw [hd]; exact hw)
      (by rw [hd]; have := hm.1; omega) hstep
    rw [hd] at hrec
    simpa [run] using hrec

theorem monotoneFrom_init : ∀ (cs : List RelayCall) (t0 : Nat) (c : RelayCall),
    monotoneFrom t0 (cs ++ [c]) → monotoneFrom t0 cs ∧ ∀ x ∈ cs, x.time ≤ c.time
  | [], _, _, _ => ⟨trivial, fun _ hx => by cases hx⟩
  | x :: xs, _, c, h => by
    have ih := monotoneFrom_init xs x.time c h.2
    have hx : x.time ≤ c.time := monotoneFrom_le xs x.time c h.2
    refine ⟨⟨h.1, ih.1⟩, ?_⟩
    intro y hy
    rcases List.mem_cons.mp hy with rfl | hy
    · exact hx
    · exact ih.2 y hy


end RelayCall

/-! ## Dead-time on reversal -/

namespace RelayCall

/-- C1 (as stated, refuted). With an Idle request between the two directions the
dead-time is not kept: from `begin(true, 1000, 2000)` the enable relay opens at
5000 ms (Opening) and closes again for Closing at 5205 ms, 205 ms later, with
`deadMs = 1000`. -/
theorem C1_idle_gap_breaks_dead_time :
    ¬ DeadTimeKept (RelaysModule.begin true 1000 2000) idleGapTrace := by
  intro h
  have h1 := h 5 8 (by decide) (by decide) (by decide) (by decide)
    (by intro k h1 h2; interval_cases k <;> decide) (by decide) (by decide) (by decide)
  exact absurd h1 (by decide)

/-- C1 (amended). When `request(d)` reverses a driven or latched direction at
time `t1`, the enable relay is open after the call, and whatever requests and
updates follow under a non-decreasing clock (Idle requests included), a call
that closes the enable relay again has a time of at least `t1 + deadMs`,
provided the deadline does not wrap around the 32-bit millisecond counter. -/
theorem C1_dead_time_after_direct_reversal (s : RelaysModule) (d : MotionState) (t1 : Nat)
    (cs : List RelayCall) (c : RelayCall)
    (hd : d ≠ MotionState.IDLE) (ha : s.active ≠ MotionState.IDLE) (hda : d ≠ s.active)
    (hmono : monotoneFrom t1 (cs ++ [c])) (hwrap : c.time + s.deadMs < U32)
    (hoff : (run (s.request d t1) cs).enRelayOn = false)
    (hon : (apply (run (s.request d t1) cs) c).enRelayOn = true) :
    (s.request d t1).enRelayOn = false ∧ t1 + s.deadMs ≤ c.time := by
  have ht1 : t1 ≤ c.time := monotoneFrom_le cs t1 c hmono
  constructor
  · unfold RelaysModule.enRelayOn RelaysModule.energized
    simp [hd, ha, hda]
  · have hm : monotoneFrom t1 cs ∧ ∀ x ∈ cs, x.time ≤ c.time := monotoneFrom_init cs t1 c hmono
    have hdl : (s.request d t1).tChangeAllowed = t1 + s.deadMs := by
      simp only [RelaysModule.request_tChangeAllowed, hd, ha, hda, ne_eq, not_false_eq_true,
        and_self, if_true]
      exact RelaysModule.addU32_eq _ _ (by omega)
    have hinv := run_deadline cs (s.request d t1) t1 (t1 + s.deadMs) c.time hm.1 hm.2
      (by simpa using hwrap) (by simp) (by rw [hdl])
    cases c with
    | request w t => rw [apply, RelaysModule.enRelayOn_request _ _ _ hoff] at hon; cases hon
    | update t =>
      have hc := RelaysModule.enRelayOn_update_cases _ t hoff hon
      have := hc.2.1
      simp only [time] at *
      omega

/-- C1 (amended), instance: Closing requested at 5000 ms while Opening is driven;
the enable relay closes again at 6200 ms. -/
theorem C1_dead_time_after_direct_reversal_witness :
    (drivingOpening.request MotionState.CLOSING 5000).enRelayOn = false ∧
      5000 + drivingOpening.deadMs ≤ (RelayCall.update 6200).time :=
  C1_dead_time_after_direct_reversal drivingOpening MotionState.CLOSING 5000
    [RelayCall.update 5500, RelayCall.update 6000] (RelayCall.update 6200)
    (by decide) (by decide) (by decide) (by decide) (by decide) (by decide) (by decide)

end RelayCall

/-! ### The reversing request and its deadline -/

namespace RelaysModule

/-- A reversing `request` opens the enable relay and both direction relays at
once, reports Idle, leaves the power relay alone and sets the dead-time
deadline to the wrapped sum `millis() + deadMs`. -/
theorem request_reversal (s : RelaysModule) (d : MotionState) (t : Nat)
    (hd : d ≠ MotionState.IDLE) (ha : s.active ≠ MotionState.IDLE) (hda : d ≠ s.active) :
    (s.request d t).fwdOn = false ∧ (s.request d t).revOn = false ∧
      (s.request d t).enRelayOn = false ∧ (s.request d t).current = MotionState.IDLE ∧
      (s.request d t).psuRelayOn = s.psuRelayOn ∧ (s.request d t).psuOn = s.psuOn ∧
      (s.request d t).tChangeAllowed = addU32 t s.deadMs := by
  unfold fwdOn revOn enRelayOn psuRelayOn current energized
  simp [hd, ha, hda]

/-- While the clock is below the stored deadline, `update` energizes neither a
direction relay nor the enable relay. -/
theorem update_before_deadline (s : RelaysModule) (now : Nat) (h : now < s.tChangeAllowed) :
    ((s.update now).fwdOn = true → s.fwdOn = true) ∧
      ((s.update now).revOn = true → s.revOn = true) ∧
      ((s.update now).enRelayOn = true → s.enRelayOn = true) := by
  unfold fwdOn revOn enRelayOn energized update
  by_cases hw : s.want = MotionState.IDLE
  · simp only [hw, if_true, updateIdle]
    cases hal : s.activeLow <;> simp [level, hal]
  · simp only [hw, if_false, h, if_true]
    cases hal : s.activeLow <;> simp [level, hal]

end RelaysModule

namespace RelayCall

/-- C2 (code at the failing input). Opening is driven and Closing is requested at
`t = 4294967000` with `deadMs = 1000`: the request stops everything, but the
deadline `t + deadMs` wraps to 704, so the update one millisecond later already
energizes the reverse relay and the update at `t + 201` closes the enable relay
for Closing, both earlier than `t + deadMs`. -/
theorem C2_deadline_wraps :
    drivingNearWrap.current = MotionState.OPENING ∧ drivingNearWrap.enRelayOn = true ∧
    (drivingNearWrap.request MotionState.CLOSING 4294967000).tChangeAllowed = 704 ∧
    (drivingNearWrap.request MotionState.CLOSING 4294967000).revOn = false ∧
    ((drivingNearWrap.request MotionState.CLOSING 4294967000).update 4294967001).revOn = true ∧
    (((drivingNearWrap.request MotionState.CLOSING 4294967000).update 4294967001).update
        4294967201).enRelayOn = true ∧
    (((drivingNearWrap.request MotionState.CLOSING 4294967000).update 4294967001).update
        4294967201).current = MotionState.CLOSING := by
  decide

end RelayCall

/-! ## Lemmas on the control loop -/

namespace Controller

@[simp] theorem resetSafetyRuntime_clicks (c : Controller) (now : Nat) :
    (c.resetSafetyRuntime now).clicks = c.clicks := rfl

@[simp] theorem clearHaDesiredLocal_clicks (c : Controller) :
    (c.clearHaDesiredLocal).clicks = c.clicks := rfl

@[simp] theorem manualStep_clicks (c : Controller) (src : CommandSource) (now : Nat) :
    (c.manualStep src now).clicks = c.clicks := by
  unfold manualStep; split_ifs <;> rfl

@[simp] theorem manualStep_setModeActive (c : Controller) (src : CommandSource) (now : Nat) :
    (c.manualStep src now).setModeActive = c.setModeActive := by
  unfold manualStep; split_ifs <;> rfl

@[simp] theorem openLimitStep_clicks (c : Controller) (src : CommandSource) (t : MotionState)
    (now : Nat) : (c.openLimitStep src t now).1.clicks = c.clicks := by
  unfold openLimitStep; dsimp only; split_ifs <;> rfl

@[simp] theorem closeLimitStep_clicks (c : Controller) (src : CommandSource) (t : MotionState)
    (now : Nat) : (c.closeLimitStep src t now).1.clicks = c.clicks := by
  unfold closeLimitStep; dsimp only; split_ifs <;> rfl

@[simp] theorem limitStep_clicks (c : Controller) (src : CommandSource) (t : MotionState)
    (now : Nat) : (c.limitStep src t now).1.clicks = c.clicks := by
  unfold limitStep; dsimp only; split_ifs <;> simp

@[simp] theorem consumeStep_clicks (c : Controller) (src : CommandSource) :
    (c.consumeStep src).clicks = c.clicks := by
  unfold consumeStep; split_ifs <;> rfl

@[simp] theorem arbitrate_clicks (c : Controller) (now : Nat) :
    (c.arbitrate now).clicks = c.clicks := by
  unfold arbitrate; simp

theorem openLimitStep_target (c : Controller) (src : CommandSource) (t : MotionState)
    (now : Nat) :
    (c.openLimitStep src t now).2 =
      if t = MotionState.OPENING ∧ c.clicks.canOpen = false then MotionState.IDLE else t := by
  unfold openLimitStep; dsimp only; split_ifs <;> simp_all

theorem closeLimitStep_target (c : Controller) (src : CommandSource) (t : MotionState)
    (now : Nat) :
    (c.closeLimitStep src t now).2 =
      if t = MotionState.CLOSING ∧ c.clicks.canClose = false then MotionState.IDLE else t := by
  unfold closeLimitStep; dsimp only; split_ifs <;> simp_all

/-- Outside calibration mode the veto turns a target that runs into a travel
limit into Idle and leaves every other target alone. -/
theorem limitStep_target (c : Controller) (src : CommandSource) (t : MotionState) (now : Nat)
    (h : c.setModeActive = false) :
    (c.limitStep src t now).2 =
      if (t = MotionState.OPENING ∧ c.clicks.canOpen = false) ∨
          (t = MotionState.CLOSING ∧ c.clicks.canClose = false) then MotionState.IDLE
      else t := by
  unfold limitStep
  simp only [h, Bool.not_false, if_true, closeLimitStep_target, openLimitStep_target,
    openLimitStep_clicks]
  cases t <;> cases c.clicks.canOpen <;> cases c.clicks.canClose <;> simp

theorem arbitrate_commandedMotion (c : Controller) (now : Nat) :
    (c.arbitrate now).commandedMotion =
      ((c.manualStep c.selectCommand.1 now).limitStep c.selectCommand.1 c.selectCommand.2
        now).2 := by
  unfold arbitrate; rfl

@[simp] theorem driveRelays_want (c : Controller) (now : Nat) :
    (c.driveRelays now).relays.want = c.commandedMotion := by
  unfold driveRelays; simp

@[simp] theorem driveRelays_clicks (c : Controller) (now : Nat) :
    (c.driveRelays now).clicks = c.clicks := rfl

/-- C3. In a pass of `loop()` whose veto runs outside calibration mode, the
direction passed to the driver is the vetoed target; it is not Opening when
`canOpen()` is false (position <= 0) and not Closing when `canClose()` is false
(position >= end): a selected Opening or Closing is then replaced by Idle.  The
tracker is not touched between the check and the request.  With end = 200,
Closing is passed at position 100 and Idle at position 200. -/
theorem C3_travel_limit_veto (c : Controller) (i : CycleInput)
    (hset : (c.preArbitration i).setModeActive = false) :
    (c.commandPhase i).relays.want = ((c.preArbitration i).arbitrate i.now).commandedMotion ∧
    (c.commandPhase i).clicks = (c.preArbitration i).clicks ∧
    ((c.preArbitration i).clicks.canOpen = false ↔ (c.preArbitration i).clicks.position ≤ 0) ∧
    ((c.preArbitration i).clicks.canClose = false ↔
      (c.preArbitration i).clicks.endOf ≤ (c.preArbitration i).clicks.position) ∧
    ((c.preArbitration i).clicks.canOpen = false →
      (c.commandPhase i).relays.want ≠ MotionState.OPENING ∧
      ((c.preArbitration i).selectCommand.2 = MotionState.OPENING →
        (c.commandPhase i).relays.want = MotionState.IDLE)) ∧
    ((c.preArbitration i).clicks.canClose = false →
      (c.commandPhase i).relays.want ≠ MotionState.CLOSING ∧
      ((c.preArbitration i).selectCommand.2 = MotionState.CLOSING →
        (c.commandPhase i).relays.want = MotionState.IDLE)) ∧
    ((closingAskedAt 100).commandPhase (quietInput 1000)).relays.want = MotionState.CLOSING ∧
    ((closingAskedAt 200).commandPhase (quietInput 1000)).relays.want = MotionState.IDLE := by
  have htgt : ∀ t : Nat, ((c.preArbitration i).arbitrate t).commandedMotion =
      if ((c.preArbitration i).selectCommand.2 = MotionState.OPENING ∧
            (c.preArbitration i).clicks.canOpen = false) ∨
          ((c.preArbitration i).selectCommand.2 = MotionState.CLOSING ∧
            (c.preArbitration i).clicks.canClose = false) then MotionState.IDLE
      else (c.preArbitration i).selectCommand.2 := by
    intro t
    have h := limitStep_target
      ((c.preArbitration i).manualStep (c.preArbitration i).selectCommand.1 t)
      (c.preArbitration i).selectCommand.1 (c.preArbitration i).selectCommand.2 t
      (by simpa using hset)
    rw [manualStep_clicks] at h
    rw [arbitrate_commandedMotion]
    exact h
  have hw : (c.commandPhase i).relays.want =
      ((c.preArbitration i).arbitrate i.now).commandedMotion := by
    rw [htgt i.now, ← htgt i.resetMillis]
    unfold commandPhase; simp
  have ht := htgt i.now
  rw [← hw] at ht
  refine ⟨hw, by unfold commandPhase; simp, ?_, ?_, ?_, ?_, by decide, by decide⟩
  · simp [ClickCounter.canOpen, ClickCounter.position]
  · simp [ClickCounter.canClose, ClickCounter.position, ClickCounter.endOf]
  · intro ho
    rw [ht]
    constructor
    · split_ifs <;> simp_all
    · intro h; simp [h, ho]
  · intro hc
    rw [ht]
    constructor
    · split_ifs <;> simp_all
    · intro h; simp [h, hc]

/-- C3, instance: the pass at position 200 with span 200 and Closing asked. -/
theorem C3_travel_limit_veto_witness :
    ((closingAskedAt 200).commandPhase (quietInput 1000)).relays.want ≠ MotionState.CLOSING :=
  ((C3_travel_limit_veto (closingAskedAt 200) (quietInput 1000) (by decide)).2.2.2.2.2.1
    (by decide)).1

end Controller

namespace Controller

/-! ### What the command part of a pass leaves alone -/

theorem analogStep_quietView (c : Controller) (raw : MotionState) :
    quietView (c.analogStep raw) = quietView c := by
  unfold analogStep; dsimp only; split_ifs <;> rfl

theorem enterSetMode_quietView (c : Controller) (now : Nat) :
    quietView (c.enterSetMode now) = quietView c := by
  unfold enterSetMode; dsimp only; split_ifs <;> rfl

theorem exitSetMode_quietView (c : Controller) (now : Nat) :
    quietView (c.exitSetMode now) = quietView c := by
  unfold exitSetMode; dsimp only; split_ifs <;> rfl

theorem toggleSimulationMode_quietView (c : Controller) (now : Nat) (pinLow : Bool) :
    quietView (c.toggleSimulationMode now pinLow) = quietView c := by
  unfold toggleSimulationMode applySimulationMode resetMqttSetModeStreak
  split_ifs <;> rfl

theorem handleHaCommand_quietView (c : Controller) (cmd : HaCommand) (now : Nat)
    (pinLow : Bool) : quietView (c.handleHaCommand cmd now pinLow) = quietView c := by
  cases cmd with
  | setOpenHere => rfl
  | setClosedHere => rfl
  | enterSetMode =>
    simp only [handleHaCommand, enterSetMode_quietView]
    split_ifs
    · rw [toggleSimulationMode_quietView]; rfl
    · rfl
    · rfl
  | exitSetMode => simp only [handleHaCommand, exitSetMode_quietView]; rfl
  | other => rfl

theorem foldl_handle_quietView (now : Nat) (pinLow : Bool) :
    ∀ (q : List HaCommand) (c : Controller),
      quietView (q.foldl (fun a cmd => a.handleHaCommand cmd now pinLow) c) = quietView c
  | [], _ => rfl
  | cmd :: q, c => by
    rw [List.foldl_cons, foldl_handle_quietView now pinLow q, handleHaCommand_quietView]

theorem processHaCommands_quietView (c : Controller) (now : Nat) (pinLow : Bool) :
    quietView (c.processHaCommands now pinLow) = quietView c := by
  unfold processHaCommands; rw [foldl_handle_quietView]; rfl

theorem haStep_quietView (c : Controller) : quietView c.haStep = quietView c := by
  unfold haStep; dsimp only; split_ifs <;> rfl

theorem manualStep_quietView (c : Controller) (src : CommandSource) (now : Nat) :
    quietView (c.manualStep src now) = quietView c := by
  unfold manualStep; dsimp only; split_ifs <;> rfl

theorem openLimitStep_quietView (c : Controller) (src : CommandSource) (t : MotionState)
    (now : Nat) : quietView (c.openLimitStep src t now).1 = quietView c := by
  unfold openLimitStep; dsimp only; split_ifs <;> rfl

theorem closeLimitStep_quietView (c : Controller) (src : CommandSource) (t : MotionState)
    (now : Nat) : quietView (c.closeLimitStep src t now).1 = quietView c := by
  unfold closeLimitStep; dsimp only; split_ifs <;> rfl

theorem limitStep_quietView (c : Controller) (src : CommandSource) (t : MotionState)
    (now : Nat) : quietView (c.limitStep src t now).1 = quietView c := by
  unfold limitStep
  split_ifs
  · dsimp only; rw [closeLimitStep_quietView, openLimitStep_quietView]
  · rfl

theorem consumeStep_quietView (c : Controller) (src : CommandSource) :
    quietView (c.consumeStep src) = quietView c := by
  unfold consumeStep; dsimp only; split_ifs <;> rfl

theorem arbitrate_quietView (c : Controller) (now : Nat) :
    quietView (c.arbitrate now) = quietView c := by
  have h : quietView (c.arbitrate now) = quietView
      ((((c.manualStep c.selectCommand.1 now).limitStep c.selectCommand.1 c.selectCommand.2
        now).1).consumeStep c.selectCommand.1) := rfl
  rw [h, consumeStep_quietView, limitStep_quietView, manualStep_quietView]

/-- The command part of a pass writes neither the state of the no-movement
guard, nor `driveActive`, `lastRelay`, the panic log or the configured limit. -/
theorem commandPhase_quietView (c : Controller) (i : CycleInput) :
    quietView (c.commandPhase i) = quietView c := by
  have h : quietView (c.commandPhase i) = quietView ((c.preArbitration i).arbitrate i.resetMillis) := rfl
  rw [h, arbitrate_quietView]
  unfold preArbitration
  rw [haStep_quietView, processHaCommands_quietView, analogStep_quietView]

theorem commandPhase_stallView (c : Controller) (i : CycleInput) :
    stallView (c.commandPhase i) = stallView c := by
  have h := commandPhase_quietView c i
  have e1 := congrArg (·.1) h
  have e2 := congrArg (·.2.1) h
  have e3 := congrArg (·.2.2.1) h
  have e4 := congrArg (·.2.2.2.1) h
  have e5 := congrArg (·.2.2.2.2.1) h
  simp only [quietView] at e1 e2 e3 e4 e5
  unfold stallView
  rw [e1, e2, e3, e4, e5]

/-- The command part of a pass raises no panic. -/
theorem commandPhase_panicLog (c : Controller) (i : CycleInput) :
    (c.commandPhase i).panicLog = c.panicLog :=
  congrArg (·.2.2.2.2.2.1) (commandPhase_quietView c i)

theorem commandPhase_maxRun (c : Controller) (i : CycleInput) :
    (c.commandPhase i).safetyMaxRunSeconds = c.safetyMaxRunSeconds :=
  congrArg (·.2.2.2.2.2.2) (commandPhase_quietView c i)

end Controller

/-! ### The panic latch -/

namespace Controller

theorem selectCommand_panic (c : Controller) (h : c.panicLatched = true) :
    c.selectCommand = (CommandSource.NONE, MotionState.IDLE) := by
  unfold selectCommand; simp [h]

theorem limitStep_idle (c : Controller) (src : CommandSource) (now : Nat) :
    (c.limitStep src MotionState.IDLE now).2 = MotionState.IDLE := by
  unfold limitStep
  split_ifs
  · simp [closeLimitStep_target, openLimitStep_target]
  · rfl

/-- With the panic latched at arbitration, the commanded motion is Idle. -/
theorem arbitrate_panic (c : Controller) (now : Nat) (h : c.panicLatched = true) :
    (c.arbitrate now).commandedMotion = MotionState.IDLE := by
  rw [arbitrate_commandedMotion, selectCommand_panic c h]
  exact limitStep_idle _ _ _

@[simp] theorem analogStep_panicLatched (c : Controller) (raw : MotionState) :
    (c.analogStep raw).panicLatched = c.panicLatched := by
  unfold analogStep; dsimp only; split_ifs <;> rfl

@[simp] theorem haStep_panicLatched (c : Controller) :
    (c.haStep).panicLatched = c.panicLatched := by
  unfold haStep; dsimp only; split_ifs <;> rfl

theorem handleHaCommand_panicLatched (c : Controller) (cmd : HaCommand) (now : Nat)
    (pinLow : Bool) (h : cmd ≠ HaCommand.enterSetMode) :
    (c.handleHaCommand cmd now pinLow).panicLatched = c.panicLatched := by
  cases cmd with
  | enterSetMode => exact absurd rfl h
  | exitSetMode =>
    simp only [handleHaCommand, exitSetMode, resetMqttSetModeStreak, clearHaDesiredLocal]
    split_ifs <;> rfl
  | setOpenHere => rfl
  | setClosedHere => rfl
  | other => rfl

theorem foldl_handle_panicLatched (now : Nat) (pinLow : Bool) :
    ∀ (q : List HaCommand) (c : Controller), HaCommand.enterSetMode ∉ q →
      (q.foldl (fun a cmd => a.handleHaCommand cmd now pinLow) c).panicLatched = c.panicLatched
  | [], _, _ => rfl
  | cmd :: q, c, h => by
    have h1 : cmd ≠ HaCommand.enterSetMode := fun e => h (e ▸ List.mem_cons_self _ _)
    have h2 : HaCommand.enterSetMode ∉ q := fun e => h (List.mem_cons_of_mem _ e)
    rw [List.foldl_cons, foldl_handle_panicLatched now pinLow q _ h2,
      handleHaCommand_panicLatched c cmd now pinLow h1]

/-- As long as no `enter_set_mode` command is pending, a latched panic is still
latched when the pass reaches the arbitration. -/
theorem preArbitration_panicLatched (c : Controller) (i : CycleInput)
    (hq : HaCommand.enterSetMode ∉ c.cmdQueue) :
    (c.preArbitration i).panicLatched = c.panicLatched := by
  have hq2 : (c.analogStep i.analogRaw).cmdQueue = c.cmdQueue := by
    unfold analogStep; dsimp only; split_ifs <;> rfl
  unfold preArbitration processHaCommands
  rw [haStep_panicLatched, foldl_handle_panicLatched i.now i.pinLow _ _ (by rw [hq2]; exact hq)]
  simp

/-- C4. A first `triggerPanic` latches the panic, leaves the enable relay, both
direction relays and the power relay de-energized and the automation's desired
direction Idle.  In every pass that reaches the arbitration with the panic
latched (in particular every pass that starts latched with no `enter_set_mode`
pending) the direction requested from the driver is Idle, whatever the switch
and the automation ask.  A `triggerPanic` while latched changes nothing. -/
theorem C4_panic_latches (c : Controller) (reason : PanicReason) (reboot : Bool) (now : Nat)
    (i : CycleInput) :
    (c.panicLatched = false →
      (c.triggerPanic reason reboot now).panicLatched = true ∧
      (c.triggerPanic reason reboot now).relays.enRelayOn = false ∧
      (c.triggerPanic reason reboot now).relays.fwdOn = false ∧
      (c.triggerPanic reason reboot now).relays.revOn = false ∧
      (c.triggerPanic reason reboot now).relays.psuRelayOn = false ∧
      (c.triggerPanic reason reboot now).relays.current = MotionState.IDLE ∧
      (c.triggerPanic reason reboot now).haDesired = MotionState.IDLE) ∧
    ((c.preArbitration i).panicLatched = true →
      (c.commandPhase i).relays.want = MotionState.IDLE) ∧
    (c.panicLatched = true → HaCommand.enterSetMode ∉ c.cmdQueue →
      (c.commandPhase i).relays.want = MotionState.IDLE) ∧
    (c.panicLatched = true → c.triggerPanic reason reboot now = c) := by
  have hgen : (c.preArbitration i).panicLatched = true →
      (c.commandPhase i).relays.want = MotionState.IDLE := by
    intro h
    unfold commandPhase
    rw [driveRelays_want]
    exact arbitrate_panic _ _ h
  refine ⟨?_, hgen, ?_, ?_⟩
  · intro h
    unfold triggerPanic schedulePanicReboot clearHaDesiredLocal resetMqttSetModeStreak
    simp only [h, Bool.false_eq_true, if_false]
    unfold RelaysModule.enRelayOn RelaysModule.fwdOn RelaysModule.revOn RelaysModule.psuRelayOn
      RelaysModule.current RelaysModule.energized
    cases reboot <;> simp
  · intro h hq
    exact hgen (by rw [preArbitration_panicLatched c i hq]; exact h)
  · intro h
    unfold triggerPanic
    simp [h]

/-- C4, instance: a driven cover panics; the next pass, with the switch on
Closing and the automation asking for Opening, requests Idle. -/
theorem C4_panic_latches_witness :
    (((closingAskedAt 100).triggerPanic PanicReason.maxRuntimeExceeded true 1000).commandPhase
      (pushyInput 1005)).relays.want = MotionState.IDLE :=
  (C4_panic_latches ((closingAskedAt 100).triggerPanic PanicReason.maxRuntimeExceeded true 1000)
    PanicReason.noClickAfterEnable true 1005 (pushyInput 1005)).2.2.1 (by decide) (by decide)

/-! ### The panic log through a pass -/

theorem mqttReceive_panicLog (c : Controller) (m : MqttMsg) (now : Nat) :
    (c.mqttReceive m now).panicLog = c.panicLog := by
  cases m with
  | openCover => rfl
  | closeCover => rfl
  | stop => rfl
  | command cmd => rfl
  | setMaxRuntime seconds =>
    unfold mqttReceive onMqttSetMaxRuntime persistSafetyMaxRunSeconds resetSafetyRuntime
    dsimp only
    split_ifs <;> rfl

theorem foldl_mqtt_panicLog (now : Nat) :
    ∀ (ms : List MqttMsg) (c : Controller),
      (ms.foldl (fun a m => a.mqttReceive m now) c).panicLog = c.panicLog
  | [], _ => rfl
  | m :: ms, c => by
    rw [List.foldl_cons, foldl_mqtt_panicLog now ms, mqttReceive_panicLog]

/-- Once a panic is latched in a pass, the rest of the pass after the
no-movement check adds nothing to the panic log. -/
theorem pass_tail_panicLog (c : Controller) (i : CycleInput) (h : c.panicLatched = true) :
    ((i.mqttIn.foldl (fun a m => a.mqttReceive m i.mqttMillis) (c.rangePanicCheck i.now)).rebootCheck
      i.now).panicLog = c.panicLog := by
  have h1 : c.rangePanicCheck i.now = c := by
    unfold rangePanicCheck; simp [h]
  have h2 : ∀ a : Controller, (a.rebootCheck i.now).panicLog = a.panicLog := by
    intro a; unfold rebootCheck; split_ifs <;> rfl
  rw [h2, foldl_mqtt_panicLog, h1]

theorem loop_eq (c : Controller) (i : CycleInput) :
    c.loop i =
      (i.mqttIn.foldl (fun a m => a.mqttReceive m i.mqttMillis)
        (((c.beforeNoClick i).noClickCheck i.now).rangePanicCheck i.now)).rebootCheck i.now :=
  rfl

theorem deliverIsr_stallView (c : Controller) (l : List Nat) :
    stallView (c.deliverIsr l) = stallView c := by
  unfold deliverIsr; split_ifs <;> rfl

theorem trackerPhase_frame (c : Controller) (i : CycleInput) (r : MotionState) :
    stallView (c.trackerPhase i r) = stallView c ∧ (c.trackerPhase i r).relays = c.relays ∧
      (c.trackerPhase i r).panicLatched = c.panicLatched ∧
      (c.trackerPhase i r).panicLog = c.panicLog := by
  unfold trackerPhase deliverIsr; dsimp only
  split_ifs <;> exact ⟨rfl, rfl, rfl, rfl⟩

end Controller

/-! ### The maximum-runtime guard -/

namespace RelaysModule

/-- An update under an Idle request always reports Idle. -/
theorem update_idle_cur (s : RelaysModule) (t now : Nat) :
    ((s.request MotionState.IDLE t).update now).cur = MotionState.IDLE := by
  unfold update
  simp only [request_want, if_true, updateIdle, idlePsu_cur, idleHoldExpire_cur, idleDirOff_cur,
    enableOffIfOn_cur, idleStop_cur, request_cur]
  split_ifs <;> simp_all

end RelaysModule

set_option maxRecDepth 100000

namespace Controller

@[simp] theorem manualStep_panicLatched (c : Controller) (src : CommandSource) (now : Nat) :
    (c.manualStep src now).panicLatched = c.panicLatched := by
  unfold manualStep; split_ifs <;> rfl

@[simp] theorem limitStep_panicLatched (c : Controller) (src : CommandSource) (t : MotionState)
    (now : Nat) : (c.limitStep src t now).1.panicLatched = c.panicLatched := by
  unfold limitStep openLimitStep closeLimitStep; dsimp only; split_ifs <;> rfl

@[simp] theorem consumeStep_panicLatched (c : Controller) (src : CommandSource) :
    (c.consumeStep src).panicLatched = c.panicLatched := by
  unfold consumeStep; split_ifs <;> rfl

@[simp] theorem arbitrate_panicLatched (c : Controller) (now : Nat) :
    (c.arbitrate now).panicLatched = c.panicLatched := by
  unfold arbitrate; simp

/-- A pass whose realized direction is not Idle reaches the guards without a
latched panic. -/
theorem commandPhase_not_panic (c : Controller) (i : CycleInput)
    (h : (c.commandPhase i).relays.current ≠ MotionState.IDLE) :
    (c.commandPhase i).panicLatched = false := by
  by_contra hp
  have hp1 : (c.preArbitration i).panicLatched = true := by
    have : (c.commandPhase i).panicLatched = (c.preArbitration i).panicLatched := by
      unfold commandPhase driveRelays; simp
    rw [this] at hp; simpa using hp
  apply h
  unfold commandPhase driveRelays RelaysModule.current
  simp only [arbitrate_panic _ _ hp1]
  exact RelaysModule.update_idle_cur _ _ _

theorem triggerPanic_fresh (c : Controller) (r : PanicReason) (reboot : Bool) (now : Nat)
    (h : c.panicLatched = false) :
    (c.triggerPanic r reboot now).panicLog = r :: c.panicLog ∧
      (c.triggerPanic r reboot now).panicLatched = true ∧
      (c.triggerPanic r reboot now).relays.current = MotionState.IDLE := by
  unfold triggerPanic schedulePanicReboot clearHaDesiredLocal resetMqttSetModeStreak
    RelaysModule.current
  cases reboot <;> simp [h]

@[simp] theorem noteRelay_driveFields (c : Controller) :
    driveFields c.noteRelay =
      (c.driveActive, c.driveAccumMs, c.driveLastUpdateMs, c.relays.current,
        c.safetyMaxRunSeconds) := by
  unfold noteRelay driveFields; split_ifs with h
  · rfl
  · rw [not_not] at h; rw [h]

@[simp] theorem noteRelay_panicLatched (c : Controller) :
    c.noteRelay.panicLatched = c.panicLatched := by
  unfold noteRelay; split_ifs <;> rfl

@[simp] theorem noteRelay_panicLog (c : Controller) : c.noteRelay.panicLog = c.panicLog := by
  unfold noteRelay; split_ifs <;> rfl

@[simp] theorem noteRelay_relays (c : Controller) : c.noteRelay.relays = c.relays := by
  unfold noteRelay; split_ifs <;> rfl

@[simp] theorem guardCount_relays (c : Controller) (now : Nat) :
    (c.guardCount now).relays = c.relays := by
  unfold guardCount; dsimp only; split_ifs <;> rfl

@[simp] theorem guardCount_panicLatched (c : Controller) (now : Nat) :
    (c.guardCount now).panicLatched = c.panicLatched := by
  unfold guardCount; dsimp only; split_ifs <;> rfl

@[simp] theorem guardCount_panicLog (c : Controller) (now : Nat) :
    (c.guardCount now).panicLog = c.panicLog := by
  unfold guardCount; dsimp only; split_ifs <;> rfl

@[simp] theorem guardCount_safetyMaxRunSeconds (c : Controller) (now : Nat) :
    (c.guardCount now).safetyMaxRunSeconds = c.safetyMaxRunSeconds := by
  unfold guardCount; dsimp only; split_ifs <;> rfl

/-- The guard step of the pass in which the realized direction leaves Idle. -/
theorem guardStep_start (c : Controller) (now : Nat)
    (hr : c.relays.current ≠ MotionState.IDLE) (hl : c.lastRelay = MotionState.IDLE)
    (hM : 0 < c.safetyMaxRunSeconds) :
    driveFields (c.guardStep now) = (true, 0, now, c.relays.current, c.safetyMaxRunSeconds) ∧
      c.guardStep now = c.guardBookkeeping now := by
  have hc : c.guardCount now =
      { c with driveActive := true, driveAccumMs := 0, driveLastUpdateMs := now,
               noClickMonitorActive := true, noClickStartMs := now,
               noClickPosAtEnable := c.clicks.position } := by
    unfold guardCount; simp [hr, hl]
  have hb : driveFields (c.guardBookkeeping now) =
      (true, 0, now, c.relays.current, c.safetyMaxRunSeconds) := by
    unfold guardBookkeeping
    rw [noteRelay_driveFields, guardCount_relays, guardCount_safetyMaxRunSeconds, hc]
  have hacc : (c.guardBookkeeping now).driveAccumMs = 0 := congrArg (·.2.1) hb
  have hm : (c.guardBookkeeping now).safetyMaxRunSeconds = c.safetyMaxRunSeconds :=
    congrArg (·.2.2.2.2) hb
  have hg : c.guardStep now = c.guardBookkeeping now := by
    unfold guardStep maxRuntimeCheck
    rw [hacc, hm]
    have : ¬ (0 ≥ c.safetyMaxRunSeconds * 1000) := by omega
    simp [this]
  exact ⟨by rw [hg]; exact hb, hg⟩

/-- The guard step of a later pass of a driven stretch: the time since the last
pass (a 32-bit difference) is added, and the panic is raised exactly when the
sum reaches the limit. -/
theorem guardStep_cont (c : Controller) (now a t : Nat)
    (hr : c.relays.current ≠ MotionState.IDLE) (hd : c.driveActive = true)
    (hl : c.lastRelay ≠ MotionState.IDLE) (hacc : c.driveAccumMs = a)
    (hlast : c.driveLastUpdateMs = t) (ht : t ≠ 0)
    (hsum : a + subU32 now t < U32) (hM : 0 < c.safetyMaxRunSeconds)
    (hp : c.panicLatched = false) :
    (a + subU32 now t < 1000 * c.safetyMaxRunSeconds →
      driveFields (c.guardStep now) =
        (true, a + subU32 now t, now, c.relays.current, c.safetyMaxRunSeconds) ∧
      c.guardStep now = c.guardBookkeeping now ∧
      (c.guardStep now).panicLog = c.panicLog) ∧
    (1000 * c.safetyMaxRunSeconds ≤ a + subU32 now t →
      (c.guardStep now).panicLog = PanicReason.maxRuntimeExceeded :: c.panicLog ∧
      (c.guardStep now).panicLatched = true ∧
      (c.guardStep now).relays.current = MotionState.IDLE) := by
  have hadd : addU32 a (subU32 now t) = a + subU32 now t := RelaysModule.addU32_eq _ _ hsum
  have hc : c.guardCount now =
      { c with driveAccumMs := a + subU32 now t, driveLastUpdateMs := now } := by
    unfold guardCount; simp [hr, hd, hl, hacc, hlast, hadd, ht]
  have hb : driveFields (c.guardBookkeeping now) =
      (true, a + subU32 now t, now, c.relays.current, c.safetyMaxRunSeconds) := by
    unfold guardBookkeeping
    rw [noteRelay_driveFields, guardCount_relays, guardCount_safetyMaxRunSeconds, hc]
    simp [hd]
  have hbp : (c.guardBookkeeping now).panicLatched = false ∧
      (c.guardBookkeeping now).panicLog = c.panicLog := by
    unfold guardBookkeeping; simp [hp]
  have h1 : (c.guardBookkeeping now).driveActive = true := congrArg (·.1) hb
  have h2 : (c.guardBookkeeping now).driveAccumMs = a + subU32 now t := congrArg (·.2.1) hb
  have h3 : (c.guardBookkeeping now).safetyMaxRunSeconds = c.safetyMaxRunSeconds :=
    congrArg (·.2.2.2.2) hb
  constructor
  · intro hlt
    have hg : c.guardStep now = c.guardBookkeeping now := by
      unfold guardStep maxRuntimeCheck
      rw [h1, h2, h3]
      have : ¬ (a + subU32 now t ≥ c.safetyMaxRunSeconds * 1000) := by omega
      simp [this]
    exact ⟨by rw [hg]; exact hb, hg, by rw [hg]; exact hbp.2⟩
  · intro hge
    have hg : c.guardStep now =
        (c.guardBookkeeping now).triggerPanic PanicReason.maxRuntimeExceeded true now := by
      unfold guardStep maxRuntimeCheck
      rw [h1, h2, h3]
      have : a + subU32 now t ≥ c.safetyMaxRunSeconds * 1000 := by omega
      simp [this, hM]
    have hf := triggerPanic_fresh (c.guardBookkeeping now) PanicReason.maxRuntimeExceeded true now
      hbp.1
    rw [hg]
    exact ⟨by rw [hf.1, hbp.2], hf.2.1, hf.2.2⟩

/-- The guard step of a later pass of a driven stretch when the stored reading
is 0, the mark for "no reading": the time since the last pass is not added. -/
theorem guardStep_unset (c : Controller) (now : Nat)
    (hr : c.relays.current ≠ MotionState.IDLE) (hd : c.driveActive = true)
    (hl : c.lastRelay ≠ MotionState.IDLE) (hlast : c.driveLastUpdateMs = 0) :
    (c.guardCount now).driveAccumMs = c.driveAccumMs ∧
      (c.guardCount now).driveLastUpdateMs = now := by
  unfold guardCount; simp [hr, hd, hl, hlast]

/-- Differences of the 32-bit clock add up as long as their sum stays below one
lap. -/
theorem lap_arith (t0 t n : Nat) (h : subU32 t t0 + subU32 n t < U32) :
    subU32 t t0 + subU32 n t = subU32 n t0 := by
  unfold subU32 U32 at *
  omega

theorem clockFrom_le_last : ∀ (is : List CycleInput) (t : Nat) (iN : CycleInput),
    clockFrom t (is ++ [iN]) → t ≤ iN.now
  | [], _, _, h => h.1
  | i :: is, _, iN, h => le_trans h.1 (clockFrom_le_last is i.now iN h.2)

theorem triggerPanic_disarms (c : Controller) (r : PanicReason) (reboot : Bool) (now : Nat)
    (h : c.panicLatched = false) :
    (c.triggerPanic r reboot now).noClickMonitorActive = false := by
  unfold triggerPanic schedulePanicReboot clearHaDesiredLocal resetMqttSetModeStreak
  cases reboot <;> simp [h]

/-- A guard step that latches the panic also disarms the no-movement guard. -/
theorem guardStep_latched_disarms (c : Controller) (now : Nat) (hp : c.panicLatched = false)
    (hl : (c.guardStep now).panicLatched = true) :
    (c.guardStep now).noClickMonitorActive = false := by
  have hb : (c.guardBookkeeping now).panicLatched = false := by
    unfold guardBookkeeping; simp [hp]
  unfold guardStep maxRuntimeCheck at hl ⊢
  split_ifs at hl ⊢
  · exact triggerPanic_disarms _ _ _ _ hb
  · rw [hb] at hl; cases hl
  · rw [hb] at hl; cases hl

/-- A pass whose guard step latches the panic ends with the panic log the guard
step left. -/
theorem loop_panicLog_of_guard (c : Controller) (i : CycleInput)
    (hp : (c.commandPhase i).panicLatched = false)
    (hl : ((c.commandPhase i).guardStep i.now).panicLatched = true) :
    (c.loop i).panicLog = ((c.commandPhase i).guardStep i.now).panicLog := by
  have hd := guardStep_latched_disarms (c.commandPhase i) i.now hp hl
  have hfr := trackerPhase_frame ((c.commandPhase i).guardStep i.now) i
    (c.commandPhase i).relays.current
  have hB1 : (c.beforeNoClick i).panicLatched = true := by
    unfold beforeNoClick; rw [hfr.2.2.1]; exact hl
  have hB2 : (c.beforeNoClick i).noClickMonitorActive = false := by
    have := congrArg (·.1) hfr.1
    simp only [stallView] at this
    unfold beforeNoClick; rw [this]; exact hd
  have hB3 : (c.beforeNoClick i).panicLog = ((c.commandPhase i).guardStep i.now).panicLog := by
    unfold beforeNoClick; rw [hfr.2.2.2]
  have hn : (c.beforeNoClick i).noClickCheck i.now = c.beforeNoClick i := by
    unfold noClickCheck; simp [hB2]
  rw [loop_eq, hn, pass_tail_panicLog _ _ hB1, hB3]

/-- One more driven pass of a stretch that began at `t0`. -/
theorem drivenPass_step (c : Controller) (i : CycleInput) (t0 M t : Nat)
    (hinv : RunningSince t0 M t (driveFields c)) (ht : t ≠ 0)
    (hpass : DrivenPass c i) (hlap : subU32 t t0 + subU32 i.now t < U32) (hM : 0 < M) :
    (subU32 i.now t0 < 1000 * M →
      driveFields ((c.commandPhase i).guardStep i.now) =
        (true, subU32 i.now t0, i.now, (c.commandPhase i).relays.current, M) ∧
      (c.commandPhase i).guardStep i.now = (c.commandPhase i).guardBookkeeping i.now ∧
      ((c.commandPhase i).guardStep i.now).panicLog = (c.commandPhase i).panicLog) ∧
    (1000 * M ≤ subU32 i.now t0 →
      ((c.commandPhase i).guardStep i.now).panicLog =
        PanicReason.maxRuntimeExceeded :: (c.commandPhase i).panicLog ∧
      ((c.commandPhase i).guardStep i.now).panicLatched = true ∧
      ((c.commandPhase i).guardStep i.now).relays.current = MotionState.IDLE) := by
  obtain ⟨hr, hf⟩ := hpass
  rw [← hf] at hinv
  obtain ⟨h1, h2, h3, h4, h5⟩ := hinv
  simp only [driveFields] at h1 h2 h3 h4 h5
  have hp := commandPhase_not_panic c i hr
  have e := lap_arith t0 t i.now hlap
  have hs := guardStep_cont (c.commandPhase i) i.now (subU32 t t0) t hr h1 h4 h2 h3 ht hlap
    (by rw [h5]; exact hM) hp
  rw [e, h5] at hs
  exact hs

/-- Along a driven run that stays below the limit, the guard has counted the
time since the start of the stretch. -/
theorem drivenRun_invariant (t0 M : Nat) (iN : CycleInput) (hM : 0 < M) :
    ∀ (is : List CycleInput) (c : Controller) (t : Nat),
      RunningSince t0 M t (driveFields c) → t ≠ 0 → DrivenRun c is →
      lapFrom t0 t (is ++ [iN]) → (∀ i ∈ is, i.now ≠ 0) →
      (∀ i ∈ is, subU32 i.now t0 < 1000 * M) →
      ∃ t1, RunningSince t0 M t1 (driveFields (loops c is)) ∧ t1 ≠ 0 ∧
        subU32 t1 t0 + subU32 iN.now t1 < U32
  | [], c, t, hinv, ht, _, hlap, _, _ => ⟨t, hinv, ht, hlap.1⟩
  | i :: is, c, t, hinv, ht, hrun, hlap, hz, hearly => by
    obtain ⟨hpass, hpost, hrest⟩ := hrun
    have hstep := (drivenPass_step c i t0 M t hinv ht hpass hlap.1 hM).1
      (hearly i (List.mem_cons_self _ _))
    have hinv1 : RunningSince t0 M i.now (driveFields (c.loop i)) := by
      rw [hpost, hstep.1]
      exact ⟨rfl, rfl, rfl, hpass.1, rfl⟩
    exact drivenRun_invariant t0 M iN hM is (c.loop i) i.now hinv1
      (hz i (List.mem_cons_self _ _)) hrest hlap.2
      (fun j hj => hz j (List.mem_cons_of_mem _ hj))
      (fun j hj => hearly j (List.mem_cons_of_mem _ hj))

/-- A driven stretch.  The realized direction leaves Idle in the pass `i0`
(time `t0`) and stays non-idle in the passes `is` and `iN`; the state of the
maximum-runtime guard is written by the guard step only; no pass before `iN`
reads the clock as 0, and the stretch lasts less than one lap of the 32-bit
clock; the limit is `M > 0` seconds and every pass before `iN` has
`now - t0 < 1000 * M`.  Then the pass `iN` raises the panic
`max-runtime-exceeded` (and cuts the relays) when `now - t0 >= 1000 * M`, and
its guard step has counted `now - t0` and leaves the panic log alone when
`now - t0 < 1000 * M`, as does the pass `i0`, which starts the count at 0. -/
theorem drivenStretch_guard (c0 : Controller) (i0 : CycleInput) (is : List CycleInput)
    (iN : CycleInput)
    (hstart : (c0.commandPhase i0).lastRelay = MotionState.IDLE)
    (hrun : DrivenRun c0 (i0 :: is))
    (hlast : DrivenPass (loops c0 (i0 :: is)) iN)
    (hlap : lapFrom i0.now i0.now (is ++ [iN])) (hzero : ∀ i ∈ i0 :: is, i.now ≠ 0)
    (hM : 0 < c0.safetyMaxRunSeconds)
    (hearly : ∀ i ∈ is, subU32 i.now i0.now < 1000 * c0.safetyMaxRunSeconds) :
    (1000 * c0.safetyMaxRunSeconds ≤ subU32 iN.now i0.now →
      (((loops c0 (i0 :: is)).commandPhase iN).guardStep iN.now).panicLog =
        PanicReason.maxRuntimeExceeded :: ((loops c0 (i0 :: is)).commandPhase iN).panicLog ∧
      (((loops c0 (i0 :: is)).commandPhase iN).guardStep iN.now).panicLatched = true ∧
      (((loops c0 (i0 :: is)).commandPhase iN).guardStep iN.now).relays.current =
        MotionState.IDLE ∧
      ((loops c0 (i0 :: is)).loop iN).panicLog =
        PanicReason.maxRuntimeExceeded :: (loops c0 (i0 :: is)).panicLog) ∧
    (subU32 iN.now i0.now < 1000 * c0.safetyMaxRunSeconds →
      (((loops c0 (i0 :: is)).commandPhase iN).guardStep iN.now).panicLog =
        ((loops c0 (i0 :: is)).commandPhase iN).panicLog ∧
      (((loops c0 (i0 :: is)).commandPhase iN).guardStep iN.now).driveAccumMs =
        subU32 iN.now i0.now) ∧
    ((c0.commandPhase i0).guardStep i0.now).panicLog = (c0.commandPhase i0).panicLog ∧
    ((c0.commandPhase i0).guardStep i0.now).driveAccumMs = 0 := by
  obtain ⟨hpass0, hpost0, hrest⟩ := hrun
  have hfM : (c0.commandPhase i0).safetyMaxRunSeconds = c0.safetyMaxRunSeconds :=
    congrArg (·.2.2.2.2) hpass0.2
  have hs := guardStep_start (c0.commandPhase i0) i0.now hpass0.1 hstart (by rw [hfM]; exact hM)
  have hself : subU32 i0.now i0.now = 0 := by unfold subU32 U32; omega
  have hinv0 : RunningSince i0.now c0.safetyMaxRunSeconds i0.now (driveFields (c0.loop i0)) := by
    rw [hpost0, hs.1]
    exact ⟨rfl, hself.symm, rfl, hpass0.1, hfM⟩
  obtain ⟨t1, hinv, h1, h2⟩ := drivenRun_invariant i0.now c0.safetyMaxRunSeconds iN hM
    is (c0.loop i0) i0.now hinv0 (hzero i0 (List.mem_cons_self _ _)) hrest hlap
    (fun j hj => hzero j (List.mem_cons_of_mem _ hj)) hearly
  have hl : loops c0 (i0 :: is) = loops (c0.loop i0) is := rfl
  rw [hl] at hlast ⊢
  have hstep := drivenPass_step (loops (c0.loop i0) is) iN i0.now c0.safetyMaxRunSeconds t1 hinv
    h1 hlast h2 hM
  refine ⟨fun hge => ?_, ?_, ?_, ?_⟩
  · have h := hstep.2 hge
    refine ⟨h.1, h.2.1, h.2.2, ?_⟩
    rw [loop_panicLog_of_guard _ iN (commandPhase_not_panic _ iN hlast.1) h.2.1, h.1,
      commandPhase_panicLog]
  · intro hlt
    have h := hstep.1 hlt
    exact ⟨h.2.2, congrArg (·.2.1) h.1⟩
  · rw [hs.2]; unfold guardBookkeeping; simp
  · exact congrArg (·.2.1) hs.1

/-- C5 (code at the failing input). The limit is 300 s.  The realized direction
leaves Idle in the pass at `2^32 - 200000` ms and stays Closing; the guard is
written by the guard step only.  The pass that reads the wrapped clock as 0 ms
has counted 200000 ms and stores the reading 0, which is the mark for "no
reading", so the pass at 50000 ms adds nothing.  The pass at 100000 ms is the
first with `now - t0 >= 300000`, yet it has counted 250000 ms only and raises
no panic: the realized direction is still Closing.  The panic is raised in the
pass at 150000 ms. -/
theorem C5_reading_zero_drops_interval :
    (coverAt 100).safetyMaxRunSeconds = 300 ∧
    (loops (coverAt 100) (wrapRun.take 3)).lastRelay = MotionState.IDLE ∧
    DrivenRun (loops (coverAt 100) (wrapRun.take 3)) ((wrapRun.drop 3).take 5) ∧
    (loops (coverAt 100) (wrapRun.take 4)).driveAccumMs = 0 ∧
    (loops (coverAt 100) (wrapRun.take 4)).driveLastUpdateMs = 4294767296 ∧
    (loops (coverAt 100) (wrapRun.take 5)).driveAccumMs = 1000 ∧
    (loops (coverAt 100) (wrapRun.take 6)).driveAccumMs = 200000 ∧
    (loops (coverAt 100) (wrapRun.take 6)).driveLastUpdateMs = 0 ∧
    (loops (coverAt 100) (wrapRun.take 7)).driveAccumMs = 200000 ∧
    subU32 50000 4294767296 = 250000 ∧
    subU32 100000 4294767296 = 300000 ∧
    (loops (coverAt 100) (wrapRun.take 8)).driveAccumMs = 250000 ∧
    (loops (coverAt 100) (wrapRun.take 8)).panicLog = [] ∧
    (loops (coverAt 100) (wrapRun.take 8)).panicLatched = false ∧
    (loops (coverAt 100) (wrapRun.take 8)).relays.current = MotionState.CLOSING ∧
    (loops (coverAt 100) wrapRun).panicLog = [PanicReason.maxRuntimeExceeded] := by
  decide

end Controller

namespace Controller

/-! ### The configured limit is never 0 -/

theorem loadSafetyConfig_pos (ok : Bool) (stored : Option Nat) :
    0 < (loadSafetyConfig ok stored).1 := by
  unfold loadSafetyConfig DEFAULT_SAFETY_MAX_RUN_SECONDS
  dsimp only
  by_cases h1 : (!ok) = true
  · rw [if_pos h1]; exact Nat.succ_pos _
  · rw [if_neg h1]
    by_cases h2 : stored.getD 0 = 0
    · rw [if_pos h2]; exact Nat.succ_pos _
    · rw [if_neg h2]; exact Nat.pos_of_ne_zero h2

theorem setup_maxRun_pos (b : BootInput) : 0 < (setup b).safetyMaxRunSeconds :=
  loadSafetyConfig_pos b.configPrefsOk b.maxRunStored

theorem triggerPanic_maxRun (c : Controller) (r : PanicReason) (reboot : Bool) (now : Nat) :
    (c.triggerPanic r reboot now).safetyMaxRunSeconds = c.safetyMaxRunSeconds := by
  unfold triggerPanic schedulePanicReboot clearHaDesiredLocal resetMqttSetModeStreak
  dsimp only; split_ifs <;> rfl

theorem safetyPhase_maxRun (c : Controller) (i : CycleInput) :
    (c.safetyPhase i).safetyMaxRunSeconds = c.safetyMaxRunSeconds := by
  have h1 : (c.guardStep i.now).safetyMaxRunSeconds = c.safetyMaxRunSeconds := by
    unfold guardStep maxRuntimeCheck
    split_ifs
    · rw [triggerPanic_maxRun]; unfold guardBookkeeping noteRelay; split_ifs <;> simp
    · unfold guardBookkeeping noteRelay; split_ifs <;> simp
    · unfold guardBookkeeping noteRelay; split_ifs <;> simp
  have h2 : ∀ (a : Controller) (r : MotionState),
      (a.trackerPhase i r).safetyMaxRunSeconds = a.safetyMaxRunSeconds := by
    intro a r; unfold trackerPhase deliverIsr; dsimp only; split_ifs <;> rfl
  have h3 : ∀ a : Controller, (a.noClickCheck i.now).safetyMaxRunSeconds =
      a.safetyMaxRunSeconds := by
    intro a; unfold noClickCheck
    split_ifs
    · rfl
    · exact triggerPanic_maxRun _ _ _ _
    · rfl
    · rfl
  have h4 : ∀ a : Controller, (a.rangePanicCheck i.now).safetyMaxRunSeconds =
      a.safetyMaxRunSeconds := by
    intro a; unfold rangePanicCheck
    split_ifs
    · exact triggerPanic_maxRun _ _ _ _
    · rfl
  unfold safetyPhase
  rw [h4, h3, h2, h1]

theorem mqttReceive_maxRun_pos (c : Controller) (m : MqttMsg) (now : Nat)
    (h : 0 < c.safetyMaxRunSeconds) : 0 < (c.mqttReceive m now).safetyMaxRunSeconds := by
  cases m with
  | openCover => exact h
  | closeCover => exact h
  | stop => exact h
  | command cmd => exact h
  | setMaxRuntime seconds =>
    unfold mqttReceive onMqttSetMaxRuntime persistSafetyMaxRunSeconds resetSafetyRuntime
    dsimp only
    split_ifs <;> first | exact h | (simp only []; omega)

theorem foldl_mqtt_maxRun_pos (now : Nat) :
    ∀ (ms : List MqttMsg) (c : Controller), 0 < c.safetyMaxRunSeconds →
      0 < (ms.foldl (fun a m => a.mqttReceive m now) c).safetyMaxRunSeconds
  | [], _, h => h
  | m :: ms, c, h => by
    rw [List.foldl_cons]
    exact foldl_mqtt_maxRun_pos now ms _ (mqttReceive_maxRun_pos c m now h)

/-- The limit of the maximum-runtime guard is positive after `setup()` and stays
positive through every pass of `loop()`. -/
theorem loop_maxRun_pos (c : Controller) (i : CycleInput) (h : 0 < c.safetyMaxRunSeconds) :
    0 < (c.loop i).safetyMaxRunSeconds := by
  have h1 : 0 < ((c.commandPhase i).safetyPhase i).safetyMaxRunSeconds := by
    rw [safetyPhase_maxRun, commandPhase_maxRun]; exact h
  have h2 := foldl_mqtt_maxRun_pos i.mqttMillis i.mqttIn _ h1
  have e : (c.loop i).safetyMaxRunSeconds =
      (i.mqttIn.foldl (fun a m => a.mqttReceive m i.mqttMillis)
        ((c.commandPhase i).safetyPhase i)).safetyMaxRunSeconds := by
    unfold loop rebootCheck; dsimp only; split_ifs <;> rfl
  rw [e]; exact h2

end Controller

/-! ### The no-movement guard -/

set_option maxRecDepth 100000

namespace Controller

/-! ### What the rest of a pass leaves alone -/

theorem mqttReceive_frame (c : Controller) (m : MqttMsg) (now : Nat) :
    stallView (c.mqttReceive m now) = stallView c ∧ (c.mqttReceive m now).relays = c.relays := by
  cases m with
  | openCover => exact ⟨rfl, rfl⟩
  | closeCover => exact ⟨rfl, rfl⟩
  | stop => exact ⟨rfl, rfl⟩
  | command cmd => exact ⟨rfl, rfl⟩
  | setMaxRuntime seconds =>
    unfold mqttReceive onMqttSetMaxRuntime persistSafetyMaxRunSeconds resetSafetyRuntime
    dsimp only
    split_ifs <;> exact ⟨rfl, rfl⟩

theorem foldl_mqtt_frame (now : Nat) :
    ∀ (ms : List MqttMsg) (c : Controller),
      stallView (ms.foldl (fun a m => a.mqttReceive m now) c) = stallView c ∧
        (ms.foldl (fun a m => a.mqttReceive m now) c).relays = c.relays
  | [], _ => ⟨rfl, rfl⟩
  | m :: ms, c => by
    have h := foldl_mqtt_frame now ms (c.mqttReceive m now)
    have h1 := mqttReceive_frame c m now
    rw [List.foldl_cons]
    exact ⟨h.1.trans h1.1, h.2.trans h1.2⟩

theorem rebootCheck_frame (c : Controller) (now : Nat) :
    stallView (c.rebootCheck now) = stallView c ∧ (c.rebootCheck now).relays = c.relays := by
  unfold rebootCheck; split_ifs <;> exact ⟨rfl, rfl⟩

/-- The no-movement check for a state it does not have to act on. -/
theorem rangePanicCheck_cases (c : Controller) (now : Nat) :
    c.rangePanicCheck now = c ∨ (c.rangePanicCheck now).relays.current = MotionState.IDLE := by
  unfold rangePanicCheck
  split_ifs with h
  · right
    exact (triggerPanic_fresh c PanicReason.clickOutOfRange false now (by simpa using h.2.2)).2.2
  · left; rfl

theorem triggerPanic_cases (c : Controller) (r : PanicReason) (reboot : Bool) (now : Nat) :
    c.triggerPanic r reboot now = c ∨
      (c.triggerPanic r reboot now).relays.current = MotionState.IDLE := by
  cases h : c.panicLatched
  · right; exact (triggerPanic_fresh c r reboot now h).2.2
  · left; unfold triggerPanic; simp [h]

theorem maxRuntimeCheck_cases (c : Controller) (now : Nat) :
    c.maxRuntimeCheck now = c ∨ (c.maxRuntimeCheck now).relays.current = MotionState.IDLE := by
  unfold maxRuntimeCheck
  split_ifs
  · exact triggerPanic_cases _ _ _ _
  · left; rfl
  · left; rfl

/-- The guard step of the pass in which the realized direction leaves Idle arms
the no-movement guard with the time of the pass and the position read there. -/
theorem guardStep_arms (c : Controller) (now : Nat)
    (hr : c.relays.current ≠ MotionState.IDLE) (hl : c.lastRelay = MotionState.IDLE) :
    stallView (c.guardStep now) = (true, now, c.clicks.position, true, c.relays.current) ∧
      (c.guardStep now).panicLatched = c.panicLatched ∧
      (c.guardStep now).panicLog = c.panicLog ∧ (c.guardStep now).relays = c.relays := by
  have hc : c.guardCount now =
      { c with driveActive := true, driveAccumMs := 0, driveLastUpdateMs := now,
               noClickMonitorActive := true, noClickStartMs := now,
               noClickPosAtEnable := c.clicks.position } := by
    unfold guardCount; simp [hr, hl]
  have hn : (c.guardBookkeeping now) = { (c.guardCount now) with lastRelay := c.relays.current } := by
    unfold guardBookkeeping noteRelay
    rw [guardCount_relays, hc]
    simp [hl, hr]
  have hg : c.guardStep now = c.guardBookkeeping now := by
    unfold guardStep maxRuntimeCheck
    rw [hn, hc]
    by_cases hM : c.safetyMaxRunSeconds = 0
    · simp [hM]
    · have : ¬ (0 ≥ c.safetyMaxRunSeconds * 1000) := by omega
      simp [this]
  rw [hg, hn, hc]
  exact ⟨rfl, rfl, rfl, rfl⟩

/-- The guard step of a later pass keeps the no-movement guard armed, unless it
cuts the relays. -/
theorem guardStep_keeps (c : Controller) (now t0 : Nat) (p0 : Int)
    (hr : c.relays.current ≠ MotionState.IDLE) (hv : StalledSince t0 p0 (stallView c))
    (hon : (c.guardStep now).relays.current ≠ MotionState.IDLE) :
    StalledSince t0 p0 (stallView (c.guardStep now)) ∧
      (c.guardStep now).panicLatched = c.panicLatched ∧
      (c.guardStep now).panicLog = c.panicLog := by
  obtain ⟨h1, h2, h3, h4, h5⟩ := hv
  simp only [stallView] at h1 h2 h3 h4 h5
  have hc : stallView (c.guardCount now) = stallView c := by
    unfold guardCount
    by_cases h0 : c.driveLastUpdateMs = 0 <;> simp [hr, h4, h5, h0, stallView]
  have hb : stallView (c.guardBookkeeping now) =
      (c.noClickMonitorActive, c.noClickStartMs, c.noClickPosAtEnable, c.driveActive,
        c.relays.current) := by
    have e : stallView (c.guardBookkeeping now) =
        ((c.guardCount now).noClickMonitorActive, (c.guardCount now).noClickStartMs,
          (c.guardCount now).noClickPosAtEnable, (c.guardCount now).driveActive,
          c.relays.current) := by
      unfold guardBookkeeping noteRelay
      rw [guardCount_relays]
      split_ifs with h
      · rfl
      · rw [not_not] at h; simp [stallView, h]
    rw [e]
    have e1 := congrArg (·.1) hc
    have e2 := congrArg (·.2.1) hc
    have e3 := congrArg (·.2.2.1) hc
    have e4 := congrArg (·.2.2.2.1) hc
    simp only [stallView] at e1 e2 e3 e4
    rw [e1, e2, e3, e4]
  have hg : c.guardStep now = c.guardBookkeeping now := by
    rcases maxRuntimeCheck_cases (c.guardBookkeeping now) now with h | h
    · exact h
    · exact absurd h hon
  rw [hg, hb]
  refine ⟨⟨h1, h2, h3, h4, hr⟩, ?_, ?_⟩ <;> unfold guardBookkeeping <;> simp

theorem asLong_sub (now t0 : Nat) (h0 : t0 ≤ now) (hn : now < U32)
    (hw : now - t0 < 2147483648) : asLong (subU32 now t0) = ((now - t0 : Nat) : Int) := by
  have hsub : subU32 now t0 = now - t0 := by
    unfold subU32 U32 at *
    rw [Nat.mod_eq_of_lt hn, Nat.mod_eq_of_lt (by omega : t0 < 4294967296)]
    omega
  unfold asLong U32
  rw [hsub, Nat.mod_eq_of_lt (by unfold U32 at hn; omega), if_pos hw]

/-- The no-movement check on an armed guard with the position unchanged. -/
theorem noClickCheck_armed (c : Controller) (now t0 : Nat) (p0 : Int)
    (hv : StalledSince t0 p0 (stallView c)) (hpos : c.clicks.position = p0)
    (hp : c.panicLatched = false) (h0 : t0 ≤ now) (hn : now < U32)
    (hw : now - t0 < 2147483648) :
    (now - t0 < 5000 → c.noClickCheck now = c) ∧
    (5000 ≤ now - t0 →
      (c.noClickCheck now).panicLog = PanicReason.noClickAfterEnable :: c.panicLog ∧
      (c.noClickCheck now).panicLatched = true) := by
  obtain ⟨h1, h2, h3, _, _⟩ := hv
  simp only [stallView] at h1 h2 h3
  have ha := asLong_sub now t0 h0 hn hw
  have hcond : asLong (subU32 now c.noClickStartMs) ≥ (NO_CLICK_PANIC_WINDOW_MS : Int) ↔
      5000 ≤ now - t0 := by
    rw [h2, ha]; unfold NO_CLICK_PANIC_WINDOW_MS; omega
  have hsame : ¬ (c.clicks.position ≠ c.noClickPosAtEnable) := by rw [hpos, h3]; simp
  constructor
  · intro hlt
    unfold noClickCheck
    rw [if_pos h1, if_neg hsame, if_neg (by rw [hcond]; omega)]
  · intro hge
    have hf := triggerPanic_fresh c PanicReason.noClickAfterEnable true now hp
    unfold noClickCheck
    rw [if_pos h1, if_neg hsame, if_pos (by rw [hcond]; exact hge)]
    exact ⟨hf.1, hf.2.1⟩

/-- In a stalled pass after the first, the guard is still armed and no panic is
latched when the no-movement check is reached. -/
theorem stalledPass_before (c : Controller) (i : CycleInput) (t0 : Nat) (p0 : Int)
    (hv : StalledSince t0 p0 (stallView c)) (hpass : StalledPass p0 c i) :
    StalledSince t0 p0 (stallView (c.beforeNoClick i)) ∧
      (c.beforeNoClick i).panicLatched = false ∧
      (c.beforeNoClick i).panicLog = (c.commandPhase i).panicLog := by
  obtain ⟨hr, hb, _⟩ := hpass
  rw [← commandPhase_stallView c i] at hv
  have hp := commandPhase_not_panic c i hr
  have hfr := trackerPhase_frame ((c.commandPhase i).guardStep i.now) i
    (c.commandPhase i).relays.current
  have hon : ((c.commandPhase i).guardStep i.now).relays.current ≠ MotionState.IDLE := by
    rw [← hfr.2.1]; exact hb
  have hk := guardStep_keeps (c.commandPhase i) i.now t0 p0 hr hv hon
  unfold beforeNoClick
  rw [hfr.1, hfr.2.2.1, hfr.2.2.2]
  exact ⟨hk.1, by rw [hk.2.1]; exact hp, hk.2.2⟩

/-- In the pass that leaves Idle, the guard is armed with the time of the pass
and the position read there, and no panic is latched at the check. -/
theorem firstPass_before (c : Controller) (i : CycleInput)
    (hl : (c.commandPhase i).lastRelay = MotionState.IDLE)
    (hr : (c.commandPhase i).relays.current ≠ MotionState.IDLE) :
    StalledSince i.now (c.commandPhase i).clicks.position (stallView (c.beforeNoClick i)) ∧
      (c.beforeNoClick i).panicLatched = false ∧
      (c.beforeNoClick i).panicLog = (c.commandPhase i).panicLog := by
  have hp := commandPhase_not_panic c i hr
  have hfr := trackerPhase_frame ((c.commandPhase i).guardStep i.now) i
    (c.commandPhase i).relays.current
  have ha := guardStep_arms (c.commandPhase i) i.now hr hl
  unfold beforeNoClick
  rw [hfr.1, hfr.2.2.1, hfr.2.2.2, ha.1]
  exact ⟨⟨rfl, rfl, rfl, rfl, hr⟩, by rw [ha.2.1]; exact hp, ha.2.2.1⟩

/-- When the no-movement check does nothing and the relays are still driven at
the end of the pass, the rest of the pass leaves the guard alone. -/
theorem pass_end_stallView (c : Controller) (i : CycleInput)
    (hn : (c.beforeNoClick i).noClickCheck i.now = c.beforeNoClick i)
    (hon : (c.loop i).relays.current ≠ MotionState.IDLE) :
    stallView (c.loop i) = stallView (c.beforeNoClick i) := by
  rw [loop_eq, hn] at hon
  rw [loop_eq, hn]
  rw [(rebootCheck_frame _ _).2, (foldl_mqtt_frame _ _ _).2] at hon
  rw [(rebootCheck_frame _ _).1, (foldl_mqtt_frame _ _ _).1]
  rcases rangePanicCheck_cases (c.beforeNoClick i) i.now with h | h
  · rw [h]
  · exact absurd h hon

/-- Along a stalled run inside the window the no-movement guard stays armed. -/
theorem stalledRun_invariant (t0 : Nat) (p0 : Int) (iN : CycleInput) (hN : iN.now < U32) :
    ∀ (is : List CycleInput) (c : Controller) (t : Nat),
      StalledSince t0 p0 (stallView c) → t0 ≤ t → StalledRun p0 c is →
      clockFrom t (is ++ [iN]) → (∀ i ∈ is, i.now - t0 < 5000) →
      StalledSince t0 p0 (stallView (loops c is)) ∧ t0 ≤ iN.now
  | [], _, _, hv, ht, _, hclk, _ => ⟨hv, le_trans ht hclk.1⟩
  | i :: is, c, t, hv, ht, hrun, hclk, hearly => by
    obtain ⟨hpass, hend, hrest⟩ := hrun
    have hti : t ≤ i.now := hclk.1
    have hiN : i.now ≤ iN.now := clockFrom_le_last is i.now iN hclk.2
    have hlt : i.now - t0 < 5000 := hearly i (List.mem_cons_self _ _)
    have hb := stalledPass_before c i t0 p0 hv hpass
    have hnc := (noClickCheck_armed (c.beforeNoClick i) i.now t0 p0 hb.1 hpass.2.2 hb.2.1
      (by omega) (by omega) (by omega)).1 hlt
    have hv1 : StalledSince t0 p0 (stallView (c.loop i)) := by
      rw [pass_end_stallView c i hnc hend]; exact hb.1
    exact stalledRun_invariant t0 p0 iN hN is (c.loop i) i.now hv1 (by omega) hrest hclk.2
      (fun j hj => hearly j (List.mem_cons_of_mem _ hj))

/-- C7. The realized direction leaves Idle in the pass `i0` (time `t0`), stays
non-idle through the passes `is` and up to the no-movement check of the pass
`iN`, and the position read by the check in every pass equals the position at
`t0`; the clock does not go back and does not wrap, and every pass before `iN`
has `now - t0 < 5000`.  Then the check of the pass `iN` raises the panic
`no-click-after-enable` when `now - t0 >= 5000` (the window is tested as a
32-bit `long`, so `now - t0 < 2^31`), and does nothing when `now - t0 < 5000`;
the check of the pass `i0` does nothing either.  So the panic is raised in the
first pass with `now - t0 >= 5000` and in no earlier one. -/
theorem C7_no_movement_panic (c0 : Controller) (i0 : CycleInput) (is : List CycleInput)
    (iN : CycleInput)
    (hstart : (c0.commandPhase i0).lastRelay = MotionState.IDLE)
    (hrun : StalledRun (c0.commandPhase i0).clicks.position c0 (i0 :: is))
    (hlast : StalledPass (c0.commandPhase i0).clicks.position (loops c0 (i0 :: is)) iN)
    (hclock : clockFrom i0.now (is ++ [iN])) (hrange : iN.now < U32)
    (hlong : iN.now - i0.now < 2147483648)
    (hearly : ∀ i ∈ is, i.now - i0.now < 5000) :
    (5000 ≤ iN.now - i0.now →
      (((loops c0 (i0 :: is)).beforeNoClick iN).noClickCheck iN.now).panicLog =
        PanicReason.noClickAfterEnable :: ((loops c0 (i0 :: is)).commandPhase iN).panicLog ∧
      (((loops c0 (i0 :: is)).beforeNoClick iN).noClickCheck iN.now).panicLatched = true ∧
      ((loops c0 (i0 :: is)).loop iN).panicLog =
        PanicReason.noClickAfterEnable :: (loops c0 (i0 :: is)).panicLog) ∧
    (iN.now - i0.now < 5000 →
      ((loops c0 (i0 :: is)).beforeNoClick iN).noClickCheck iN.now =
        (loops c0 (i0 :: is)).beforeNoClick iN) ∧
    (c0.beforeNoClick i0).noClickCheck i0.now = c0.beforeNoClick i0 := by
  obtain ⟨hpass0, hend0, hrest⟩ := hrun
  have hb0 := firstPass_before c0 i0 hstart hpass0.1
  have hi0N : i0.now ≤ iN.now := clockFrom_le_last is i0.now iN hclock
  have hnc0 := (noClickCheck_armed (c0.beforeNoClick i0) i0.now i0.now _ hb0.1 hpass0.2.2 hb0.2.1
    le_rfl (by omega) (by omega)).1 (by omega)
  have hv1 : StalledSince i0.now (c0.commandPhase i0).clicks.position
      (stallView (c0.loop i0)) := by
    rw [pass_end_stallView c0 i0 hnc0 hend0]; exact hb0.1
  have hinv := stalledRun_invariant i0.now (c0.commandPhase i0).clicks.position iN hrange is
    (c0.loop i0) i0.now hv1 le_rfl hrest hclock hearly
  have hl : loops c0 (i0 :: is) = loops (c0.loop i0) is := rfl
  rw [hl] at hlast ⊢
  have hb := stalledPass_before (loops (c0.loop i0) is) iN i0.now _ hinv.1 hlast
  have hnc := noClickCheck_armed ((loops (c0.loop i0) is).beforeNoClick iN) iN.now i0.now _
    hb.1 hlast.2.2 hb.2.1 hi0N hrange hlong
  refine ⟨fun h => ?_, hnc.1, hnc0⟩
  have h1 := hnc.2 h
  rw [hb.2.2] at h1
  refine ⟨h1.1, h1.2, ?_⟩
  rw [loop_eq, pass_tail_panicLog _ _ h1.2, h1.1, commandPhase_panicLog]

/-- C7, instance: the enable relay closes in the pass at 3200 ms, no sensor
edge arrives, further passes at 5000 ms and 8200 ms; the pass at 8200 ms
raises the panic. -/
theorem C7_no_movement_panic_witness :
    (((loops closingArmed [quietInput 3200, quietInput 5000]).beforeNoClick
        (quietInput 8200)).noClickCheck 8200).panicLog =
      PanicReason.noClickAfterEnable ::
        ((loops closingArmed [quietInput 3200, quietInput 5000]).commandPhase
          (quietInput 8200)).panicLog :=
  ((C7_no_movement_panic closingArmed (quietInput 3200) [quietInput 5000] (quietInput 8200)
    (by decide) (by decide) (by decide) (by decide) (by decide) (by decide)
    (by decide)).1 (by decide)).1

end Controller

/-! ### Idle gaps and the accumulated driven time -/

set_option maxRecDepth 100000

namespace Controller

/-- C6 (as stated, refuted). With a limit of 2 s, Closing is driven from 3200 ms
to the pass at 4700 ms (1500 ms counted), the pass at 4800 ms realizes Idle and
clears the count, and a second stretch from 5100 ms to 6600 ms counts 1500 ms
again: the two stretches sum to 3000 ms >= 2000 ms, yet no panic is raised. -/
theorem C6_idle_gap_resets_count :
    (loops shortLimitArmed (twoStretches.take 2)).driveAccumMs = 1500 ∧
    (loops shortLimitArmed (twoStretches.take 2)).relays.current = MotionState.CLOSING ∧
    (loops shortLimitArmed (twoStretches.take 3)).relays.current = MotionState.IDLE ∧
    (loops shortLimitArmed (twoStretches.take 3)).driveAccumMs = 0 ∧
    (loops shortLimitArmed (twoStretches.take 4)).relays.current = MotionState.IDLE ∧
    (loops shortLimitArmed (twoStretches.take 5)).relays.current = MotionState.CLOSING ∧
    (loops shortLimitArmed twoStretches).relays.current = MotionState.CLOSING ∧
    (loops shortLimitArmed twoStretches).driveAccumMs = 1500 ∧
    (loops shortLimitArmed twoStretches).safetyMaxRunSeconds = 2 ∧
    (loops shortLimitArmed twoStretches).panicLog = [] ∧
    (loops shortLimitArmed twoStretches).panicLatched = false := by
  decide

/-- The guard step of a pass whose realized direction is Idle: the guard is
inactive afterwards, the accumulated time of an active guard is cleared and
that of an inactive guard left alone, the last realized direction is Idle, the
no-movement guard is disarmed and no panic is raised. -/
theorem guardStep_idle (c : Controller) (now : Nat) (hr : c.relays.current = MotionState.IDLE) :
    (c.guardStep now).driveActive = false ∧
    (c.driveActive = true → (c.guardStep now).driveAccumMs = 0) ∧
    (c.driveActive = false → (c.guardStep now).driveAccumMs = c.driveAccumMs) ∧
    (c.guardStep now).lastRelay = MotionState.IDLE ∧
    (c.guardStep now).noClickMonitorActive = false ∧
    (c.guardStep now).panicLog = c.panicLog ∧
    (c.guardStep now).relays = c.relays ∧
    (c.guardStep now).panicLatched = c.panicLatched := by
  have hc : (c.guardCount now).driveActive = false ∧
      (c.driveActive = true → (c.guardCount now).driveAccumMs = 0) ∧
      (c.driveActive = false → (c.guardCount now).driveAccumMs = c.driveAccumMs) ∧
      (c.guardCount now).noClickMonitorActive = false := by
    unfold guardCount
    cases hd : c.driveActive <;> simp [hr, hd]
  have hb : driveFields (c.guardBookkeeping now) =
      (false, (c.guardCount now).driveAccumMs, (c.guardCount now).driveLastUpdateMs,
        c.relays.current, c.safetyMaxRunSeconds) := by
    unfold guardBookkeeping
    rw [noteRelay_driveFields, guardCount_relays, guardCount_safetyMaxRunSeconds, hc.1]
  have h1 : (c.guardBookkeeping now).driveActive = false := congrArg (·.1) hb
  have h2 : (c.guardBookkeeping now).driveAccumMs = (c.guardCount now).driveAccumMs :=
    congrArg (·.2.1) hb
  have h4 : (c.guardBookkeeping now).lastRelay = c.relays.current := congrArg (·.2.2.2.1) hb
  have h5 : (c.guardBookkeeping now).noClickMonitorActive = false := by
    have : (c.guardBookkeeping now).noClickMonitorActive =
        (c.guardCount now).noClickMonitorActive := by
      unfold guardBookkeeping noteRelay; split_ifs <;> rfl
    rw [this]; exact hc.2.2.2
  have hg : c.guardStep now = c.guardBookkeeping now := by
    unfold guardStep maxRuntimeCheck; simp [h1]
  rw [hg]
  refine ⟨h1, fun hd => by rw [h2]; exact hc.2.1 hd, fun hd => by rw [h2]; exact hc.2.2.1 hd,
    by rw [h4]; exact hr, h5, ?_, ?_, ?_⟩
  · unfold guardBookkeeping; simp
  · unfold guardBookkeeping; simp
  · unfold guardBookkeeping; simp

/-- A panic leaves the last realized direction alone and never activates the
maximum-runtime guard. -/
theorem triggerPanic_inactive (c : Controller) (r : PanicReason) (reboot : Bool) (now : Nat)
    (h : c.driveActive = false) :
    (c.triggerPanic r reboot now).driveActive = false ∧
      (c.triggerPanic r reboot now).lastRelay = c.lastRelay := by
  unfold triggerPanic schedulePanicReboot clearHaDesiredLocal resetMqttSetModeStreak
  dsimp only
  split_ifs <;> first | exact ⟨h, rfl⟩ | exact ⟨rfl, rfl⟩

/-- A pass whose realized direction is Idle ends with the maximum-runtime guard
inactive and Idle as last realized direction. -/
theorem idlePass_end (c : Controller) (j : CycleInput)
    (hidle : (c.commandPhase j).relays.current = MotionState.IDLE) :
    (c.loop j).driveActive = false ∧ (c.loop j).lastRelay = MotionState.IDLE := by
  obtain ⟨g1, _, _, g4, g5, _, _, _⟩ := guardStep_idle (c.commandPhase j) j.now hidle
  have hfr := (trackerPhase_frame ((c.commandPhase j).guardStep j.now) j
    (c.commandPhase j).relays.current).1
  simp only [stallView, Prod.mk.injEq] at hfr
  have b1 : (c.beforeNoClick j).noClickMonitorActive = false := by
    unfold beforeNoClick; rw [hfr.1]; exact g5
  have b2 : (c.beforeNoClick j).driveActive = false := by
    unfold beforeNoClick; rw [hfr.2.2.2.1]; exact g1
  have b3 : (c.beforeNoClick j).lastRelay = MotionState.IDLE := by
    unfold beforeNoClick; rw [hfr.2.2.2.2]; exact g4
  have hn : (c.beforeNoClick j).noClickCheck j.now = c.beforeNoClick j := by
    unfold noClickCheck; simp [b1]
  have hr : ((c.beforeNoClick j).rangePanicCheck j.now).driveActive = false ∧
      ((c.beforeNoClick j).rangePanicCheck j.now).lastRelay = MotionState.IDLE := by
    unfold rangePanicCheck
    split_ifs
    · have h := triggerPanic_inactive (c.beforeNoClick j) PanicReason.clickOutOfRange false
        j.now b2
      exact ⟨h.1, h.2.trans b3⟩
    · exact ⟨b2, b3⟩
  have hs : stallView (c.loop j) = stallView ((c.beforeNoClick j).rangePanicCheck j.now) := by
    rw [loop_eq, hn, (rebootCheck_frame _ _).1, (foldl_mqtt_frame _ _ _).1]
  simp only [stallView, Prod.mk.injEq] at hs
  exact ⟨hs.2.2.2.1.trans hr.1, hs.2.2.2.2.trans hr.2⟩

/-- Idle passes in a row end with the maximum-runtime guard inactive and Idle as
last realized direction. -/
theorem idleRun_end : ∀ (js : List CycleInput) (c : Controller),
    c.driveActive = false → c.lastRelay = MotionState.IDLE → IdleRun c js →
    (loops c js).driveActive = false ∧ (loops c js).lastRelay = MotionState.IDLE
  | [], _, h1, h2, _ => ⟨h1, h2⟩
  | j :: js, c, _, _, hrun => by
    obtain ⟨e1, e2⟩ := idlePass_end c j hrun.1
    exact idleRun_end js (c.loop j) e1 e2 hrun.2

/-- C6 (amended). The accumulated time of the maximum-runtime guard belongs to
the current uninterrupted driven stretch.  A pass whose realized direction is
Idle (`j`) adds nothing, deactivates the guard and clears the accumulated time
of an active guard, whatever had been counted before.  After it and any
further Idle passes (`gap`) the guard is inactive, and in the driven stretch
that follows (`i0`, `is`, `iN`: realized direction non-idle, guard written by
the guard step only, no pass before `iN` reading the clock as 0, less than one
lap of the 32-bit clock) the count starts at 0 in the pass `i0` and is
`now - t0` in a later pass, with `t0` the time of `i0`; the panic is raised in
the first pass of the stretch with `now - t0 >= 1000 * M`.  Driven stretches
separated by an idle gap are not summed. -/
theorem C6_count_is_per_stretch (c : Controller) (j : CycleInput) (gap : List CycleInput)
    (i0 : CycleInput) (is : List CycleInput) (iN : CycleInput)
    (hgap : IdleRun c (j :: gap))
    (hrun : DrivenRun (loops c (j :: gap)) (i0 :: is))
    (hlast : DrivenPass (loops (loops c (j :: gap)) (i0 :: is)) iN)
    (hlap : lapFrom i0.now i0.now (is ++ [iN])) (hzero : ∀ i ∈ i0 :: is, i.now ≠ 0)
    (hM : 0 < (loops c (j :: gap)).safetyMaxRunSeconds)
    (hearly : ∀ i ∈ is,
      subU32 i.now i0.now < 1000 * (loops c (j :: gap)).safetyMaxRunSeconds) :
    ((c.commandPhase j).guardStep j.now).driveActive = false ∧
    (c.driveActive = true → ((c.commandPhase j).guardStep j.now).driveAccumMs = 0) ∧
    (c.driveActive = false →
      ((c.commandPhase j).guardStep j.now).driveAccumMs = (c.commandPhase j).driveAccumMs) ∧
    ((c.commandPhase j).guardStep j.now).panicLog = (c.commandPhase j).panicLog ∧
    (loops c (j :: gap)).driveActive = false ∧
    (loops c (j :: gap)).lastRelay = MotionState.IDLE ∧
    (((loops c (j :: gap)).commandPhase i0).guardStep i0.now).driveAccumMs = 0 ∧
    (((loops c (j :: gap)).commandPhase i0).guardStep i0.now).panicLog =
      ((loops c (j :: gap)).commandPhase i0).panicLog ∧
    (subU32 iN.now i0.now < 1000 * (loops c (j :: gap)).safetyMaxRunSeconds →
      (((loops (loops c (j :: gap)) (i0 :: is)).commandPhase iN).guardStep iN.now).driveAccumMs =
        subU32 iN.now i0.now ∧
      (((loops (loops c (j :: gap)) (i0 :: is)).commandPhase iN).guardStep iN.now).panicLog =
        ((loops (loops c (j :: gap)) (i0 :: is)).commandPhase iN).panicLog) ∧
    (1000 * (loops c (j :: gap)).safetyMaxRunSeconds ≤ subU32 iN.now i0.now →
      (((loops (loops c (j :: gap)) (i0 :: is)).commandPhase iN).guardStep iN.now).panicLog =
        PanicReason.maxRuntimeExceeded ::
          ((loops (loops c (j :: gap)) (i0 :: is)).commandPhase iN).panicLog ∧
      (((loops (loops c (j :: gap)) (i0 :: is)).commandPhase iN).guardStep
        iN.now).relays.current = MotionState.IDLE) := by
  obtain ⟨g1, g2, g3, _, _, g6, _, _⟩ := guardStep_idle (c.commandPhase j) j.now hgap.1
  have hda : (c.commandPhase j).driveActive = c.driveActive := by
    have h := commandPhase_stallView c j
    simp only [stallView, Prod.mk.injEq] at h
    exact h.2.2.2.1
  obtain ⟨e1, e2⟩ := idlePass_end c j hgap.1
  have hl : loops c (j :: gap) = loops (c.loop j) gap := rfl
  obtain ⟨f1, f2⟩ := idleRun_end gap (c.loop j) e1 e2 hgap.2
  rw [← hl] at f1 f2
  have hstart : ((loops c (j :: gap)).commandPhase i0).lastRelay = MotionState.IDLE := by
    have h := commandPhase_stallView (loops c (j :: gap)) i0
    simp only [stallView, Prod.mk.injEq] at h
    rw [h.2.2.2.2]; exact f2
  obtain ⟨s1, s2, s3, s4⟩ := drivenStretch_guard (loops c (j :: gap)) i0 is iN hstart hrun hlast
    hlap hzero hM hearly
  refine ⟨g1, fun h => g2 (hda.trans h), fun h => g3 (hda.trans h), g6, f1, f2, s4, s3,
    fun h => ⟨(s2 h).2, (s2 h).1⟩, fun h => ⟨(s1 h).1, (s1 h).2.2.1⟩⟩

/-- C6 (amended), instance: limit 2 s.  The Idle pass at 4800 ms of
`twoStretches` clears the 1500 ms counted in the first stretch; after the Idle
pass at 4900 ms the second stretch begins at 5100 ms, and the pass at 6600 ms
has counted 1500 ms and raises no panic. -/
theorem C6_count_is_per_stretch_witness :
    (loops shortLimitArmed (twoStretches.take 2)).driveAccumMs = 1500 ∧
    (((loops shortLimitArmed (twoStretches.take 2)).commandPhase
        { quietInput 4800 with mqttIn := [MqttMsg.closeCover] }).guardStep 4800).driveAccumMs
        = 0 ∧
    (((loops (loops (loops shortLimitArmed (twoStretches.take 2))
        ({ quietInput 4800 with mqttIn := [MqttMsg.closeCover] } :: [quietInput 4900]))
        (quietInput 5100 :: [])).commandPhase (quietInput 6600)).guardStep
        (quietInput 6600).now).driveAccumMs = subU32 (quietInput 6600).now (quietInput 5100).now ∧
    subU32 (quietInput 6600).now (quietInput 5100).now = 1500 :=
  have h := C6_count_is_per_stretch (loops shortLimitArmed (twoStretches.take 2))
    { quietInput 4800 with mqttIn := [MqttMsg.closeCover] } [quietInput 4900] (quietInput 5100)
    [] (quietInput 6600) (by decide) (by decide) (by decide) (by decide) (by decide) (by decide)
    (by decide)
  ⟨by decide, h.2.1 (by decide), (h.2.2.2.2.2.2.2.2.1 (by decide)).1, by decide⟩

/-! ### A guard reset inside a driven pass -/

/-- The reading of `resetSafetyRuntime` and the reading of the pass.  Closing has
been driven for 200 ms under a limit of 300 s when the wall switch is put on
Closing as well: the wall switch wins the pass at 3400 ms, the drive goes on,
and line 442 resets the guard.  When `resetSafetyRuntime` reads the clock as
3400 ms, the reading of the pass, the count restarts at 0.  When it reads
3401 ms, the difference `now - driveLastUpdateMs` of line 527 is
`3400 - 3401`, which is `2^32 - 1` in 32-bit arithmetic, and the pass raises
the panic `max-runtime-exceeded`. -/
theorem reset_reading_after_pass_top :
    (loops closingArmed ((switchDuringDrive 3400).take 2)).driveAccumMs = 100 ∧
    (loops closingArmed ((switchDuringDrive 3400).take 2)).safetyMaxRunSeconds = 300 ∧
    (loops closingArmed (switchDuringDrive 3400)).activeCommandSource =
      CommandSource.WALL_SWITCH ∧
    (loops closingArmed (switchDuringDrive 3400)).relays.current = MotionState.CLOSING ∧
    (loops closingArmed (switchDuringDrive 3400)).driveAccumMs = 0 ∧
    (loops closingArmed (switchDuringDrive 3400)).panicLog = [] ∧
    subU32 3400 3401 = 4294967295 ∧
    (loops closingArmed (switchDuringDrive 3401)).panicLog =
      [PanicReason.maxRuntimeExceeded] ∧
    (loops closingArmed (switchDuringDrive 3401)).relays.current = MotionState.IDLE := by
  decide

end Controller

/-! ## Lemmas on the position tracker -/

namespace ClickCounter

theorem cc_persistPos_countView (s : ClickCounter) (force : Bool) (now : Nat) :
    countView (s.persistPos force now) = countView s := by
  unfold persistPos; split_ifs <;> rfl

/-- One edge while the direction `d` is driven: the phase flips, and the edge
that completes a pulse moves the position by one step of `d`. -/
theorem cc_processEdge_moving (s : ClickCounter) (now : Nat) (d : MotionState) (p : Nat)
    (hm : s.motion = d) (hd : d ≠ MotionState.IDLE) (hp : s.edgePhase = p) (hp1 : p ≤ 1) :
    countView (s.processEdge now).1 =
      (d, (p + 1) % 2, s.pos + (if p = 1 then stepOf d else 0)) := by
  have hcases : p = 0 ∨ p = 1 := by omega
  rcases hcases with rfl | rfl
  · unfold processEdge
    simp [hp, countView, hm]
  · unfold processEdge computeEffectiveDirection
    simp only [hp, hm]
    cases d with
    | IDLE => exact absurd rfl hd
    | OPENING =>
      simp only [Nat.reduceXor, Nat.reduceMod, if_true, ne_eq, reduceCtorEq, not_false_eq_true,
        if_false, cc_persistPos_countView]
      simp [countView, hm, stepOf]
      ring
    | CLOSING =>
      simp only [Nat.reduceXor, Nat.reduceMod, if_true, ne_eq, reduceCtorEq, not_false_eq_true,
        cc_persistPos_countView]
      simp [countView, hm, stepOf]

/-- The loop over `n` edges while the direction `d` is driven. -/
theorem cc_edgeLoop_moving (now : Nat) (d : MotionState) (hd : d ≠ MotionState.IDLE) :
    ∀ (n : Nat) (s : ClickCounter) (b : Bool) (p : Nat),
      s.motion = d → s.edgePhase = p → p ≤ 1 →
      countView (edgeLoop n (s, b) now).1 =
        (d, (p + n) % 2, s.pos + stepOf d * (((p + n) / 2 : Nat) : Int))
  | 0, s, b, p, hm, hp, hp1 => by
    have h2 : p % 2 = p := Nat.mod_eq_of_lt (by omega)
    have h3 : p / 2 = 0 := by omega
    simp [edgeLoop, countView, hm, hp, h2, h3]
  | n + 1, s, b, p, hm, hp, hp1 => by
    have h1 := cc_processEdge_moving s now d p hm hd hp hp1
    have hm1 : (s.processEdge now).1.motion = d := congrArg (·.1) h1
    have hp2 : (s.processEdge now).1.edgePhase = (p + 1) % 2 := congrArg (·.2.1) h1
    have hpos : (s.processEdge now).1.pos = s.pos + (if p = 1 then stepOf d else 0) :=
      congrArg (·.2.2) h1
    have ih := cc_edgeLoop_moving now d hd n (s.processEdge now).1 (b || (s.processEdge now).2)
      ((p + 1) % 2) hm1 hp2 (by omega)
    rw [edgeLoop, ih, hpos]
    have hcases : p = 0 ∨ p = 1 := by omega
    rcases hcases with rfl | rfl
    · have e1 : (0 + 1) % 2 = 1 := rfl
      have e2 : 0 + (n + 1) = 1 + n := by omega
      simp [e1, e2]
    · have e1 : (1 + 1) % 2 = 0 := rfl
      have e2 : (1 + (n + 1)) / 2 = (0 + n) / 2 + 1 := by omega
      have e3 : (1 + (n + 1)) % 2 = (0 + n) % 2 := by omega
      simp only [e1, e2, e3, if_true]
      push_cast
      congr 2
      ring

/-- One batch while the direction `d` is driven. -/
theorem cc_batch_moving (s : ClickCounter) (edges now : Nat) (d : MotionState) (p : Nat)
    (hm : s.motion = d) (hd : d ≠ MotionState.IDLE) (hp : s.edgePhase = p) (hp1 : p ≤ 1) :
    countView (s.processEdgeBatch edges now) =
      (d, (p + edges) % 2, s.pos + stepOf d * (((p + edges) / 2 : Nat) : Int)) := by
  unfold processEdgeBatch
  by_cases he : edges = 0
  · have h2 : p % 2 = p := Nat.mod_eq_of_lt (by omega)
    have h3 : p / 2 = 0 := by omega
    simp [he, countView, hm, hp, h2, h3]
  · have h := cc_edgeLoop_moving now d hd edges s false p hm hp hp1
    simp only [he, if_false]
    rw [← h]
    split_ifs <;> rfl

/-- A run of batches while the direction `d` is driven. -/
theorem cc_batches_moving (d : MotionState) (hd : d ≠ MotionState.IDLE) :
    ∀ (bs : List (Nat × Nat)) (s : ClickCounter) (p : Nat),
      s.motion = d → s.edgePhase = p → p ≤ 1 →
      countView (processBatches s bs) =
        (d, (p + totalEdges bs) % 2, s.pos + stepOf d * (((p + totalEdges bs) / 2 : Nat) : Int))
  | [], s, p, hm, hp, hp1 => by
    have h2 : p % 2 = p := Nat.mod_eq_of_lt (by omega)
    have h3 : p / 2 = 0 := by omega
    simp [processBatches, totalEdges, countView, hm, hp, h2, h3]
  | b :: rest, s, p, hm, hp, hp1 => by
    have h1 := cc_batch_moving s b.1 b.2 d p hm hd hp hp1
    have hm1 : (s.processEdgeBatch b.1 b.2).motion = d := congrArg (·.1) h1
    have hp2 : (s.processEdgeBatch b.1 b.2).edgePhase = (p + b.1) % 2 := congrArg (·.2.1) h1
    have hpos : (s.processEdgeBatch b.1 b.2).pos =
        s.pos + stepOf d * (((p + b.1) / 2 : Nat) : Int) := congrArg (·.2.2) h1
    have ih := cc_batches_moving d hd rest (s.processEdgeBatch b.1 b.2) ((p + b.1) % 2) hm1 hp2
      (by omega)
    have ht : totalEdges (b :: rest) = b.1 + totalEdges rest := by
      simp [totalEdges]
    rw [processBatches, ih, hpos, ht]
    have e1 : ((p + b.1) % 2 + totalEdges rest) % 2 = (p + (b.1 + totalEdges rest)) % 2 := by
      omega
    have e2 : (p + (b.1 + totalEdges rest)) / 2 =
        (p + b.1) / 2 + ((p + b.1) % 2 + totalEdges rest) / 2 := by omega
    rw [e1, e2]
    push_cast
    congr 2
    ring

/-- C8. While a non-idle direction `d` is held and the edge phase starts at 0,
any sequence of batches holding `n` edges in all moves the position by
`floor(n/2)` steps of `d`: plus for Closing, minus for Opening.  In particular
`processEdgeBatch(a)` followed by `processEdgeBatch(b)` leaves the position of
`processEdgeBatch(a+b)`, whatever the clock readings. -/
theorem C8_batching_invariance (s : ClickCounter) (d : MotionState) (bs : List (Nat × Nat))
    (a b n1 n2 n3 : Nat)
    (hm : s.motion = d) (hd : d ≠ MotionState.IDLE) (hp : s.edgePhase = 0) :
    (d = MotionState.CLOSING →
      (processBatches s bs).position = s.position + ((totalEdges bs / 2 : Nat) : Int)) ∧
    (d = MotionState.OPENING →
      (processBatches s bs).position = s.position - ((totalEdges bs / 2 : Nat) : Int)) ∧
    (processBatches s bs).motion = d ∧
    ((s.processEdgeBatch a n1).processEdgeBatch b n2).position =
      (s.processEdgeBatch (a + b) n3).position := by
  have h := cc_batches_moving d hd bs s 0 hm hp (by omega)
  have hpos : (processBatches s bs).pos =
      s.pos + stepOf d * (((0 + totalEdges bs) / 2 : Nat) : Int) := congrArg (·.2.2) h
  have hmot : (processBatches s bs).motion = d := congrArg (·.1) h
  rw [Nat.zero_add] at hpos
  have h2 := cc_batches_moving d hd [(a, n1), (b, n2)] s 0 hm hp (by omega)
  have h3 := cc_batch_moving s (a + b) n3 d 0 hm hd hp (by omega)
  have e2 : ((s.processEdgeBatch a n1).processEdgeBatch b n2).pos =
      s.pos + stepOf d * (((0 + totalEdges [(a, n1), (b, n2)]) / 2 : Nat) : Int) :=
    congrArg (·.2.2) h2
  have e3 : (s.processEdgeBatch (a + b) n3).pos =
      s.pos + stepOf d * (((0 + (a + b)) / 2 : Nat) : Int) := congrArg (·.2.2) h3
  have et : totalEdges [(a, n1), (b, n2)] = a + b := by simp [totalEdges]
  refine ⟨?_, ?_, hmot, ?_⟩
  · intro hc; unfold position; rw [hpos, hc]; simp [stepOf]
  · intro ho; unfold position; rw [hpos, ho]; simp [stepOf]; ring
  · unfold position; rw [e2, e3, et]

/-- C8, instance: 7 edges in batches of 3, 0 and 4 while Closing from 100. -/
theorem C8_batching_invariance_witness :
    (processBatches (trackerAt 100 MotionState.CLOSING 0) [(3, 1000), (0, 1005), (4, 1010)]).position
      = (trackerAt 100 MotionState.CLOSING 0).position + ((7 / 2 : Nat) : Int) :=
  (C8_batching_invariance (trackerAt 100 MotionState.CLOSING 0) MotionState.CLOSING
    [(3, 1000), (0, 1005), (4, 1010)] 3 4 1000 1010 1010 (by decide) (by decide)
    (by decide)).1 rfl

end ClickCounter

/-! ### Limit handling of `update` -/

namespace ClickCounter

theorem cc_persistPos_limitsView (s : ClickCounter) (force : Bool) (now : Nat) :
    limitsView (s.persistPos force now) = limitsView s ∧
      (s.persistPos force now).pos = s.pos := by
  unfold persistPos; split_ifs <;> exact ⟨rfl, rfl⟩

theorem cc_direction_limitsView (s : ClickCounter) (now : Nat) :
    limitsView (s.computeEffectiveDirection now).2.2 = limitsView s ∧
      (s.computeEffectiveDirection now).2.2.pos = s.pos := by
  unfold computeEffectiveDirection; split_ifs <;> exact ⟨rfl, rfl⟩

theorem cc_processEdge_limitsView (s : ClickCounter) (now : Nat) :
    limitsView (s.processEdge now).1 = limitsView s := by
  unfold processEdge
  dsimp only
  split_ifs
  · rw [(cc_persistPos_limitsView _ _ _).1]
    exact (cc_direction_limitsView _ now).1
  · rw [(cc_persistPos_limitsView _ _ _).1]
    exact (cc_direction_limitsView _ now).1
  · exact (cc_direction_limitsView _ now).1
  · rfl

theorem cc_edgeLoop_limitsView (now : Nat) :
    ∀ (n : Nat) (st : ClickCounter × Bool),
      limitsView (edgeLoop n st now).1 = limitsView st.1
  | 0, _ => rfl
  | n + 1, st => by
    rw [edgeLoop, cc_edgeLoop_limitsView now n]
    exact cc_processEdge_limitsView st.1 now

theorem cc_batch_limitsView (s : ClickCounter) (edges now : Nat) :
    limitsView (s.processEdgeBatch edges now) = limitsView s := by
  unfold processEdgeBatch
  by_cases he : edges = 0
  · simp [he]
  · simp only [he, if_false]
    rw [← cc_edgeLoop_limitsView now edges (s, false)]
    split_ifs <;> rfl

theorem cc_drain_limitsView (s : ClickCounter) (now : Nat) :
    limitsView (s.drain now) = limitsView s := by
  unfold drain simulateTicks drainHardwareEdges
  dsimp only
  split_ifs <;> (try rw [cc_batch_limitsView]) <;> rfl

theorem cc_finishUpdate_frame (s : ClickCounter) (now : Nat) :
    limitsView (s.finishUpdate now) = limitsView s ∧ (s.finishUpdate now).pos = s.pos := by
  unfold finishUpdate
  dsimp only
  split_ifs
  · exact ⟨(cc_persistPos_limitsView s true now).1, (cc_persistPos_limitsView s true now).2⟩
  · exact ⟨rfl, rfl⟩

theorem cc_noteOvershoot_frame (s : ClickCounter) :
    limitsView s.noteOvershoot = limitsView s ∧ s.noteOvershoot.pos = s.pos := by
  unfold noteOvershoot; dsimp only; split_ifs <;> exact ⟨rfl, rfl⟩

theorem cc_rangePanic_frame (s : ClickCounter) :
    s.rangePanic.endPos = s.endPos ∧ s.rangePanic.pos = s.pos ∧
      s.rangePanic.panicFlag = (s.panicFlag || decide (s.pos < -2 ∨ s.pos > s.endPos + 2)) := by
  unfold rangePanic
  split_ifs with h
  · exact ⟨rfl, rfl, by simp [h]⟩
  · exact ⟨rfl, rfl, by simp [h]⟩

theorem cc_softClamp_frame (s : ClickCounter) :
    limitsView s.softClamp = limitsView s ∧
      s.softClamp.pos =
        (if (if s.pos < -1 then -1 else s.pos) > s.endPos + 1 then s.endPos + 1
         else (if s.pos < -1 then -1 else s.pos)) := by
  unfold softClamp
  by_cases h1 : s.pos < -1
  · simp only [h1, if_true]
    split_ifs <;> exact ⟨rfl, rfl⟩
  · simp only [h1, if_false]
    split_ifs <;> exact ⟨rfl, rfl⟩

/-- The limit handling of `update(false)`, as a function of position, span and
panic flag before it. -/
theorem cc_applyLimits_false (s : ClickCounter) :
    (s.applyLimits false).endPos = s.endPos ∧
    (s.applyLimits false).panicFlag =
      (s.panicFlag || decide (s.pos < -2 ∨ s.pos > s.endPos + 2)) ∧
    (s.applyLimits false).pos =
      (if (if s.pos < -1 then -1 else s.pos) > s.endPos + 1 then s.endPos + 1
       else (if s.pos < -1 then -1 else s.pos)) := by
  have h1 := cc_noteOvershoot_frame s
  have h2 := cc_rangePanic_frame s.noteOvershoot
  have h3 := cc_softClamp_frame s.noteOvershoot.rangePanic
  have e1 : s.noteOvershoot.endPos = s.endPos := congrArg (·.1) h1.1
  have e2 : s.noteOvershoot.panicFlag = s.panicFlag := congrArg (·.2) h1.1
  have e3 : s.noteOvershoot.rangePanic.softClamp.endPos = s.noteOvershoot.rangePanic.endPos :=
    congrArg (·.1) h3.1
  have e4 : s.noteOvershoot.rangePanic.softClamp.panicFlag =
      s.noteOvershoot.rangePanic.panicFlag := congrArg (·.2) h3.1
  have ha : s.applyLimits false = s.noteOvershoot.rangePanic.softClamp := by
    unfold applyLimits; simp
  rw [ha]
  refine ⟨?_, ?_, ?_⟩
  · rw [e3, h2.1, e1]
  · rw [e4, h2.2.2, e2, h1.2, e1]
  · rw [h3.2, h2.2.1, h2.1, h1.2, e1]

theorem cc_applyLimits_true (s : ClickCounter) :
    limitsView (s.applyLimits true) = limitsView s := by
  have ha : s.applyLimits true = s.calibrationClamp := by
    unfold applyLimits; simp
  rw [ha]
  unfold calibrationClamp
  by_cases h1 : s.pos < SET_MIN_POS
  · simp only [h1, if_true]
    split_ifs <;> rfl
  · simp only [h1, if_false]
    split_ifs <;> rfl

/-- Position, span and panic flag after `update(false)`, in terms of the state
after the edges of the pass were taken in. -/
theorem cc_update_false (s : ClickCounter) (now : Nat) :
    (s.update false now).endPos = s.endPos ∧
    (s.update false now).panicFlag =
      (s.panicFlag || decide ((s.drain now).pos < -2 ∨ (s.drain now).pos > s.endPos + 2)) ∧
    (s.update false now).pos =
      (if (if (s.drain now).pos < -1 then -1 else (s.drain now).pos) > s.endPos + 1
       then s.endPos + 1
       else (if (s.drain now).pos < -1 then -1 else (s.drain now).pos)) := by
  have hd := cc_drain_limitsView s now
  have e1 : (s.drain now).endPos = s.endPos := congrArg (·.1) hd
  have e2 : (s.drain now).panicFlag = s.panicFlag := congrArg (·.2) hd
  have ha := cc_applyLimits_false (s.drain now)
  have hf := cc_finishUpdate_frame ((s.drain now).applyLimits false) now
  have f1 : (((s.drain now).applyLimits false).finishUpdate now).endPos =
      ((s.drain now).applyLimits false).endPos := congrArg (·.1) hf.1
  have f2 : (((s.drain now).applyLimits false).finishUpdate now).panicFlag =
      ((s.drain now).applyLimits false).panicFlag := congrArg (·.2) hf.1
  unfold update
  refine ⟨?_, ?_, ?_⟩
  · rw [f1, ha.1, e1]
  · rw [f2, ha.2.1, e2, e1]
  · rw [hf.2, ha.2.2, e1]

/-- C9. From every state with `end >= 0`, after `update(false)` the position
lies in `[-1, end + 1]`, whatever number of edges the call drained; the span
is the one before the call. -/
theorem C9_soft_clamp (s : ClickCounter) (now : Nat) (he : 0 ≤ s.endOf) :
    -1 ≤ (s.update false now).position ∧
    (s.update false now).position ≤ (s.update false now).endOf + 1 ∧
    (s.update false now).endOf = s.endOf := by
  have h := cc_update_false s now
  unfold position endOf at *
  rw [h.1, h.2.2]
  refine ⟨?_, ?_, rfl⟩
  · split_ifs <;> omega
  · split_ifs <;> omega

/-- C9, instance: at position 199 of 200 with 10 edges waiting while Closing,
`update(false)` leaves the position at 201. -/
theorem C9_soft_clamp_witness :
    ((trackerAt 199 MotionState.CLOSING 10).update false 1000).position ≤
      ((trackerAt 199 MotionState.CLOSING 10).update false 1000).endOf + 1 :=
  (C9_soft_clamp (trackerAt 199 MotionState.CLOSING 10) 1000 (by decide)).2.1

/-- C10. After `update(false)` the panic flag is set exactly when it was set
before or the position after edge processing, before clamping, is below -2 or
above `end + 2`.  With `end >= 0` and the flag clear, a position of -2 or -1 is
left at -1 and a position of `end + 1` or `end + 2` at `end + 1` without panic.
`update` with either argument never clears a flag that is set. -/
theorem C10_panic_band (s : ClickCounter) (now : Nat) (allow : Bool) :
    ((s.update false now).panicked = true ↔
      (s.panicked = true ∨ (s.drain now).position < -2 ∨
        (s.drain now).position > (s.drain now).endOf + 2)) ∧
    (0 ≤ s.endOf → s.panicked = false →
      ((s.drain now).position = -2 ∨ (s.drain now).position = -1) →
      (s.update false now).panicked = false ∧ (s.update false now).position = -1) ∧
    (0 ≤ s.endOf → s.panicked = false →
      ((s.drain now).position = s.endOf + 1 ∨ (s.drain now).position = s.endOf + 2) →
      (s.update false now).panicked = false ∧ (s.update false now).position = s.endOf + 1) ∧
    (s.panicked = true → (s.update allow now).panicked = true) := by
  have h := cc_update_false s now
  have hd := cc_drain_limitsView s now
  have e1 : (s.drain now).endPos = s.endPos := congrArg (·.1) hd
  unfold panicked position endOf at *
  refine ⟨?_, ?_, ?_, ?_⟩
  · rw [h.2.1, e1]; simp
  · intro he hp hpos
    rw [h.2.1, h.2.2, hp]
    rcases hpos with hpos | hpos <;> rw [hpos] <;> constructor
    · simp; omega
    · split_ifs <;> omega
    · simp; omega
    · split_ifs <;> omega
  · intro he hp hpos
    rw [h.2.1, h.2.2, hp]
    rcases hpos with hpos | hpos <;> rw [hpos] <;> constructor
    · simp; omega
    · split_ifs <;> omega
    · simp; omega
    · split_ifs <;> omega
  · intro hp
    cases allow
    · rw [h.2.1, hp]; rfl
    · have hu : limitsView (s.update true now) = limitsView s := by
        unfold update
        rw [(cc_finishUpdate_frame _ _).1, cc_applyLimits_true, hd]
      have : (s.update true now).panicFlag = s.panicFlag := congrArg (·.2) hu
      rw [this, hp]

/-- C10, instance: at position 199 of 200 while Closing, 6 edges reach 202
(`end + 2`) and are clamped to 201 without panic. -/
theorem C10_panic_band_witness :
    ((trackerAt 199 MotionState.CLOSING 6).update false 1000).panicked = false ∧
      ((trackerAt 199 MotionState.CLOSING 6).update false 1000).position =
        (trackerAt 199 MotionState.CLOSING 6).endOf + 1 :=
  (C10_panic_band (trackerAt 199 MotionState.CLOSING 6) 1000 false).2.2.1 (by decide) (by decide)
    (Or.inr (by decide))

end ClickCounter

/-! ## Lemmas on the record store -/

namespace ClickCounter

/-! ### The checksum -/

theorem crcBit_eq_std (c : Nat) : crcBit c = stdCrcRound c := by
  unfold crcBit stdCrcRound
  have h1 : c &&& 1 = c % 2 := Nat.and_one_is_mod c
  have h2 : c >>> 1 = c / 2 := by rw [Nat.shiftRight_eq_div_pow]
  rcases Nat.mod_two_eq_zero_or_one c with h | h
  · have e : (U32 - 0) % U32 = 0 := by decide
    simp only [h1, h2, h, e, Nat.and_zero, Nat.xor_zero]
    simp
  · have e : (U32 - 1) % U32 = 4294967295 := by decide
    have e2 : 0xEDB88320 &&& 4294967295 = 0xEDB88320 := by decide
    simp only [h1, h2, h, e, e2, if_true]

theorem crcByte_eq_std (c b : Nat) : crcByte c b = Nat.iterate stdCrcRound 8 (c ^^^ b) := by
  unfold crcByte
  simp only [crcBit_eq_std, Function.iterate_succ, Function.iterate_zero, Function.comp,
    id_eq]

/-- The checksum of the code is the standard reflected CRC-32. -/
theorem crc32_eq_std (data : List Nat) : crc32 data = stdCrc32 data := by
  unfold crc32 stdCrc32
  have h : crcByte = fun r b => Nat.iterate stdCrcRound 8 (r ^^^ b) := by
    funext r b; exact crcByte_eq_std r b
  rw [h]

theorem crcBit_lt (c : Nat) (h : c < U32) : crcBit c < U32 := by
  unfold crcBit
  have h2 : c >>> 1 < 2 ^ 32 := by
    rw [Nat.shiftRight_eq_div_pow]
    exact lt_of_le_of_lt (Nat.div_le_self _ _) h
  have h3 : 0xEDB88320 &&& ((U32 - (c &&& 1)) % U32) < 2 ^ 32 :=
    lt_of_le_of_lt Nat.and_le_left (by decide)
  exact Nat.xor_lt_two_pow h2 h3

theorem crcByte_lt (c b : Nat) (hc : c < U32) (hb : b < U32) : crcByte c b < U32 := by
  unfold crcByte
  have h0 : c ^^^ b < U32 := Nat.xor_lt_two_pow (n := 32) hc hb
  exact crcBit_lt _ (crcBit_lt _ (crcBit_lt _ (crcBit_lt _ (crcBit_lt _ (crcBit_lt _
    (crcBit_lt _ (crcBit_lt _ h0)))))))

theorem foldl_crcByte_lt : ∀ (data : List Nat) (c : Nat), c < U32 → (∀ b ∈ data, b < U32) →
    data.foldl crcByte c < U32
  | [], c, hc, _ => hc
  | b :: data, c, hc, hb => by
    rw [List.foldl_cons]
    exact foldl_crcByte_lt data _ (crcByte_lt c b hc (hb b (List.mem_cons_self _ _)))
      (fun x hx => hb x (List.mem_cons_of_mem _ hx))

/-- The checksum of a string of 32-bit values fits 32 bits. -/
theorem crc32_lt (data : List Nat) (hb : ∀ b ∈ data, b < U32) : crc32 data < U32 := by
  unfold crc32
  exact Nat.xor_lt_two_pow (n := 32) (foldl_crcByte_lt data _ (by decide) hb) (by decide)

/-! ### Little-endian fields -/

theorem le32_lt (n : Nat) : ∀ b ∈ le32 n, b < U32 := by
  intro b hb
  simp only [le32, List.mem_cons, List.mem_singleton, List.not_mem_nil, or_false] at hb
  unfold U32
  omega

theorem ofLe32_le32 (n : Nat) (h : n < U32) :
    ofLe32 (n % 256) (n / 256 % 256) (n / 65536 % 256) (n / 16777216 % 256) = n := by
  unfold ofLe32
  unfold U32 at h
  omega

theorem i32Bits_lt (z : Int) : i32Bits z < U32 := by
  unfold i32Bits U32
  omega

theorem i32OfBits_i32Bits (z : Int) (h1 : -2147483648 ≤ z) (h2 : z < 2147483648) :
    i32OfBits (i32Bits z) = z := by
  unfold i32OfBits i32Bits
  split_ifs <;> omega

/-- Decoding the position bits always gives a position with the same bits. -/
theorem i32Bits_i32OfBits (n : Nat) (h : n < U32) : i32Bits (i32OfBits n) = n := by
  unfold i32OfBits i32Bits
  unfold U32 at h
  split_ifs <;> omega

theorem computeRecCrc_lt (epoch : Nat) (pos : Int) (level : Nat) (hl : level < U32) :
    computeRecCrc epoch pos level < U32 := by
  unfold computeRecCrc
  apply crc32_lt
  intro b hb
  simp only [List.mem_append, List.mem_singleton] at hb
  rcases hb with (hb | hb) | hb
  · exact le32_lt _ b hb
  · exact le32_lt _ b hb
  · rw [hb]; exact hl

theorem computeRecCrcLegacy_lt (epoch : Nat) (pos : Int) :
    computeRecCrcLegacy epoch pos < U32 := by
  unfold computeRecCrcLegacy
  apply crc32_lt
  intro b hb
  simp only [List.mem_append] at hb
  rcases hb with hb | hb
  · exact le32_lt _ b hb
  · exact le32_lt _ b hb

/-! ### Valid records -/

/-- A record written by `persistPos` is valid and decodes to what was written
(the position up to its 32 bits). -/
theorem validRecord_encodeRecV1 (epoch : Nat) (pos : Int) (level : Nat) (he : epoch < U32)
    (hl : level < U32) :
    validRecord (some (encodeRecV1 epoch pos level)) =
      some { found := true, bestEpoch := epoch, bestPos := i32OfBits (i32Bits pos),
             bestLevelLow := decide (level ≠ 0), bestHasLevel := true } := by
  have h1 := ofLe32_le32 epoch he
  have h2 := ofLe32_le32 (i32Bits pos) (i32Bits_lt pos)
  have h4 : computeRecCrc epoch (i32OfBits (i32Bits pos)) level = computeRecCrc epoch pos level := by
    unfold computeRecCrc
    rw [i32Bits_i32OfBits _ (i32Bits_lt pos)]
  have h3 := ofLe32_le32 (computeRecCrc epoch pos level) (computeRecCrc_lt epoch pos level hl)
  simp only [encodeRecV1, le32, List.cons_append, List.nil_append, validRecord, h1, h2, h3, h4,
    if_true]

/-- A legacy record is valid and decodes to what was written. -/
theorem validRecord_encodeRecV0 (epoch : Nat) (pos : Int) (he : epoch < U32) :
    validRecord (some (encodeRecV0 epoch pos)) =
      some { found := true, bestEpoch := epoch, bestPos := i32OfBits (i32Bits pos),
             bestLevelLow := false, bestHasLevel := false } := by
  have h1 := ofLe32_le32 epoch he
  have h2 := ofLe32_le32 (i32Bits pos) (i32Bits_lt pos)
  have h4 : computeRecCrcLegacy epoch (i32OfBits (i32Bits pos)) = computeRecCrcLegacy epoch pos := by
    unfold computeRecCrcLegacy
    rw [i32Bits_i32OfBits _ (i32Bits_lt pos)]
  have h5 : stdCrc32 (le32 epoch ++ le32 (i32Bits pos)) = computeRecCrcLegacy epoch pos := by
    unfold computeRecCrcLegacy
    rw [crc32_eq_std]
  have h3 := ofLe32_le32 (computeRecCrcLegacy epoch pos) (computeRecCrcLegacy_lt epoch pos)
  unfold encodeRecV0
  rw [h5]
  simp only [le32, List.cons_append, List.nil_append, validRecord, h1, h2, h3, h4, if_true]

theorem validRecord_found (slot : Option (List Nat)) (r : BestRec)
    (h : validRecord slot = some r) : r.found = true := by
  unfold validRecord at h
  split at h
  · split_ifs at h
    rw [← Option.some.inj h]
  · split_ifs at h
    rw [← Option.some.inj h]
  · exact absurd h (by simp)

theorem loadSlot_rec16 (best : BestRec)
    (e0 e1 e2 e3 p0 p1 p2 p3 lv r0 r1 r2 c0 c1 c2 c3 : Nat) :
    loadSlot best (some [e0, e1, e2, e3, p0, p1, p2, p3, lv, r0, r1, r2, c0, c1, c2, c3]) =
      match validRecord (some [e0, e1, e2, e3, p0, p1, p2, p3, lv, r0, r1, r2, c0, c1, c2, c3])
      with
      | none => best
      | some r => if !best.found ∨ r.bestEpoch > best.bestEpoch then r else best := by
  simp only [loadSlot, validRecord, getBytesLen, List.length_cons, List.length_nil]
  by_cases hc : computeRecCrc (ofLe32 e0 e1 e2 e3) (i32OfBits (ofLe32 p0 p1 p2 p3)) lv
      = ofLe32 c0 c1 c2 c3
  · simp [hc]
  · simp [hc]

theorem loadSlot_rec12 (best : BestRec) (e0 e1 e2 e3 p0 p1 p2 p3 c0 c1 c2 c3 : Nat) :
    loadSlot best (some [e0, e1, e2, e3, p0, p1, p2, p3, c0, c1, c2, c3]) =
      match validRecord (some [e0, e1, e2, e3, p0, p1, p2, p3, c0, c1, c2, c3]) with
      | none => best
      | some r => if !best.found ∨ r.bestEpoch > best.bestEpoch then r else best := by
  simp only [loadSlot, validRecord, getBytesLen, List.length_cons, List.length_nil]
  by_cases hc : computeRecCrcLegacy (ofLe32 e0 e1 e2 e3) (i32OfBits (ofLe32 p0 p1 p2 p3))
      = ofLe32 c0 c1 c2 c3
  · simp [hc]
  · simp [hc]

/-- The body of the loop of `loadPos`: a slot without a valid record is skipped,
a valid record replaces the best one so far when it is the first or has a
higher epoch. -/
theorem loadSlot_eq (best : BestRec) (slot : Option (List Nat)) :
    loadSlot best slot =
      match validRecord slot with
      | none => best
      | some r => if !best.found ∨ r.bestEpoch > best.bestEpoch then r else best := by
  cases slot with
  | none => rfl
  | some bytes =>
    rcases bytes with _ | ⟨a0, _ | ⟨a1, _ | ⟨a2, _ | ⟨a3, _ | ⟨a4, _ | ⟨a5, _ | ⟨a6, _ | ⟨a7, _ | ⟨a8, _ | ⟨a9, _ | ⟨a10, _ | ⟨a11, _ | ⟨a12, _ | ⟨a13, _ | ⟨a14, _ | ⟨a15, _ | ⟨a16, rest⟩⟩⟩⟩⟩⟩⟩⟩⟩⟩⟩⟩⟩⟩⟩⟩⟩
    · simp [loadSlot, validRecord, getBytesLen]
    · simp only [loadSlot, validRecord, getBytesLen, List.length_cons, List.length_nil]
      simp
    · simp only [loadSlot, validRecord, getBytesLen, List.length_cons, List.length_nil]
      simp
    · simp only [loadSlot, validRecord, getBytesLen, List.length_cons, List.length_nil]
      simp
    · simp only [loadSlot, validRecord, getBytesLen, List.length_cons, List.length_nil]
      simp
    · simp only [loadSlot, validRecord, getBytesLen, List.length_cons, List.length_nil]
      simp
    · simp only [loadSlot, validRecord, getBytesLen, List.length_cons, List.length_nil]
      simp
    · simp only [loadSlot, validRecord, getBytesLen, List.length_cons, List.length_nil]
      simp
    · simp only [loadSlot, validRecord, getBytesLen, List.length_cons, List.length_nil]
      simp
    · simp only [loadSlot, validRecord, getBytesLen, List.length_cons, List.length_nil]
      simp
    · simp only [loadSlot, validRecord, getBytesLen, List.length_cons, List.length_nil]
      simp
    · simp only [loadSlot, validRecord, getBytesLen, List.length_cons, List.length_nil]
      simp
    · exact loadSlot_rec12 best _ _ _ _ _ _ _ _ _ _ _ _
    · simp only [loadSlot, validRecord, getBytesLen, List.length_cons, List.length_nil]
      simp
    · simp only [loadSlot, validRecord, getBytesLen, List.length_cons, List.length_nil]
      simp
    · simp only [loadSlot, validRecord, getBytesLen, List.length_cons, List.length_nil]
      simp
    · exact loadSlot_rec16 best _ _ _ _ _ _ _ _ _ _ _ _ _ _ _ _
    · have h : rest.length + 1 + 1 + 1 + 1 + 1 + 1 + 1 + 1 + 1 + 1 + 1 + 1 + 1 + 1 + 1 + 1 + 1 > 16 := by omega
      simp only [loadSlot, validRecord, getBytesLen, List.length_cons, h, if_true]

/-- The three ways one slot can act on the best record so far. -/
theorem loadSlot_cases (best : BestRec) (slot : Option (List Nat)) :
    (validRecord slot = none ∧ loadSlot best slot = best) ∨
    (∃ q, validRecord slot = some q ∧
      ((loadSlot best slot = q ∧ (best.found = false ∨ best.bestEpoch < q.bestEpoch)) ∨
       (loadSlot best slot = best ∧ best.found = true ∧ q.bestEpoch ≤ best.bestEpoch))) := by
  rw [loadSlot_eq]
  cases hv : validRecord slot with
  | none => exact Or.inl ⟨rfl, rfl⟩
  | some q =>
    refine Or.inr ⟨q, rfl, ?_⟩
    dsimp only
    by_cases hc : (!best.found) = true ∨ q.bestEpoch > best.bestEpoch
    · rw [if_pos hc]
      refine Or.inl ⟨rfl, ?_⟩
      rcases hc with hc | hc
      · left; simpa using hc
      · right; exact hc
    · rw [if_neg hc]
      refine Or.inr ⟨rfl, ?_, ?_⟩
      · have h1 : ¬ ((!best.found) = true) := fun h => hc (Or.inl h)
        simpa using h1
      · have h2 : ¬ (q.bestEpoch > best.bestEpoch) := fun h => hc (Or.inr h)
        omega

/-- The loop of `loadPos` from any starting record: the result is the starting
record or a valid record of the list, and no valid record of the list has a
higher epoch. -/
theorem foldl_loadSlot_spec : ∀ (slots : List (Option (List Nat))) (best : BestRec),
    (slots.foldl loadSlot best = best ∨
      ∃ slot ∈ slots, validRecord slot = some (slots.foldl loadSlot best)) ∧
    (∀ slot ∈ slots, ∀ q, validRecord slot = some q →
      (slots.foldl loadSlot best).found = true ∧
        q.bestEpoch ≤ (slots.foldl loadSlot best).bestEpoch) ∧
    (best.found = true →
      (slots.foldl loadSlot best).found = true ∧
        best.bestEpoch ≤ (slots.foldl loadSlot best).bestEpoch)
  | [], best => ⟨Or.inl rfl, fun _ h => absurd h (List.not_mem_nil _), fun h => ⟨h, le_refl _⟩⟩
  | slot :: rest, best => by
    obtain ⟨ih1, ih2, ih3⟩ := foldl_loadSlot_spec rest (loadSlot best slot)
    rw [List.foldl_cons]
    have hstep := loadSlot_cases best slot
    refine ⟨?_, ?_, ?_⟩
    · rcases ih1 with h | ⟨x, hx, hv⟩
      · rcases hstep with ⟨_, hb⟩ | ⟨q, hq, ⟨hb, _⟩ | ⟨hb, _, _⟩⟩
        · left; rw [h, hb]
        · right; exact ⟨slot, List.mem_cons_self _ _, by rw [h, hb, hq]⟩
        · left; rw [h, hb]
      · right; exact ⟨x, List.mem_cons_of_mem _ hx, hv⟩
    · intro x hx q hq
      rcases List.mem_cons.mp hx with rfl | hx
      · have hb : (loadSlot best x).found = true ∧ q.bestEpoch ≤ (loadSlot best x).bestEpoch := by
          rcases hstep with ⟨hn, _⟩ | ⟨q2, hq2, ⟨hb, _⟩ | ⟨hb, hf, hle⟩⟩
          · rw [hn] at hq; exact absurd hq (by simp)
          · have e : q2 = q := Option.some.inj (hq2.symm.trans hq)
            rw [hb, e]
            exact ⟨validRecord_found _ _ hq, le_refl _⟩
          · have e : q2 = q := Option.some.inj (hq2.symm.trans hq)
            rw [hb]
            exact ⟨hf, e ▸ hle⟩
        have h3 := ih3 hb.1
        exact ⟨h3.1, le_trans hb.2 h3.2⟩
      · exact ih2 x hx q hq
    · intro hf
      have hb : (loadSlot best slot).found = true ∧ best.bestEpoch ≤ (loadSlot best slot).bestEpoch := by
        rcases hstep with ⟨_, hb⟩ | ⟨q, hq, ⟨hb, hlt⟩ | ⟨hb, _, _⟩⟩
        · rw [hb]; exact ⟨hf, le_refl _⟩
        · rw [hb]
          refine ⟨validRecord_found _ _ hq, ?_⟩
          rcases hlt with h | h
          · rw [hf] at h; exact absurd h (by simp)
          · omega
        · rw [hb]; exact ⟨hf, le_refl _⟩
      have h3 := ih3 hb.1
      exact ⟨h3.1, le_trans hb.2 h3.2⟩

/-- The loop depends on the valid records of the slots only. -/
theorem foldl_loadSlot_congr : ∀ (l1 l2 : List (Option (List Nat))) (best : BestRec),
    l1.map validRecord = l2.map validRecord → l1.foldl loadSlot best = l2.foldl loadSlot best
  | [], [], _, _ => rfl
  | [], _ :: _, _, h => by simp at h
  | _ :: _, [], _, h => by simp at h
  | a :: l1, b :: l2, best, h => by
    simp only [List.map_cons, List.cons.injEq] at h
    have e : loadSlot best a = loadSlot best b := by rw [loadSlot_eq, loadSlot_eq, h.1]
    rw [List.foldl_cons, List.foldl_cons, e]
    exact foldl_loadSlot_congr l1 l2 _ h.2

/-- Without a valid record the loop of `loadPos` finds nothing. -/
theorem scanSlots_none (slots : List (Option (List Nat)))
    (h : ∀ slot ∈ slots.take POS_SLOTS, validRecord slot = none) :
    scanSlots slots = noRecord := by
  rcases (foldl_loadSlot_spec (slots.take POS_SLOTS) noRecord).1 with h1 | ⟨x, hx, hv⟩
  · exact h1
  · rw [h x hx] at hv; exact absurd hv (by simp)

/-- With a valid record the loop of `loadPos` ends on a valid record of the
highest epoch. -/
theorem scanSlots_some (slots : List (Option (List Nat)))
    (h : ∃ slot ∈ slots.take POS_SLOTS, validRecord slot ≠ none) :
    (scanSlots slots).found = true ∧
    (∃ slot ∈ slots.take POS_SLOTS, validRecord slot = some (scanSlots slots)) ∧
    (∀ slot ∈ slots.take POS_SLOTS, ∀ q, validRecord slot = some q →
      q.bestEpoch ≤ (scanSlots slots).bestEpoch) := by
  obtain ⟨h1, h2, _⟩ := foldl_loadSlot_spec (slots.take POS_SLOTS) noRecord
  obtain ⟨x, hx, hv⟩ := h
  obtain ⟨q, hq⟩ := Option.ne_none_iff_exists'.mp hv
  have hf : (scanSlots slots).found = true := (h2 x hx q hq).1
  refine ⟨hf, ?_, fun y hy r hr => (h2 y hy r hr).2⟩
  rcases h1 with h1 | h1
  · have h0 : (scanSlots slots).found = false := by
      unfold scanSlots; rw [h1]; rfl
    rw [hf] at h0; exact absurd h0 (by simp)
  · exact h1

/-- What `loadPos` leaves in the tracker, in terms of the result of its loop. -/
theorem loadPos_fields (s : ClickCounter) :
    (s.loadPos).pos =
      (if (scanSlots s.nvsSlots).found then limitPos (scanSlots s.nvsSlots).bestPos else 0) ∧
    (s.loadPos).epoch =
      (if (scanSlots s.nvsSlots).found then (scanSlots s.nvsSlots).bestEpoch else 0) ∧
    (s.loadPos).sensorExpectedLow =
      (if (scanSlots s.nvsSlots).found then (scanSlots s.nvsSlots).bestLevelLow else false) ∧
    (s.loadPos).sensorPersisted =
      (if (scanSlots s.nvsSlots).found then (scanSlots s.nvsSlots).bestHasLevel else false) ∧
    (s.loadPos).nvsSlots = s.nvsSlots ∧ (s.loadPos).endPos = s.endPos ∧
    (s.loadPos).nvsEnd = s.nvsEnd ∧ (s.loadPos).prefsOpen = s.prefsOpen := by
  have h : (s.nvsSlots.take POS_SLOTS).foldl loadSlot
      { found := false, bestEpoch := 0, bestPos := 0, bestLevelLow := false,
        bestHasLevel := false } = scanSlots s.nvsSlots := rfl
  unfold loadPos
  simp only [h]
  generalize scanSlots s.nvsSlots = r
  cases hf : r.found
  · simp [SET_MIN_POS, SET_MAX_POS]
  · simp only [if_true, limitPos, SET_MIN_POS, SET_MAX_POS]
    refine ⟨?_, ?_, ?_, ?_, ?_, ?_, ?_, ?_⟩
    · split_ifs <;> simp_all <;> omega
    all_goals (split_ifs <;> rfl)

/-- The list form of `epochsAtMost`. -/
theorem epochsAtMost_iff (slots : List (Option (List Nat))) (n : Nat) :
    epochsAtMost slots n = true ↔
      ∀ slot ∈ slots.take POS_SLOTS, ∀ q, validRecord slot = some q → q.bestEpoch ≤ n := by
  unfold epochsAtMost
  rw [List.all_eq_true]
  constructor
  · intro h x hx q hq
    have := h x hx
    rw [hq] at this
    simpa using this
  · intro h x hx
    cases hv : validRecord x with
    | none => rfl
    | some q => simpa using h x hx q hv

/-- After `loadPos` no valid record of the store has an epoch above `_epoch`. -/
theorem loadPos_epochsAtMost (s : ClickCounter) :
    epochsAtMost (s.loadPos).nvsSlots (s.loadPos).epoch = true := by
  obtain ⟨_, he, _, _, hs, _⟩ := loadPos_fields s
  rw [hs, he, epochsAtMost_iff]
  intro x hx q hq
  have h := scanSlots_some s.nvsSlots ⟨x, hx, by rw [hq]; simp⟩
  rw [if_pos h.1]
  exact h.2.2 x hx q hq

/-! ### The limit on a loaded position -/

theorem limitPos_bounds (p : Int) : SET_MIN_POS ≤ limitPos p ∧ limitPos p ≤ SET_MAX_POS := by
  unfold limitPos SET_MIN_POS SET_MAX_POS
  omega

theorem limitPos_id (p : Int) (h1 : SET_MIN_POS ≤ p) (h2 : p ≤ SET_MAX_POS) : limitPos p = p := by
  unfold limitPos
  unfold SET_MIN_POS at *
  unfold SET_MAX_POS at *
  omega

end ClickCounter

/-! ### Saving and reloading the position -/

set_option maxRecDepth 100000

namespace ClickCounter

/-- What a forced save writes: the next epoch, and the record of the current
position and level in the slot of that epoch. -/
theorem persistPos_forced (s : ClickCounter) (now : Nat) (ho : s.prefsOpen = true) :
    (s.persistPos true now).epoch = (s.epoch + 1) % U32 ∧
    (s.persistPos true now).nvsSlots =
      s.nvsSlots.set ((s.epoch + 1) % U32 % POS_SLOTS)
        (some (encodeRecV1 ((s.epoch + 1) % U32) s.pos (if s.sensorExpectedLow then 1 else 0))) ∧
    (s.persistPos true now).prefsOpen = true ∧
    (s.persistPos true now).pos = s.pos ∧
    (s.persistPos true now).sensorExpectedLow = s.sensorExpectedLow := by
  unfold persistPos
  simp [ho]

/-- An unforced save either does nothing or is a forced save. -/
theorem persistPos_unforced (s : ClickCounter) (now : Nat) :
    s.persistPos false now = s ∨ s.persistPos false now = s.persistPos true now := by
  unfold persistPos
  by_cases ho : s.prefsOpen = true
  · by_cases hc : s.pos = s.lastPersistPos ∧ s.sensorExpectedLow = s.lastPersistLevelLow
    · left; simp [ho, hc]
    · right; simp [ho, hc]
  · left; simp [ho]

/-- One save from a store whose valid records have epochs up to `_epoch`: the
new record is the one `loadPos` will pick, and the store keeps its shape. -/
theorem saveAt_spec (s : ClickCounter) (x : Int × Bool × Nat) (ho : s.prefsOpen = true)
    (hlen : s.nvsSlots.length = 8) (hinv : epochsAtMost s.nvsSlots s.epoch = true)
    (hwrap : s.epoch + 1 < U32) :
    (saveAt s x).prefsOpen = true ∧ (saveAt s x).nvsSlots.length = 8 ∧
    (saveAt s x).epoch = s.epoch + 1 ∧
    epochsAtMost (saveAt s x).nvsSlots (saveAt s x).epoch = true ∧
    scanSlots (saveAt s x).nvsSlots =
      { found := true, bestEpoch := s.epoch + 1, bestPos := i32OfBits (i32Bits x.1),
        bestLevelLow := x.2.1, bestHasLevel := true } := by
  have hmod : (s.epoch + 1) % U32 = s.epoch + 1 := Nat.mod_eq_of_lt hwrap
  obtain ⟨he, hs, hopen, _, _⟩ :=
    persistPos_forced { s with pos := x.1, sensorExpectedLow := x.2.1 } x.2.2 ho
  simp only [hmod] at he hs
  have hlvl : (if x.2.1 = true then (1 : Nat) else 0) < U32 := by split_ifs <;> decide
  have hv := validRecord_encodeRecV1 (s.epoch + 1) x.1 (if x.2.1 = true then 1 else 0) hwrap hlvl
  have hlow : decide ((if x.2.1 = true then (1 : Nat) else 0) ≠ 0) = x.2.1 := by
    cases x.2.1 <;> rfl
  rw [hlow] at hv
  have hlen2 : (saveAt s x).nvsSlots.length = 8 := by
    unfold saveAt; rw [hs, List.length_set]; exact hlen
  have htake : ∀ l : List (Option (List Nat)), l.length = 8 → l.take POS_SLOTS = l := by
    intro l hl
    exact List.take_of_length_le (by rw [hl]; decide)
  have hold := (epochsAtMost_iff _ _).mp hinv
  rw [htake _ hlen] at hold
  have hk : (s.epoch + 1) % POS_SLOTS < s.nvsSlots.length := by
    rw [hlen]; exact Nat.mod_lt _ (by decide)
  have hmem : some (encodeRecV1 (s.epoch + 1) x.1 (if x.2.1 = true then 1 else 0)) ∈
      (saveAt s x).nvsSlots := by
    unfold saveAt; rw [hs]; exact List.mem_set _ _ hk _
  have hall : ∀ slot ∈ (saveAt s x).nvsSlots, ∀ q, validRecord slot = some q →
      q.bestEpoch ≤ s.epoch + 1 := by
    intro y hy q hq
    unfold saveAt at hy
    rw [hs] at hy
    rcases List.mem_or_eq_of_mem_set hy with hy | hy
    · exact Nat.le_succ_of_le (hold y hy q hq)
    · rw [hy, hv] at hq
      rw [← Option.some.inj hq]
  refine ⟨hopen, hlen2, he, ?_, ?_⟩
  · rw [epochsAtMost_iff, htake _ hlen2]
    have he2 : (saveAt s x).epoch = s.epoch + 1 := he
    rw [he2]
    exact hall
  · obtain ⟨_, ⟨y, hy, hy2⟩, hmax⟩ := scanSlots_some (saveAt s x).nvsSlots
      ⟨_, by rw [htake _ hlen2]; exact hmem, by rw [hv]; simp⟩
    rw [htake _ hlen2] at hy hmax
    have hge := hmax _ hmem _ hv
    have hy3 := hy
    unfold saveAt at hy3
    rw [hs] at hy3
    rcases List.mem_or_eq_of_mem_set hy3 with hy3 | hy3
    · have := hold y hy3 _ hy2
      simp only at hge
      omega
    · rw [hy3, hv] at hy2
      exact (Option.some.inj hy2).symm

/-- A run of saves keeps the store in shape and counts the epoch up. -/
theorem saveRun_spec : ∀ (xs : List (Int × Bool × Nat)) (s : ClickCounter),
    s.prefsOpen = true → s.nvsSlots.length = 8 → epochsAtMost s.nvsSlots s.epoch = true →
    s.epoch + xs.length < U32 →
    (saveRun s xs).prefsOpen = true ∧ (saveRun s xs).nvsSlots.length = 8 ∧
    (saveRun s xs).epoch = s.epoch + xs.length ∧
    epochsAtMost (saveRun s xs).nvsSlots (saveRun s xs).epoch = true
  | [], s, ho, hlen, hinv, _ => ⟨ho, hlen, rfl, hinv⟩
  | x :: xs, s, ho, hlen, hinv, hw => by
    rw [List.length_cons] at hw
    obtain ⟨h1, h2, h3, h4, _⟩ := saveAt_spec s x ho hlen hinv (by omega)
    obtain ⟨i1, i2, i3, i4⟩ := saveRun_spec xs (saveAt s x) h1 h2 h4 (by rw [h3]; omega)
    have e : saveRun s (x :: xs) = saveRun (saveAt s x) xs := rfl
    rw [e]
    refine ⟨i1, i2, ?_, i4⟩
    rw [i3, h3, List.length_cons]
    omega

theorem loadFromNvs_simulate (u : ClickCounter) : (u.loadFromNvs).simulate = u.simulate := by
  unfold loadFromNvs loadPos loadEnd
  cases u.nvsEnd <;> dsimp only <;> split_ifs <;> rfl

/-- The last part of `begin`, after the store was read into `a`. -/
theorem begin_eq (t : ClickCounter) (sim : Bool) (now : Nat) (pinLow : Bool) :
    ∃ u : ClickCounter, u.nvsSlots = t.nvsSlots ∧ u.simulate = sim ∧
      ((u.loadFromNvs).sensorPersisted = true →
        (t.begin sim true now pinLow).pos = (u.loadFromNvs).pos ∧
        (t.begin sim true now pinLow).sensorExpectedLow = (u.loadFromNvs).sensorExpectedLow ∧
        (t.begin sim true now pinLow).epoch = (u.loadFromNvs).epoch) := by
  refine ⟨{ t with simulate := sim, motion := MotionState.IDLE, lastMotion := MotionState.IDLE,
                     pos := 0, epoch := 0, panicFlag := false, lastPersistPos := 0,
                     lastPersistMs := now, lastPersistLevelLow := false,
                     sensorExpectedLow := false, sensorLiveLow := false,
                     sensorPersisted := false, simSensorLow := false, overshootLogged := false,
                     lastActiveDirection := MotionState.IDLE, tailHoldUntil := 0, edgePhase := 0,
                     edgeCountIsr := 0, lastIsrUs := 0, prefsOpen := true }, rfl, rfl, ?_⟩
  intro hper
  unfold begin
  dsimp only
  rw [if_pos rfl]
  generalize ClickCounter.loadFromNvs _ = a at hper ⊢
  by_cases h1 : a.simulate = true
  · rw [if_pos h1]; exact ⟨rfl, rfl, rfl⟩
  · rw [if_neg h1]
    simp only [refreshLiveLevel]
    split_ifs <;> simp_all

/-- What `begin` leaves of the record `loadPos` has found, when the store opens
and the record carries a sensor level. -/
theorem begin_loaded (t : ClickCounter) (sim : Bool) (now : Nat) (pinLow : Bool)
    (r : BestRec) (hscan : scanSlots t.nvsSlots = r) (hf : r.found = true)
    (hl : r.bestHasLevel = true) :
    (t.begin sim true now pinLow).pos = limitPos r.bestPos ∧
    (t.begin sim true now pinLow).sensorExpectedLow = r.bestLevelLow ∧
    (t.begin sim true now pinLow).epoch = r.bestEpoch := by
  obtain ⟨u, hu, _, hb⟩ := begin_eq t sim now pinLow
  have hu2 : (u.loadEnd).nvsSlots = t.nvsSlots := by
    rw [← hu]; unfold loadEnd; cases u.nvsEnd <;> (dsimp only; split_ifs <;> rfl)
  obtain ⟨h1, h2, h3, h4, _⟩ := loadPos_fields u.loadEnd
  rw [hu2, hscan, if_pos hf] at h1 h2 h3 h4
  have h5 : (u.loadFromNvs).sensorPersisted = true := by
    unfold loadFromNvs; rw [h4, hl]
  obtain ⟨b1, b2, b3⟩ := hb h5
  unfold loadFromNvs at b1 b2 b3
  exact ⟨b1.trans h1, b2.trans h3, b3.trans h2⟩

/-- C11 (as stated, refuted). The tracker boots from a store with span 8192 and
position 8192, is driven towards Closing for one pulse and stopped: position
8193 (one step past the span, tolerated by `update(false)`, no panic) is
saved with epoch 3 in slot 3, as the valid record of the highest epoch.
`loadPos` on that store, and a reboot from it, give back 8192, not the 8193
of the last save. -/
theorem C11_saved_position_is_limited :
    savedPastEnd.prefsOpen = true ∧ savedPastEnd.position = 8193 ∧
    savedPastEnd.endOf = 8192 ∧ savedPastEnd.panicked = false ∧ savedPastEnd.epoch = 3 ∧
    savedPastEnd.nvsSlots.get? 3 = some (some (encodeRecV1 3 8193 0)) ∧
    scanSlots savedPastEnd.nvsSlots =
      { found := true, bestEpoch := 3, bestPos := 8193, bestLevelLow := false,
        bestHasLevel := true } ∧
    (savedPastEnd.loadPos).position = 8192 ∧
    ((constructed savedPastEnd.nvsEnd savedPastEnd.nvsSlots).begin false true 200
      false).position = 8192 := by
  decide

/-- C11 (amended). From a tracker with the store open, whose eight slots hold
no valid record with an epoch above `_epoch` (as after `loadPos`), after any
sequence of saves that does not wrap the 32-bit epoch, `loadPos` on the
resulting store restores the expected sensor level of the last save and its
position limited to `[-512, 8192]`, hence the position itself when it lies in
that range; so does a reboot (`begin`) from that store. -/
theorem C11_reload_restores_last_save (s t : ClickCounter) (xs : List (Int × Bool × Nat))
    (p : Int) (low : Bool) (now : Nat) (sim pinLow : Bool) (bootMs : Nat)
    (hopen : s.prefsOpen = true) (hlen : s.nvsSlots.length = 8)
    (hinv : epochsAtMost s.nvsSlots s.epoch = true)
    (hwrap : s.epoch + xs.length + 1 < U32)
    (hp1 : -2147483648 ≤ p) (hp2 : p < 2147483648)
    (ht : t.nvsSlots = (saveRun s (xs ++ [(p, low, now)])).nvsSlots) :
    (t.loadPos).position = limitPos p ∧
    (SET_MIN_POS ≤ p → p ≤ SET_MAX_POS → (t.loadPos).position = p) ∧
    (t.loadPos).sensorExpectedLow = low ∧
    (t.loadPos).sensorPersisted = true ∧
    (t.loadPos).epoch = s.epoch + xs.length + 1 ∧
    (t.begin sim true bootMs pinLow).position = limitPos p ∧
    (t.begin sim true bootMs pinLow).sensorExpectedLow = low := by
  obtain ⟨r1, r2, r3, r4⟩ := saveRun_spec xs s hopen hlen hinv (by omega)
  have hrun : saveRun s (xs ++ [(p, low, now)]) = saveAt (saveRun s xs) (p, low, now) := by
    unfold saveRun; rw [List.foldl_append]; rfl
  obtain ⟨_, _, _, _, hscan⟩ :=
    saveAt_spec (saveRun s xs) (p, low, now) r1 r2 r4 (by rw [r3]; omega)
  rw [← hrun, ← ht, r3] at hscan
  simp only [i32OfBits_i32Bits p hp1 hp2] at hscan
  obtain ⟨f1, f2, f3, f4, _⟩ := loadPos_fields t
  rw [hscan] at f1 f2 f3 f4
  simp only [if_true] at f1 f2 f3 f4
  obtain ⟨b1, b2, _⟩ := begin_loaded t sim bootMs pinLow _ hscan rfl rfl
  refine ⟨f1, ?_, f3, f4, f2, b1, b2⟩
  intro ha hb
  unfold position
  rw [f1, limitPos_id p ha hb]

/-- C11 (amended), instance: from a fresh store, positions 10 (level high) and
then 20 (level low) are saved; `loadPos` and a reboot restore 20 and low. -/
theorem C11_reload_restores_last_save_witness :
    ((saveRun (trackerAt 0 MotionState.IDLE 0) [(10, false, 1000), (20, true, 2000)]).loadPos).position
      = limitPos 20 ∧
    (SET_MIN_POS ≤ 20 → (20 : Int) ≤ SET_MAX_POS →
      ((saveRun (trackerAt 0 MotionState.IDLE 0)
        [(10, false, 1000), (20, true, 2000)]).loadPos).position = 20) ∧
    ((saveRun (trackerAt 0 MotionState.IDLE 0)
      [(10, false, 1000), (20, true, 2000)]).loadPos).sensorExpectedLow = true ∧
    ((saveRun (trackerAt 0 MotionState.IDLE 0)
      [(10, false, 1000), (20, true, 2000)]).loadPos).sensorPersisted = true ∧
    ((saveRun (trackerAt 0 MotionState.IDLE 0)
      [(10, false, 1000), (20, true, 2000)]).loadPos).epoch =
      (trackerAt 0 MotionState.IDLE 0).epoch + [((10 : Int), false, 1000)].length + 1 ∧
    ((saveRun (trackerAt 0 MotionState.IDLE 0)
      [(10, false, 1000), (20, true, 2000)]).begin false true 5000 false).position
      = limitPos 20 ∧
    ((saveRun (trackerAt 0 MotionState.IDLE 0)
      [(10, false, 1000), (20, true, 2000)]).begin false true 5000 false).sensorExpectedLow
      = true :=
  C11_reload_restores_last_save (trackerAt 0 MotionState.IDLE 0)
    (saveRun (trackerAt 0 MotionState.IDLE 0) [(10, false, 1000), (20, true, 2000)])
    [(10, false, 1000)] 20 true 2000 false false 5000
    (by decide) (by decide) (by decide) (by decide) (by decide) (by decide) rfl

end ClickCounter

/-! ### Which slot `loadPos` takes -/

set_option maxRecDepth 100000

namespace ClickCounter

theorem le32_ofLe32 (b0 b1 b2 b3 : Nat) (h0 : b0 < 256) (h1 : b1 < 256) (h2 : b2 < 256)
    (h3 : b3 < 256) : le32 (ofLe32 b0 b1 b2 b3) = [b0, b1, b2, b3] := by
  unfold le32 ofLe32
  have e0 : (b0 + 256 * b1 + 65536 * b2 + 16777216 * b3) % 256 = b0 := by omega
  have e1 : (b0 + 256 * b1 + 65536 * b2 + 16777216 * b3) / 256 % 256 = b1 := by omega
  have e2 : (b0 + 256 * b1 + 65536 * b2 + 16777216 * b3) / 65536 % 256 = b2 := by omega
  have e3 : (b0 + 256 * b1 + 65536 * b2 + 16777216 * b3) / 16777216 % 256 = b3 := by omega
  rw [e0, e1, e2, e3]

theorem ofLe32_lt (b0 b1 b2 b3 : Nat) (h0 : b0 < 256) (h1 : b1 < 256) (h2 : b2 < 256)
    (h3 : b3 < 256) : ofLe32 b0 b1 b2 b3 < U32 := by
  unfold ofLe32 U32
  omega

/-- On bytes, the checksum `loadPos` computes for a 16-byte record is the
CRC-32 of its first nine bytes. -/
theorem computeRecCrc_bytes (e0 e1 e2 e3 p0 p1 p2 p3 lv : Nat)
    (hb : ∀ b ∈ [e0, e1, e2, e3, p0, p1, p2, p3], b < 256) :
    computeRecCrc (ofLe32 e0 e1 e2 e3) (i32OfBits (ofLe32 p0 p1 p2 p3)) lv =
      stdCrc32 [e0, e1, e2, e3, p0, p1, p2, p3, lv] := by
  simp only [List.mem_cons, List.mem_singleton, forall_eq_or_imp, forall_eq, List.not_mem_nil,
    false_implies, implies_true, and_true] at hb
  obtain ⟨h0, h1, h2, h3, h4, h5, h6, h7⟩ := hb
  unfold computeRecCrc
  rw [i32Bits_i32OfBits _ (ofLe32_lt _ _ _ _ h4 h5 h6 h7), le32_ofLe32 _ _ _ _ h0 h1 h2 h3,
    le32_ofLe32 _ _ _ _ h4 h5 h6 h7, crc32_eq_std]
  rfl

/-- On bytes, the checksum `loadPos` computes for a 12-byte record is the
CRC-32 of its first eight bytes. -/
theorem computeRecCrcLegacy_bytes (e0 e1 e2 e3 p0 p1 p2 p3 : Nat)
    (hb : ∀ b ∈ [e0, e1, e2, e3, p0, p1, p2, p3], b < 256) :
    computeRecCrcLegacy (ofLe32 e0 e1 e2 e3) (i32OfBits (ofLe32 p0 p1 p2 p3)) =
      stdCrc32 [e0, e1, e2, e3, p0, p1, p2, p3] := by
  simp only [List.mem_cons, List.mem_singleton, forall_eq_or_imp, forall_eq, List.not_mem_nil,
    false_implies, implies_true, and_true] at hb
  obtain ⟨h0, h1, h2, h3, h4, h5, h6, h7⟩ := hb
  unfold computeRecCrcLegacy
  rw [i32Bits_i32OfBits _ (ofLe32_lt _ _ _ _ h4 h5 h6 h7), le32_ofLe32 _ _ _ _ h0 h1 h2 h3,
    le32_ofLe32 _ _ _ _ h4 h5 h6 h7, crc32_eq_std]
  rfl

theorem validRecord_size (bytes : List Nat) (h16 : bytes.length ≠ 16) (h12 : bytes.length ≠ 12) :
    validRecord (some bytes) = none := by
  unfold validRecord
  split
  · rename_i heq
    rw [Option.some.inj heq] at h16
    exact absurd rfl h16
  · rename_i heq
    rw [Option.some.inj heq] at h12
    exact absurd rfl h12
  · rfl

/-- C12. Whatever the eight slots hold: when no slot holds a valid record,
`loadPos` leaves position 0 and epoch 0; otherwise position (limited to
`[-512, 8192]`), epoch and level come from a slot with a valid record whose
epoch is the highest of all valid records.  A slot that is missing, has a size
other than 16 or 12 bytes, or whose stored checksum is not the CRC-32 of its
fields holds no valid record; such a slot is skipped by the loop, and two
stores with the same valid records load the same. -/
theorem C12_highest_valid_epoch_wins (s t : ClickCounter) :
    ((∀ slot ∈ s.nvsSlots.take POS_SLOTS, validRecord slot = none) →
      (s.loadPos).position = 0 ∧ (s.loadPos).epoch = 0 ∧
      (s.loadPos).sensorPersisted = false) ∧
    ((∃ slot ∈ s.nvsSlots.take POS_SLOTS, validRecord slot ≠ none) →
      ∃ slot ∈ s.nvsSlots.take POS_SLOTS, ∃ r, validRecord slot = some r ∧
        (s.loadPos).epoch = r.bestEpoch ∧ (s.loadPos).position = limitPos r.bestPos ∧
        (s.loadPos).sensorExpectedLow = r.bestLevelLow ∧
        ∀ other ∈ s.nvsSlots.take POS_SLOTS, ∀ q, validRecord other = some q →
          q.bestEpoch ≤ r.bestEpoch) ∧
    validRecord none = none ∧
    (∀ bytes : List Nat, bytes.length ≠ 16 → bytes.length ≠ 12 →
      validRecord (some bytes) = none) ∧
    (∀ e0 e1 e2 e3 p0 p1 p2 p3 lv r0 r1 r2 c0 c1 c2 c3 : Nat,
      (∀ b ∈ [e0, e1, e2, e3, p0, p1, p2, p3], b < 256) →
      stdCrc32 [e0, e1, e2, e3, p0, p1, p2, p3, lv] ≠ ofLe32 c0 c1 c2 c3 →
      validRecord (some [e0, e1, e2, e3, p0, p1, p2, p3, lv, r0, r1, r2, c0, c1, c2, c3])
        = none) ∧
    (∀ e0 e1 e2 e3 p0 p1 p2 p3 c0 c1 c2 c3 : Nat,
      (∀ b ∈ [e0, e1, e2, e3, p0, p1, p2, p3], b < 256) →
      stdCrc32 [e0, e1, e2, e3, p0, p1, p2, p3] ≠ ofLe32 c0 c1 c2 c3 →
      validRecord (some [e0, e1, e2, e3, p0, p1, p2, p3, c0, c1, c2, c3]) = none) ∧
    (∀ (best : BestRec) (slot : Option (List Nat)), validRecord slot = none →
      loadSlot best slot = best) ∧
    ((s.nvsSlots.take POS_SLOTS).map validRecord = (t.nvsSlots.take POS_SLOTS).map validRecord →
      (t.loadPos).position = (s.loadPos).position ∧ (t.loadPos).epoch = (s.loadPos).epoch ∧
      (t.loadPos).sensorExpectedLow = (s.loadPos).sensorExpectedLow) := by
  obtain ⟨hp, he, hl, hh, _⟩ := loadPos_fields s
  refine ⟨?_, ?_, rfl, validRecord_size, ?_, ?_, ?_, ?_⟩
  · intro h
    have h0 := scanSlots_none s.nvsSlots h
    unfold position
    rw [hp, he, hh, h0]
    exact ⟨rfl, rfl, rfl⟩
  · intro h
    obtain ⟨hf, ⟨x, hx, hv⟩, hmax⟩ := scanSlots_some s.nvsSlots h
    refine ⟨x, hx, scanSlots s.nvsSlots, hv, ?_, ?_, ?_, hmax⟩
    · rw [he, if_pos hf]
    · unfold position; rw [hp, if_pos hf]
    · rw [hl, if_pos hf]
  · intro e0 e1 e2 e3 p0 p1 p2 p3 lv r0 r1 r2 c0 c1 c2 c3 hb hne
    simp only [validRecord]
    rw [computeRecCrc_bytes _ _ _ _ _ _ _ _ _ hb, if_neg hne]
  · intro e0 e1 e2 e3 p0 p1 p2 p3 c0 c1 c2 c3 hb hne
    simp only [validRecord]
    rw [computeRecCrcLegacy_bytes _ _ _ _ _ _ _ _ hb, if_neg hne]
  · intro best slot h
    rw [loadSlot_eq, h]
  · intro h
    obtain ⟨tp, te, tl, _⟩ := loadPos_fields t
    have e : scanSlots t.nvsSlots = scanSlots s.nvsSlots := by
      unfold scanSlots
      exact (foldl_loadSlot_congr _ _ _ h).symm
    unfold position
    rw [tp, te, tl, hp, he, hl, e]
    exact ⟨rfl, rfl, rfl⟩

/-- C12, instance: of `legacyStore` (a record with a wrong checksum, a legacy
record of epoch 7 at position 120, and 5 stray bytes) the legacy record is
taken. -/
theorem C12_highest_valid_epoch_wins_witness :
    ∃ slot ∈ (constructed none legacyStore).nvsSlots.take POS_SLOTS, ∃ r,
      validRecord slot = some r ∧
      ((constructed none legacyStore).loadPos).epoch = r.bestEpoch ∧
      ((constructed none legacyStore).loadPos).position = limitPos r.bestPos ∧
      ((constructed none legacyStore).loadPos).sensorExpectedLow = r.bestLevelLow ∧
      ∀ other ∈ (constructed none legacyStore).nvsSlots.take POS_SLOTS, ∀ q,
        validRecord other = some q → q.bestEpoch ≤ r.bestEpoch :=
  (C12_highest_valid_epoch_wins (constructed none legacyStore)
    (constructed none legacyStore)).2.1 ⟨some (encodeRecV0 7 120), by decide, by decide⟩

end ClickCounter

/-! ### Legacy records -/

namespace ClickCounter

/-- The loop of `loadPos` on a store in which one given slot holds the only
valid record. -/
theorem scanSlots_single (slots l1 l2 : List (Option (List Nat))) (x : Option (List Nat))
    (r : BestRec) (hs : slots.take POS_SLOTS = l1 ++ x :: l2) (hx : validRecord x = some r)
    (h1 : ∀ slot ∈ l1, validRecord slot = none) (h2 : ∀ slot ∈ l2, validRecord slot = none) :
    scanSlots slots = r := by
  have hex : ∃ slot ∈ slots.take POS_SLOTS, validRecord slot ≠ none :=
    ⟨x, by rw [hs]; simp, by rw [hx]; simp⟩
  obtain ⟨_, ⟨y, hy, hv⟩, _⟩ := scanSlots_some slots hex
  rw [hs] at hy
  rcases List.mem_append.mp hy with hy | hy
  · rw [h1 y hy] at hv; exact absurd hv (by simp)
  · rcases List.mem_cons.mp hy with rfl | hy
    · exact (Option.some.inj (hv.symm.trans hx))
    · rw [h2 y hy] at hv; exact absurd hv (by simp)

/-- C13. For every epoch and position, the 12-byte slot made of the
little-endian epoch, the little-endian position and the CRC-32 of those eight
bytes holds a valid record; when it is the only valid record of the store,
`loadPos` leaves that position (limited to `[-512, 8192]`) and that epoch, and
records the sensor level as not persisted. -/
theorem C13_legacy_record_loads (s : ClickCounter) (epoch : Nat) (pos : Int)
    (l1 l2 : List (Option (List Nat)))
    (he : epoch < U32) (hp1 : -2147483648 ≤ pos) (hp2 : pos < 2147483648)
    (hs : s.nvsSlots.take POS_SLOTS = l1 ++ some (encodeRecV0 epoch pos) :: l2)
    (h1 : ∀ slot ∈ l1, validRecord slot = none) (h2 : ∀ slot ∈ l2, validRecord slot = none) :
    (encodeRecV0 epoch pos).length = 12 ∧
    (s.loadPos).position = limitPos pos ∧
    (SET_MIN_POS ≤ pos → pos ≤ SET_MAX_POS → (s.loadPos).position = pos) ∧
    (s.loadPos).epoch = epoch ∧
    (s.loadPos).sensorPersisted = false ∧
    (s.loadPos).sensorExpectedLow = false := by
  have hv := validRecord_encodeRecV0 epoch pos he
  rw [i32OfBits_i32Bits pos hp1 hp2] at hv
  have hscan := scanSlots_single s.nvsSlots l1 l2 _ _ hs hv h1 h2
  obtain ⟨hp, hep, hl, hh, _⟩ := loadPos_fields s
  rw [hscan] at hp hep hl hh
  simp only [if_true] at hp hep hl hh
  refine ⟨rfl, hp, ?_, hep, hh, hl⟩
  intro ha hb
  unfold position
  rw [hp, limitPos_id pos ha hb]

/-- C13, instance: `legacyStore` holds the legacy record of epoch 7 and
position 120 in slot 3 and no other valid record. -/
theorem C13_legacy_record_loads_witness :
    (encodeRecV0 7 120).length = 12 ∧
    ((constructed none legacyStore).loadPos).position = limitPos 120 ∧
    (SET_MIN_POS ≤ 120 → (120 : Int) ≤ SET_MAX_POS →
      ((constructed none legacyStore).loadPos).position = 120) ∧
    ((constructed none legacyStore).loadPos).epoch = 7 ∧
    ((constructed none legacyStore).loadPos).sensorPersisted = false ∧
    ((constructed none legacyStore).loadPos).sensorExpectedLow = false :=
  C13_legacy_record_loads (constructed none legacyStore) 7 120
    [some (le32 9 ++ le32 50 ++ [1, 0, 0, 0] ++ le32 0), none, none]
    [none, some [1, 2, 3, 4, 5], none, none]
    (by decide) (by decide) (by decide) (by decide) (by decide) (by decide)

end ClickCounter

/-! ### The checksum is the standard CRC-32 -/

namespace ClickCounter

/-- C14. On every byte string `crc32` of the code equals the standard reflected
CRC-32 (polynomial `0xEDB88320`, preset `0xFFFFFFFF`, final XOR `0xFFFFFFFF`);
the nine ASCII bytes `123456789` give `0xCBF43926`; and `computeRecCrc(epoch,
pos, level)` is that CRC of the nine bytes little-endian epoch, little-endian
position (two's complement), level. -/
theorem C14_crc32_is_standard (data : List Nat) (epoch : Nat) (pos : Int) (level : Nat) :
    crc32 data = stdCrc32 data ∧
    crc32 checkString = 0xCBF43926 ∧
    stdCrc32 checkString = 0xCBF43926 ∧
    computeRecCrc epoch pos level = stdCrc32 (le32 epoch ++ le32 (i32Bits pos) ++ [level]) ∧
    (le32 epoch ++ le32 (i32Bits pos) ++ [level]).length = 9 ∧
    le32 epoch =
      [epoch % 256, epoch / 256 % 256, epoch / 65536 % 256, epoch / 16777216 % 256] ∧
    i32Bits pos = (pos % 4294967296).toNat := by
  refine ⟨crc32_eq_std data, by decide, by decide, ?_, rfl, rfl, rfl⟩
  unfold computeRecCrc
  exact crc32_eq_std _

end ClickCounter

/-! ### The tail hold -/

set_option maxRecDepth 100000

namespace ClickCounter

theorem cc_persistPos_tailView (s : ClickCounter) (force : Bool) (now : Nat) :
    tailView (s.persistPos force now) = tailView s := by
  unfold persistPos; split_ifs <;> rfl

/-- One edge while the direction is Idle, the last active direction is `d` and
the hold is running: the edge that completes a pulse moves the position by one
step of `d` and marks the hold as used. -/
theorem cc_processEdge_held (s : ClickCounter) (now : Nat) (d : MotionState) (p : Nat)
    (hm : s.motion = MotionState.IDLE) (hl : s.lastActiveDirection = d)
    (hd : d ≠ MotionState.IDLE) (hh : 0 ≤ asLong (subU32 s.tailHoldUntil now))
    (hp : s.edgePhase = p) (hp1 : p ≤ 1) :
    tailView (s.processEdge now).1 =
      (MotionState.IDLE, d, (p + 1) % 2, s.pos + (if p = 1 then stepOf d else 0),
        s.tailHoldUntil) ∧
    (s.processEdge now).2 = decide (p = 1) := by
  have hcases : p = 0 ∨ p = 1 := by omega
  rcases hcases with rfl | rfl
  · unfold processEdge
    simp [hp, tailView, hm, hl]
  · unfold processEdge computeEffectiveDirection
    simp only [hp, hm, hl]
    cases d with
    | IDLE => exact absurd rfl hd
    | OPENING =>
      simp only [Nat.reduceXor, Nat.reduceMod, if_true, ne_eq, reduceCtorEq, not_false_eq_true,
        not_true_eq_false, if_false, hh, cc_persistPos_tailView]
      simp [tailView, hm, hl, stepOf]
      ring
    | CLOSING =>
      simp only [Nat.reduceXor, Nat.reduceMod, if_true, ne_eq, reduceCtorEq, not_false_eq_true,
        not_true_eq_false, if_false, hh, cc_persistPos_tailView]
      simp [tailView, hm, hl, stepOf]

/-- The loop over `n` edges under a running hold. -/
theorem cc_edgeLoop_held (now : Nat) (d : MotionState) (hd : d ≠ MotionState.IDLE) :
    ∀ (n : Nat) (s : ClickCounter) (b : Bool) (p : Nat),
      s.motion = MotionState.IDLE → s.lastActiveDirection = d →
      0 ≤ asLong (subU32 s.tailHoldUntil now) → s.edgePhase = p → p ≤ 1 →
      tailView (edgeLoop n (s, b) now).1 =
        (MotionState.IDLE, d, (p + n) % 2, s.pos + stepOf d * (((p + n) / 2 : Nat) : Int),
          s.tailHoldUntil)
  | 0, s, b, p, hm, hl, _, hp, hp1 => by
    have h2 : p % 2 = p := Nat.mod_eq_of_lt (by omega)
    have h3 : p / 2 = 0 := by omega
    simp [edgeLoop, tailView, hm, hl, hp, h2, h3]
  | n + 1, s, b, p, hm, hl, hh, hp, hp1 => by
    have h1 := (cc_processEdge_held s now d p hm hl hd hh hp hp1).1
    have hm1 : (s.processEdge now).1.motion = MotionState.IDLE := congrArg (·.1) h1
    have hl1 : (s.processEdge now).1.lastActiveDirection = d := congrArg (·.2.1) h1
    have hp2 : (s.processEdge now).1.edgePhase = (p + 1) % 2 := congrArg (·.2.2.1) h1
    have hpos : (s.processEdge now).1.pos = s.pos + (if p = 1 then stepOf d else 0) :=
      congrArg (·.2.2.2.1) h1
    have ht : (s.processEdge now).1.tailHoldUntil = s.tailHoldUntil := congrArg (·.2.2.2.2) h1
    have ih := cc_edgeLoop_held now d hd n (s.processEdge now).1 (b || (s.processEdge now).2)
      ((p + 1) % 2) hm1 hl1 (by rw [ht]; exact hh) hp2 (by omega)
    rw [edgeLoop, ih, hpos, ht]
    have hcases : p = 0 ∨ p = 1 := by omega
    rcases hcases with rfl | rfl
    · have e1 : (0 + 1) % 2 = 1 := rfl
      have e2 : 0 + (n + 1) = 1 + n := by omega
      simp [e1, e2]
    · have e1 : (1 + 1) % 2 = 0 := rfl
      have e2 : (1 + (n + 1)) / 2 = (0 + n) / 2 + 1 := by omega
      have e3 : (1 + (n + 1)) % 2 = (0 + n) % 2 := by omega
      simp only [e1, e2, e3, if_true]
      push_cast
      simp only [Prod.mk.injEq, and_true, true_and]
      ring

/-- One batch under a running hold: every completed pulse counts one step of
`d`, and the hold window stays or restarts at the time of the batch. -/
theorem cc_batch_held (s : ClickCounter) (edges now : Nat) (d : MotionState) (p : Nat)
    (hm : s.motion = MotionState.IDLE) (hl : s.lastActiveDirection = d)
    (hd : d ≠ MotionState.IDLE) (hh : 0 ≤ asLong (subU32 s.tailHoldUntil now))
    (hp : s.edgePhase = p) (hp1 : p ≤ 1) :
    (s.processEdgeBatch edges now).motion = MotionState.IDLE ∧
    (s.processEdgeBatch edges now).lastActiveDirection = d ∧
    (s.processEdgeBatch edges now).edgePhase = (p + edges) % 2 ∧
    (s.processEdgeBatch edges now).pos = s.pos + stepOf d * (((p + edges) / 2 : Nat) : Int) ∧
    ((s.processEdgeBatch edges now).tailHoldUntil = s.tailHoldUntil ∨
      (s.processEdgeBatch edges now).tailHoldUntil = addU32 now TAIL_HOLD_MS) := by
  unfold processEdgeBatch
  by_cases he : edges = 0
  · have h2 : p % 2 = p := Nat.mod_eq_of_lt (by omega)
    have h3 : p / 2 = 0 := by omega
    simp [he, hm, hl, hp, h2, h3]
  · have h := cc_edgeLoop_held now d hd edges s false p hm hl hh hp hp1
    have hm1 : (edgeLoop edges (s, false) now).1.motion = MotionState.IDLE := congrArg (·.1) h
    have hl1 : (edgeLoop edges (s, false) now).1.lastActiveDirection = d := congrArg (·.2.1) h
    have hp2 : (edgeLoop edges (s, false) now).1.edgePhase = (p + edges) % 2 :=
      congrArg (·.2.2.1) h
    have hpos : (edgeLoop edges (s, false) now).1.pos =
        s.pos + stepOf d * (((p + edges) / 2 : Nat) : Int) := congrArg (·.2.2.2.1) h
    have ht : (edgeLoop edges (s, false) now).1.tailHoldUntil = s.tailHoldUntil :=
      congrArg (·.2.2.2.2) h
    simp only [he, if_false]
    split_ifs <;> refine ⟨hm1, hl1, hp2, hpos, ?_⟩ <;> first | exact Or.inl ht | exact Or.inr rfl

/-- A hold window that ends 100 ms after a reading within 100 ms of `t` is
running at every reading within 100 ms of `t`. -/
theorem hold_running (t tau now : Nat) (h1 : subU32 tau t ≤ TAIL_HOLD_MS)
    (h2 : subU32 now t ≤ TAIL_HOLD_MS) :
    0 ≤ asLong (subU32 (addU32 tau TAIL_HOLD_MS) now) := by
  unfold asLong
  unfold subU32 addU32 TAIL_HOLD_MS U32 at *
  split_ifs <;> omega

/-- A hold window that ends 100 ms after `tau` is over at a reading more than
100 ms and at most `2^31` ms after `tau`. -/
theorem hold_over (tau now : Nat) (h : pastHold tau now = true) :
    asLong (subU32 (addU32 tau TAIL_HOLD_MS) now) < 0 := by
  unfold pastHold at h
  simp only [Bool.and_eq_true, decide_eq_true_eq] at h
  obtain ⟨h1, h2⟩ := h
  unfold asLong
  unfold subU32 addU32 TAIL_HOLD_MS U32 at *
  split_ifs <;> omega

/-- A run of batches, each within 100 ms of the stop at `t`. -/
theorem cc_batches_held (d : MotionState) (hd : d ≠ MotionState.IDLE) (t : Nat) :
    ∀ (bs : List (Nat × Nat)) (s : ClickCounter) (p : Nat),
      s.motion = MotionState.IDLE → s.lastActiveDirection = d →
      (∃ tau, subU32 tau t ≤ TAIL_HOLD_MS ∧ s.tailHoldUntil = addU32 tau TAIL_HOLD_MS) →
      s.edgePhase = p → p ≤ 1 → (∀ b ∈ bs, subU32 b.2 t ≤ TAIL_HOLD_MS) →
      (processBatches s bs).motion = MotionState.IDLE ∧
      (processBatches s bs).pos =
        s.pos + stepOf d * (((p + totalEdges bs) / 2 : Nat) : Int)
  | [], s, p, hm, _, _, _, hp1, _ => by
    have h3 : p / 2 = 0 := by omega
    simp [processBatches, totalEdges, hm, h3]
  | b :: rest, s, p, hm, hl, ⟨tau, hta, htb⟩, hp, hp1, hw => by
    have hb := hw b (List.mem_cons_self _ _)
    have hh : 0 ≤ asLong (subU32 s.tailHoldUntil b.2) := by
      rw [htb]; exact hold_running t tau b.2 hta hb
    obtain ⟨hm1, hl1, hp2, hpos, hth⟩ := cc_batch_held s b.1 b.2 d p hm hl hd hh hp hp1
    have hex : ∃ tau, subU32 tau t ≤ TAIL_HOLD_MS ∧
        (s.processEdgeBatch b.1 b.2).tailHoldUntil = addU32 tau TAIL_HOLD_MS := by
      rcases hth with h | h
      · exact ⟨tau, hta, h.trans htb⟩
      · exact ⟨b.2, hb, h⟩
    have ih := cc_batches_held d hd t rest (s.processEdgeBatch b.1 b.2) ((p + b.1) % 2) hm1 hl1
      hex hp2 (by omega) (fun x hx => hw x (List.mem_cons_of_mem _ hx))
    have ht : totalEdges (b :: rest) = b.1 + totalEdges rest := by
      simp [totalEdges]
    rw [processBatches, ih.2, hpos, ht]
    refine ⟨ih.1, ?_⟩
    have e2 : (p + (b.1 + totalEdges rest)) / 2 =
        (p + b.1) / 2 + ((p + b.1) % 2 + totalEdges rest) / 2 := by omega
    rw [e2]
    push_cast
    ring

/-- What `setMotion(IDLE)` does to a driven tracker: the hold window ends
100 ms after the call, position, edge phase and last active direction stay. -/
theorem cc_setMotion_idle (s : ClickCounter) (t : Nat) (pinLow : Bool)
    (hm : s.motion ≠ MotionState.IDLE) :
    tailView (s.setMotion MotionState.IDLE t pinLow) =
      (MotionState.IDLE, s.lastActiveDirection, s.edgePhase, s.pos, addU32 t TAIL_HOLD_MS) := by
  unfold setMotion
  simp [hm, tailView]

/-- What `setMotion(d)` does for a direction `d`: the direction and the last
active direction are `d`. -/
theorem cc_setMotion_drive (s : ClickCounter) (d : MotionState) (t : Nat) (pinLow : Bool)
    (hd : d ≠ MotionState.IDLE) :
    (s.setMotion d t pinLow).motion = d ∧ (s.setMotion d t pinLow).lastActiveDirection = d := by
  unfold setMotion
  simp [hd]

theorem subU32_self (t : Nat) : subU32 t t = 0 := by
  unfold subU32 U32
  omega

end ClickCounter

/-! ### After the tail hold -/

namespace ClickCounter

/-- The direction `computeEffectiveDirection` reports while the direction is
Idle. -/
theorem cc_direction_idle (s : ClickCounter) (now : Nat) (hm : s.motion = MotionState.IDLE) :
    s.computeEffectiveDirection now =
      if s.lastActiveDirection ≠ MotionState.IDLE then
        if 0 ≤ asLong (subU32 s.tailHoldUntil now) then (s.lastActiveDirection, true, s)
        else (MotionState.IDLE, false,
          { s with lastActiveDirection := MotionState.IDLE, tailHoldUntil := 0 })
      else (MotionState.IDLE, false, s) := by
  unfold computeEffectiveDirection
  simp [hm]

/-- The first step of `processEdge`: phase and live level flip. -/
theorem cc_processEdge_split (s : ClickCounter) (now : Nat) :
    ∃ s1 : ClickCounter, s1.motion = s.motion ∧
      s1.lastActiveDirection = s.lastActiveDirection ∧ s1.tailHoldUntil = s.tailHoldUntil ∧
      s1.pos = s.pos ∧
      s.processEdge now =
        if s1.edgePhase = 0 then
          ((if (s1.computeEffectiveDirection now).1 = MotionState.CLOSING then
              ({ (s1.computeEffectiveDirection now).2.2 with
                  pos := (s1.computeEffectiveDirection now).2.2.pos + 1 }).persistPos false now
            else if (s1.computeEffectiveDirection now).1 = MotionState.OPENING then
              ({ (s1.computeEffectiveDirection now).2.2 with
                  pos := (s1.computeEffectiveDirection now).2.2.pos - 1 }).persistPos false now
            else (s1.computeEffectiveDirection now).2.2),
            (s1.computeEffectiveDirection now).2.1)
        else (s1, false) :=
  ⟨{ s with edgePhase := (s.edgePhase ^^^ 1) % 256, sensorLiveLow := !s.sensorLiveLow },
    rfl, rfl, rfl, rfl, rfl⟩

/-- One edge while the direction is Idle: the direction stays Idle, and the
hold window stays as it is unless the last active direction is cleared. -/
theorem cc_processEdge_idle (s : ClickCounter) (now : Nat) (hm : s.motion = MotionState.IDLE) :
    (s.processEdge now).1.motion = MotionState.IDLE ∧
    ((s.processEdge now).1.lastActiveDirection = MotionState.IDLE ∨
      ((s.processEdge now).1.lastActiveDirection = s.lastActiveDirection ∧
        (s.processEdge now).1.tailHoldUntil = s.tailHoldUntil)) := by
  obtain ⟨s1, g1, g2, g3, _, hdef⟩ := cc_processEdge_split s now
  rw [hdef, ← g2, ← g3]
  have hm1 : s1.motion = MotionState.IDLE := g1.trans hm
  have e1 := fun (u : ClickCounter) => congrArg (·.1) (cc_persistPos_tailView u false now)
  have e2 := fun (u : ClickCounter) => congrArg (·.2.1) (cc_persistPos_tailView u false now)
  have e5 := fun (u : ClickCounter) => congrArg (·.2.2.2.2) (cc_persistPos_tailView u false now)
  simp only [tailView] at e1 e2 e5
  by_cases hph : s1.edgePhase = 0
  · rw [if_pos hph, cc_direction_idle s1 now hm1]
    by_cases hl : s1.lastActiveDirection = MotionState.IDLE
    · simp [hl, hm1]
    · by_cases hh : 0 ≤ asLong (subU32 s1.tailHoldUntil now)
      · simp only [ne_eq, hl, not_false_eq_true, if_true, hh]
        split_ifs <;> simp [e1, e2, e5, hm1]
      · simp [hl, hh, hm1]
  · rw [if_neg hph]
    exact ⟨hm1, Or.inr ⟨rfl, rfl⟩⟩

/-- One edge while the direction is Idle and no hold is running (no last
active direction, or the window is over): the position stays, the hold is not
used, and no hold is running afterwards. -/
theorem cc_processEdge_over (s : ClickCounter) (now : Nat) (hm : s.motion = MotionState.IDLE)
    (hover : s.lastActiveDirection = MotionState.IDLE ∨
      asLong (subU32 s.tailHoldUntil now) < 0) :
    (s.processEdge now).1.motion = MotionState.IDLE ∧
    (s.processEdge now).1.pos = s.pos ∧ (s.processEdge now).2 = false ∧
    ((s.processEdge now).1.lastActiveDirection = MotionState.IDLE ∨
      asLong (subU32 (s.processEdge now).1.tailHoldUntil now) < 0) := by
  obtain ⟨s1, g1, g2, g3, g4, hdef⟩ := cc_processEdge_split s now
  rw [hdef, ← g4]
  rw [← g2, ← g3] at hover
  have hm1 : s1.motion = MotionState.IDLE := g1.trans hm
  by_cases hph : s1.edgePhase = 0
  · rw [if_pos hph, cc_direction_idle s1 now hm1]
    by_cases hl : s1.lastActiveDirection = MotionState.IDLE
    · simp [hl, hm1]
    · have hneg : asLong (subU32 s1.tailHoldUntil now) < 0 := by
        rcases hover with h | h
        · exact absurd h hl
        · exact h
      have hh : ¬ (0 ≤ asLong (subU32 s1.tailHoldUntil now)) := by omega
      simp [hl, hh, hm1]
  · rw [if_neg hph]
    exact ⟨hm1, rfl, rfl, hover⟩

/-- The loop over `n` edges while no hold is running. -/
theorem cc_edgeLoop_over (now : Nat) :
    ∀ (n : Nat) (s : ClickCounter) (b : Bool),
      s.motion = MotionState.IDLE →
      (s.lastActiveDirection = MotionState.IDLE ∨ asLong (subU32 s.tailHoldUntil now) < 0) →
      (edgeLoop n (s, b) now).1.motion = MotionState.IDLE ∧
      (edgeLoop n (s, b) now).1.pos = s.pos ∧ (edgeLoop n (s, b) now).2 = b ∧
      ((edgeLoop n (s, b) now).1.lastActiveDirection = MotionState.IDLE ∨
        asLong (subU32 (edgeLoop n (s, b) now).1.tailHoldUntil now) < 0)
  | 0, _, _, hm, hover => ⟨hm, rfl, rfl, hover⟩
  | n + 1, s, b, hm, hover => by
    obtain ⟨h1, h2, h3, h4⟩ := cc_processEdge_over s now hm hover
    obtain ⟨i1, i2, i3, i4⟩ := cc_edgeLoop_over now n (s.processEdge now).1
      (b || (s.processEdge now).2) h1 h4
    rw [edgeLoop]
    refine ⟨i1, i2.trans h2, ?_, i4⟩
    rw [i3, h3, Bool.or_false]

/-- One batch while no hold is running: the position stays. -/
theorem cc_batch_over (s : ClickCounter) (edges now : Nat) (hm : s.motion = MotionState.IDLE)
    (hover : s.lastActiveDirection = MotionState.IDLE ∨
      asLong (subU32 s.tailHoldUntil now) < 0) :
    (s.processEdgeBatch edges now).motion = MotionState.IDLE ∧
    (s.processEdgeBatch edges now).pos = s.pos ∧
    ((s.processEdgeBatch edges now).lastActiveDirection = MotionState.IDLE ∨
      asLong (subU32 (s.processEdgeBatch edges now).tailHoldUntil now) < 0) := by
  unfold processEdgeBatch
  by_cases he : edges = 0
  · rw [if_pos he]; exact ⟨hm, rfl, hover⟩
  · obtain ⟨h1, h2, h3, h4⟩ := cc_edgeLoop_over now edges s false hm hover
    rw [if_neg he]
    dsimp only
    have hno : ¬ ((edgeLoop edges (s, false) now).2 = true) := by rw [h3]; simp
    split_ifs <;> first
      | exact ⟨h1, h2, h4⟩
      | (rename_i hc; exact absurd hc.2 hno)

/-- The loop over `n` edges while the direction is Idle, whatever the hold. -/
theorem cc_edgeLoop_idle (now : Nat) :
    ∀ (n : Nat) (s : ClickCounter) (b : Bool),
      s.motion = MotionState.IDLE →
      (edgeLoop n (s, b) now).1.motion = MotionState.IDLE ∧
      ((edgeLoop n (s, b) now).1.lastActiveDirection = MotionState.IDLE ∨
        ((edgeLoop n (s, b) now).1.lastActiveDirection = s.lastActiveDirection ∧
          (edgeLoop n (s, b) now).1.tailHoldUntil = s.tailHoldUntil))
  | 0, _, _, hm => ⟨hm, Or.inr ⟨rfl, rfl⟩⟩
  | n + 1, s, b, hm => by
    obtain ⟨h1, h2⟩ := cc_processEdge_idle s now hm
    obtain ⟨i1, i2⟩ := cc_edgeLoop_idle now n (s.processEdge now).1
      (b || (s.processEdge now).2) h1
    rw [edgeLoop]
    refine ⟨i1, ?_⟩
    rcases i2 with i2 | ⟨i2, i3⟩
    · exact Or.inl i2
    · rcases h2 with h2 | ⟨h2, h3⟩
      · exact Or.inl (i2.trans h2)
      · exact Or.inr ⟨i2.trans h2, i3.trans h3⟩

/-- One batch while the direction is Idle: the hold window stays, or restarts
at the time of the batch, unless the last active direction is cleared. -/
theorem cc_batch_idle (s : ClickCounter) (edges now : Nat) (hm : s.motion = MotionState.IDLE) :
    (s.processEdgeBatch edges now).motion = MotionState.IDLE ∧
    ((s.processEdgeBatch edges now).lastActiveDirection = MotionState.IDLE ∨
      ((s.processEdgeBatch edges now).lastActiveDirection = s.lastActiveDirection ∧
        ((s.processEdgeBatch edges now).tailHoldUntil = s.tailHoldUntil ∨
          (s.processEdgeBatch edges now).tailHoldUntil = addU32 now TAIL_HOLD_MS))) := by
  unfold processEdgeBatch
  by_cases he : edges = 0
  · rw [if_pos he]; exact ⟨hm, Or.inr ⟨rfl, Or.inl rfl⟩⟩
  · obtain ⟨h1, h2⟩ := cc_edgeLoop_idle now edges s false hm
    rw [if_neg he]
    dsimp only
    split_ifs <;> refine ⟨h1, ?_⟩ <;> rcases h2 with h2 | ⟨h2, h3⟩ <;> first
      | exact Or.inl h2
      | exact Or.inr ⟨h2, Or.inl h3⟩
      | exact Or.inr ⟨h2, Or.inr rfl⟩

/-- A run of batches after the stop, seen from a later reading `now` that is
past the hold of the stop and of every batch: no hold is running at `now`. -/
theorem cc_batches_over (now : Nat) :
    ∀ (bs : List (Nat × Nat)) (s : ClickCounter),
      s.motion = MotionState.IDLE →
      (s.lastActiveDirection = MotionState.IDLE ∨
        ∃ tau, pastHold tau now = true ∧ s.tailHoldUntil = addU32 tau TAIL_HOLD_MS) →
      (∀ b ∈ bs, pastHold b.2 now = true) →
      (processBatches s bs).motion = MotionState.IDLE ∧
      ((processBatches s bs).lastActiveDirection = MotionState.IDLE ∨
        asLong (subU32 (processBatches s bs).tailHoldUntil now) < 0)
  | [], s, hm, hg, _ => by
    refine ⟨hm, ?_⟩
    rcases hg with h | ⟨tau, h1, h2⟩
    · exact Or.inl h
    · right; rw [processBatches, h2]; exact hold_over tau now h1
  | b :: rest, s, hm, hg, hb => by
    obtain ⟨h1, h2⟩ := cc_batch_idle s b.1 b.2 hm
    have hg2 : (s.processEdgeBatch b.1 b.2).lastActiveDirection = MotionState.IDLE ∨
        ∃ tau, pastHold tau now = true ∧
          (s.processEdgeBatch b.1 b.2).tailHoldUntil = addU32 tau TAIL_HOLD_MS := by
      rcases h2 with h2 | ⟨h2, h3⟩
      · exact Or.inl h2
      · rcases hg with hg | ⟨tau, g1, g2⟩
        · exact Or.inl (h2.trans hg)
        · rcases h3 with h3 | h3
          · exact Or.inr ⟨tau, g1, h3.trans g2⟩
          · exact Or.inr ⟨b.2, hb b (List.mem_cons_self _ _), h3⟩
    rw [processBatches]
    exact cc_batches_over now rest _ h1 hg2 (fun x hx => hb x (List.mem_cons_of_mem _ hx))

/-- One edge while the direction `d` is driven keeps `d` as last active
direction. -/
theorem cc_processEdge_keeps (s : ClickCounter) (now : Nat) (d : MotionState)
    (hd : d ≠ MotionState.IDLE) (hm : s.motion = d) (hl : s.lastActiveDirection = d) :
    (s.processEdge now).1.motion = d ∧ (s.processEdge now).1.lastActiveDirection = d := by
  obtain ⟨s1, g1, g2, _, _, hdef⟩ := cc_processEdge_split s now
  rw [hdef]
  have hm1 : s1.motion = d := g1.trans hm
  have hl1 : s1.lastActiveDirection = d := g2.trans hl
  have e1 := fun (u : ClickCounter) => congrArg (·.1) (cc_persistPos_tailView u false now)
  have e2 := fun (u : ClickCounter) => congrArg (·.2.1) (cc_persistPos_tailView u false now)
  simp only [tailView] at e1 e2
  have hdir : s1.computeEffectiveDirection now =
      (d, false, { s1 with lastActiveDirection := d }) := by
    unfold computeEffectiveDirection
    rw [hm1]
    simp [hd]
  rw [hdir]
  dsimp only
  split_ifs <;> simp [e1, e2, hm1, hl1]

theorem cc_edgeLoop_keeps (now : Nat) (d : MotionState) (hd : d ≠ MotionState.IDLE) :
    ∀ (n : Nat) (s : ClickCounter) (b : Bool),
      s.motion = d → s.lastActiveDirection = d →
      (edgeLoop n (s, b) now).1.motion = d ∧ (edgeLoop n (s, b) now).1.lastActiveDirection = d
  | 0, _, _, hm, hl => ⟨hm, hl⟩
  | n + 1, s, b, hm, hl => by
    obtain ⟨h1, h2⟩ := cc_processEdge_keeps s now d hd hm hl
    rw [edgeLoop]
    exact cc_edgeLoop_keeps now d hd n _ _ h1 h2

theorem cc_batch_keeps (s : ClickCounter) (edges now : Nat) (d : MotionState)
    (hd : d ≠ MotionState.IDLE) (hm : s.motion = d) (hl : s.lastActiveDirection = d) :
    (s.processEdgeBatch edges now).motion = d ∧
    (s.processEdgeBatch edges now).lastActiveDirection = d := by
  unfold processEdgeBatch
  by_cases he : edges = 0
  · rw [if_pos he]; exact ⟨hm, hl⟩
  · obtain ⟨h1, h2⟩ := cc_edgeLoop_keeps now d hd edges s false hm hl
    rw [if_neg he]
    dsimp only
    split_ifs <;> exact ⟨h1, h2⟩

/-- While a direction `d` is driven with `d` as last active direction,
`update` keeps both: the state in which `setMotion(IDLE)` finds the tracker is
the one `setMotion(d)` has left. -/
theorem cc_update_keeps (s : ClickCounter) (allow : Bool) (now : Nat) (d : MotionState)
    (hd : d ≠ MotionState.IDLE) (hm : s.motion = d) (hl : s.lastActiveDirection = d) :
    (s.update allow now).motion = d ∧ (s.update allow now).lastActiveDirection = d := by
  have hdrain : (s.drain now).motion = d ∧ (s.drain now).lastActiveDirection = d := by
    unfold drain simulateTicks drainHardwareEdges
    dsimp only
    split_ifs <;> first
      | exact ⟨hm, hl⟩
      | exact cc_batch_keeps _ _ _ d hd hm hl
  have hlim : ∀ u : ClickCounter, (u.applyLimits allow).motion = u.motion ∧
      (u.applyLimits allow).lastActiveDirection = u.lastActiveDirection := by
    intro u
    cases allow
    · have ha : u.applyLimits false = u.noteOvershoot.rangePanic.softClamp := by
        unfold applyLimits; simp
      rw [ha]
      unfold softClamp rangePanic noteOvershoot
      dsimp only
      split_ifs <;> exact ⟨rfl, rfl⟩
    · have ha : u.applyLimits true = u.calibrationClamp := by
        unfold applyLimits; simp
      rw [ha]
      unfold calibrationClamp
      dsimp only
      split_ifs <;> exact ⟨rfl, rfl⟩
  have hfin : ∀ u : ClickCounter, (u.finishUpdate now).motion = u.motion ∧
      (u.finishUpdate now).lastActiveDirection = u.lastActiveDirection := by
    intro u
    have e1 := congrArg (·.1) (cc_persistPos_tailView u true now)
    have e2 := congrArg (·.2.1) (cc_persistPos_tailView u true now)
    simp only [tailView] at e1 e2
    unfold finishUpdate
    dsimp only
    split_ifs <;> first | exact ⟨e1, e2⟩ | exact ⟨rfl, rfl⟩
  unfold update
  rw [(hfin _).1, (hfin _).2, (hlim _).1, (hlim _).2]
  exact hdrain

end ClickCounter
/-! ### One batch of edges while the direction is Idle -/

set_option maxRecDepth 100000

namespace ClickCounter

/-- While the direction is Idle and the last active direction is cleared, no
batch moves the position. -/
theorem cc_batches_cleared :
    ∀ (bs : List (Nat × Nat)) (s : ClickCounter),
      s.motion = MotionState.IDLE → s.lastActiveDirection = MotionState.IDLE →
      (processBatches s bs).motion = MotionState.IDLE ∧
      (processBatches s bs).lastActiveDirection = MotionState.IDLE ∧
      (processBatches s bs).pos = s.pos
  | [], _, hm, hl => ⟨hm, hl, rfl⟩
  | b :: rest, s, hm, hl => by
    obtain ⟨h1, h2, _⟩ := cc_batch_over s b.1 b.2 hm (Or.inl hl)
    have h3 : (s.processEdgeBatch b.1 b.2).lastActiveDirection = MotionState.IDLE := by
      rcases (cc_batch_idle s b.1 b.2 hm).2 with h | ⟨h, _⟩
      · exact h
      · exact h.trans hl
    obtain ⟨i1, i2, i3⟩ := cc_batches_cleared rest _ h1 h3
    rw [processBatches]
    exact ⟨i1, i2, i3.trans h2⟩

/-- Idle batches inside the hold, whatever the last active direction: each
completed pulse counts one step of it. -/
theorem cc_batches_within (t : Nat) :
    ∀ (bs : List (Nat × Nat)) (s : ClickCounter) (p : Nat),
      s.motion = MotionState.IDLE →
      (∃ tau, subU32 tau t ≤ TAIL_HOLD_MS ∧ s.tailHoldUntil = addU32 tau TAIL_HOLD_MS) →
      s.edgePhase = p → p ≤ 1 → (∀ b ∈ bs, subU32 b.2 t ≤ TAIL_HOLD_MS) →
      (processBatches s bs).motion = MotionState.IDLE ∧
      (processBatches s bs).pos =
        s.pos + stepOf s.lastActiveDirection * (((p + totalEdges bs) / 2 : Nat) : Int) := by
  intro bs s p hm hex hp hp1 hw
  by_cases hl : s.lastActiveDirection = MotionState.IDLE
  · obtain ⟨i1, _, i3⟩ := cc_batches_cleared bs s hm hl
    refine ⟨i1, ?_⟩
    rw [i3, hl]
    simp [stepOf]
  · exact cc_batches_held s.lastActiveDirection hl t bs s p hm rfl hex hp hp1 hw

/-- What a change of the simulation mode does to a driven tracker: the
direction stays and the last active direction is cleared. -/
theorem cc_setSimulation_clears (s : ClickCounter) (sim : Bool) (now : Nat) (pinLow : Bool)
    (h : s.simulate ≠ sim) :
    (s.setSimulation sim now pinLow).motion = s.motion ∧
    (s.setSimulation sim now pinLow).lastActiveDirection = MotionState.IDLE := by
  unfold setSimulation refreshLiveLevel
  rw [if_neg h]
  dsimp only
  split_ifs <;> exact ⟨rfl, rfl⟩

/-- C15 (as stated, refuted). A tracker in simulation mode is driven towards
Closing and put back in hardware mode at 900 ms: the direction is still
Closing, the last active direction is cleared.  `setMotion(IDLE)` follows at
1000 ms, so the hold window ends at 1100 ms.  A pulse processed at 1050 ms,
inside the window, leaves the position at 100; without the change of mode it
is counted. -/
theorem C15_mode_change_drops_hold_pulse :
    modeSwitched.motion = MotionState.CLOSING ∧ modeSwitched.position = 100 ∧
    modeSwitched.lastActiveDirection = MotionState.IDLE ∧
    (modeSwitched.setMotion MotionState.IDLE 1000 false).motion = MotionState.IDLE ∧
    (modeSwitched.setMotion MotionState.IDLE 1000 false).tailHoldUntil = 1100 ∧
    ((modeSwitched.setMotion MotionState.IDLE 1000 false).pulseAt 5000 1050).position = 100 ∧
    (stoppedAt1000.pulseAt 5000 1050).position = 101 := by
  decide

/-- C15 (amended). `setMotion(IDLE)` is called on a driven tracker at clock time
`t`.  While the direction stays Idle, in every batch of edges processed at a
clock reading at most 100 ms past `t` each completed pulse (second edge of a
pair) moves the position by one step of the tracker's last active direction:
+1 for Closing, -1 for Opening, and not at all when it is cleared.  The last
active direction is `d` after `setMotion(d)`, and a change of the simulation
mode clears it while the direction stays as it is. -/
theorem C15_hold_counts_last_direction (s : ClickCounter) (t : Nat) (pinLow : Bool)
    (bs : List (Nat × Nat))
    (hm : s.motion ≠ MotionState.IDLE) (hp : s.edgePhase ≤ 1)
    (hw : ∀ b ∈ bs, subU32 b.2 t ≤ TAIL_HOLD_MS) :
    (s.setMotion MotionState.IDLE t pinLow).position = s.position ∧
    (processBatches (s.setMotion MotionState.IDLE t pinLow) bs).motion = MotionState.IDLE ∧
    (processBatches (s.setMotion MotionState.IDLE t pinLow) bs).position =
      s.position +
        stepOf s.lastActiveDirection * (((s.edgePhase + totalEdges bs) / 2 : Nat) : Int) ∧
    (s.lastActiveDirection = MotionState.CLOSING →
      (processBatches (s.setMotion MotionState.IDLE t pinLow) bs).position =
        s.position + (((s.edgePhase + totalEdges bs) / 2 : Nat) : Int)) ∧
    (s.lastActiveDirection = MotionState.OPENING →
      (processBatches (s.setMotion MotionState.IDLE t pinLow) bs).position =
        s.position - (((s.edgePhase + totalEdges bs) / 2 : Nat) : Int)) ∧
    (s.lastActiveDirection = MotionState.IDLE →
      (processBatches (s.setMotion MotionState.IDLE t pinLow) bs).position = s.position) ∧
    (∀ (d : MotionState) (t0 : Nat) (lvl : Bool), d ≠ MotionState.IDLE →
      (s.setMotion d t0 lvl).motion = d ∧ (s.setMotion d t0 lvl).lastActiveDirection = d) ∧
    (∀ (sim : Bool) (t0 : Nat) (lvl : Bool), s.simulate ≠ sim →
      (s.setSimulation sim t0 lvl).motion = s.motion ∧
      (s.setSimulation sim t0 lvl).lastActiveDirection = MotionState.IDLE) := by
  have hv := cc_setMotion_idle s t pinLow hm
  simp only [tailView, Prod.mk.injEq] at hv
  obtain ⟨h1, h2, h3, h4, h5⟩ := hv
  have hrun := cc_batches_within t bs (s.setMotion MotionState.IDLE t pinLow) s.edgePhase h1
    ⟨t, by rw [subU32_self]; exact Nat.zero_le _, h5⟩ h3 hp hw
  rw [h4, h2] at hrun
  have hpos : (processBatches (s.setMotion MotionState.IDLE t pinLow) bs).position =
      s.position +
        stepOf s.lastActiveDirection * (((s.edgePhase + totalEdges bs) / 2 : Nat) : Int) :=
    hrun.2
  refine ⟨h4, hrun.1, hpos, ?_, ?_, ?_, fun d t0 lvl hd => cc_setMotion_drive s d t0 lvl hd,
    fun sim t0 lvl h => cc_setSimulation_clears s sim t0 lvl h⟩
  · intro hc
    rw [hpos, hc]
    simp [stepOf]
  · intro hc
    rw [hpos, hc]
    simp [stepOf]
    ring
  · intro hc
    rw [hpos, hc]
    simp [stepOf]

/-- C15 (amended), instances: Closing at position 100 is stopped at 1000 ms; one
pulse at 1050 ms and one at 1090 ms bring the position to 102.  After the
change of mode of `modeSwitched` the same two pulses leave the position where
it is. -/
theorem C15_hold_counts_last_direction_witness :
    (processBatches ((trackerAt 100 MotionState.CLOSING 0).setMotion MotionState.IDLE 1000 false)
        [(2, 1050), (2, 1090)]).position =
      (trackerAt 100 MotionState.CLOSING 0).position +
        ((((trackerAt 100 MotionState.CLOSING 0).edgePhase + totalEdges [(2, 1050), (2, 1090)]) / 2
          : Nat) : Int) ∧
    (processBatches (modeSwitched.setMotion MotionState.IDLE 1000 false)
        [(2, 1050), (2, 1090)]).position = modeSwitched.position :=
  ⟨(C15_hold_counts_last_direction (trackerAt 100 MotionState.CLOSING 0) 1000 false
      [(2, 1050), (2, 1090)] (by decide) (by decide) (by decide)).2.2.2.1 rfl,
    (C15_hold_counts_last_direction modeSwitched 1000 false
      [(2, 1050), (2, 1090)] (by decide) (by decide) (by decide)).2.2.2.2.2.1 (by decide)⟩

end ClickCounter

/-! ## Lemmas on calibration -/

namespace ClickCounter

theorem calibView_fields (v : ClickCounter) (x1 x2 : Int) (x3 x4 x5 x6 : Bool)
    (x7 x8 x9 x10 : Int) (h : calibView v = (x1, x2, x3, x4, x5, x6, x7, x8, x9, x10)) :
    v.pos = x1 ∧ v.endPos = x2 ∧ v.panicFlag = x3 ∧ v.calibrationActive = x4 ∧
    v.calibOpenSet = x5 ∧ v.calibClosedSet = x6 ∧ v.calibEntryPos = x7 ∧
    v.calibEntryEnd = x8 ∧ v.calibOpenRaw = x9 ∧ v.calibClosedRaw = x10 := by
  unfold calibView at h
  simp only [Prod.mk.injEq] at h
  exact h

theorem cc_persistPos_calibView (s : ClickCounter) (force : Bool) (now : Nat) :
    calibView (s.persistPos force now) = calibView s := by
  unfold persistPos; split_ifs <;> rfl

/-- The method `persistEnd` changes the span only when it is negative. -/
theorem cc_persistEnd_calibView (s : ClickCounter) (h : 0 ≤ s.endPos) :
    calibView s.persistEnd = calibView s := by
  unfold persistEnd
  have h2 : ¬ s.endPos < 0 := by omega
  simp only [h2, if_false]
  split_ifs <;> rfl

/-- The method `clampCalibrationRange`: the position is limited to
`[-512, 8192]` and the span to `[0, 8192]`. -/
theorem cc_clamp_calibView (s : ClickCounter) :
    calibView s.clampCalibrationRange =
      (limitPos s.pos, max 0 (min s.endPos SET_MAX_POS), s.panicFlag, s.calibrationActive,
        s.calibOpenSet, s.calibClosedSet, s.calibEntryPos, s.calibEntryEnd, s.calibOpenRaw,
        s.calibClosedRaw) := by
  unfold clampCalibrationRange limitPos
  dsimp only
  unfold SET_MIN_POS SET_MAX_POS
  by_cases h1 : s.pos < -512
  · have h2 : ¬ ((-512 : Int) > 8192) := by omega
    simp only [h1, if_true, h2, if_false]
    by_cases h3 : s.endPos < 0
    · have h4 : ¬ ((0 : Int) > 8192) := by omega
      simp only [h3, if_true, h4, if_false, calibView, Prod.mk.injEq, and_true, true_and]
      omega
    · simp only [h3, if_false]
      by_cases h5 : s.endPos > 8192
      · simp only [h5, if_true, calibView, Prod.mk.injEq, and_true, true_and]
        omega
      · simp only [h5, if_false, calibView, Prod.mk.injEq, and_true, true_and]
        omega
  · simp only [h1, if_false]
    by_cases h2 : s.pos > 8192
    · simp only [h2, if_true]
      by_cases h3 : s.endPos < 0
      · have h4 : ¬ ((0 : Int) > 8192) := by omega
        simp only [h3, if_true, h4, if_false, calibView, Prod.mk.injEq, and_true, true_and]
        omega
      · simp only [h3, if_false]
        by_cases h5 : s.endPos > 8192
        · simp only [h5, if_true, calibView, Prod.mk.injEq, and_true, true_and]
          omega
        · simp only [h5, if_false, calibView, Prod.mk.injEq, and_true, true_and]
          omega
    · simp only [h2, if_false]
      by_cases h3 : s.endPos < 0
      · have h4 : ¬ ((0 : Int) > 8192) := by omega
        simp only [h3, if_true, h4, if_false, calibView, Prod.mk.injEq, and_true, true_and]
        omega
      · simp only [h3, if_false]
        by_cases h5 : s.endPos > 8192
        · simp only [h5, if_true, calibView, Prod.mk.injEq, and_true, true_and]
          omega
        · simp only [h5, if_false, calibView, Prod.mk.injEq, and_true, true_and]
          omega

/-- The method `shiftCoordinateFrame(delta, adjustEnd)`: position, and in
calibration the entry position and the marks that are set, move by `delta`;
the span moves when `adjustEnd` is set. -/
theorem cc_shift_calibView (s : ClickCounter) (delta : Int) (adjustEnd : Bool) :
    calibView (s.shiftCoordinateFrame delta adjustEnd) =
      (s.pos - delta, (if adjustEnd then s.endPos - delta else s.endPos), s.panicFlag,
        s.calibrationActive, s.calibOpenSet, s.calibClosedSet,
        (if s.calibrationActive then s.calibEntryPos - delta else s.calibEntryPos),
        s.calibEntryEnd,
        (if s.calibrationActive ∧ s.calibOpenSet then s.calibOpenRaw - delta
         else s.calibOpenRaw),
        (if s.calibrationActive ∧ s.calibClosedSet then s.calibClosedRaw - delta
         else s.calibClosedRaw)) := by
  unfold shiftCoordinateFrame
  by_cases hd : delta = 0
  · subst hd
    simp [calibView]
  · rw [if_neg hd]
    dsimp only
    cases adjustEnd <;> cases ha : s.calibrationActive <;> cases ho : s.calibOpenSet <;>
      cases hc : s.calibClosedSet <;> simp [calibView, ha, ho, hc]

/-- The method `recomputeSpanFromMarks`, in its three steps. -/
theorem cc_recompute_steps (s : ClickCounter) :
    s.recomputeSpanFromMarks =
      if !s.calibrationActive then s
      else ((s.spanFromMarks).clampAfterOpenMark).clampAfterClosedMark := rfl

/-- Outside calibration `recomputeSpanFromMarks` does nothing. -/
theorem cc_recompute_inactive (s : ClickCounter) (ha : s.calibrationActive = false) :
    s.recomputeSpanFromMarks = s := by
  rw [cc_recompute_steps]
  simp [ha]

theorem cc_spanFromMarks_calibView (s : ClickCounter) :
    calibView s.spanFromMarks =
      (s.pos,
        (if s.spanCandidate ≠ INT32_MIN then s.normaliseCandidate s.spanCandidate
         else if s.calibEntryEnd > 0 then s.calibEntryEnd else s.endPos),
        s.panicFlag, s.calibrationActive, s.calibOpenSet, s.calibClosedSet, s.calibEntryPos,
        s.calibEntryEnd, s.calibOpenRaw, s.calibClosedRaw) := by
  unfold spanFromMarks
  split_ifs <;> rfl

theorem cc_clampAfterOpenMark_calibView (s : ClickCounter) :
    calibView s.clampAfterOpenMark =
      ((if s.calibOpenSet then
          (if (if s.pos < 0 then 0 else s.pos) > s.endPos then s.endPos
           else (if s.pos < 0 then 0 else s.pos))
        else s.pos),
        s.endPos, s.panicFlag, s.calibrationActive, s.calibOpenSet, s.calibClosedSet,
        s.calibEntryPos, s.calibEntryEnd, s.calibOpenRaw, s.calibClosedRaw) := by
  unfold clampAfterOpenMark
  cases ho : s.calibOpenSet
  · simp only [Bool.false_eq_true, if_false]
    unfold calibView
    rw [ho]
  · simp only [if_true]
    by_cases h1 : s.pos < 0
    · simp only [h1, if_true]
      split_ifs <;> (unfold calibView; simp only [ho])
    · simp only [h1, if_false]
      split_ifs <;> (unfold calibView; simp only [ho])

theorem cc_clampAfterClosedMark_calibView (s : ClickCounter) :
    calibView s.clampAfterClosedMark =
      ((if s.calibClosedSet ∧ s.pos > s.endPos then s.endPos else s.pos),
        s.endPos, s.panicFlag, s.calibrationActive, s.calibOpenSet, s.calibClosedSet,
        s.calibEntryPos, s.calibEntryEnd, s.calibOpenRaw, s.calibClosedRaw) := by
  unfold clampAfterClosedMark
  split_ifs <;> rfl

/-- In calibration `recomputeSpanFromMarks` sets the span `e` from the marks
(or from the span at entry) and clamps the position against it. -/
theorem cc_recompute_calibView (s : ClickCounter) (ha : s.calibrationActive = true) (e p1 : Int)
    (he : e = (if s.spanCandidate ≠ INT32_MIN then s.normaliseCandidate s.spanCandidate
      else if s.calibEntryEnd > 0 then s.calibEntryEnd else s.endPos))
    (hp : p1 = (if s.calibOpenSet then
        (if (if s.pos < 0 then 0 else s.pos) > e then e else (if s.pos < 0 then 0 else s.pos))
      else s.pos)) :
    calibView s.recomputeSpanFromMarks =
      ((if s.calibClosedSet ∧ p1 > e then e else p1), e, s.panicFlag, true, s.calibOpenSet,
        s.calibClosedSet, s.calibEntryPos, s.calibEntryEnd, s.calibOpenRaw, s.calibClosedRaw) := by
  rw [cc_recompute_steps, ha]
  simp only [Bool.not_true, Bool.false_eq_true, if_false]
  obtain ⟨a1, a2, a3, a4, a5, a6, a7, a8, a9, a10⟩ :=
    calibView_fields _ _ _ _ _ _ _ _ _ _ _ (cc_spanFromMarks_calibView s)
  obtain ⟨b1, b2, b3, b4, b5, b6, b7, b8, b9, b10⟩ :=
    calibView_fields _ _ _ _ _ _ _ _ _ _ _ (cc_clampAfterOpenMark_calibView s.spanFromMarks)
  rw [cc_clampAfterClosedMark_calibView]
  rw [b1, b2, b3, b4, b5, b6, b7, b8, b9, b10, a1, a2, a3, a4, a5, a6, a7, a8, a9, a10, ← he,
    ← hp, ha]

end ClickCounter

/-! ### Marks and the span after calibration -/

set_option maxRecDepth 100000

namespace ClickCounter

/-- The two persisting calls that end the calibration methods leave the
calibration fields alone when the span is not negative. -/
theorem cc_persist_tail (v : ClickCounter) (now : Nat) (h : 0 ≤ v.endPos) :
    calibView ((v.persistEnd).persistPos true now) = calibView v := by
  rw [cc_persistPos_calibView, cc_persistEnd_calibView v h]

/-- The method `finalizeCalibration`, in terms of the state `a` that
`recomputeSpanFromMarks` and `clampCalibrationRange` leave. -/
theorem cc_finalize_calibView (s : ClickCounter) (now : Nat) (a : ClickCounter)
    (hdef : a = (s.recomputeSpanFromMarks).clampCalibrationRange) :
    0 ≤ a.endPos ∧ a.endPos ≤ SET_MAX_POS ∧
    calibView (s.finalizeCalibration now) =
      ((if (if a.pos < 0 then 0 else a.pos) > a.endPos then a.endPos
        else (if a.pos < 0 then 0 else a.pos)),
        a.endPos, false, false, false, false, a.calibEntryPos, a.calibEntryEnd, a.calibOpenRaw,
        a.calibClosedRaw) := by
  have hc := calibView_fields _ _ _ _ _ _ _ _ _ _ _ (cc_clamp_calibView s.recomputeSpanFromMarks)
  rw [← hdef] at hc
  have he0 : 0 ≤ a.endPos := by rw [hc.2.1]; exact le_max_left _ _
  have he1 : a.endPos ≤ SET_MAX_POS := by
    rw [hc.2.1]
    unfold SET_MAX_POS
    omega
  refine ⟨he0, he1, ?_⟩
  unfold finalizeCalibration
  rw [← hdef]
  dsimp only
  by_cases h1 : a.pos < 0
  · simp only [h1, if_true]
    by_cases h2 : (0 : Int) > a.endPos
    · exact absurd h2 (by omega)
    · simp only [h2, if_false]
      rw [cc_persist_tail]
      · rfl
      · exact he0
  · simp only [h1, if_false]
    by_cases h2 : a.pos > a.endPos
    · simp only [h2, if_true]
      rw [cc_persist_tail]
      · rfl
      · exact he0
    · simp only [h2, if_false]
      rw [cc_persist_tail]
      · rfl
      · exact he0

/-- With `panicFlag` cleared the other calibration fields stay. -/
theorem cc_clearFlag_calibView (v : ClickCounter) (x1 x2 : Int) (x3 x4 x5 x6 : Bool)
    (x7 x8 x9 x10 : Int) (h : calibView v = (x1, x2, x3, x4, x5, x6, x7, x8, x9, x10)) :
    calibView { v with panicFlag := false } = (x1, x2, false, x4, x5, x6, x7, x8, x9, x10) := by
  obtain ⟨f1, f2, f3, f4, f5, f6, f7, f8, f9, f10⟩ := calibView_fields _ _ _ _ _ _ _ _ _ _ _ h
  unfold calibView
  simp only [f1, f2, f4, f5, f6, f7, f8, f9, f10]

/-- The end of `setOpenHere` and `setClosedHere`: the span is persisted when it
changed, the position always; the calibration fields stay. -/
theorem cc_mark_tail (v : ClickCounter) (c : Prop) [Decidable c] (now : Nat)
    (h : 0 ≤ v.endPos) :
    calibView ((if c then v.persistEnd else v).persistPos true now) = calibView v := by
  rw [cc_persistPos_calibView]
  split_ifs
  · exact cc_persistEnd_calibView v h
  · rfl

theorem cc_clamp_end_nonneg (u : ClickCounter) : 0 ≤ (u.clampCalibrationRange).endPos := by
  obtain ⟨_, f2, _⟩ := calibView_fields _ _ _ _ _ _ _ _ _ _ _ (cc_clamp_calibView u)
  rw [f2]
  exact le_max_left _ _

/-- In calibration, with the closed mark at the current position `p` in
`[0, 8192]`: `recomputeSpanFromMarks` and `clampCalibrationRange` leave the
position at `p` and the span at `p`, or, when `p = 0`, at the span of the
calibration entry when that is positive. -/
theorem cc_recompute_closed (u : ClickCounter) (ha : u.calibrationActive = true)
    (hc : u.calibClosedSet = true) (hraw : u.calibClosedRaw = u.pos) (h0 : 0 ≤ u.pos)
    (h1 : u.pos ≤ 8192) :
    calibView (u.recomputeSpanFromMarks).clampCalibrationRange =
      (u.pos,
        (if u.pos = 0 ∧ u.calibEntryEnd > 0 then min u.calibEntryEnd 8192 else u.pos),
        u.panicFlag, true, u.calibOpenSet, true, u.calibEntryPos, u.calibEntryEnd,
        u.calibOpenRaw, u.pos) := by
  have hcand : u.spanCandidate = u.pos := by
    unfold spanCandidate; rw [hc, hraw]; rfl
  have hne : u.spanCandidate ≠ INT32_MIN := by
    rw [hcand]; unfold INT32_MIN; omega
  have hv := cc_recompute_calibView u ha _ _ rfl rfl
  rw [if_pos hne, hcand, hc] at hv
  obtain ⟨f1, f2, f3, f4, f5, f6, f7, f8, f9, f10⟩ := calibView_fields _ _ _ _ _ _ _ _ _ _ _ hv
  rw [cc_clamp_calibView, f1, f2, f3, f4, f5, f6, f7, f8, f9, f10, hraw]
  have hE : max 0 (min (u.normaliseCandidate u.pos) SET_MAX_POS) =
      (if u.pos = 0 ∧ u.calibEntryEnd > 0 then min u.calibEntryEnd 8192 else u.pos) := by
    unfold normaliseCandidate SET_MAX_POS
    dsimp only
    split_ifs <;> omega
  have hN : 0 ≤ u.normaliseCandidate u.pos ∧ (0 < u.pos → u.normaliseCandidate u.pos = u.pos) := by
    unfold normaliseCandidate SET_MAX_POS
    dsimp only
    constructor
    · split_ifs <;> omega
    · intro hp; split_ifs <;> omega
  have hP : limitPos (if (true = true ∧
      (if u.calibOpenSet = true then
        if (if u.pos < 0 then 0 else u.pos) > u.normaliseCandidate u.pos then
          u.normaliseCandidate u.pos
        else if u.pos < 0 then 0 else u.pos
      else u.pos) > u.normaliseCandidate u.pos) then u.normaliseCandidate u.pos
      else
        (if u.calibOpenSet = true then
          if (if u.pos < 0 then 0 else u.pos) > u.normaliseCandidate u.pos then
            u.normaliseCandidate u.pos
          else if u.pos < 0 then 0 else u.pos
        else u.pos)) = u.pos := by
    unfold limitPos SET_MIN_POS SET_MAX_POS
    obtain ⟨n0, n1⟩ := hN
    generalize u.normaliseCandidate u.pos = nn at n0 n1 ⊢
    by_cases hz : u.pos = 0
    · rw [hz]
      cases u.calibOpenSet <;> simp <;> omega
    · have hpos : 0 < u.pos := by omega
      rw [n1 hpos]
      cases u.calibOpenSet <;> simp <;> omega
  rw [hE, hP]

/-- The method `setClosedHere` in calibration, at a position that is not
negative: the closed mark and the span are set to the position (state `u`),
then the span is recomputed and clamped and the panic flag cleared. -/
theorem cc_setClosedHere_steps (s : ClickCounter) (now : Nat)
    (ha : s.calibrationActive = true) (h0 : 0 ≤ s.pos) :
    ∃ u : ClickCounter,
      calibView u = (s.pos, s.pos, s.panicFlag, true, s.calibOpenSet, true, s.calibEntryPos,
        s.calibEntryEnd, s.calibOpenRaw, s.pos) ∧
      ∀ (x1 x2 : Int) (x3 x4 x5 x6 : Bool) (x7 x8 x9 x10 : Int),
        calibView (u.recomputeSpanFromMarks).clampCalibrationRange =
          (x1, x2, x3, x4, x5, x6, x7, x8, x9, x10) →
        calibView (s.setClosedHere now) = (x1, x2, false, x4, x5, x6, x7, x8, x9, x10) := by
  refine ⟨{ s with calibClosedSet := true, calibClosedRaw := s.pos, endPos := s.pos }, ?_, ?_⟩
  · unfold calibView
    simp only [ha]
  · intro x1 x2 x3 x4 x5 x6 x7 x8 x9 x10 hx
    have hneg : ¬ s.pos < 0 := by omega
    revert hx
    unfold setClosedHere
    simp only [hneg, if_false, ha, if_true]
    intro hx
    refine (cc_mark_tail _ _ now ?_).trans ?_
    · exact cc_clamp_end_nonneg _
    · exact cc_clearFlag_calibView _ _ _ _ _ _ _ _ _ _ _ hx

/-- The span a closed mark at position `p` gives, case by case. -/
theorem cc_closed_span_cases (p e : Int) :
    p ≤ (if p = 0 ∧ e > 0 then min e 8192 else p) ∧
    (0 < p → (if p = 0 ∧ e > 0 then min e 8192 else p) = p) ∧
    (p = 0 → 0 < e → (if p = 0 ∧ e > 0 then min e 8192 else p) = min e 8192) ∧
    (p = 0 → e ≤ 0 → (if p = 0 ∧ e > 0 then min e 8192 else p) = 0) := by
  split_ifs <;> omega

/-- C17 (as stated, refuted). Calibration is entered at position 0 of span 200
and the closed mark is set there: after `finalizeCalibration` the span is the
200 of the calibration entry, not the marked position 0. -/
theorem C17_closed_mark_at_zero_keeps_span :
    calibAtZero.calibrationActive = true ∧ calibAtZero.position = 0 ∧
    calibAtZero.endOf = 200 ∧
    ((calibAtZero.setClosedHere 2000).finalizeCalibration 3000).endOf = 200 ∧
    ((calibAtZero.setClosedHere 2000).finalizeCalibration 3000).position = 0 := by
  decide

/-- C17 (amended). In calibration at position `p` with `0 <= p <= 8192`,
`setClosedHere` followed by `finalizeCalibration` leaves the position at `p`
and, when `p > 0`, the span at `p`.  When `p = 0` the span is the span of the
calibration entry (limited to 8192) if that is positive, and 0 otherwise.  In
both cases `0 <= position() <= end()`. -/
theorem C17_closed_mark_sets_span (s : ClickCounter) (now1 now2 : Nat)
    (ha : s.calibrationActive = true) (h0 : 0 ≤ s.position) (h1 : s.position ≤ 8192) :
    ((s.setClosedHere now1).finalizeCalibration now2).position = s.position ∧
    (0 < s.position → ((s.setClosedHere now1).finalizeCalibration now2).endOf = s.position) ∧
    (s.position = 0 → 0 < s.calibEntryEnd →
      ((s.setClosedHere now1).finalizeCalibration now2).endOf = min s.calibEntryEnd 8192) ∧
    (s.position = 0 → s.calibEntryEnd ≤ 0 →
      ((s.setClosedHere now1).finalizeCalibration now2).endOf = 0) ∧
    0 ≤ ((s.setClosedHere now1).finalizeCalibration now2).position ∧
    ((s.setClosedHere now1).finalizeCalibration now2).position ≤
      ((s.setClosedHere now1).finalizeCalibration now2).endOf := by
  unfold position at h0 h1
  obtain ⟨u, hu, hset⟩ := cc_setClosedHere_steps s now1 ha h0
  obtain ⟨u1, u2, u3, u4, u5, u6, u7, u8, u9, u10⟩ := calibView_fields _ _ _ _ _ _ _ _ _ _ _ hu
  have hrc := cc_recompute_closed u u4 u6 (u10.trans u1.symm) (by rw [u1]; exact h0)
    (by rw [u1]; exact h1)
  rw [u1, u3, u5, u7, u8, u9] at hrc
  have hv := hset _ _ _ _ _ _ _ _ _ _ hrc
  obtain ⟨v1, v2, v3, v4, v5, v6, v7, v8, v9, v10⟩ := calibView_fields _ _ _ _ _ _ _ _ _ _ _ hv
  have hrc2 := cc_recompute_closed (s.setClosedHere now1) v4 v6 (v10.trans v1.symm)
    (by rw [v1]; exact h0) (by rw [v1]; exact h1)
  rw [v1, v3, v5, v7, v8, v9] at hrc2
  obtain ⟨_, _, hfin⟩ := cc_finalize_calibView (s.setClosedHere now1) now2 _ rfl
  obtain ⟨a1, a2, _⟩ := calibView_fields _ _ _ _ _ _ _ _ _ _ _ hrc2
  rw [a1, a2] at hfin
  obtain ⟨e1, e2, e3, e4⟩ := cc_closed_span_cases s.pos s.calibEntryEnd
  obtain ⟨g1, g2, _⟩ := calibView_fields _ _ _ _ _ _ _ _ _ _ _ hfin
  have hneg : ¬ s.pos < 0 := by omega
  rw [if_neg hneg, if_neg (not_lt.mpr e1)] at g1
  unfold position endOf
  rw [g1, g2]
  exact ⟨rfl, e2, e3, e4, h0, e1⟩

/-- C17 (amended), instance: in calibration at position 2 the closed mark is
set; the span becomes 2. -/
theorem C17_closed_mark_sets_span_witness :
    ((calibMovedTwo.setClosedHere 2000).finalizeCalibration 3000).endOf =
      calibMovedTwo.position :=
  (C17_closed_mark_sets_span calibMovedTwo 2000 3000 (by decide) (by decide)
    (by decide)).2.1 (by decide)

/-- C20. From every tracker state, after `finalizeCalibration` the position is
within `[0, end]`, the span is at most 8192, the panic flag is clear,
calibration is inactive and both marks are cleared. -/
theorem C20_finalize_invariants (s : ClickCounter) (now : Nat) :
    0 ≤ (s.finalizeCalibration now).position ∧
    (s.finalizeCalibration now).position ≤ (s.finalizeCalibration now).endOf ∧
    (s.finalizeCalibration now).endOf ≤ 8192 ∧
    (s.finalizeCalibration now).panicked = false ∧
    (s.finalizeCalibration now).calibrationActive = false ∧
    (s.finalizeCalibration now).calibOpenSet = false ∧
    (s.finalizeCalibration now).calibClosedSet = false := by
  obtain ⟨he0, he1, hv⟩ := cc_finalize_calibView s now _ rfl
  obtain ⟨f1, f2, f3, f4, f5, f6, _⟩ := calibView_fields _ _ _ _ _ _ _ _ _ _ _ hv
  unfold position endOf panicked
  rw [f1, f2, f3, f4, f5, f6]
  unfold SET_MAX_POS at he1
  refine ⟨?_, ?_, he1, rfl, rfl, rfl, rfl⟩
  · split_ifs <;> omega
  · split_ifs <;> omega

end ClickCounter

/-! ### The open mark -/

namespace ClickCounter

theorem limitPos_zero : limitPos 0 = 0 := by
  unfold limitPos SET_MIN_POS SET_MAX_POS
  omega

theorem cc_shift_active (w : ClickCounter) (d : Int) (b : Bool) :
    (w.shiftCoordinateFrame d b).calibrationActive = w.calibrationActive := by
  obtain ⟨_, _, _, f4, _⟩ := calibView_fields _ _ _ _ _ _ _ _ _ _ _ (cc_shift_calibView w d b)
  exact f4

/-- The method `setOpenHere` outside calibration: the position becomes 0, the
span is only limited to `[0, 8192]`. -/
theorem cc_setOpenHere_outside (s : ClickCounter) (now : Nat)
    (ha : s.calibrationActive = false) :
    calibView (s.setOpenHere now) =
      (0, max 0 (min s.endPos SET_MAX_POS), false, false, s.calibOpenSet, s.calibClosedSet,
        s.calibEntryPos, s.calibEntryEnd, s.calibOpenRaw, s.calibClosedRaw) := by
  have hact : (s.shiftCoordinateFrame s.pos false).calibrationActive = false :=
    (cc_shift_active s s.pos false).trans ha
  have hv := cc_shift_calibView s s.pos false
  rw [ha] at hv
  simp only [Bool.false_eq_true, if_false, false_and, sub_self] at hv
  obtain ⟨f1, f2, f3, f4, f5, f6, f7, f8, f9, f10⟩ := calibView_fields _ _ _ _ _ _ _ _ _ _ _ hv
  have hc := cc_clamp_calibView (s.shiftCoordinateFrame s.pos false)
  rw [f1, f2, f3, f4, f5, f6, f7, f8, f9, f10, limitPos_zero] at hc
  have hfin := cc_clearFlag_calibView _ _ _ _ _ _ _ _ _ _ _ hc
  unfold setOpenHere
  simp only [ha, Bool.false_eq_true, if_false, hact]
  refine (cc_mark_tail _ _ now ?_).trans hfin
  exact cc_clamp_end_nonneg _

/-- The method `setOpenHere` in calibration: the frame is shifted by the
current position and the open mark is at 0 (state `u`), then the span is
recomputed and clamped and the panic flag cleared. -/
theorem cc_setOpenHere_steps (s : ClickCounter) (now : Nat) (ha : s.calibrationActive = true) :
    ∃ u : ClickCounter,
      calibView u = (0, s.endPos - s.pos, s.panicFlag, true, true, s.calibClosedSet,
        s.calibEntryPos - s.pos, s.calibEntryEnd, 0,
        (if s.calibClosedSet then s.calibClosedRaw - s.pos else s.calibClosedRaw)) ∧
      ∀ (x1 x2 : Int) (x3 x4 x5 x6 : Bool) (x7 x8 x9 x10 : Int),
        calibView (u.recomputeSpanFromMarks).clampCalibrationRange =
          (x1, x2, x3, x4, x5, x6, x7, x8, x9, x10) →
        calibView (s.setOpenHere now) = (x1, x2, false, x4, x5, x6, x7, x8, x9, x10) := by
  refine ⟨{ (({ s with calibOpenSet := true, calibOpenRaw := s.pos } :
      ClickCounter).shiftCoordinateFrame s.pos true) with calibOpenRaw := 0 }, ?_, ?_⟩
  · have key : ∀ w : ClickCounter,
        calibView w = (s.pos, s.endPos, s.panicFlag, true, true, s.calibClosedSet,
          s.calibEntryPos, s.calibEntryEnd, s.pos, s.calibClosedRaw) →
        calibView { (w.shiftCoordinateFrame s.pos true) with calibOpenRaw := 0 } =
          (0, s.endPos - s.pos, s.panicFlag, true, true, s.calibClosedSet,
            s.calibEntryPos - s.pos, s.calibEntryEnd, 0,
            (if s.calibClosedSet then s.calibClosedRaw - s.pos else s.calibClosedRaw)) := by
      intro w hw
      obtain ⟨w1, w2, w3, w4, w5, w6, w7, w8, w9, w10⟩ :=
        calibView_fields _ _ _ _ _ _ _ _ _ _ _ hw
      have hv := cc_shift_calibView w s.pos true
      rw [w1, w2, w3, w4, w5, w6, w7, w8, w9, w10] at hv
      simp only [if_true, true_and, sub_self] at hv
      obtain ⟨f1, f2, f3, f4, f5, f6, f7, f8, f9, f10⟩ :=
        calibView_fields _ _ _ _ _ _ _ _ _ _ _ hv
      unfold calibView
      simp only [f1, f2, f3, f4, f5, f6, f7, f8, f10]
    refine key _ ?_
    unfold calibView
    simp only [ha]
  · intro x1 x2 x3 x4 x5 x6 x7 x8 x9 x10 hx
    have hact : ∀ (w : ClickCounter) (d : Int) (b : Bool), w.calibrationActive = true →
        (w.shiftCoordinateFrame d b).calibrationActive = true :=
      fun w d b h => (cc_shift_active w d b).trans h
    revert hx
    unfold setOpenHere
    simp only [ha, if_true, hact]
    intro hx
    refine (cc_mark_tail _ _ now ?_).trans ?_
    · exact cc_clamp_end_nonneg _
    · exact cc_clearFlag_calibView _ _ _ _ _ _ _ _ _ _ _ hx

/-- In calibration `setOpenHere` shifts the entry position and a closed mark
that is set by the position it is called at. -/
theorem cc_setOpenHere_shifts (s : ClickCounter) (now : Nat) (ha : s.calibrationActive = true) :
    (s.setOpenHere now).calibEntryPos = s.calibEntryPos - s.pos ∧
    (s.calibClosedSet = true →
      (s.setOpenHere now).calibClosedRaw = s.calibClosedRaw - s.pos) ∧
    (s.setOpenHere now).calibOpenRaw = 0 ∧ (s.setOpenHere now).calibOpenSet = true := by
  obtain ⟨u, hu, hset⟩ := cc_setOpenHere_steps s now ha
  obtain ⟨u1, u2, u3, u4, u5, u6, u7, u8, u9, u10⟩ := calibView_fields _ _ _ _ _ _ _ _ _ _ _ hu
  have hrc := cc_recompute_calibView u u4 _ _ rfl rfl
  obtain ⟨r1, r2, r3, r4, r5, r6, r7, r8, r9, r10⟩ :=
    calibView_fields _ _ _ _ _ _ _ _ _ _ _ hrc
  have hc := cc_clamp_calibView u.recomputeSpanFromMarks
  rw [r3, r4, r5, r6, r7, r8, r9, r10] at hc
  have hv := hset _ _ _ _ _ _ _ _ _ _ hc
  obtain ⟨_, _, _, _, v5, _, v7, _, v9, v10⟩ := calibView_fields _ _ _ _ _ _ _ _ _ _ _ hv
  refine ⟨v7.trans u7, ?_, v9.trans u9, v5.trans u5⟩
  intro hcs
  rw [v10, u10, hcs]
  rfl

/-- In calibration, `recomputeSpanFromMarks` and `clampCalibrationRange` at the
open mark (position 0) leave the position at 0 whenever the span they compute is
not negative: when a mark gives a span, when the span of the calibration entry
is positive, or when the shifted span is not negative. -/
theorem cc_recompute_at_open (u : ClickCounter) (ha : u.calibrationActive = true)
    (ho : u.calibOpenSet = true) (hp : u.pos = 0)
    (hok : u.spanCandidate ≠ INT32_MIN ∨ 0 < u.calibEntryEnd ∨ 0 ≤ u.endPos) :
    ((u.recomputeSpanFromMarks).clampCalibrationRange).pos = 0 := by
  have hrc := cc_recompute_calibView u ha _ _ rfl rfl
  obtain ⟨r1, _⟩ := calibView_fields _ _ _ _ _ _ _ _ _ _ _ hrc
  obtain ⟨c1, _⟩ := calibView_fields _ _ _ _ _ _ _ _ _ _ _
    (cc_clamp_calibView u.recomputeSpanFromMarks)
  rw [c1, r1, ho, hp]
  have hN : 0 ≤ u.normaliseCandidate u.spanCandidate := by
    unfold normaliseCandidate SET_MAX_POS
    dsimp only
    split_ifs <;> omega
  generalize u.normaliseCandidate u.spanCandidate = nn at hN
  unfold limitPos SET_MIN_POS SET_MAX_POS
  rcases hok with h | h | h
  · simp only [h, ne_eq, not_false_eq_true, if_true]
    split_ifs <;> omega
  · by_cases hc : u.spanCandidate ≠ INT32_MIN
    · simp only [hc, if_true]
      split_ifs <;> omega
    · simp only [hc, if_false, gt_iff_lt, h, if_true]
      split_ifs <;> omega
  · by_cases hc : u.spanCandidate ≠ INT32_MIN
    · simp only [hc, if_true]
      split_ifs <;> omega
    · simp only [hc, if_false]
      split_ifs <;> omega

/-- Where `setOpenHere` leaves position 0: outside calibration, and in
calibration when a mark gives a span, the span of the calibration entry is
positive, or the position is not above the span. -/
theorem cc_setOpenHere_zero (s : ClickCounter) (now : Nat)
    (hok : s.calibrationActive = false ∨
      (s.calibClosedSet = true ∧ s.calibClosedRaw - s.pos ≠ INT32_MIN) ∨
      (s.calibClosedSet = false ∧ s.calibEntryPos ≠ s.pos ∧
        s.calibEntryPos - s.pos ≠ INT32_MIN) ∨
      0 < s.calibEntryEnd ∨ s.pos ≤ s.endPos) :
    (s.setOpenHere now).position = 0 := by
  unfold position
  cases ha : s.calibrationActive
  · obtain ⟨f1, _⟩ := calibView_fields _ _ _ _ _ _ _ _ _ _ _ (cc_setOpenHere_outside s now ha)
    exact f1
  · obtain ⟨u, hu, hset⟩ := cc_setOpenHere_steps s now ha
    obtain ⟨u1, u2, u3, u4, u5, u6, u7, u8, u9, u10⟩ :=
      calibView_fields _ _ _ _ _ _ _ _ _ _ _ hu
    have hcand : u.spanCandidate ≠ INT32_MIN ∨ 0 < u.calibEntryEnd ∨ 0 ≤ u.endPos := by
      rw [u8, u2]
      rcases hok with h | h | h | h | h
      · rw [ha] at h; exact absurd h (by simp)
      · left
        unfold spanCandidate
        rw [u6, h.1, u10, h.1]
        simpa using h.2
      · left
        unfold spanCandidate
        rw [u6, h.1, u5, u7]
        have h3 : s.calibEntryPos - s.pos ≠ 0 := by
          have := h.2.1
          omega
        simp only [Bool.false_eq_true, if_false, ne_eq, h3, not_false_eq_true, and_self, if_true]
        exact h.2.2
      · right; left; exact h
      · right; right; omega
    have hz := cc_recompute_at_open u u4 u5 u1 hcand
    have hv := hset _ _ _ _ _ _ _ _ _ _ rfl
    obtain ⟨v1, _⟩ := calibView_fields _ _ _ _ _ _ _ _ _ _ _ hv
    exact v1.trans hz

/-- C18 (code at the failing input). The tracker has span 0 and stands at
position 1, one step past the span (`update(false)` tolerates it: no panic).
Calibration is entered and `setOpenHere` is called at once: the frame shift
makes the span -1, the position is clamped against it, and `position()` is
-1, not 0.  The position has moved by 2 while the entry position has moved by
1.  Outside calibration the same call gives position 0. -/
theorem C18_open_mark_negative_span :
    onePastZeroSpan.endOf = 0 ∧ onePastZeroSpan.position = 1 ∧
    onePastZeroSpan.panicked = false ∧ onePastZeroSpan.calibrationActive = false ∧
    (onePastZeroSpan.beginCalibration).calibEntryPos = 1 ∧
    ((onePastZeroSpan.beginCalibration).setOpenHere 2000).position = -1 ∧
    ((onePastZeroSpan.beginCalibration).setOpenHere 2000).endOf = 0 ∧
    ((onePastZeroSpan.beginCalibration).setOpenHere 2000).calibEntryPos = 0 ∧
    (onePastZeroSpan.setOpenHere 2000).position = 0 := by
  decide

end ClickCounter

/-! ### The span from the open mark alone -/

namespace ClickCounter

/-- In calibration with the open mark at position 0, no closed mark and a
positive span at entry: `recomputeSpanFromMarks` and `clampCalibrationRange`
leave the position at 0 and set the span (limited to 8192) to the distance
of the calibration entry from the open mark, or to the span at entry when
that distance is 0. -/
theorem cc_recompute_open (u : ClickCounter) (ha : u.calibrationActive = true)
    (ho : u.calibOpenSet = true) (hc : u.calibClosedSet = false) (hp : u.pos = 0)
    (hx : INT32_MIN < u.calibEntryPos) (he : 0 < u.calibEntryEnd) :
    calibView (u.recomputeSpanFromMarks).clampCalibrationRange =
      (0,
        (if u.calibEntryPos = 0 then min u.calibEntryEnd 8192
         else min |u.calibEntryPos| 8192),
        u.panicFlag, true, true, false, u.calibEntryPos, u.calibEntryEnd, u.calibOpenRaw,
        u.calibClosedRaw) := by
  have hcand : u.spanCandidate = (if u.calibEntryPos = 0 then INT32_MIN else u.calibEntryPos) := by
    unfold spanCandidate
    rw [hc, ho]
    by_cases hz : u.calibEntryPos = 0
    · simp [hz]
    · simp [hz]
  have hv := cc_recompute_calibView u ha _ _ rfl rfl
  obtain ⟨f1, f2, f3, f4, f5, f6, f7, f8, f9, f10⟩ := calibView_fields _ _ _ _ _ _ _ _ _ _ _ hv
  rw [cc_clamp_calibView, f1, f2, f3, f4, f5, f6, f7, f8, f9, f10, hc, ho, hp, hcand]
  simp only [Bool.false_eq_true, false_and, if_false, if_true, lt_self_iff_false]
  unfold INT32_MIN at hx
  by_cases hz : u.calibEntryPos = 0
  · have hgt : u.calibEntryEnd > 0 := he
    have hE : ¬ (0 > u.calibEntryEnd) := by omega
    simp only [hz, if_true, ne_eq, not_true_eq_false, if_false, hgt, hE, limitPos_zero]
    unfold SET_MAX_POS
    have : max 0 (min u.calibEntryEnd 8192) = min u.calibEntryEnd 8192 := by omega
    rw [this]
  · have hne : u.calibEntryPos ≠ INT32_MIN := by unfold INT32_MIN; omega
    have hN : u.normaliseCandidate u.calibEntryPos = min |u.calibEntryPos| 8192 := by
      unfold normaliseCandidate SET_MAX_POS
      rw [abs_eq_max_neg]
      dsimp only
      split_ifs <;> omega
    have hpos : 0 < min |u.calibEntryPos| 8192 := by
      rw [abs_eq_max_neg]
      omega
    have hE : ¬ (0 > min |u.calibEntryPos| 8192) := by omega
    simp only [hz, if_false, ne_eq, hne, not_false_eq_true, if_true, hN, hE, limitPos_zero]
    unfold SET_MAX_POS
    have : max 0 (min (min |u.calibEntryPos| 8192) 8192) = min |u.calibEntryPos| 8192 := by
      omega
    rw [this]

/-- C19 (as stated, refuted). Calibration is entered at position 0 with span 200
and the cover is moved two steps towards Closing; the open mark is set there
and no closed mark.  After `finalizeCalibration` the span is 2, the distance
between the calibration entry and the open mark, not the 200 of before. -/
theorem C19_open_mark_after_movement :
    calibAtZero.position = 0 ∧ calibAtZero.endOf = 200 ∧
    calibAtZero.calibEntryPos = 0 ∧ calibAtZero.calibEntryEnd = 200 ∧
    calibMovedTwo.calibrationActive = true ∧ calibMovedTwo.position = 2 ∧
    calibMovedTwo.calibOpenSet = false ∧ calibMovedTwo.calibClosedSet = false ∧
    (calibMovedTwo.setOpenHere 2000).calibClosedSet = false ∧
    ((calibMovedTwo.setOpenHere 2000).finalizeCalibration 3000).endOf = 2 := by
  decide

/-- C19 (amended). In calibration with no closed mark and a positive span `e`
at entry, `setOpenHere` followed by `finalizeCalibration` leaves `end() == e`
(limited to 8192) when the open mark is set at the position of the
calibration entry, and `end() == |m|` (limited to 8192) when the cover has
moved by `m != 0` steps between the calibration entry and the open mark; the
position is 0. -/
theorem C19_open_mark_span (s : ClickCounter) (now1 now2 : Nat)
    (ha : s.calibrationActive = true) (hc : s.calibClosedSet = false)
    (he : 0 < s.calibEntryEnd) (hx : INT32_MIN < s.calibEntryPos - s.position) :
    (s.position = s.calibEntryPos →
      ((s.setOpenHere now1).finalizeCalibration now2).endOf = min s.calibEntryEnd 8192) ∧
    (s.position ≠ s.calibEntryPos →
      ((s.setOpenHere now1).finalizeCalibration now2).endOf =
        min |s.position - s.calibEntryPos| 8192) ∧
    ((s.setOpenHere now1).finalizeCalibration now2).position = 0 ∧
    (s.setOpenHere now1).position = 0 := by
  unfold position at hx ⊢
  obtain ⟨u, hu, hset⟩ := cc_setOpenHere_steps s now1 ha
  obtain ⟨u1, u2, u3, u4, u5, u6, u7, u8, u9, u10⟩ := calibView_fields _ _ _ _ _ _ _ _ _ _ _ hu
  have hrc := cc_recompute_open u u4 u5 (u6.trans hc) u1 (by rw [u7]; exact hx)
    (by rw [u8]; exact he)
  rw [u3, u7, u8, u9, u10] at hrc
  have hv := hset _ _ _ _ _ _ _ _ _ _ hrc
  obtain ⟨v1, v2, v3, v4, v5, v6, v7, v8, v9, v10⟩ := calibView_fields _ _ _ _ _ _ _ _ _ _ _ hv
  have hrc2 := cc_recompute_open (s.setOpenHere now1) v4 v5 v6 v1 (by rw [v7]; exact hx)
    (by rw [v8]; exact he)
  rw [v7, v8] at hrc2
  obtain ⟨_, _, hfin⟩ := cc_finalize_calibView (s.setOpenHere now1) now2 _ rfl
  obtain ⟨a1, a2, _⟩ := calibView_fields _ _ _ _ _ _ _ _ _ _ _ hrc2
  rw [a1, a2] at hfin
  obtain ⟨g1, g2, _⟩ := calibView_fields _ _ _ _ _ _ _ _ _ _ _ hfin
  unfold endOf
  rw [g1, g2]
  have habs : |s.pos - s.calibEntryPos| = |s.calibEntryPos - s.pos| := abs_sub_comm _ _
  rw [habs]
  have hnn : 0 ≤ min |s.calibEntryPos - s.pos| 8192 := by
    rw [abs_eq_max_neg]; omega
  refine ⟨?_, ?_, ?_, v1⟩
  · intro hp
    have hz : s.calibEntryPos - s.pos = 0 := by omega
    rw [if_pos hz]
  · intro hp
    have hz : ¬ (s.calibEntryPos - s.pos = 0) := by omega
    rw [if_neg hz]
  · split_ifs <;> omega

/-- C19 (amended), instance: calibration entered at 0 with span 200, the open
mark set after two steps; the span becomes 2. -/
theorem C19_open_mark_span_witness :
    ((calibMovedTwo.setOpenHere 2000).finalizeCalibration 3000).endOf =
      min |calibMovedTwo.position - calibMovedTwo.calibEntryPos| 8192 :=
  (C19_open_mark_span calibMovedTwo 2000 3000 (by decide) (by decide) (by decide)
    (by decide)).2.1 (by decide)

end ClickCounter

/-! ## Invariants of the motion driver -/

namespace RelaysModule

/-! ### The branches of `update` -/

/-- The branch `update` takes, with the conditions under which it is taken. -/
theorem update_cases (s : RelaysModule) (now : Nat) :
    (s.want = MotionState.IDLE ∧ s.update now = s.updateIdle now) ∨
    (s.want ≠ MotionState.IDLE ∧ now < s.tChangeAllowed ∧ s.update now = s.enableOffIfOn) ∨
    (s.want ≠ MotionState.IDLE ∧ ¬ now < s.tChangeAllowed ∧ s.psuOn = false ∧
      s.update now = s.psuStart now) ∨
    (s.want ≠ MotionState.IDLE ∧ ¬ now < s.tChangeAllowed ∧ s.psuOn = true ∧
      now < s.tPsuReady ∧ s.update now = s.enableOffIfOn) ∨
    (s.want ≠ MotionState.IDLE ∧ ¬ now < s.tChangeAllowed ∧ s.psuOn = true ∧
      ¬ now < s.tPsuReady ∧ s.latchedDrive ≠ s.want ∧ s.update now = s.arm now) ∨
    (s.want ≠ MotionState.IDLE ∧ ¬ now < s.tChangeAllowed ∧ s.psuOn = true ∧
      ¬ now < s.tPsuReady ∧ s.latchedDrive = s.want ∧ s.enableOn = false ∧
      now < s.tEnableReady ∧ s.update now = s) ∨
    (s.want ≠ MotionState.IDLE ∧ ¬ now < s.tChangeAllowed ∧ s.psuOn = true ∧
      ¬ now < s.tPsuReady ∧ s.latchedDrive = s.want ∧ s.enableOn = false ∧
      ¬ now < s.tEnableReady ∧ s.update now = s.engage) ∨
    (s.want ≠ MotionState.IDLE ∧ ¬ now < s.tChangeAllowed ∧ s.psuOn = true ∧
      ¬ now < s.tPsuReady ∧ s.latchedDrive = s.want ∧ s.enableOn = true ∧
      s.update now = { s with cur := s.latchedDrive }) := by
  unfold update
  by_cases h1 : s.want = MotionState.IDLE
  · left; exact ⟨h1, by rw [if_pos h1]⟩
  right
  rw [if_neg h1]
  by_cases h2 : now < s.tChangeAllowed
  · left; exact ⟨h1, h2, by rw [if_pos h2]⟩
  right
  rw [if_neg h2]
  rcases Bool.eq_false_or_eq_true s.psuOn with h3 | h3
  · right
    rw [if_neg (by simp [h3])]
    by_cases h4 : now < s.tPsuReady
    · left; exact ⟨h1, h2, h3, h4, by rw [if_pos h4]⟩
    right
    rw [if_neg h4]
    by_cases h5 : s.latchedDrive = s.want
    · right
      rw [if_neg (not_not.mpr h5)]
      rcases Bool.eq_false_or_eq_true s.enableOn with h6 | h6
      · right; right
        exact ⟨h1, h2, h3, h4, h5, h6, by rw [if_neg (by simp [h6])]⟩
      · rw [if_pos (by simp [h6])]
        by_cases h7 : now < s.tEnableReady
        · left; exact ⟨h1, h2, h3, h4, h5, h6, h7, by rw [if_pos h7]⟩
        · right; left; exact ⟨h1, h2, h3, h4, h5, h6, h7, by rw [if_neg h7]⟩
    · left; exact ⟨h1, h2, h3, h4, h5, by rw [if_pos h5]⟩
  · left; exact ⟨h1, h2, h3, by rw [if_pos (by simp [h3])]⟩

/-! ### Stages that find nothing to do -/

theorem idleStop_idle (s : RelaysModule) (now : Nat) (h : s.cur = MotionState.IDLE) :
    s.idleStop now = s := by
  unfold idleStop; simp [h]

theorem enableOffIfOn_off (s : RelaysModule) (h : s.enableOn = false) : s.enableOffIfOn = s := by
  unfold enableOffIfOn; simp [h]

theorem idleDirOff_idle (s : RelaysModule) (h : s.latchedDrive = MotionState.IDLE) :
    s.idleDirOff = s := by
  unfold idleDirOff; simp [h]

theorem idleHoldExpire_inactive (s : RelaysModule) (now : Nat) (h : s.psuHoldActive = false) :
    s.idleHoldExpire now = s := by
  unfold idleHoldExpire; simp [h]

theorem idlePsu_off (s : RelaysModule) (h1 : s.psuHoldActive = false) (h2 : s.psuOn = false) :
    s.idlePsu = s := by
  unfold idlePsu; simp [h1, h2]

/-! ### The flags mirror the pins -/

theorem energized_level_eq (s : RelaysModule) (b : Bool) : s.energized (s.level b) = b := by
  unfold energized level; cases s.activeLow <;> cases b <;> rfl

theorem begin_pinsOk (a : Bool) (d p : Nat) : PinsOk (begin a d p) := by
  unfold PinsOk fwdOn revOn psuRelayOn enRelayOn energized begin driveEnable level
  cases a <;> simp

theorem emergencyPanicOff_pinsOk (s : RelaysModule) : PinsOk s.emergencyPanicOff := by
  unfold PinsOk fwdOn revOn psuRelayOn enRelayOn energized
  simp

theorem request_pinsOk (s : RelaysModule) (w : MotionState) (t : Nat) (h : PinsOk s) :
    PinsOk (s.request w t) := by
  unfold PinsOk fwdOn revOn psuRelayOn enRelayOn energized at h ⊢
  simp only [request_activeLow, request_pinPsu, request_psuOn, request_pinEn, request_enableOn,
    request_pinFwd, request_latchedDrive, request_pinRev]
  split_ifs <;> simp_all [level]

theorem idleStop_pinsOk (s : RelaysModule) (now : Nat) (h : PinsOk s) :
    PinsOk (s.idleStop now) := by
  unfold PinsOk fwdOn revOn psuRelayOn enRelayOn energized at h ⊢
  simp only [idleStop_activeLow, idleStop_pinPsu, idleStop_psuOn, idleStop_pinEn,
    idleStop_enableOn, idleStop_pinFwd, idleStop_latchedDrive, idleStop_pinRev]
  split_ifs <;> simp_all [level]

theorem enableOffIfOn_pinsOk (s : RelaysModule) (h : PinsOk s) : PinsOk s.enableOffIfOn := by
  unfold PinsOk fwdOn revOn psuRelayOn enRelayOn energized at h ⊢
  simp only [enableOffIfOn_activeLow, enableOffIfOn_pinPsu, enableOffIfOn_psuOn,
    enableOffIfOn_pinEn, enableOffIfOn_enableOn, enableOffIfOn_pinFwd,
    enableOffIfOn_latchedDrive, enableOffIfOn_pinRev]
  split_ifs <;> simp_all [level]

theorem idleDirOff_pinsOk (s : RelaysModule) (h : PinsOk s) : PinsOk s.idleDirOff := by
  unfold PinsOk fwdOn revOn psuRelayOn enRelayOn energized at h ⊢
  simp only [idleDirOff_activeLow, idleDirOff_pinPsu, idleDirOff_psuOn, idleDirOff_pinEn,
    idleDirOff_enableOn, idleDirOff_pinFwd, idleDirOff_latchedDrive, idleDirOff_pinRev]
  split_ifs <;> simp_all [level]

theorem idleHoldExpire_pinsOk (s : RelaysModule) (now : Nat) (h : PinsOk s) :
    PinsOk (s.idleHoldExpire now) := by
  unfold PinsOk fwdOn revOn psuRelayOn enRelayOn energized at h ⊢
  simpa using h

theorem idlePsu_pinsOk (s : RelaysModule) (h : PinsOk s) : PinsOk s.idlePsu := by
  unfold PinsOk fwdOn revOn psuRelayOn enRelayOn energized at h ⊢
  simp only [idlePsu_activeLow, idlePsu_pinPsu, idlePsu_psuOn, idlePsu_pinEn, idlePsu_enableOn,
    idlePsu_pinFwd, idlePsu_latchedDrive, idlePsu_pinRev]
  split_ifs <;> simp_all [level]

theorem updateIdle_pinsOk (s : RelaysModule) (now : Nat) (h : PinsOk s) :
    PinsOk (s.updateIdle now) :=
  idlePsu_pinsOk _ (idleHoldExpire_pinsOk _ now (idleDirOff_pinsOk _ (enableOffIfOn_pinsOk _
    (idleStop_pinsOk s now h))))

theorem psuStart_pinsOk (s : RelaysModule) (now : Nat) (h : PinsOk s) :
    PinsOk (s.psuStart now) := by
  unfold PinsOk fwdOn revOn psuRelayOn enRelayOn energized at h ⊢
  simp only [psuStart_activeLow, psuStart_pinPsu, psuStart_psuOn, psuStart_pinEn,
    psuStart_enableOn, psuStart_pinFwd, psuStart_latchedDrive, psuStart_pinRev]
  split_ifs <;> simp_all [level]

theorem arm_pinsOk (s : RelaysModule) (now : Nat) (h : PinsOk s) : PinsOk (s.arm now) := by
  unfold PinsOk fwdOn revOn psuRelayOn enRelayOn energized at h ⊢
  simp only [arm_activeLow, arm_pinPsu, arm_psuOn, arm_pinEn, arm_enableOn, arm_pinFwd,
    arm_latchedDrive, arm_pinRev]
  cases hw : s.want <;> split_ifs <;> simp_all [level]

theorem engage_pinsOk (s : RelaysModule) (h : PinsOk s) : PinsOk s.engage := by
  unfold PinsOk fwdOn revOn psuRelayOn enRelayOn energized at h ⊢
  simp only [engage_activeLow, engage_pinPsu, engage_psuOn, engage_pinEn, engage_enableOn,
    engage_pinFwd, engage_latchedDrive, engage_pinRev]
  split_ifs <;> simp_all [level]

theorem update_pinsOk (s : RelaysModule) (now : Nat) (h : PinsOk s) : PinsOk (s.update now) := by
  rcases update_cases s now with ⟨_, e⟩ | ⟨_, _, e⟩ | ⟨_, _, _, e⟩ | ⟨_, _, _, _, e⟩ |
    ⟨_, _, _, _, _, e⟩ | ⟨_, _, _, _, _, _, _, e⟩ | ⟨_, _, _, _, _, _, _, e⟩ |
    ⟨_, _, _, _, _, _, e⟩ <;> rw [e]
  · exact updateIdle_pinsOk s now h
  · exact enableOffIfOn_pinsOk s h
  · exact psuStart_pinsOk s now h
  · exact enableOffIfOn_pinsOk s h
  · exact arm_pinsOk s now h
  · exact h
  · exact engage_pinsOk s h
  · exact h

/-! ### Soundness -/

theorem updateIdle_cur (s : RelaysModule) (now : Nat) :
    (s.updateIdle now).cur = MotionState.IDLE := by
  simp only [updateIdle, idlePsu_cur, idleHoldExpire_cur, idleDirOff_cur, enableOffIfOn_cur,
    idleStop_cur]
  split_ifs <;> simp_all

theorem updateIdle_enableOn (s : RelaysModule) (now : Nat) :
    (s.updateIdle now).enableOn = false := by
  simp only [updateIdle, idlePsu_enableOn, idleHoldExpire_enableOn, idleDirOff_enableOn,
    enableOffIfOn_enableOn, idleStop_enableOn]
  split_ifs <;> simp_all

theorem updateIdle_latchedDrive (s : RelaysModule) (now : Nat) :
    (s.updateIdle now).latchedDrive = MotionState.IDLE := by
  simp only [updateIdle, idlePsu_latchedDrive, idleHoldExpire_latchedDrive,
    idleDirOff_latchedDrive, enableOffIfOn_latchedDrive, idleStop_latchedDrive]
  split_ifs <;> simp_all

theorem idlePsu_follows (s : RelaysModule) : (s.idlePsu).psuOn = (s.idlePsu).psuHoldActive := by
  simp only [idlePsu_psuOn, idlePsu_psuHoldActive]
  split_ifs with h
  · rfl
  · simpa using (not_not.mp h).symm

theorem updateIdle_psuOn (s : RelaysModule) (now : Nat) :
    (s.updateIdle now).psuOn = (s.updateIdle now).psuHoldActive :=
  idlePsu_follows _

/-- The state left by `begin` is sound. -/
theorem begin_sound (a : Bool) (d p : Nat) : Sound (begin a d p) :=
  ⟨begin_pinsOk a d p, fun _ => ⟨rfl, rfl, rfl⟩, fun h => (by cases h)⟩

/-- The state left by `emergencyPanicOff` is sound. -/
theorem emergencyPanicOff_sound (s : RelaysModule) : Sound s.emergencyPanicOff :=
  ⟨emergencyPanicOff_pinsOk s, fun _ => (by simp), fun h => (by simp at h)⟩

/-- A `request` keeps the driver sound. -/
theorem request_sound (s : RelaysModule) (w : MotionState) (t : Nat) (h : Sound s) :
    Sound (s.request w t) := by
  refine ⟨request_pinsOk s w t h.1, ?_, ?_⟩
  · have h2 := h.2.1
    simp only [request_psuOn, request_enableOn, request_latchedDrive, request_cur]
    intro hp
    have := h2 hp
    split_ifs <;> simp_all
  · have h3 := h.2.2
    simp only [request_psuOn, request_psuHoldActive]
    split_ifs <;> simp_all

/-- An `update` keeps the driver sound. -/
theorem update_sound (s : RelaysModule) (now : Nat) (h : Sound s) : Sound (s.update now) := by
  refine ⟨update_pinsOk s now h.1, ?_, ?_⟩
  · rcases update_cases s now with ⟨_, e⟩ | ⟨_, _, e⟩ | ⟨_, _, _, e⟩ | ⟨_, _, _, _, e⟩ |
      ⟨_, _, h3, _, _, e⟩ | ⟨_, _, h3, _, _, _, _, e⟩ | ⟨_, _, h3, _, _, _, _, e⟩ |
      ⟨_, _, h3, _, _, _, e⟩ <;> rw [e]
    · intro _
      exact ⟨updateIdle_enableOn s now, updateIdle_latchedDrive s now, updateIdle_cur s now⟩
    · intro hp
      have := h.2.1 (by simpa using hp)
      simp [this]
    · intro hp; simp at hp
    · intro hp
      have := h.2.1 (by simpa using hp)
      simp [this]
    · intro hp; simp [h3] at hp
    · intro hp; simp [h3] at hp
    · intro hp; simp [h3] at hp
    · intro hp
      have hp2 : s.psuOn = false := hp
      simp [h3] at hp2
  · rcases update_cases s now with ⟨_, e⟩ | ⟨_, _, e⟩ | ⟨_, _, _, e⟩ | ⟨_, _, _, _, e⟩ |
      ⟨_, _, h3, _, _, e⟩ | ⟨_, _, h3, _, _, _, _, e⟩ | ⟨_, _, h3, _, _, _, _, e⟩ |
      ⟨_, _, h3, _, _, _, e⟩ <;> rw [e]
    · intro hh; rw [updateIdle_psuOn]; exact hh
    · simpa using h.2.2
    · intro _; simp
    · simpa using h.2.2
    · intro _; simpa using h3
    · exact h.2.2
    · intro _; simpa using h3
    · intro _; exact h3

end RelaysModule

/-! ### The reported direction under a non-decreasing clock -/

namespace RelaysModule

theorem steady_mono (s : RelaysModule) (t t2 : Nat) (h : Steady s t) (ht : t ≤ t2) :
    Steady s t2 := by
  refine ⟨h.1, fun hc => ?_⟩
  obtain ⟨h1, h2, h3, h4, h5, h6⟩ := h.2 hc
  exact ⟨h1, h2, h3, le_trans h4 ht, le_trans h5 ht, h6⟩

theorem begin_steady (a : Bool) (d p t : Nat) : Steady (begin a d p) t :=
  ⟨fun h => (by cases h), fun h => absurd rfl h⟩

theorem emergencyPanicOff_steady (s : RelaysModule) (t : Nat) : Steady s.emergencyPanicOff t :=
  ⟨fun h => (by simp at h), fun h => (by simp at h)⟩

theorem request_steady (s : RelaysModule) (w : MotionState) (t0 t : Nat) (h : Steady s t) :
    Steady (s.request w t0) t := by
  by_cases hr : w ≠ MotionState.IDLE ∧ s.active ≠ MotionState.IDLE ∧ w ≠ s.active
  · refine ⟨fun he => ?_, fun hc => ?_⟩
    · simp [hr] at he
    · simp [hr] at hc
  · have e1 : (s.request w t0).enableOn = s.enableOn := by simp [hr]
    have e2 : (s.request w t0).cur = s.cur := by simp [hr]
    have e3 : (s.request w t0).latchedDrive = s.latchedDrive := by
      rw [request_latchedDrive, if_neg hr]
    have e4 : (s.request w t0).tChangeAllowed = s.tChangeAllowed := by
      rw [request_tChangeAllowed, if_neg hr]
    unfold Steady
    rw [e1, e2, e3, e4, request_psuOn, request_tPsuReady, request_want]
    refine ⟨h.1, fun hc => ?_⟩
    obtain ⟨h1, h2, h3, h4, h5, _⟩ := h.2 hc
    refine ⟨h1, h2, h3, h4, h5, ?_⟩
    have ha : s.active = s.cur := by unfold active; rw [if_pos hc]
    rw [ha] at hr
    by_cases hw : w = MotionState.IDLE
    · exact Or.inr hw
    · left
      by_contra hne
      exact hr ⟨hw, hc, hne⟩

theorem update_steady (s : RelaysModule) (t now : Nat) (h : Steady s t) (ht : t ≤ now) :
    Steady (s.update now) now := by
  rcases update_cases s now with ⟨_, e⟩ | ⟨_, h2, e⟩ | ⟨_, _, h3, e⟩ | ⟨_, _, _, h4, e⟩ |
    ⟨hw, _, _, _, h5, e⟩ | ⟨_, _, _, _, _, _, _, e⟩ | ⟨hw, h2, h3, h4, h5, _, _, e⟩ |
    ⟨hw, h2, h3, h4, h5, h6, e⟩ <;> rw [e]
  · refine ⟨fun he => ?_, fun hc => absurd (updateIdle_cur s now) hc⟩
    rw [updateIdle_enableOn] at he; cases he
  · refine ⟨fun he => ?_, fun hc => ?_⟩
    · rw [enableOffIfOn_enableOn] at he; split_ifs at he <;> simp_all
    · rw [enableOffIfOn_cur] at hc
      have := (h.2 hc).2.2.2.1
      omega
  · refine ⟨fun he => ?_, fun hc => ?_⟩
    · rw [psuStart_enableOn] at he; rw [psuStart_cur]; exact h.1 he
    · rw [psuStart_cur] at hc
      have := (h.2 hc).2.2.1
      rw [h3] at this; cases this
  · refine ⟨fun he => ?_, fun hc => ?_⟩
    · rw [enableOffIfOn_enableOn] at he; split_ifs at he <;> simp_all
    · rw [enableOffIfOn_cur] at hc
      have := (h.2 hc).2.2.2.2.1
      omega
  · refine ⟨fun he => ?_, fun hc => ?_⟩
    · rw [arm_enableOn] at he; cases he
    · rw [arm_cur] at hc
      obtain ⟨h1, _, _, _, _, h6⟩ := h.2 hc
      rcases h6 with h6 | h6
      · exact absurd (h1.symm.trans h6.symm) h5
      · exact absurd h6 hw
  · exact steady_mono s t now h ht
  · have hl : s.latchedDrive ≠ MotionState.IDLE := by rw [h5]; exact hw
    refine ⟨fun _ => ?_, fun _ => ?_⟩
    · rw [engage_cur]; exact hl
    · rw [engage_cur, engage_latchedDrive, engage_enableOn, engage_psuOn, engage_tChangeAllowed,
        engage_tPsuReady, engage_want]
      exact ⟨rfl, rfl, h3, by omega, by omega, Or.inl h5.symm⟩
  · have hl : s.latchedDrive ≠ MotionState.IDLE := by rw [h5]; exact hw
    refine ⟨fun _ => hl, fun _ => ?_⟩
    exact ⟨rfl, h6, h3, Nat.le_of_not_lt h2, Nat.le_of_not_lt h4, Or.inl h5.symm⟩

/-- After an `update` on a sound and steady driver, a reported direction is the
requested and latched one, with the enable and the power relay energized. -/
theorem update_reports (s : RelaysModule) (t now : Nat) (hS : Sound s) (hT : Steady s t)
    (ht : t ≤ now) (hc : (s.update now).current ≠ MotionState.IDLE) :
    (s.update now).current = (s.update now).want ∧
      (s.update now).latchedDrive = (s.update now).current ∧
      (s.update now).enRelayOn = true ∧ (s.update now).psuRelayOn = true := by
  have hS2 := update_sound s now hS
  have hT2 := update_steady s t now hT ht
  unfold current at hc ⊢
  obtain ⟨h1, h2, h3, _, _, h6⟩ := hT2.2 hc
  have hw : (s.update now).want ≠ MotionState.IDLE := by
    intro hw
    rw [update_want] at hw
    rcases update_cases s now with ⟨_, e⟩ | ⟨hn, _⟩ | ⟨hn, _⟩ | ⟨hn, _⟩ | ⟨hn, _⟩ | ⟨hn, _⟩ |
      ⟨hn, _⟩ | ⟨hn, _⟩
    · rw [e] at hc; exact hc (updateIdle_cur s now)
    all_goals exact hn hw
  refine ⟨?_, h1.symm, ?_, ?_⟩
  · rcases h6 with h6 | h6
    · exact h6.symm
    · exact absurd h6 hw
  · rw [hS2.1.2.1]; exact h2
  · rw [hS2.1.1]; exact h3

end RelaysModule

namespace DriverOp

theorem apply_invariants (s : RelaysModule) (op : DriverOp) (t0 : Nat)
    (hS : RelaysModule.Sound s) (hT : RelaysModule.Steady s t0) (ht : t0 ≤ op.time) :
    RelaysModule.Sound (apply s op) ∧ RelaysModule.Steady (apply s op) op.time := by
  cases op with
  | request w t =>
    exact ⟨RelaysModule.request_sound s w t hS,
      RelaysModule.steady_mono _ _ _ (RelaysModule.request_steady s w t t0 hT) ht⟩
  | update t => exact ⟨RelaysModule.update_sound s t hS, RelaysModule.update_steady s t0 t hT ht⟩
  | panicOff t =>
    exact ⟨RelaysModule.emergencyPanicOff_sound s, RelaysModule.emergencyPanicOff_steady s t⟩

/-- Along a run under a non-decreasing clock the driver stays sound and steady. -/
theorem run_invariants : ∀ (ops : List DriverOp) (s : RelaysModule) (t0 : Nat) (op : DriverOp),
    RelaysModule.Sound s → RelaysModule.Steady s t0 → inOrder t0 (ops ++ [op]) →
    ∃ t, t ≤ op.time ∧ RelaysModule.Sound (run s ops) ∧ RelaysModule.Steady (run s ops) t
  | [], s, t0, _, hS, hT, h => ⟨t0, h.1, hS, hT⟩
  | x :: xs, s, t0, op, hS, hT, h => by
    have hx := apply_invariants s x t0 hS hT h.1
    exact run_invariants xs (apply s x) x.time op hx.1 hx.2 h.2

/-- C23. Along every sequence of `request`, `update` and `emergencyPanicOff`
calls that follows `begin` under a non-decreasing clock, after every `update`:
if `current()` is not Idle, then it equals the requested direction, the latched
direction equals it, and the enable relay and the power relay are energized. -/
theorem C23_reported_direction_is_driven (a : Bool) (d p : Nat) (ops : List DriverOp)
    (now : Nat) (hord : inOrder 0 (ops ++ [DriverOp.update now]))
    (hc : ((run (RelaysModule.begin a d p) ops).update now).current ≠ MotionState.IDLE) :
    ((run (RelaysModule.begin a d p) ops).update now).current =
        ((run (RelaysModule.begin a d p) ops).update now).want ∧
      ((run (RelaysModule.begin a d p) ops).update now).latchedDrive =
        ((run (RelaysModule.begin a d p) ops).update now).current ∧
      ((run (RelaysModule.begin a d p) ops).update now).enRelayOn = true ∧
      ((run (RelaysModule.begin a d p) ops).update now).psuRelayOn = true := by
  obtain ⟨t, ht, hS, hT⟩ := run_invariants ops (RelaysModule.begin a d p) 0
    (DriverOp.update now) (RelaysModule.begin_sound a d p) (RelaysModule.begin_steady a d p 0)
    hord
  exact RelaysModule.update_reports _ t now hS hT ht hc

/-- C23, instance: Closing asked at 1000 ms after `begin(true, 1000, 2000)`,
power on, direction relay set at 3000 ms; the update at 3200 ms reports Closing
with the enable and the power relay energized. -/
theorem C23_reported_direction_is_driven_witness :
    drivingClosing.current = drivingClosing.want ∧
      drivingClosing.latchedDrive = drivingClosing.current ∧
      drivingClosing.enRelayOn = true ∧ drivingClosing.psuRelayOn = true :=
  C23_reported_direction_is_driven true 1000 2000
    [request MotionState.CLOSING 1000, update 1000, update 3000] 3200 (by decide) (by decide)

end DriverOp

/-! ### The spin-up window of the power supply -/

namespace RelaysModule

theorem request_spinning (s : RelaysModule) (w : MotionState) (u T : Nat)
    (h : SpinningUp T s) : SpinningUp T (s.request w u) := by
  obtain ⟨h1, h2, h3, h4⟩ := h
  have ha : s.active = MotionState.IDLE := by unfold active; simp [h3, h1]
  have hr : ¬ (w ≠ MotionState.IDLE ∧ s.active ≠ MotionState.IDLE ∧ w ≠ s.active) := by
    rw [ha]; simp
  unfold SpinningUp
  rw [request_latchedDrive, if_neg hr, request_enableOn, if_neg hr, request_cur, if_neg hr,
    request_psuOn, request_tPsuReady]
  exact ⟨h1, h2, h3, h4⟩

theorem updateIdle_tPsuReady (s : RelaysModule) (now : Nat) :
    (s.updateIdle now).tPsuReady = s.tPsuReady := by
  simp [updateIdle]

theorem updateIdle_hold_le (s : RelaysModule) (now : Nat) (hc : s.cur = MotionState.IDLE)
    (h : (s.updateIdle now).psuHoldActive = true) : s.psuHoldActive = true := by
  unfold updateIdle at h
  rw [idleStop_idle s now hc] at h
  simp only [idlePsu_psuHoldActive, idleHoldExpire_psuHoldActive, idleDirOff_psuHoldActive,
    enableOffIfOn_psuHoldActive] at h
  split_ifs at h
  exact h

theorem update_spinning (s : RelaysModule) (u T : Nat) (hS : Sound s) (h : SpinningUp T s)
    (hu : u < T) (hT : T ≤ u + s.psuSpinMs) (hw : u + s.psuSpinMs < U32) :
    SpinningUp T (s.update u) := by
  obtain ⟨h1, h2, h3, h4⟩ := h
  rcases update_cases s u with ⟨_, e⟩ | ⟨_, _, e⟩ | ⟨_, _, _, e⟩ | ⟨_, _, _, _, e⟩ |
    ⟨_, _, g3, g4, _, e⟩ | ⟨_, _, _, _, _, _, _, e⟩ | ⟨_, _, g3, g4, _, _, _, e⟩ |
    ⟨_, _, g3, g4, _, _, e⟩ <;> rw [e]
  · refine ⟨updateIdle_latchedDrive s u, updateIdle_enableOn s u, updateIdle_cur s u, ?_⟩
    intro hp
    rw [updateIdle_psuOn] at hp
    rw [updateIdle_tPsuReady]
    exact h4 (hS.2.2 (updateIdle_hold_le s u h3 hp))
  · rw [enableOffIfOn_off s h2]; exact ⟨h1, h2, h3, h4⟩
  · refine ⟨by simpa using h1, by simpa using h2, by simpa using h3, fun _ => ?_⟩
    rw [psuStart_tPsuReady, addU32_eq _ _ hw]; exact hT
  · rw [enableOffIfOn_off s h2]; exact ⟨h1, h2, h3, h4⟩
  · have := h4 g3; omega
  · exact ⟨h1, h2, h3, h4⟩
  · have := h4 g3; omega
  · have := h4 g3; omega

theorem emergencyPanicOff_spinning (s : RelaysModule) (T : Nat) :
    SpinningUp T s.emergencyPanicOff :=
  ⟨by simp, by simp, by simp, fun h => (by simp at h)⟩

/-- With nothing latched and the enable relay off, a driver whose flags mirror
its pins has the enable relay and both direction relays de-energized. -/
theorem spinning_relays_off (s : RelaysModule) (T : Nat) (hP : PinsOk s) (h : SpinningUp T s) :
    s.fwdOn = false ∧ s.revOn = false ∧ s.enRelayOn = false := by
  obtain ⟨p1, p2, p3, p4⟩ := hP
  rw [p2, p3, p4, h.1, h.2.1]
  exact ⟨rfl, rfl, rfl⟩

end RelaysModule

namespace DriverOp

theorem apply_psuSpinMs (s : RelaysModule) (op : DriverOp) :
    (apply s op).psuSpinMs = s.psuSpinMs := by
  cases op <;> simp [apply]

theorem run_spinning (t P : Nat) : ∀ (ops : List DriverOp) (s : RelaysModule),
    RelaysModule.Sound s → RelaysModule.SpinningUp (t + P) s → s.psuSpinMs = P →
    (∀ op ∈ ops, t ≤ op.time ∧ op.time < t + P ∧ op.time + P < U32) →
    RelaysModule.Sound (run s ops) ∧ RelaysModule.SpinningUp (t + P) (run s ops)
  | [], _, hS, h, _, _ => ⟨hS, h⟩
  | op :: ops, s, hS, h, hP, hops => by
    obtain ⟨o1, o2, o3⟩ := hops op (List.mem_cons_self _ _)
    have h1 : RelaysModule.Sound (apply s op) ∧ RelaysModule.SpinningUp (t + P) (apply s op) := by
      cases op with
      | request w u =>
        exact ⟨RelaysModule.request_sound s w u hS, RelaysModule.request_spinning s w u _ h⟩
      | update u =>
        simp only [time] at o1 o2 o3
        exact ⟨RelaysModule.update_sound s u hS,
          RelaysModule.update_spinning s u _ hS h o2 (by rw [hP]; omega) (by rw [hP]; exact o3)⟩
      | panicOff u =>
        exact ⟨RelaysModule.emergencyPanicOff_sound s, RelaysModule.emergencyPanicOff_spinning s _⟩
    exact run_spinning t P ops (apply s op) h1.1 h1.2 ((apply_psuSpinMs s op).trans hP)
      (fun o ho => hops o (List.mem_cons_of_mem _ ho))

/-- As long as no stored deadline wraps around `2^32`, the spin-up window is
kept: when `update` at time `t` switches the power supply on for a non-idle
request, the enable relay and both direction relays are de-energized after
every call with a clock reading in `[t, t + psuSpinMs)` that follows. -/
theorem spinup_window_kept (s : RelaysModule) (t : Nat) (ops : List DriverOp)
    (hS : RelaysModule.Sound s) (hw : s.want ≠ MotionState.IDLE) (hp : s.psuOn = false)
    (hd : ¬ t < s.tChangeAllowed) (hwrap : t + s.psuSpinMs < U32)
    (hops : ∀ op ∈ ops, t ≤ op.time ∧ op.time < t + s.psuSpinMs ∧
      op.time + s.psuSpinMs < U32) :
    (s.update t).psuRelayOn = true ∧
      ∀ k, (stateAt (s.update t) ops k).fwdOn = false ∧
        (stateAt (s.update t) ops k).revOn = false ∧
        (stateAt (s.update t) ops k).enRelayOn = false := by
  have e : s.update t = s.psuStart t := by
    rcases RelaysModule.update_cases s t with ⟨g, _⟩ | ⟨_, g, _⟩ | ⟨_, _, _, e⟩ | ⟨_, _, g, _⟩ |
      ⟨_, _, g, _⟩ | ⟨_, _, g, _⟩ | ⟨_, _, g, _⟩ | ⟨_, _, g, _⟩
    · exact absurd g hw
    · exact absurd g hd
    · exact e
    all_goals rw [hp] at g; cases g
  obtain ⟨q1, q2, q3⟩ := hS.2.1 hp
  have hS1 : RelaysModule.Sound (s.update t) := RelaysModule.update_sound s t hS
  have hQ : RelaysModule.SpinningUp (t + s.psuSpinMs) (s.update t) := by
    rw [e]
    refine ⟨by simpa using q2, by simpa using q1, by simpa using q3, fun _ => ?_⟩
    rw [RelaysModule.psuStart_tPsuReady, RelaysModule.addU32_eq _ _ hwrap]
  constructor
  · rw [hS1.1.1, e]; simp
  · intro k
    have hr := run_spinning t s.psuSpinMs (ops.take k) (s.update t) hS1 hQ (by simp)
      (fun o ho => hops o (List.mem_of_mem_take ho))
    exact RelaysModule.spinning_relays_off _ _ hr.1.1 hr.2

/-- C21 (code at the failing input). After `begin(true, 1000, 2000)` Opening is
requested at 4294966000 ms with the power relay off.  The update at that time
energizes the power relay and stores the deadline `t + psuSpinMs`, which wraps
to 704; the update one millisecond later is not held back by `now < _tPsuReady`
and energizes the forward relay, and the update at `t + 201` the enable relay,
both well before `t + psuSpinMs = t + 2000`. -/
theorem C21_spinup_deadline_wraps :
    askedNearWrap.psuRelayOn = false ∧ askedNearWrap.want = MotionState.OPENING ∧
    (askedNearWrap.update 4294966000).psuRelayOn = true ∧
    (askedNearWrap.update 4294966000).psuSpinMs = 2000 ∧
    (askedNearWrap.update 4294966000).tPsuReady = 704 ∧
    (askedNearWrap.update 4294966000).fwdOn = false ∧
    ((askedNearWrap.update 4294966000).update 4294966001).fwdOn = true ∧
    (((askedNearWrap.update 4294966000).update 4294966001).update 4294966201).enRelayOn =
      true := by
  decide

end DriverOp

/-! ### The arming delay of the enable relay -/

namespace RelaysModule

theorem dirRelayOn_eq (s : RelaysModule) (hP : PinsOk s) (d : MotionState)
    (hd : d ≠ MotionState.IDLE) : s.dirRelayOn d = decide (s.latchedDrive = d) := by
  obtain ⟨_, _, p3, p4⟩ := hP
  cases d with
  | IDLE => exact absurd rfl hd
  | OPENING => exact p3
  | CLOSING => exact p4

end RelaysModule

namespace DriverOp

theorem run_snoc (s : RelaysModule) (ops : List DriverOp) (op : DriverOp) :
    run s (ops ++ [op]) = apply (run s ops) op := by
  unfold run; rw [List.foldl_append]; rfl

theorem stateAt_snoc_le (s0 : RelaysModule) (ops : List DriverOp) (op : DriverOp) (k : Nat)
    (hk : k ≤ ops.length) : stateAt s0 (ops ++ [op]) k = stateAt s0 ops k := by
  unfold stateAt; rw [List.take_append_of_le_length hk]

theorem stateAt_length (s0 : RelaysModule) (ops : List DriverOp) :
    stateAt s0 ops ops.length = run s0 ops := by
  unfold stateAt; rw [List.take_length]

theorem stateAt_snoc_last (s0 : RelaysModule) (ops : List DriverOp) (op : DriverOp) :
    stateAt s0 (ops ++ [op]) (ops.length + 1) = apply (run s0 ops) op := by
  have h : (ops ++ [op]).length = ops.length + 1 := by simp
  rw [← h, stateAt_length, run_snoc]

theorem inOrder_init : ∀ (ops : List DriverOp) (t0 : Nat) (op : DriverOp),
    inOrder t0 (ops ++ [op]) → inOrder t0 ops
  | [], _, _, _ => trivial
  | x :: xs, _, op, h => ⟨h.1, inOrder_init xs x.time op h.2⟩

theorem inOrder_le_last : ∀ (ops : List DriverOp) (t0 : Nat) (op : DriverOp),
    inOrder t0 (ops ++ [op]) → t0 ≤ op.time ∧ ∀ x ∈ ops, x.time ≤ op.time
  | [], _, _, h => ⟨h.1, fun _ hx => by cases hx⟩
  | x :: xs, _, op, h => by
    have ih := inOrder_le_last xs x.time op h.2
    refine ⟨le_trans h.1 ih.1, ?_⟩
    intro y hy
    rcases List.mem_cons.mp hy with rfl | hy
    · exact ih.1
    · exact ih.2 y hy

/-- A call that leaves a direction latched with the enable relay off either is
the `update` that latched it, starting the arming delay, or found it latched
with the enable relay off and left the deadline alone. -/
theorem apply_armed_cases (s : RelaysModule) (op : DriverOp) (t0 : Nat)
    (hT : RelaysModule.Steady s t0) (ht : t0 ≤ op.time)
    (hl : (apply s op).latchedDrive ≠ MotionState.IDLE) (he : (apply s op).enableOn = false) :
    ((∃ ta, op = update ta) ∧ s.latchedDrive ≠ (apply s op).latchedDrive ∧
        (apply s op).tEnableReady = addU32 op.time RelaysModule.enableDelayMs) ∨
      (s.latchedDrive = (apply s op).latchedDrive ∧ s.enableOn = false ∧
        (apply s op).tEnableReady = s.tEnableReady) := by
  cases op with
  | request w u =>
    by_cases hr : w ≠ MotionState.IDLE ∧ s.active ≠ MotionState.IDLE ∧ w ≠ s.active
    · exact absurd (by simp [apply, hr]) hl
    · right
      simp only [apply] at he ⊢
      rw [RelaysModule.request_enableOn, if_neg hr] at he
      rw [RelaysModule.request_latchedDrive, if_neg hr, RelaysModule.request_tEnableReady,
        if_neg hr]
      exact ⟨rfl, he, rfl⟩
  | panicOff u => exact absurd (by simp [apply]) hl
  | update u =>
    simp only [apply, time] at hl he ht ⊢
    rcases RelaysModule.update_cases s u with ⟨_, e⟩ | ⟨_, h2, e⟩ | ⟨_, _, _, e⟩ |
      ⟨_, _, _, h4, e⟩ | ⟨_, _, _, _, h5, e⟩ | ⟨_, _, _, _, _, h6, _, e⟩ |
      ⟨_, _, _, _, _, _, _, e⟩ | ⟨_, _, _, _, _, h6, e⟩ <;> rw [e] at hl he ⊢
    · exact absurd (RelaysModule.updateIdle_latchedDrive s u) hl
    · right
      have hs : s.enableOn = false := by
        by_contra hne
        have h1 : s.enableOn = true := by simpa using hne
        have := (hT.2 (hT.1 h1)).2.2.2.1
        omega
      rw [RelaysModule.enableOffIfOn_off s hs]
      exact ⟨rfl, hs, rfl⟩
    · right
      exact ⟨by simp, by simpa using he, by simp⟩
    · right
      have hs : s.enableOn = false := by
        by_contra hne
        have h1 : s.enableOn = true := by simpa using hne
        have := (hT.2 (hT.1 h1)).2.2.2.2.1
        omega
      rw [RelaysModule.enableOffIfOn_off s hs]
      exact ⟨rfl, hs, rfl⟩
    · left
      refine ⟨⟨u, rfl⟩, ?_, by simp⟩
      rw [RelaysModule.arm_latchedDrive]; exact h5
    · right; exact ⟨rfl, h6, rfl⟩
    · rw [RelaysModule.engage_enableOn] at he; cases he
    · have he2 : s.enableOn = false := he
      rw [h6] at he2; cases he2

/-- Along a run under a non-decreasing clock that starts with nothing latched:
while a direction is latched with the enable relay off, the run contains the
`update` that latched it; the relay of that direction was off before it and has
been on, with the enable relay off, after every call since; and the stored
deadline is the wrapped sum of the time of that `update` and 200. -/
theorem armed_trace (s0 : RelaysModule) (t0 : Nat) (hS0 : RelaysModule.Sound s0)
    (hT0 : RelaysModule.Steady s0 t0) (h0 : s0.latchedDrive = MotionState.IDLE)
    (ops : List DriverOp) :
    inOrder t0 ops → (run s0 ops).latchedDrive ≠ MotionState.IDLE →
    (run s0 ops).enableOn = false →
    ∃ i ta, i < ops.length ∧ ops.get? i = some (update ta) ∧
      (run s0 ops).tEnableReady = addU32 ta RelaysModule.enableDelayMs ∧
      (stateAt s0 ops i).dirRelayOn (run s0 ops).latchedDrive = false ∧
      ∀ k, i < k → k ≤ ops.length →
        (stateAt s0 ops k).dirRelayOn (run s0 ops).latchedDrive = true ∧
          (stateAt s0 ops k).enRelayOn = false := by
  induction ops using List.reverseRecOn with
  | nil => intro _ hl _; exact absurd h0 hl
  | append_singleton ops op ih =>
    intro hord hl he
    obtain ⟨t, ht, hS, hT⟩ := run_invariants ops s0 t0 op hS0 hT0 hord
    rw [run_snoc] at hl he ⊢
    have hS2 : RelaysModule.Sound (apply (run s0 ops) op) := (apply_invariants _ op t hS hT ht).1
    have hlast : (apply (run s0 ops) op).dirRelayOn (apply (run s0 ops) op).latchedDrive = true ∧
        (apply (run s0 ops) op).enRelayOn = false := by
      rw [RelaysModule.dirRelayOn_eq _ hS2.1 _ hl, hS2.1.2.1, he]
      exact ⟨by simp, rfl⟩
    have hlen : (ops ++ [op]).length = ops.length + 1 := by simp
    rcases apply_armed_cases (run s0 ops) op t hT ht hl he with ⟨⟨ta, hop⟩, hne, hdl⟩ |
      ⟨heq, hoff, hdl⟩
    · refine ⟨ops.length, ta, by rw [hlen]; exact Nat.lt_succ_self _, ?_, ?_, ?_, ?_⟩
      · rw [hop]; simp
      · rw [hdl, hop]; rfl
      · rw [stateAt_snoc_le s0 ops op _ (le_refl _), stateAt_length,
          RelaysModule.dirRelayOn_eq _ hS.1 _ hl]
        simpa using hne
      · intro k hk1 hk2
        have hk : k = ops.length + 1 := by rw [hlen] at hk2; omega
        rw [hk, stateAt_snoc_last]
        exact hlast
    · have hl1 : (run s0 ops).latchedDrive ≠ MotionState.IDLE := by rw [heq]; exact hl
      obtain ⟨i, ta, hi, hget, hd1, hd2, hd3⟩ := ih (inOrder_init ops t0 op hord) hl1 hoff
      refine ⟨i, ta, by rw [hlen]; omega, ?_, ?_, ?_, ?_⟩
      · rw [List.get?_append hi]; exact hget
      · rw [hdl]; exact hd1
      · rw [stateAt_snoc_le s0 ops op i (le_of_lt hi), ← heq]; exact hd2
      · intro k hk1 hk2
        rw [hlen] at hk2
        rcases Nat.lt_or_ge k (ops.length + 1) with hk | hk
        · rw [stateAt_snoc_le s0 ops op k (by omega), ← heq]
          exact hd3 k hk1 (by omega)
        · have hk3 : k = ops.length + 1 := by omega
          rw [hk3, stateAt_snoc_last]
          exact hlast

/-- As long as the stored deadline does not wrap around `2^32`, the arming delay
is kept.  Along a sequence of `request`, `update` and `emergencyPanicOff` calls
that follows `begin` under a non-decreasing clock, only an `update` energizes
the enable relay, and when the `update` at time `now` does so, an earlier
`update` at a time `ta` with `ta + 200 <= now` engaged the relay of the
requested direction, which has stayed engaged, with the enable relay
de-energized, after every call since. -/
theorem arming_delay_kept (a : Bool) (d p : Nat) (ops : List DriverOp) (now : Nat)
    (hord : inOrder 0 (ops ++ [update now])) (hwrap : now + 200 < U32)
    (hoff : (run (RelaysModule.begin a d p) ops).enRelayOn = false)
    (hon : ((run (RelaysModule.begin a d p) ops).update now).enRelayOn = true) :
    ∃ i ta, i < ops.length ∧ ops.get? i = some (update ta) ∧ ta + 200 ≤ now ∧
      (stateAt (RelaysModule.begin a d p) ops i).dirRelayOn
        (run (RelaysModule.begin a d p) ops).want = false ∧
      ∀ k, i < k → k ≤ ops.length →
        (stateAt (RelaysModule.begin a d p) ops k).dirRelayOn
            (run (RelaysModule.begin a d p) ops).want = true ∧
          (stateAt (RelaysModule.begin a d p) ops k).enRelayOn = false := by
  obtain ⟨hw, _, _, _, hlw, heo, hdl⟩ := RelaysModule.enRelayOn_update_cases _ now hoff hon
  have hl : (run (RelaysModule.begin a d p) ops).latchedDrive ≠ MotionState.IDLE := by
    rw [hlw]; exact hw
  obtain ⟨i, ta, hi, hget, hd1, hd2, hd3⟩ := armed_trace (RelaysModule.begin a d p) 0
    (RelaysModule.begin_sound a d p) (RelaysModule.begin_steady a d p 0) rfl ops
    (inOrder_init ops 0 _ hord) hl heo
  rw [hlw] at hd2 hd3
  refine ⟨i, ta, hi, hget, ?_, hd2, hd3⟩
  have hmem : update ta ∈ ops := List.get?_mem hget
  have hle : ta ≤ now := (inOrder_le_last ops 0 _ hord).2 _ hmem
  rw [hd1, RelaysModule.addU32_eq _ _ (by unfold RelaysModule.enableDelayMs; omega)] at hdl
  unfold RelaysModule.enableDelayMs at hdl
  omega

/-- C22 (code at the failing input). After `begin(true, 1000, 2000)` Opening is
requested and the power supply switched on at 4294965000 ms.  The update at
`ta = 4294967200` engages the forward relay and stores the deadline `ta + 200`,
which wraps to 104; the update one millisecond later is not held back by
`now < _tEnableReady` and energizes the enable relay, 1 ms after the direction
relay instead of at least 200 ms. -/
theorem C22_arming_deadline_wraps :
    poweredNearWrap.fwdOn = false ∧ poweredNearWrap.want = MotionState.OPENING ∧
    (poweredNearWrap.update 4294967200).fwdOn = true ∧
    (poweredNearWrap.update 4294967200).enRelayOn = false ∧
    (poweredNearWrap.update 4294967200).tEnableReady = 104 ∧
    ((poweredNearWrap.update 4294967200).update 4294967201).enRelayOn = true ∧
    ((poweredNearWrap.update 4294967200).update 4294967201).current = MotionState.OPENING := by
  decide

end DriverOp

/-! ### Idle stop and power hold-off -/

namespace RelaysModule

/-- The hold-off test `(long)(_tPsuHoldOff - now) <= 0` with the deadline
`t + 60000`, in terms of the time elapsed since `t` on the 32-bit counter. -/
theorem holdOff_expired_iff (t t2 : Nat) :
    asLong (subU32 (addU32 t psuHoldMs) t2) ≤ 0 ↔
      60000 ≤ subU32 t2 t ∧ subU32 t2 t ≤ 60000 + 2147483648 := by
  unfold asLong subU32 addU32 psuHoldMs U32
  split_ifs <;> omega

theorem request_idle_same (s : RelaysModule) (t : Nat) (h : s.want = MotionState.IDLE) :
    s.request MotionState.IDLE t = s := by
  unfold request
  simp only [ne_eq, not_true_eq_false, if_false, false_and]
  cases s
  simp only at h
  subst h
  rfl

theorem idleHoldExpire_running (s : RelaysModule) (now : Nat)
    (h : ¬ asLong (subU32 s.tPsuHoldOff now) ≤ 0) : s.idleHoldExpire now = s := by
  unfold idleHoldExpire
  rw [if_neg (fun hc => h hc.2)]

theorem idlePsu_on (s : RelaysModule) (h1 : s.psuHoldActive = true) (h2 : s.psuOn = true) :
    s.idlePsu = s := by
  unfold idlePsu; simp [h1, h2]

/-- The `update` that finds an Idle request while a direction is reported stops
the drive and starts the hold-off. -/
theorem update_stops (s : RelaysModule) (t : Nat) (hw : s.want = MotionState.IDLE)
    (hc : s.cur ≠ MotionState.IDLE) :
    Holding t (s.update t) ∧ (s.update t).pinEn = s.level false ∧
      (s.update t).pinFwd = s.level false ∧ (s.update t).pinRev = s.level false ∧
      (s.update t).pinPsu = (if s.psuOn = true then s.pinPsu else s.level true) ∧
      (s.update t).activeLow = s.activeLow := by
  have e : s.update t = s.updateIdle t := by unfold update; rw [if_pos hw]
  have hx : ¬ asLong (subU32 (addU32 t psuHoldMs) t) ≤ 0 := by
    rw [holdOff_expired_iff]
    have : subU32 t t = 0 := by unfold subU32 U32; omega
    omega
  rw [e]
  unfold Holding updateIdle
  simp only [idlePsu_want, idleHoldExpire_want, idleDirOff_want, enableOffIfOn_want,
    idleStop_want, idlePsu_cur, idleHoldExpire_cur, idleDirOff_cur, enableOffIfOn_cur,
    idleStop_cur, idlePsu_enableOn, idleHoldExpire_enableOn, idleDirOff_enableOn,
    enableOffIfOn_enableOn, idleStop_enableOn, idlePsu_latchedDrive,
    idleHoldExpire_latchedDrive, idleDirOff_latchedDrive, enableOffIfOn_latchedDrive,
    idleStop_latchedDrive, idlePsu_psuHoldActive, idleHoldExpire_psuHoldActive,
    idleDirOff_psuHoldActive, enableOffIfOn_psuHoldActive, idleStop_psuHoldActive,
    idlePsu_tPsuHoldOff, idleHoldExpire_tPsuHoldOff, idleDirOff_tPsuHoldOff,
    enableOffIfOn_tPsuHoldOff, idleStop_tPsuHoldOff, idlePsu_psuOn, idleHoldExpire_psuOn,
    idleDirOff_psuOn, enableOffIfOn_psuOn, idleStop_psuOn, idlePsu_pinEn, idleHoldExpire_pinEn,
    idleDirOff_pinEn, enableOffIfOn_pinEn, idleStop_pinEn, idlePsu_pinFwd,
    idleHoldExpire_pinFwd, idleDirOff_pinFwd, enableOffIfOn_pinFwd, idleStop_pinFwd,
    idlePsu_pinRev, idleHoldExpire_pinRev, idleDirOff_pinRev, enableOffIfOn_pinRev,
    idleStop_pinRev, idlePsu_pinPsu, idleHoldExpire_pinPsu, idleDirOff_pinPsu,
    enableOffIfOn_pinPsu, idleStop_pinPsu, idlePsu_activeLow, idleHoldExpire_activeLow,
    idleDirOff_activeLow, enableOffIfOn_activeLow, idleStop_activeLow, hw, hc, ne_eq,
    not_false_eq_true, if_true, hx, and_false, if_false, level, true_and]
  cases s.psuOn <;> simp

/-- While the hold-off runs, an `update` under an Idle request changes nothing. -/
theorem update_holds (s : RelaysModule) (t t2 : Nat) (h : Holding t s)
    (ht : subU32 t2 t < 60000) : s.update t2 = s := by
  obtain ⟨h1, h2, h3, h4, h5, h6, h7⟩ := h
  have hx : ¬ asLong (subU32 s.tPsuHoldOff t2) ≤ 0 := by
    rw [h6, holdOff_expired_iff]; omega
  unfold update
  rw [if_pos h1]
  unfold updateIdle
  rw [idleStop_idle s t2 h2, enableOffIfOn_off s h3, idleDirOff_idle s h4,
    idleHoldExpire_running s t2 hx, idlePsu_on s h5 h7]

/-- The first `update` past the hold-off switches the power relay off. -/
theorem update_releases (s : RelaysModule) (t t2 : Nat) (h : Holding t s)
    (h1 : 60000 ≤ subU32 t2 t) (h2 : subU32 t2 t ≤ 60000 + 2147483648) :
    (s.update t2).psuRelayOn = false := by
  obtain ⟨g1, g2, g3, g4, g5, g6, g7⟩ := h
  have hx : asLong (subU32 s.tPsuHoldOff t2) ≤ 0 := by
    rw [g6, holdOff_expired_iff]; exact ⟨h1, h2⟩
  unfold update
  rw [if_pos g1]
  unfold updateIdle
  rw [idleStop_idle s t2 g2, enableOffIfOn_off s g3, idleDirOff_idle s g4]
  unfold psuRelayOn energized
  simp only [idlePsu_activeLow, idleHoldExpire_activeLow, idlePsu_pinPsu,
    idleHoldExpire_psuHoldActive, idleHoldExpire_psuOn, idleHoldExpire_pinPsu, g5, g7, hx,
    and_self, if_true, level]
  cases s.activeLow <;> simp

end RelaysModule

namespace DriverOp

theorem run_holding (t : Nat) : ∀ (ops : List DriverOp) (s : RelaysModule),
    RelaysModule.Holding t s → (∀ op ∈ ops, idleWithin t 60000 op) → run s ops = s
  | [], _, _, _ => rfl
  | op :: ops, s, h, hops => by
    have h1 : apply s op = s := by
      have ho := hops op (List.mem_cons_self _ _)
      cases op with
      | request w t2 =>
        have hw : w = MotionState.IDLE := ho
        subst hw
        exact RelaysModule.request_idle_same s t2 h.1
      | update t2 => exact RelaysModule.update_holds s t t2 h ho
      | panicOff t2 => exact absurd ho (fun x => x)
    have h2 := run_holding t ops s h (fun o ho => hops o (List.mem_cons_of_mem _ ho))
    show run (apply s op) ops = s
    rw [h1, h2]

/-- C24. When `update()` runs at time `t` with an Idle request while `current()`
is not Idle (flags and pins in step), the call leaves the enable relay and both
direction relays de-energized, `current()` Idle and the power relay energized.
While only `update()` calls less than 60000 ms after `t` (measured on the 32-bit
millisecond counter) and `request(IDLE)` calls follow, the power relay stays
energized after every one of them, and the first `update()` at 60000 ms or more
after `t` de-energizes it. -/
theorem C24_idle_stop_then_hold (s : RelaysModule) (t : Nat) (ops : List DriverOp) (t2 : Nat)
    (hP : RelaysModule.PinsOk s) (hw : s.want = MotionState.IDLE)
    (hc : s.current ≠ MotionState.IDLE) (hops : ∀ op ∈ ops, idleWithin t 60000 op)
    (h1 : 60000 ≤ subU32 t2 t) (h2 : subU32 t2 t ≤ 60000 + 2147483648) :
    (s.update t).enRelayOn = false ∧ (s.update t).fwdOn = false ∧
      (s.update t).revOn = false ∧ (s.update t).current = MotionState.IDLE ∧
      (s.update t).psuRelayOn = true ∧
      (∀ k, (stateAt (s.update t) ops k).psuRelayOn = true) ∧
      ((run (s.update t) ops).update t2).psuRelayOn = false := by
  obtain ⟨hH, e1, e2, e3, e4, e5⟩ := RelaysModule.update_stops s t hw hc
  have hpsu : (s.update t).psuRelayOn = true := by
    unfold RelaysModule.psuRelayOn RelaysModule.energized
    rw [e4, e5]
    have hp := hP.1
    unfold RelaysModule.psuRelayOn RelaysModule.energized at hp
    cases hb : s.psuOn
    · simp [RelaysModule.level]
    · rw [hb] at hp; simpa using hp
  refine ⟨?_, ?_, ?_, hH.2.1, hpsu, ?_, ?_⟩
  · unfold RelaysModule.enRelayOn RelaysModule.energized; rw [e1, e5]; simp
  · unfold RelaysModule.fwdOn RelaysModule.energized; rw [e2, e5]; simp
  · unfold RelaysModule.revOn RelaysModule.energized; rw [e3, e5]; simp
  · intro k
    unfold stateAt
    rw [run_holding t (ops.take k) _ hH (fun o ho => hops o (List.mem_of_mem_take ho))]
    exact hpsu
  · rw [run_holding t ops _ hH hops]
    exact RelaysModule.update_releases _ t t2 hH h1 h2

/-- C24, instance: Closing is driven, Idle is requested and found by the update
at 5000 ms; updates at 6000 ms and 64999 ms keep the power relay energized, the
update at 65000 ms de-energizes it. -/
theorem C24_idle_stop_then_hold_witness :
    ((drivingClosing.request MotionState.IDLE 5000).update 5000).enRelayOn = false ∧
      ((drivingClosing.request MotionState.IDLE 5000).update 5000).fwdOn = false ∧
      ((drivingClosing.request MotionState.IDLE 5000).update 5000).revOn = false ∧
      ((drivingClosing.request MotionState.IDLE 5000).update 5000).current = MotionState.IDLE ∧
      ((drivingClosing.request MotionState.IDLE 5000).update 5000).psuRelayOn = true ∧
      (∀ k, (stateAt ((drivingClosing.request MotionState.IDLE 5000).update 5000)
        [update 6000, request MotionState.IDLE 30000, update 64999] k).psuRelayOn = true) ∧
      ((run ((drivingClosing.request MotionState.IDLE 5000).update 5000)
        [update 6000, request MotionState.IDLE 30000, update 64999]).update 65000).psuRelayOn =
        false :=
  C24_idle_stop_then_hold (drivingClosing.request MotionState.IDLE 5000) 5000
    [update 6000, request MotionState.IDLE 30000, update 64999] 65000
    (by decide) (by decide) (by decide) (by decide) (by decide) (by decide)

/-! ### Emergency stop -/

/-- C25. From every driver state, `emergencyPanicOff` leaves the enable relay,
both direction relays and the power relay de-energized, `current()` and the
request Idle and the hold-off cancelled; `update()` calls that follow without a
new request, at whatever times, leave that state as it is, so they energize
nothing. -/
theorem C25_emergency_off_cuts_everything (s : RelaysModule) (ts : List Nat) :
    (s.emergencyPanicOff).enRelayOn = false ∧ (s.emergencyPanicOff).fwdOn = false ∧
      (s.emergencyPanicOff).revOn = false ∧ (s.emergencyPanicOff).psuRelayOn = false ∧
      (s.emergencyPanicOff).current = MotionState.IDLE ∧
      (s.emergencyPanicOff).want = MotionState.IDLE ∧
      (s.emergencyPanicOff).psuHoldActive = false ∧
      run (s.emergencyPanicOff) (ts.map DriverOp.update) = s.emergencyPanicOff := by
  have hstep : ∀ now, (s.emergencyPanicOff).update now = s.emergencyPanicOff := by
    intro now
    unfold RelaysModule.update
    rw [if_pos (RelaysModule.emergencyPanicOff_want s)]
    unfold RelaysModule.updateIdle
    rw [RelaysModule.idleStop_idle _ now (RelaysModule.emergencyPanicOff_cur s),
      RelaysModule.enableOffIfOn_off _ (RelaysModule.emergencyPanicOff_enableOn s),
      RelaysModule.idleDirOff_idle _ (RelaysModule.emergencyPanicOff_latchedDrive s),
      RelaysModule.idleHoldExpire_inactive _ now (RelaysModule.emergencyPanicOff_psuHoldActive s),
      RelaysModule.idlePsu_off _ (RelaysModule.emergencyPanicOff_psuHoldActive s)
        (RelaysModule.emergencyPanicOff_psuOn s)]
  have hP := RelaysModule.emergencyPanicOff_pinsOk s
  refine ⟨?_, ?_, ?_, ?_, ?_, ?_, ?_, ?_⟩
  · rw [hP.2.1]; simp
  · rw [hP.2.2.1]; simp
  · rw [hP.2.2.2]; simp
  · rw [hP.1]; simp
  · simp [RelaysModule.current]
  · simp
  · simp
  · induction ts with
    | nil => rfl
    | cons t ts ih =>
      show run (apply (s.emergencyPanicOff) (DriverOp.update t)) (ts.map DriverOp.update) = _
      rw [show apply (s.emergencyPanicOff) (DriverOp.update t) = s.emergencyPanicOff from hstep t]
      exact ih

end DriverOp

/-! ### The relays never fight each other -/

namespace DriverOp

theorem apply_sound (s : RelaysModule) (op : DriverOp) (h : RelaysModule.Sound s) :
    RelaysModule.Sound (apply s op) := by
  cases op with
  | request w t => exact RelaysModule.request_sound s w t h
  | update t => exact RelaysModule.update_sound s t h
  | panicOff t => exact RelaysModule.emergencyPanicOff_sound s

theorem run_sound : ∀ (ops : List DriverOp) (s : RelaysModule),
    RelaysModule.Sound s → RelaysModule.Sound (run s ops)
  | [], _, h => h
  | op :: ops, s, h => run_sound ops (apply s op) (apply_sound s op h)

/-- In a sound state the two direction relays are not both energized, and
with the power relay de-energized the enable relay and both direction relays
are de-energized. -/
theorem sound_interlock (s : RelaysModule) (h : RelaysModule.Sound s) :
    ¬ (s.fwdOn = true ∧ s.revOn = true) ∧
      (s.psuRelayOn = false → s.enRelayOn = false ∧ s.fwdOn = false ∧ s.revOn = false) := by
  obtain ⟨⟨p1, p2, p3, p4⟩, h2, _⟩ := h
  constructor
  · rintro ⟨hf, hr⟩
    rw [p3, decide_eq_true_eq] at hf
    rw [p4, decide_eq_true_eq, hf] at hr
    cases hr
  · intro hp
    rw [p1] at hp
    obtain ⟨e1, e2, _⟩ := h2 hp
    rw [p2, p3, p4, e1, e2]
    exact ⟨rfl, rfl, rfl⟩

/-- C37. After `begin` with any arguments and after every call of any
sequence of `request`, `update` and `emergencyPanicOff` calls that follows it,
whatever the clock readings: the forward (Opening) and the reverse (Closing)
relay are not both energized, and when the power relay is de-energized, the
enable relay and both direction relays are de-energized. -/
theorem C37_relays_interlocked (a : Bool) (d p : Nat) (ops : List DriverOp) :
    ¬ ((run (RelaysModule.begin a d p) ops).fwdOn = true ∧
        (run (RelaysModule.begin a d p) ops).revOn = true) ∧
      ((run (RelaysModule.begin a d p) ops).psuRelayOn = false →
        (run (RelaysModule.begin a d p) ops).enRelayOn = false ∧
        (run (RelaysModule.begin a d p) ops).fwdOn = false ∧
        (run (RelaysModule.begin a d p) ops).revOn = false) :=
  sound_interlock _ (run_sound ops _ (RelaysModule.begin_sound a d p))

end DriverOp

/-! ## Command authority -/

namespace Controller

/-! ### What the part of a pass after the arbitration does to the latches -/

theorem commandPhase_eq (c : Controller) (i : CycleInput) :
    c.commandPhase i = ((c.preArbitration i).arbitrate i.resetMillis).driveRelays i.now := rfl

theorem loop_tail (c : Controller) (i : CycleInput) :
    c.loop i = (i.mqttIn.foldl (fun a m => a.mqttReceive m i.mqttMillis)
      ((c.commandPhase i).safetyPhase i)).rebootCheck i.now := rfl

theorem driveRelays_views (c : Controller) (now : Nat) :
    standingView (c.driveRelays now) = standingView c ∧
      panicView (c.driveRelays now) = panicView c ∧ seqView (c.driveRelays now) = seqView c :=
  ⟨rfl, rfl, rfl⟩

/-- A first `triggerPanic` writes the fields of `panicView` as `panicked`
says, a later one writes nothing; none writes a field of `standingView`. -/
theorem triggerPanic_views (c : Controller) (r : PanicReason) (reboot : Bool) (now : Nat) :
    standingView (c.triggerPanic r reboot now) = standingView c ∧
      (panicView (c.triggerPanic r reboot now) = panicView c ∨
        (c.panicLatched = false ∧
          panicView (c.triggerPanic r reboot now) = panicked (panicView c))) := by
  unfold triggerPanic
  rcases Bool.eq_false_or_eq_true c.panicLatched with h | h
  · rw [if_pos h]; exact ⟨rfl, Or.inl rfl⟩
  · rw [if_neg (by simp [h])]
    unfold schedulePanicReboot clearHaDesiredLocal resetMqttSetModeStreak
    dsimp only
    cases reboot
    · exact ⟨rfl, Or.inr ⟨h, rfl⟩⟩
    · exact ⟨rfl, Or.inr ⟨h, rfl⟩⟩

theorem guardBookkeeping_views (c : Controller) (now : Nat) :
    standingView (c.guardBookkeeping now) = standingView c ∧
      panicView (c.guardBookkeeping now) = panicView c := by
  have h1 : standingView (c.guardCount now) = standingView c ∧
      panicView (c.guardCount now) = panicView c := by
    unfold guardCount
    dsimp only
    split_ifs <;> exact ⟨rfl, rfl⟩
  have h2 : ∀ a : Controller, standingView a.noteRelay = standingView a ∧
      panicView a.noteRelay = panicView a := by
    intro a; unfold noteRelay; split_ifs <;> exact ⟨rfl, rfl⟩
  unfold guardBookkeeping
  exact ⟨(h2 _).1.trans h1.1, (h2 _).2.trans h1.2⟩

theorem guardStep_views (c : Controller) (now : Nat) :
    standingView (c.guardStep now) = standingView c ∧
      (panicView (c.guardStep now) = panicView c ∨
        (c.panicLatched = false ∧ panicView (c.guardStep now) = panicked (panicView c))) := by
  obtain ⟨h1, h2⟩ := guardBookkeeping_views c now
  have h3 : (c.guardBookkeeping now).panicLatched = c.panicLatched := congrArg (·.1) h2
  unfold guardStep maxRuntimeCheck
  split_ifs
  · obtain ⟨t1, t2⟩ := triggerPanic_views (c.guardBookkeeping now)
      PanicReason.maxRuntimeExceeded true now
    rw [h2, h3] at t2
    exact ⟨t1.trans h1, t2⟩
  · exact ⟨h1, Or.inl h2⟩
  · exact ⟨h1, Or.inl h2⟩

theorem trackerPhase_views (c : Controller) (i : CycleInput) (r : MotionState) :
    standingView (c.trackerPhase i r) = standingView c ∧
      panicView (c.trackerPhase i r) = panicView c := by
  unfold trackerPhase deliverIsr; dsimp only
  split_ifs <;> exact ⟨rfl, rfl⟩

theorem noClickCheck_views (c : Controller) (now : Nat) :
    standingView (c.noClickCheck now) = standingView c ∧
      (panicView (c.noClickCheck now) = panicView c ∨
        (c.panicLatched = false ∧ panicView (c.noClickCheck now) = panicked (panicView c))) := by
  unfold noClickCheck
  split_ifs
  · exact ⟨rfl, Or.inl rfl⟩
  · exact triggerPanic_views c PanicReason.noClickAfterEnable true now
  · exact ⟨rfl, Or.inl rfl⟩
  · exact ⟨rfl, Or.inl rfl⟩

theorem rangePanicCheck_views (c : Controller) (now : Nat) :
    standingView (c.rangePanicCheck now) = standingView c ∧
      (panicView (c.rangePanicCheck now) = panicView c ∨
        (c.panicLatched = false ∧
          panicView (c.rangePanicCheck now) = panicked (panicView c))) := by
  unfold rangePanicCheck
  split_ifs
  · exact triggerPanic_views c PanicReason.clickOutOfRange false now
  · exact ⟨rfl, Or.inl rfl⟩

/-- Two steps in a row of which each leaves the latches alone or is a first
panic: together they leave the latches alone or are a first panic. -/
theorem panicView_chain (c a b : Controller)
    (ha : panicView a = panicView c ∨
      (c.panicLatched = false ∧ panicView a = panicked (panicView c)))
    (hb : panicView b = panicView a ∨
      (a.panicLatched = false ∧ panicView b = panicked (panicView a))) :
    panicView b = panicView c ∨
      (c.panicLatched = false ∧ panicView b = panicked (panicView c)) := by
  rcases ha with ha | ⟨hc, ha⟩
  · rcases hb with hb | ⟨hl, hb⟩
    · exact Or.inl (hb.trans ha)
    · right
      have h1 : a.panicLatched = c.panicLatched := congrArg (·.1) ha
      exact ⟨h1 ▸ hl, by rw [hb, ha]⟩
  · rcases hb with hb | ⟨hl, _⟩
    · exact Or.inr ⟨hc, hb.trans ha⟩
    · exfalso
      have h1 : a.panicLatched = true := congrArg (·.1) ha
      rw [h1] at hl; cases hl

/-- The safety part of a pass writes no field of `standingView`, and it leaves
the latches alone or is a first panic. -/
theorem safetyPhase_views (c : Controller) (i : CycleInput) :
    standingView (c.safetyPhase i) = standingView c ∧
      (panicView (c.safetyPhase i) = panicView c ∨
        (c.panicLatched = false ∧ panicView (c.safetyPhase i) = panicked (panicView c))) := by
  obtain ⟨g1, g2⟩ := guardStep_views c i.now
  obtain ⟨t1, t2⟩ := trackerPhase_views (c.guardStep i.now) i c.relays.current
  obtain ⟨n1, n2⟩ := noClickCheck_views ((c.guardStep i.now).trackerPhase i c.relays.current) i.now
  obtain ⟨r1, r2⟩ := rangePanicCheck_views
    (((c.guardStep i.now).trackerPhase i c.relays.current).noClickCheck i.now) i.now
  unfold safetyPhase
  refine ⟨r1.trans (n1.trans (t1.trans g1)), ?_⟩
  have h1 := panicView_chain c _ _ g2 (Or.inl t2)
  have h2 := panicView_chain c _ _ h1 n2
  exact panicView_chain c _ _ h2 r2

theorem safetyPhase_standingView (c : Controller) (i : CycleInput) :
    standingView (c.safetyPhase i) = standingView c := (safetyPhase_views c i).1

theorem safetyPhase_panicView (c : Controller) (i : CycleInput) :
    panicView (c.safetyPhase i) = panicView c ∨
      (c.panicLatched = false ∧ panicView (c.safetyPhase i) = panicked (panicView c)) :=
  (safetyPhase_views c i).2

theorem onMqttSetMaxRuntime_views (c : Controller) (seconds now : Nat) :
    standingView (c.onMqttSetMaxRuntime seconds now) = standingView c ∧
      panicView (c.onMqttSetMaxRuntime seconds now) = panicView c ∧
      seqView (c.onMqttSetMaxRuntime seconds now) = seqView c := by
  unfold onMqttSetMaxRuntime
  dsimp only
  generalize (if seconds < 30 then 30 else if seconds > 1800 then 1800 else seconds) = k
  by_cases h : k = c.safetyMaxRunSeconds
  · rw [if_pos h]; exact ⟨rfl, rfl, rfl⟩
  · rw [if_neg h]
    unfold persistSafetyMaxRunSeconds resetSafetyRuntime
    dsimp only
    split_ifs <;> exact ⟨rfl, rfl, rfl⟩

/-- A message writes no field of `standingView`, no sequence number, and not
the panic latch; it adds at most one command to the queue, and it sets the
automation's desired direction only when it is an Opening or Closing command. -/
theorem mqttReceive_views (c : Controller) (m : MqttMsg) (now : Nat) :
    standingView (c.mqttReceive m now) = standingView c ∧
      seqView (c.mqttReceive m now) = seqView c ∧
      (c.mqttReceive m now).panicLatched = c.panicLatched ∧
      (c.mqttReceive m now).cmdQueue.length ≤ c.cmdQueue.length + 1 ∧
      (m ≠ MqttMsg.openCover ∧ m ≠ MqttMsg.closeCover → c.haDesired = MotionState.IDLE →
        (c.mqttReceive m now).haDesired = MotionState.IDLE) := by
  cases m with
  | openCover => exact ⟨rfl, rfl, rfl, Nat.le_succ _, fun h => absurd rfl h.1⟩
  | closeCover => exact ⟨rfl, rfl, rfl, Nat.le_succ _, fun h => absurd rfl h.2⟩
  | stop => exact ⟨rfl, rfl, rfl, Nat.le_succ _, fun _ _ => rfl⟩
  | command cmd =>
    refine ⟨rfl, rfl, rfl, ?_, fun _ h => h⟩
    show (c.cmdQueue ++ [cmd]).length ≤ c.cmdQueue.length + 1
    rw [List.length_append]; exact le_refl _
  | setMaxRuntime seconds =>
    unfold mqttReceive
    dsimp only
    split_ifs
    · obtain ⟨a1, a2, a3⟩ := onMqttSetMaxRuntime_views c (seconds % U32) now
      have e1 : (c.onMqttSetMaxRuntime (seconds % U32) now).panicLatched = c.panicLatched :=
        congrArg (·.1) a2
      have e2 : (c.onMqttSetMaxRuntime (seconds % U32) now).cmdQueue = c.cmdQueue :=
        congrArg (·.2.1) a2
      have e3 : (c.onMqttSetMaxRuntime (seconds % U32) now).haDesired = c.haDesired :=
        congrArg (·.2.2.2.2.2.1) a2
      exact ⟨a1, a3, e1, by rw [e2]; exact Nat.le_succ _, fun _ h => e3.trans h⟩
    · exact ⟨rfl, rfl, rfl, Nat.le_succ _, fun _ h => h⟩

/-- The messages of a pass: no field of `standingView`, no sequence number and
not the panic latch is written, the queue grows by at most their number, and
without an Opening or Closing command an Idle desired direction stays Idle. -/
theorem foldl_mqtt_views (now : Nat) :
    ∀ (ms : List MqttMsg) (c : Controller),
      standingView (ms.foldl (fun a m => a.mqttReceive m now) c) = standingView c ∧
        seqView (ms.foldl (fun a m => a.mqttReceive m now) c) = seqView c ∧
        (ms.foldl (fun a m => a.mqttReceive m now) c).panicLatched = c.panicLatched ∧
        (ms.foldl (fun a m => a.mqttReceive m now) c).cmdQueue.length ≤
          c.cmdQueue.length + ms.length ∧
        ((∀ m ∈ ms, m ≠ MqttMsg.openCover ∧ m ≠ MqttMsg.closeCover) →
          c.haDesired = MotionState.IDLE →
          (ms.foldl (fun a m => a.mqttReceive m now) c).haDesired = MotionState.IDLE)
  | [], _ => ⟨rfl, rfl, rfl, le_refl _, fun _ h => h⟩
  | m :: ms, c => by
    obtain ⟨a1, a2, a3, a4, a5⟩ := mqttReceive_views c m now
    obtain ⟨b1, b2, b3, b4, b5⟩ := foldl_mqtt_views now ms (c.mqttReceive m now)
    rw [List.foldl_cons]
    refine ⟨b1.trans a1, b2.trans a2, b3.trans a3, ?_, fun h hq => ?_⟩
    · rw [List.length_cons]; omega
    · exact b5 (fun x hx => h x (List.mem_cons_of_mem _ hx))
        (a5 (h m (List.mem_cons_self _ _)) hq)

theorem foldl_mqtt_standingView (now : Nat) (ms : List MqttMsg) (c : Controller) :
    standingView (ms.foldl (fun a m => a.mqttReceive m now) c) = standingView c :=
  (foldl_mqtt_views now ms c).1

theorem rebootCheck_views (c : Controller) (now : Nat) :
    standingView (c.rebootCheck now) = standingView c ∧
      panicView (c.rebootCheck now) = panicView c ∧ seqView (c.rebootCheck now) = seqView c := by
  unfold rebootCheck; split_ifs <;> exact ⟨rfl, rfl, rfl⟩

/-- The pass after the arbitration writes none of the fields of `standingView`. -/
theorem loop_standingView (c : Controller) (i : CycleInput) :
    standingView (c.loop i) = standingView ((c.preArbitration i).arbitrate i.resetMillis) := by
  rw [loop_tail, (rebootCheck_views _ _).1, foldl_mqtt_standingView, safetyPhase_standingView,
    commandPhase_eq]
  exact (driveRelays_views _ _).1

end Controller

/-! ### The selection and the consumption of a command -/

namespace Controller

/-- With both sequence numbers 0 nothing is selected and the target is the
direction commanded before. -/
theorem selectCommand_none (c : Controller) (hp : c.panicLatched = false)
    (ha : c.analogCommandSeq = 0) (hh : c.haCommandSeq = 0) :
    c.selectCommand = (CommandSource.NONE, c.commandedMotion) := by
  unfold selectCommand; simp [hp, ha, hh]

/-- The automation is selected when its sequence number is the larger one. -/
theorem selectCommand_ha (c : Controller) (hp : c.panicLatched = false)
    (h : c.analogCommandSeq < c.haCommandSeq) :
    c.selectCommand = (CommandSource.HOME_ASSISTANT, c.haLatched) := by
  unfold selectCommand
  simp only [hp, Bool.false_eq_true, if_false, Bool.not_false, if_true, gt_iff_lt]
  by_cases ha : 0 < c.analogCommandSeq
  · simp [ha, h]
  · have hh : 0 < c.haCommandSeq := by omega
    simp [ha, hh]

/-- The wall switch is selected when its sequence number is the larger one. -/
theorem selectCommand_wall (c : Controller) (hp : c.panicLatched = false)
    (h : c.haCommandSeq < c.analogCommandSeq) :
    c.selectCommand = (CommandSource.WALL_SWITCH, c.analogLatched) := by
  unfold selectCommand
  have ha : 0 < c.analogCommandSeq := by omega
  have hn : ¬ c.analogCommandSeq < c.haCommandSeq := by omega
  simp [hp, ha, hn]

/-- The automation is selected only with a non-zero sequence number. -/
theorem selectCommand_ha_seq (c : Controller)
    (h : c.selectCommand.1 = CommandSource.HOME_ASSISTANT) : 0 < c.haCommandSeq := by
  unfold selectCommand at h
  cases hp : c.panicLatched
  · simp only [hp, Bool.false_eq_true, if_false, Bool.not_false, if_true, gt_iff_lt] at h
    by_contra h0
    have h1 : c.haCommandSeq = 0 := by omega
    rw [h1] at h
    by_cases ha : 0 < c.analogCommandSeq
    · simp [ha] at h
    · simp [ha] at h
  · simp [hp] at h

theorem manualStep_latchView (c : Controller) (src : CommandSource) (now : Nat) :
    latchView (c.manualStep src now) = latchView c := by
  unfold manualStep resetSafetyRuntime; dsimp only; split_ifs <;> rfl

theorem limitStep_latchView (c : Controller) (src : CommandSource) (t : MotionState)
    (now : Nat) : latchView (c.limitStep src t now).1 = latchView c := by
  have h1 : ∀ (a : Controller) (t : MotionState),
      latchView (a.openLimitStep src t now).1 = latchView a := by
    intro a t
    unfold openLimitStep resetSafetyRuntime clearHaDesiredLocal; dsimp only; split_ifs <;> rfl
  have h2 : ∀ (a : Controller) (t : MotionState),
      latchView (a.closeLimitStep src t now).1 = latchView a := by
    intro a t
    unfold closeLimitStep resetSafetyRuntime clearHaDesiredLocal; dsimp only; split_ifs <;> rfl
  unfold limitStep
  split_ifs
  · dsimp only; rw [h2, h1]
  · rfl

/-- The limit veto leaves the automation's desired direction alone or clears
it, and clears it only when the automation is the selected source. -/
theorem limitStep_haDesired (c : Controller) (src : CommandSource) (t : MotionState)
    (now : Nat) :
    ((c.limitStep src t now).1.haDesired = c.haDesired ∨
        (c.limitStep src t now).1.haDesired = MotionState.IDLE) ∧
      (src ≠ CommandSource.HOME_ASSISTANT → (c.limitStep src t now).1.haDesired = c.haDesired ∧
        (c.limitStep src t now).1.haClearedLocally = c.haClearedLocally) := by
  have h1 : ∀ (a : Controller) (t : MotionState),
      ((a.openLimitStep src t now).1.haDesired = a.haDesired ∨
          (a.openLimitStep src t now).1.haDesired = MotionState.IDLE) ∧
        (src ≠ CommandSource.HOME_ASSISTANT →
          (a.openLimitStep src t now).1.haDesired = a.haDesired ∧
          (a.openLimitStep src t now).1.haClearedLocally = a.haClearedLocally) := by
    intro a t
    unfold openLimitStep resetSafetyRuntime clearHaDesiredLocal; dsimp only
    split_ifs <;> first
      | exact ⟨Or.inl rfl, fun _ => ⟨rfl, rfl⟩⟩
      | exact ⟨Or.inr rfl, fun h => absurd ‹src = CommandSource.HOME_ASSISTANT› h⟩
  have h2 : ∀ (a : Controller) (t : MotionState),
      ((a.closeLimitStep src t now).1.haDesired = a.haDesired ∨
          (a.closeLimitStep src t now).1.haDesired = MotionState.IDLE) ∧
        (src ≠ CommandSource.HOME_ASSISTANT →
          (a.closeLimitStep src t now).1.haDesired = a.haDesired ∧
          (a.closeLimitStep src t now).1.haClearedLocally = a.haClearedLocally) := by
    intro a t
    unfold closeLimitStep resetSafetyRuntime clearHaDesiredLocal; dsimp only
    split_ifs <;> first
      | exact ⟨Or.inl rfl, fun _ => ⟨rfl, rfl⟩⟩
      | exact ⟨Or.inr rfl, fun h => absurd ‹src = CommandSource.HOME_ASSISTANT› h⟩
  unfold limitStep
  split_ifs
  · dsimp only
    have a1 := h1 c t
    have a2 := h2 (c.openLimitStep src t now).1 (c.openLimitStep src t now).2
    refine ⟨?_, fun h => ?_⟩
    · rcases a2.1 with e | e
      · rw [e]; exact a1.1
      · exact Or.inr e
    · exact ⟨((a2.2 h).1).trans (a1.2 h).1, ((a2.2 h).2).trans (a1.2 h).2⟩
  · exact ⟨Or.inl rfl, fun _ => ⟨rfl, rfl⟩⟩

/-- The state in which the arbitration consumes a wall-switch command. -/
theorem arbitrate_eq (c : Controller) (now : Nat) :
    c.arbitrate now =
      { ((c.manualStep c.selectCommand.1 now).limitStep c.selectCommand.1 c.selectCommand.2
          now).1.consumeStep c.selectCommand.1 with
        activeCommandSource := c.selectCommand.1,
        commandedMotion := ((c.manualStep c.selectCommand.1 now).limitStep c.selectCommand.1
          c.selectCommand.2 now).2 } := rfl

theorem arbitrate_activeCommandSource (c : Controller) (now : Nat) :
    (c.arbitrate now).activeCommandSource = c.selectCommand.1 := rfl

/-- An arbitration that selects the wall switch clears both latches. -/
theorem arbitrate_wall (c : Controller) (now : Nat)
    (h : c.selectCommand.1 = CommandSource.WALL_SWITCH) :
    (c.arbitrate now).analogLatched = MotionState.IDLE ∧ (c.arbitrate now).analogCommandSeq = 0 ∧
      (c.arbitrate now).haLatched = MotionState.IDLE ∧ (c.arbitrate now).haCommandSeq = 0 ∧
      (c.arbitrate now).lastHaDesired = MotionState.IDLE := by
  rw [arbitrate_eq, h]
  unfold consumeStep
  rw [if_pos rfl]
  exact ⟨rfl, rfl, rfl, rfl, rfl⟩

/-- An arbitration that does not select the wall switch writes none of the
fields of `latchView`. -/
theorem arbitrate_other (c : Controller) (now : Nat)
    (h : c.selectCommand.1 ≠ CommandSource.WALL_SWITCH) :
    latchView (c.arbitrate now) = latchView c := by
  have e : c.arbitrate now =
      { ((c.manualStep c.selectCommand.1 now).limitStep c.selectCommand.1 c.selectCommand.2
          now).1 with
        activeCommandSource := c.selectCommand.1,
        commandedMotion := ((c.manualStep c.selectCommand.1 now).limitStep c.selectCommand.1
          c.selectCommand.2 now).2 } := by
    rw [arbitrate_eq]; unfold consumeStep; rw [if_neg h]
  rw [e]
  exact (limitStep_latchView _ _ _ _).trans (manualStep_latchView _ _ _)

/-- The arbitration never writes the edge-logic inputs, the sequence counter,
the calibration flag, the panic latch or the command queue, and it can only
disarm the edge logic. -/
theorem arbitrate_kept (c : Controller) (now : Nat) :
    (c.arbitrate now).analogCtlState = c.analogCtlState ∧
      (c.arbitrate now).lastAnalogRaw = c.lastAnalogRaw ∧
      (c.arbitrate now).lastAnalogEffective = c.lastAnalogEffective ∧
      (c.arbitrate now).commandSeqCounter = c.commandSeqCounter ∧
      (c.arbitrate now).setModeActive = c.setModeActive ∧
      (c.arbitrate now).panicLatched = c.panicLatched ∧
      (c.arbitrate now).cmdQueue = c.cmdQueue ∧
      ((c.arbitrate now).analogEdgeArmed = c.analogEdgeArmed ∨
        (c.arbitrate now).analogEdgeArmed = false) := by
  have hv := (limitStep_latchView (c.manualStep c.selectCommand.1 now) c.selectCommand.1
    c.selectCommand.2 now).trans (manualStep_latchView c c.selectCommand.1 now)
  have e1 := congrArg (·.1) hv
  have e2 := congrArg (·.2.1) hv
  have e3 := congrArg (·.2.2.1) hv
  have e4 := congrArg (·.2.2.2.1) hv
  have e9 := congrArg (·.2.2.2.2.2.2.2.2.1) hv
  have e11 := congrArg (·.2.2.2.2.2.2.2.2.2.2.1) hv
  have e12 := congrArg (·.2.2.2.2.2.2.2.2.2.2.2.1) hv
  have e13 := congrArg (·.2.2.2.2.2.2.2.2.2.2.2.2) hv
  simp only [latchView] at e1 e2 e3 e4 e9 e11 e12 e13
  rw [arbitrate_eq]
  unfold consumeStep
  split_ifs
  · exact ⟨e2, e3, e4, e9, e11, e12, e13, Or.inr rfl⟩
  · exact ⟨e2, e3, e4, e9, e11, e12, e13, Or.inl e1⟩
  · exact ⟨e2, e3, e4, e9, e11, e12, e13, Or.inl e1⟩

/-- The arbitration leaves the automation's desired direction alone or clears
it, and leaves it alone unless the automation is the selected source. -/
theorem arbitrate_haDesired (c : Controller) (now : Nat) :
    ((c.arbitrate now).haDesired = c.haDesired ∨
        (c.arbitrate now).haDesired = MotionState.IDLE) ∧
      (c.selectCommand.1 ≠ CommandSource.HOME_ASSISTANT →
        (c.arbitrate now).haDesired = c.haDesired ∧
        (c.arbitrate now).haClearedLocally = c.haClearedLocally) := by
  have hl := limitStep_haDesired (c.manualStep c.selectCommand.1 now) c.selectCommand.1
    c.selectCommand.2 now
  have hm : (c.manualStep c.selectCommand.1 now).haDesired = c.haDesired ∧
      (c.manualStep c.selectCommand.1 now).haClearedLocally = c.haClearedLocally := by
    unfold manualStep resetSafetyRuntime; dsimp only; split_ifs <;> exact ⟨rfl, rfl⟩
  rw [hm.1, hm.2] at hl
  have hc : ∀ a : Controller, (a.consumeStep c.selectCommand.1).haDesired = a.haDesired ∧
      (a.consumeStep c.selectCommand.1).haClearedLocally = a.haClearedLocally := by
    intro a; unfold consumeStep; split_ifs <;> exact ⟨rfl, rfl⟩
  have e1 : (c.arbitrate now).haDesired =
      ((c.manualStep c.selectCommand.1 now).limitStep c.selectCommand.1 c.selectCommand.2
        now).1.haDesired := (hc _).1
  have e2 : (c.arbitrate now).haClearedLocally =
      ((c.manualStep c.selectCommand.1 now).limitStep c.selectCommand.1 c.selectCommand.2
        now).1.haClearedLocally := (hc _).2
  rw [e1, e2]
  exact hl

end Controller

/-! ### The wall switch, the queued commands and the automation -/

namespace Controller

theorem haKept_refl (c : Controller) : HaKept c c := ⟨rfl, rfl, rfl, Or.inl rfl⟩

theorem haKept_trans (a b c : Controller) (h1 : HaKept a b) (h2 : HaKept b c) : HaKept a c := by
  obtain ⟨a1, a2, a3, a4⟩ := h1
  obtain ⟨b1, b2, b3, b4⟩ := h2
  refine ⟨b1.trans a1, b2.trans a2, b3.trans a3, ?_⟩
  rcases b4 with e | e
  · rw [e]; exact a4
  · exact Or.inr e

theorem haQuiet_of_kept (c d : Controller) (h : HaQuiet c) (hk : HaKept c d) : HaQuiet d := by
  obtain ⟨h1, h2, h3, h4⟩ := h
  obtain ⟨k1, k2, k3, k4⟩ := hk
  refine ⟨?_, k1.trans h2, k2.trans h3, k3.trans h4⟩
  rcases k4 with e | e
  · exact e.trans h1
  · exact e

theorem issued_trans_same (u v w : Nat × Nat × Nat) (h1 : v = u) (h2 : Issued v w) :
    Issued u w := by rw [← h1]; exact h2

/-! #### The wall switch -/

theorem analogStep_eq (c : Controller) (raw : MotionState) :
    c.analogStep raw = (c.analogRead raw).analogEdge raw := rfl

/-- The branch the edge logic takes. -/
theorem analogEdge_cases (c : Controller) (raw : MotionState) :
    (raw = c.lastAnalogRaw ∧ c.analogEdge raw = c) ∨
    (raw ≠ c.lastAnalogRaw ∧ raw = MotionState.IDLE ∧
      c.analogEdge raw =
        ({ c with lastAnalogRaw := raw, analogEdgeArmed := true }).analogLatch
          MotionState.IDLE) ∨
    (raw ≠ c.lastAnalogRaw ∧ raw ≠ MotionState.IDLE ∧ c.analogEdgeArmed = true ∧
      c.analogEdge raw =
        ({ c with lastAnalogRaw := raw, analogEdgeArmed := false }).analogLatch raw) ∨
    (raw ≠ c.lastAnalogRaw ∧ raw ≠ MotionState.IDLE ∧ c.analogEdgeArmed = false ∧
      c.analogEdge raw = ({ c with lastAnalogRaw := raw }).analogLatch MotionState.IDLE) := by
  unfold analogEdge
  by_cases h1 : raw = c.lastAnalogRaw
  · left; exact ⟨h1, by rw [if_neg (not_not.mpr h1)]⟩
  right
  rw [if_pos h1]
  dsimp only
  by_cases h2 : raw = MotionState.IDLE
  · left; refine ⟨h1, h2, ?_⟩
    rw [if_pos h2, if_pos h2]
  right
  rw [if_neg h2, if_neg h2]
  rcases Bool.eq_false_or_eq_true c.analogEdgeArmed with h3 | h3
  · left; refine ⟨h1, h2, h3, ?_⟩
    rw [if_pos h3, if_pos h3]
  · right; refine ⟨h1, h2, h3, ?_⟩
    rw [if_neg (by simp [h3]), if_neg (by simp [h3])]

/-- Reading the switch writes the reading and can only disarm the edge logic. -/
theorem analogRead_effect (c : Controller) (raw : MotionState) :
    seqView (c.analogRead raw) = seqView c ∧ (c.analogRead raw).cmdQueue = c.cmdQueue ∧
      HaKept c (c.analogRead raw) ∧ (c.analogRead raw).analogCtlState = raw ∧
      (c.analogRead raw).panicLatched = c.panicLatched ∧
      (c.analogRead raw).setModeActive = c.setModeActive ∧
      (c.analogRead raw).lastAnalogRaw = c.lastAnalogRaw ∧
      (c.analogRead raw).lastAnalogEffective = c.lastAnalogEffective ∧
      (c.analogRead raw).analogLatched = c.analogLatched ∧
      (c.analogRead raw).analogEdgeArmed =
        (if c.setModeActive = true then false else c.analogEdgeArmed) := by
  unfold analogRead; dsimp only
  split_ifs <;> exact ⟨rfl, rfl, ⟨rfl, rfl, rfl, Or.inl rfl⟩, rfl, rfl, rfl, rfl, rfl, rfl, rfl⟩

/-- Latching an effective switch state issues a sequence number or does
nothing. -/
theorem analogLatch_effect (c : Controller) (e : MotionState) :
    Issued (seqView c) (seqView (c.analogLatch e)) ∧ (c.analogLatch e).cmdQueue = c.cmdQueue ∧
      HaKept c (c.analogLatch e) ∧ (c.analogLatch e).analogCtlState = c.analogCtlState ∧
      (c.analogLatch e).panicLatched = c.panicLatched ∧
      (c.analogLatch e).setModeActive = c.setModeActive ∧
      (c.analogLatch e).lastAnalogRaw = c.lastAnalogRaw ∧
      (c.analogLatch e).analogEdgeArmed = c.analogEdgeArmed ∧
      ((c.analogLatch e).commandSeqCounter = c.commandSeqCounter ∧
          (c.analogLatch e).analogLatched = c.analogLatched ∨
        (c.analogLatch e).analogLatched = e ∧ (e ≠ MotionState.IDLE →
          (c.analogLatch e).haDesired = MotionState.IDLE)) := by
  unfold analogLatch clearHaDesiredLocal resetMqttSetModeStreak HaKept Issued seqView
  dsimp only
  split_ifs with h1 h2
  · exact ⟨Or.inr (Or.inl rfl), rfl, ⟨rfl, rfl, rfl, Or.inr rfl⟩, rfl, rfl, rfl, rfl, rfl,
      Or.inr ⟨rfl, fun _ => rfl⟩⟩
  · exact ⟨Or.inr (Or.inl rfl), rfl, ⟨rfl, rfl, rfl, Or.inl rfl⟩, rfl, rfl, rfl, rfl, rfl,
      Or.inr ⟨rfl, fun h => absurd (not_not.mp h2) h⟩⟩
  · exact ⟨Or.inl rfl, rfl, ⟨rfl, rfl, rfl, Or.inl rfl⟩, rfl, rfl, rfl, rfl, rfl,
      Or.inl ⟨rfl, rfl⟩⟩

/-- What the edge logic does besides latching: it stores the reading and sets
the arming flag. -/
theorem analogEdge_latch (c : Controller) (raw : MotionState) :
    c.analogEdge raw = c ∨
      ∃ (a : Bool) (e : MotionState),
        c.analogEdge raw = ({ c with lastAnalogRaw := raw, analogEdgeArmed := a }).analogLatch e := by
  rcases analogEdge_cases c raw with ⟨_, e⟩ | ⟨_, _, e⟩ | ⟨_, _, _, e⟩ | ⟨_, _, h, e⟩
  · exact Or.inl e
  · exact Or.inr ⟨true, MotionState.IDLE, e⟩
  · exact Or.inr ⟨false, raw, e⟩
  · refine Or.inr ⟨c.analogEdgeArmed, MotionState.IDLE, ?_⟩
    rw [e]

/-- The wall-switch step: the sequence bookkeeping, the queue and the
automation's latch. -/
theorem analogStep_effect (c : Controller) (raw : MotionState) :
    Issued (seqView c) (seqView (c.analogStep raw)) ∧
      (c.analogStep raw).cmdQueue = c.cmdQueue ∧ HaKept c (c.analogStep raw) ∧
      (c.analogStep raw).analogCtlState = raw ∧
      (c.analogStep raw).panicLatched = c.panicLatched ∧
      (c.analogStep raw).setModeActive = c.setModeActive := by
  obtain ⟨r1, r2, r3, r4, r5, r6, _⟩ := analogRead_effect c raw
  rw [analogStep_eq]
  rcases analogEdge_latch (c.analogRead raw) raw with e | ⟨a, e, h⟩
  · rw [e]; exact ⟨Or.inl r1, r2, r3, r4, r5, r6⟩
  · rw [h]
    obtain ⟨l1, l2, l3, l4, l5, l6, _⟩ :=
      analogLatch_effect { c.analogRead raw with lastAnalogRaw := raw, analogEdgeArmed := a } e
    exact ⟨issued_trans_same _ _ _ r1 l1, l2.trans r2, haKept_trans _ _ _ r3 l3, l4.trans r4,
      l5.trans r5, l6.trans r6⟩

/-- A wall-switch step that latches a direction clears the automation's desired
direction. -/
theorem analogStep_latch_clears (c : Controller) (raw : MotionState)
    (h : latchesDirection c raw) : (c.analogStep raw).haDesired = MotionState.IDLE := by
  obtain ⟨r1, _⟩ := analogRead_effect c raw
  have hc : (c.analogRead raw).commandSeqCounter = c.commandSeqCounter := congrArg (·.1) r1
  unfold latchesDirection at h
  rw [analogStep_eq] at h ⊢
  rcases analogEdge_latch (c.analogRead raw) raw with e | ⟨a, e, he⟩
  · rw [e] at h; exact absurd hc h.1
  · rw [he] at h ⊢
    obtain ⟨_, _, _, _, _, _, _, _, l9⟩ :=
      analogLatch_effect { c.analogRead raw with lastAnalogRaw := raw, analogEdgeArmed := a } e
    rcases l9 with ⟨g1, _⟩ | ⟨g1, g2⟩
    · exact absurd (g1.trans hc) h.1
    · exact g2 (by rw [← g1]; exact h.2)

/-- With the switch away from Neutral, the wall-switch step leaves the edge
logic disarmed when it was disarmed or when it latches a direction, and a
disarmed edge logic latches no direction. -/
theorem analogStep_disarmed (c : Controller) (raw : MotionState)
    (hraw : raw ≠ MotionState.IDLE) :
    (c.analogEdgeArmed = false →
      (c.analogStep raw).analogEdgeArmed = false ∧ ¬ latchesDirection c raw) ∧
    (latchesDirection c raw → (c.analogStep raw).analogEdgeArmed = false) := by
  obtain ⟨r1, _, _, _, _, _, _, _, r9, r10⟩ := analogRead_effect c raw
  have hc : (c.analogRead raw).commandSeqCounter = c.commandSeqCounter := congrArg (·.1) r1
  have harm : c.analogEdgeArmed = false → (c.analogRead raw).analogEdgeArmed = false := by
    intro h; rw [r10, h]; simp
  unfold latchesDirection
  rw [analogStep_eq]
  rcases analogEdge_cases (c.analogRead raw) raw with ⟨_, e⟩ | ⟨_, g, _⟩ | ⟨_, _, g, e⟩ |
    ⟨_, _, g, e⟩
  · rw [e]
    exact ⟨fun h => ⟨harm h, fun x => absurd hc x.1⟩, fun x => absurd hc x.1⟩
  · exact absurd g hraw
  · rw [e]
    obtain ⟨_, _, _, _, _, _, _, l8, _⟩ := analogLatch_effect
      { c.analogRead raw with lastAnalogRaw := raw, analogEdgeArmed := false } raw
    refine ⟨fun h => ?_, fun _ => l8⟩
    rw [harm h] at g; cases g
  · rw [e]
    obtain ⟨_, _, _, _, _, _, _, l8, l9⟩ := analogLatch_effect
      { c.analogRead raw with lastAnalogRaw := raw } MotionState.IDLE
    have hno : ¬ ((({ c.analogRead raw with lastAnalogRaw := raw }).analogLatch
        MotionState.IDLE).commandSeqCounter ≠ c.commandSeqCounter ∧
        (({ c.analogRead raw with lastAnalogRaw := raw }).analogLatch
        MotionState.IDLE).analogLatched ≠ MotionState.IDLE) := by
      intro x
      rcases l9 with ⟨g1, _⟩ | ⟨g1, _⟩
      · exact x.1 (g1.trans hc)
      · exact x.2 g1
    exact ⟨fun _ => ⟨l8.trans g, hno⟩, fun x => absurd x hno⟩

/-! #### The queued commands -/

theorem effect_of_inputView (c d : Controller) (h : inputView d = inputView c) :
    seqView d = seqView c ∧ d.cmdQueue = c.cmdQueue ∧ HaKept c d ∧
      d.analogCtlState = c.analogCtlState ∧ d.analogEdgeArmed = c.analogEdgeArmed := by
  have e1 := congrArg (·.1) h
  have e2 := congrArg (·.2.1) h
  have e3 := congrArg (·.2.2.1) h
  have e4 := congrArg (·.2.2.2.1) h
  have e5 := congrArg (·.2.2.2.2.1) h
  have e6 := congrArg (·.2.2.2.2.2.1) h
  have e7 := congrArg (·.2.2.2.2.2.2.1) h
  have e8 := congrArg (·.2.2.2.2.2.2.2.1) h
  have e9 := congrArg (·.2.2.2.2.2.2.2.2) h
  simp only [inputView] at e1 e2 e3 e4 e5 e6 e7 e8 e9
  refine ⟨?_, e4, ⟨e5, e3, e6, Or.inl e7⟩, e8, e9⟩
  unfold seqView; rw [e1, e2, e3]

theorem toggleSimulationMode_inputView (c : Controller) (now : Nat) (pinLow : Bool) :
    inputView (c.toggleSimulationMode now pinLow) = inputView c := by
  unfold toggleSimulationMode applySimulationMode resetMqttSetModeStreak
  split_ifs <;> rfl

/-- Entering calibration mode issues a wall-switch sequence number, clears the
automation's desired direction and disarms the edge logic, or does nothing. -/
theorem enterSetMode_effect (c : Controller) (now : Nat) :
    Issued (seqView c) (seqView (c.enterSetMode now)) ∧
      (c.enterSetMode now).cmdQueue = c.cmdQueue ∧ HaKept c (c.enterSetMode now) ∧
      (c.enterSetMode now).analogCtlState = c.analogCtlState ∧
      ((c.enterSetMode now).analogEdgeArmed = c.analogEdgeArmed ∨
        (c.enterSetMode now).analogEdgeArmed = false) := by
  unfold enterSetMode clearHaDesiredLocal HaKept Issued seqView
  dsimp only
  split_ifs
  · exact ⟨Or.inl rfl, rfl, ⟨rfl, rfl, rfl, Or.inl rfl⟩, rfl, Or.inl rfl⟩
  · exact ⟨Or.inr (Or.inl rfl), rfl, ⟨rfl, rfl, rfl, Or.inr rfl⟩, rfl, Or.inr rfl⟩

/-- Leaving calibration mode issues a wall-switch sequence number, clears the
automation's desired direction and arms the edge logic exactly when the switch
is at Neutral, or does nothing. -/
theorem exitSetMode_effect (c : Controller) (now : Nat) :
    Issued (seqView c) (seqView (c.exitSetMode now)) ∧
      (c.exitSetMode now).cmdQueue = c.cmdQueue ∧ HaKept c (c.exitSetMode now) ∧
      (c.exitSetMode now).analogCtlState = c.analogCtlState ∧
      ((c.exitSetMode now).analogEdgeArmed = c.analogEdgeArmed ∨
        (c.exitSetMode now).analogEdgeArmed = decide (c.analogCtlState = MotionState.IDLE)) := by
  unfold exitSetMode clearHaDesiredLocal HaKept Issued seqView
  dsimp only
  split_ifs
  · exact ⟨Or.inl rfl, rfl, ⟨rfl, rfl, rfl, Or.inl rfl⟩, rfl, Or.inl rfl⟩
  · exact ⟨Or.inr (Or.inl rfl), rfl, ⟨rfl, rfl, rfl, Or.inr rfl⟩, rfl, Or.inr rfl⟩

/-- One queued command: the sequence bookkeeping, the queue, the automation's
latch, the switch reading and the arming flag. -/
theorem handleHaCommand_effect (c : Controller) (cmd : HaCommand) (now : Nat) (pinLow : Bool) :
    Issued (seqView c) (seqView (c.handleHaCommand cmd now pinLow)) ∧
      (c.handleHaCommand cmd now pinLow).cmdQueue = c.cmdQueue ∧
      HaKept c (c.handleHaCommand cmd now pinLow) ∧
      (c.handleHaCommand cmd now pinLow).analogCtlState = c.analogCtlState ∧
      ((c.handleHaCommand cmd now pinLow).analogEdgeArmed = c.analogEdgeArmed ∨
        (c.handleHaCommand cmd now pinLow).analogEdgeArmed = false ∨
        (c.handleHaCommand cmd now pinLow).analogEdgeArmed =
          decide (c.analogCtlState = MotionState.IDLE)) := by
  have same : ∀ d : Controller, inputView d = inputView c →
      Issued (seqView c) (seqView d) ∧ d.cmdQueue = c.cmdQueue ∧ HaKept c d ∧
        d.analogCtlState = c.analogCtlState ∧
        (d.analogEdgeArmed = c.analogEdgeArmed ∨ d.analogEdgeArmed = false ∨
          d.analogEdgeArmed = decide (c.analogCtlState = MotionState.IDLE)) := by
    intro d h
    obtain ⟨a1, a2, a3, a4, a5⟩ := effect_of_inputView c d h
    exact ⟨Or.inl a1, a2, a3, a4, Or.inl a5⟩
  cases cmd with
  | setOpenHere => exact same _ rfl
  | setClosedHere => exact same _ rfl
  | other => exact same _ rfl
  | exitSetMode =>
    obtain ⟨a1, a2, a3, a4, a5⟩ := exitSetMode_effect c.resetMqttSetModeStreak now
    refine ⟨a1, a2, a3, a4, ?_⟩
    rcases a5 with e | e
    · exact Or.inl e
    · exact Or.inr (Or.inr e)
  | enterSetMode =>
    have hpre : ∃ d : Controller, inputView d = inputView c ∧
        c.handleHaCommand HaCommand.enterSetMode now pinLow = d.enterSetMode now := by
      unfold handleHaCommand
      dsimp only
      split_ifs
      · exact ⟨({ c with mqttSetModeStreak := c.mqttSetModeStreak + 1 }).toggleSimulationMode
          now pinLow, (toggleSimulationMode_inputView _ now pinLow).trans rfl, rfl⟩
      · exact ⟨{ c with mqttSetModeStreak := c.mqttSetModeStreak + 1 }, rfl, rfl⟩
      · exact ⟨c, rfl, rfl⟩
    obtain ⟨d, hd, he⟩ := hpre
    obtain ⟨b1, b2, b3, b4, b5⟩ := effect_of_inputView c d hd
    obtain ⟨a1, a2, a3, a4, a5⟩ := enterSetMode_effect d now
    rw [he]
    refine ⟨issued_trans_same _ _ _ b1 a1, a2.trans b2, haKept_trans _ _ _ b3 a3, a4.trans b4, ?_⟩
    rcases a5 with e | e
    · exact Or.inl (e.trans b5)
    · exact Or.inr (Or.inl e)

/-- A sequence number issued while the counter is below its ceiling keeps the
sequence numbers in step and raises the counter by at most 1. -/
theorem seqFresh_issued (v w : Nat × Nat × Nat) (h : SeqFresh v) (hI : Issued v w)
    (hb : v.1 + 1 < U32) : SeqFresh w ∧ w.1 ≤ v.1 + 1 := by
  obtain ⟨n, a, b⟩ := v
  obtain ⟨h1, h2, h3⟩ := h
  simp only at h1 h2 h3 hb
  have hm : (n + 1) % U32 = n + 1 := Nat.mod_eq_of_lt hb
  simp only [Issued, hm] at hI
  rcases hI with e | e | e | e <;> subst e <;> unfold SeqFresh <;> dsimp only <;>
    refine ⟨⟨?_, ?_, ?_⟩, ?_⟩ <;> omega

theorem foldl_handle_seq (now : Nat) (pinLow : Bool) :
    ∀ (q : List HaCommand) (c : Controller) (B : Nat), SeqFresh (seqView c) →
      c.commandSeqCounter ≤ B → B + q.length < U32 →
      SeqFresh (seqView (q.foldl (fun a cmd => a.handleHaCommand cmd now pinLow) c)) ∧
        (q.foldl (fun a cmd => a.handleHaCommand cmd now pinLow) c).commandSeqCounter ≤
          B + q.length
  | [], _, _, h, hB, _ => ⟨h, hB⟩
  | cmd :: q, c, B, h, hB, hq => by
    simp only [List.length_cons] at hq
    have h1 := seqFresh_issued _ _ h (handleHaCommand_effect c cmd now pinLow).1
      (by simp only [seqView]; omega)
    have h2 : (c.handleHaCommand cmd now pinLow).commandSeqCounter ≤ B + 1 := by
      have := h1.2; simp only [seqView] at this; omega
    have ih := foldl_handle_seq now pinLow q _ (B + 1) h1.1 h2 (by omega)
    rw [List.foldl_cons]
    simp only [List.length_cons]
    exact ⟨ih.1, by omega⟩

theorem foldl_handle_kept (now : Nat) (pinLow : Bool) :
    ∀ (q : List HaCommand) (c : Controller),
      HaKept c (q.foldl (fun a cmd => a.handleHaCommand cmd now pinLow) c) ∧
        (q.foldl (fun a cmd => a.handleHaCommand cmd now pinLow) c).cmdQueue = c.cmdQueue ∧
        (q.foldl (fun a cmd => a.handleHaCommand cmd now pinLow) c).analogCtlState =
          c.analogCtlState
  | [], c => ⟨haKept_refl c, rfl, rfl⟩
  | cmd :: q, c => by
    obtain ⟨_, a2, a3, a4, _⟩ := handleHaCommand_effect c cmd now pinLow
    obtain ⟨b1, b2, b3⟩ := foldl_handle_kept now pinLow q (c.handleHaCommand cmd now pinLow)
    rw [List.foldl_cons]
    exact ⟨haKept_trans _ _ _ a3 b1, b2.trans a2, b3.trans a4⟩

theorem foldl_handle_disarmed (now : Nat) (pinLow : Bool) :
    ∀ (q : List HaCommand) (c : Controller), c.analogEdgeArmed = false →
      c.analogCtlState ≠ MotionState.IDLE →
      (q.foldl (fun a cmd => a.handleHaCommand cmd now pinLow) c).analogEdgeArmed = false
  | [], _, h, _ => h
  | cmd :: q, c, h, hc => by
    obtain ⟨_, _, _, a4, a5⟩ := handleHaCommand_effect c cmd now pinLow
    have h1 : (c.handleHaCommand cmd now pinLow).analogEdgeArmed = false := by
      rcases a5 with e | e | e
      · exact e.trans h
      · exact e
      · rw [e]; exact decide_eq_false hc
    rw [List.foldl_cons]
    exact foldl_handle_disarmed now pinLow q _ h1 (by rw [a4]; exact hc)

/-! #### The automation -/

/-- The automation step issues a sequence number to the automation or leaves
the bookkeeping alone; it writes neither the queue nor the state of the edge
logic, and it does nothing while the automation is silent. -/
theorem haStep_effect (c : Controller) :
    Issued (seqView c) (seqView c.haStep) ∧ c.haStep.cmdQueue = c.cmdQueue ∧
      c.haStep.analogCtlState = c.analogCtlState ∧
      c.haStep.analogEdgeArmed = c.analogEdgeArmed ∧
      c.haStep.haDesired = c.haDesired ∧ (HaQuiet c → c.haStep = c) := by
  unfold haStep Issued seqView HaQuiet
  dsimp only
  split_ifs with h1 h2
  · exact ⟨Or.inl rfl, rfl, rfl, rfl, rfl, fun h => absurd (h.1.trans h.2.1.symm) h1⟩
  · exact ⟨Or.inr (Or.inr (Or.inl rfl)), rfl, rfl, rfl, rfl,
      fun h => absurd (h.1.trans h.2.1.symm) h1⟩
  · exact ⟨Or.inl rfl, rfl, rfl, rfl, rfl, fun _ => rfl⟩

end Controller

set_option maxRecDepth 100000

/-! ### The higher sequence number wins -/

namespace Controller

theorem seqView_counter (c : Controller) : (seqView c).1 = c.commandSeqCounter := rfl

theorem panicView_cmdQueue (c : Controller) : (panicView c).2.1 = c.cmdQueue := rfl

theorem processHaCommands_eq (c : Controller) (now : Nat) (pinLow : Bool) :
    c.processHaCommands now pinLow =
      c.cmdQueue.foldl (fun a cmd => a.handleHaCommand cmd now pinLow)
        { c with cmdQueue := [] } := rfl

/-- Up to the arbitration a pass issues at most one sequence number for the
switch, one per queued command and one for the automation, and it empties the
queue. -/
theorem preArbitration_seq (c : Controller) (i : CycleInput) (h : SeqFresh (seqView c))
    (hb : c.commandSeqCounter + c.cmdQueue.length + 2 < U32) :
    SeqFresh (seqView (c.preArbitration i)) ∧
      (c.preArbitration i).commandSeqCounter ≤ c.commandSeqCounter + c.cmdQueue.length + 2 ∧
      (c.preArbitration i).cmdQueue = [] := by
  obtain ⟨a1, a2, _⟩ := analogStep_effect c i.analogRaw
  have hlt1 : (seqView c).1 + 1 < U32 := by
    rw [seqView_counter]; omega
  have s1 := seqFresh_issued _ _ h a1 hlt1
  have c1 : (c.analogStep i.analogRaw).commandSeqCounter ≤ c.commandSeqCounter + 1 := by
    have := s1.2
    rw [seqView_counter, seqView_counter] at this
    exact this
  have s2 := foldl_handle_seq i.now i.pinLow (c.analogStep i.analogRaw).cmdQueue
    { c.analogStep i.analogRaw with cmdQueue := [] } (c.commandSeqCounter + 1) s1.1 c1
    (by rw [a2]; omega)
  have q2 := (foldl_handle_kept i.now i.pinLow (c.analogStep i.analogRaw).cmdQueue
    { c.analogStep i.analogRaw with cmdQueue := [] }).2.1
  rw [← processHaCommands_eq, a2] at s2
  rw [← processHaCommands_eq] at q2
  obtain ⟨b1, b2, _⟩ := haStep_effect ((c.analogStep i.analogRaw).processHaCommands i.now i.pinLow)
  have hlt3 : (seqView ((c.analogStep i.analogRaw).processHaCommands i.now i.pinLow)).1 + 1 <
      U32 := by
    rw [seqView_counter]
    have := s2.2
    omega
  have s3 := seqFresh_issued _ _ s2.1 b1 hlt3
  have c3 : (((c.analogStep i.analogRaw).processHaCommands i.now i.pinLow).haStep).commandSeqCounter ≤
      ((c.analogStep i.analogRaw).processHaCommands i.now i.pinLow).commandSeqCounter + 1 := by
    have := s3.2
    rw [seqView_counter, seqView_counter] at this
    exact this
  unfold preArbitration
  refine ⟨s3.1, ?_, b2.trans q2⟩
  have := s2.2
  omega

/-- The arbitration keeps the sequence numbers in step and leaves the counter
alone. -/
theorem arbitrate_seq (c : Controller) (now : Nat) (h : SeqFresh (seqView c)) :
    SeqFresh (seqView (c.arbitrate now)) ∧
      (c.arbitrate now).commandSeqCounter = c.commandSeqCounter ∧
      (c.arbitrate now).cmdQueue = c.cmdQueue := by
  obtain ⟨_, _, _, k4, _, _, k7, _⟩ := arbitrate_kept c now
  refine ⟨?_, k4, k7⟩
  by_cases hw : c.selectCommand.1 = CommandSource.WALL_SWITCH
  · obtain ⟨_, w2, _, w4, _⟩ := arbitrate_wall c now hw
    unfold SeqFresh seqView
    rw [w2, w4]
    exact ⟨Nat.zero_le _, Nat.zero_le _, fun _ => rfl⟩
  · have hv := arbitrate_other c now hw
    have e6 := congrArg (·.2.2.2.2.2.1) hv
    have e8 := congrArg (·.2.2.2.2.2.2.2.1) hv
    simp only [latchView] at e6 e8
    unfold SeqFresh seqView at h ⊢
    rw [k4, e6, e8]
    exact h

/-- The safety part of a pass issues at most one sequence number, to the wall
switch, and leaves the queue alone. -/
theorem safetyPhase_seq (c : Controller) (i : CycleInput) :
    Issued (seqView c) (seqView (c.safetyPhase i)) ∧ (c.safetyPhase i).cmdQueue = c.cmdQueue := by
  rcases safetyPhase_panicView c i with h | ⟨_, h⟩
  · have e2 := congrArg (·.2.1) h
    have e4 := congrArg (·.2.2.2.1) h
    have e5 := congrArg (·.2.2.2.2.1) h
    have es : (c.safetyPhase i).haCommandSeq = c.haCommandSeq :=
      congrArg (·.2.2.2.2.2.1) (safetyPhase_standingView c i)
    simp only [panicView] at e2 e4 e5
    refine ⟨Or.inl ?_, e2⟩
    unfold seqView; rw [e4, e5, es]
  · have e2 := congrArg (·.2.1) h
    have e4 := congrArg (·.2.2.2.1) h
    have e5 := congrArg (·.2.2.2.2.1) h
    have es : (c.safetyPhase i).haCommandSeq = c.haCommandSeq :=
      congrArg (·.2.2.2.2.2.1) (safetyPhase_standingView c i)
    simp only [panicView, panicked] at e2 e4 e5
    refine ⟨Or.inr (Or.inl ?_), e2⟩
    unfold seqView; rw [e4, e5, es]

theorem seq_arith_bound (P C Q : Nat) (h1 : P ≤ C + Q + 2) (h2 : C + Q + 3 < U32) :
    P + 1 < U32 := by omega

theorem seq_arith_pass (S P C Q F SQ M : Nat) (h1 : S ≤ P + 1) (h2 : P ≤ C + Q + 2)
    (h3 : F ≤ SQ + M) (h4 : SQ = 0) : S + F ≤ C + Q + (M + 3) := by omega

/-- One pass keeps the sequence numbers in step as long as the counter does not
wrap; the counter and the queue grow by at most 3 and the number of messages. -/
theorem loop_seq (c : Controller) (i : CycleInput) (h : SeqFresh (seqView c))
    (hb : c.commandSeqCounter + c.cmdQueue.length + 3 < U32) :
    SeqFresh (seqView (c.loop i)) ∧
      (c.loop i).commandSeqCounter + (c.loop i).cmdQueue.length ≤
        c.commandSeqCounter + c.cmdQueue.length + (i.mqttIn.length + 3) := by
  obtain ⟨p1, p2, p3⟩ := preArbitration_seq c i h (Nat.lt_of_succ_lt hb)
  obtain ⟨a1, a2, a3⟩ := arbitrate_seq (c.preArbitration i) i.resetMillis p1
  obtain ⟨_, dp, ds⟩ := driveRelays_views ((c.preArbitration i).arbitrate i.resetMillis) i.now
  rw [← commandPhase_eq] at dp ds
  have d2 : (c.commandPhase i).cmdQueue = ((c.preArbitration i).arbitrate i.resetMillis).cmdQueue := by
    have := congrArg (·.2.1) dp
    simp only [panicView_cmdQueue] at this
    exact this
  obtain ⟨s1, s2⟩ := safetyPhase_seq (c.commandPhase i) i
  have hc : (c.commandPhase i).commandSeqCounter ≤ c.commandSeqCounter + c.cmdQueue.length + 2 := by
    have e := congrArg (·.1) ds
    simp only [seqView_counter] at e
    rw [e, a2]; exact p2
  have hlt : (seqView (c.commandPhase i)).1 + 1 < U32 := by
    rw [seqView_counter]; exact seq_arith_bound _ _ _ hc hb
  have f1 := seqFresh_issued (seqView (c.commandPhase i))
    (seqView ((c.commandPhase i).safetyPhase i)) (by rw [ds]; exact a1) s1 hlt
  obtain ⟨_, m1, _, m2, _⟩ := foldl_mqtt_views i.mqttMillis i.mqttIn ((c.commandPhase i).safetyPhase i)
  obtain ⟨_, r1, r2⟩ := rebootCheck_views
    (i.mqttIn.foldl (fun a m => a.mqttReceive m i.mqttMillis) ((c.commandPhase i).safetyPhase i)) i.now
  rw [← loop_tail] at r1 r2
  have hq : ((c.commandPhase i).safetyPhase i).cmdQueue.length = 0 := by
    rw [s2, d2, a3, p3]; rfl
  have hv : seqView (c.loop i) = seqView ((c.commandPhase i).safetyPhase i) := r2.trans m1
  have hcount : (c.loop i).commandSeqCounter =
      ((c.commandPhase i).safetyPhase i).commandSeqCounter := by
    have e := congrArg (·.1) hv
    simp only [seqView_counter] at e
    exact e
  have hqueue : (c.loop i).cmdQueue =
      (i.mqttIn.foldl (fun a m => a.mqttReceive m i.mqttMillis)
        ((c.commandPhase i).safetyPhase i)).cmdQueue := by
    have e := congrArg (·.2.1) r1
    simp only [panicView_cmdQueue] at e
    exact e
  refine ⟨by rw [hv]; exact f1.1, ?_⟩
  have hf : ((c.commandPhase i).safetyPhase i).commandSeqCounter ≤
      (c.commandPhase i).commandSeqCounter + 1 := by
    have := f1.2
    rw [seqView_counter, seqView_counter] at this
    exact this
  rw [hcount, hqueue]
  exact seq_arith_pass _ _ _ _ _ _ _ hf hc m2 hq

theorem seqBudget_cons (i : CycleInput) (is : List CycleInput) :
    seqBudget (i :: is) = (i.mqttIn.length + 3) + seqBudget is := by
  unfold seqBudget; simp

theorem seqBudget_snoc (is : List CycleInput) (i : CycleInput) :
    seqBudget (is ++ [i]) = seqBudget is + (i.mqttIn.length + 3) := by
  unfold seqBudget; simp

/-- Along a run the sequence numbers stay in step as long as the budget of the
run does not reach `2^32`. -/
theorem loops_seq : ∀ (is : List CycleInput) (c : Controller) (B : Nat),
    SeqFresh (seqView c) → c.commandSeqCounter + c.cmdQueue.length ≤ B →
    B + seqBudget is < U32 →
    SeqFresh (seqView (loops c is)) ∧
      (loops c is).commandSeqCounter + (loops c is).cmdQueue.length ≤ B + seqBudget is
  | [], _, _, h, hB, _ => ⟨h, by simpa [seqBudget, loops] using hB⟩
  | i :: is, c, B, h, hB, hw => by
    rw [seqBudget_cons] at hw ⊢
    obtain ⟨l1, l2⟩ := loop_seq c i h (by omega)
    have ih := loops_seq is (c.loop i) (B + (i.mqttIn.length + 3)) l1 (by omega) (by omega)
    have e : loops c (i :: is) = loops (c.loop i) is := rfl
    rw [e]
    exact ⟨ih.1, by have := ih.2; omega⟩

/-- C26. In every pass since boot, as long as the sequence counter has not
wrapped (fewer than `2^32` sequence numbers issued): when the pass reaches the
arbitration, the two sequence numbers are different unless both are 0; and
without a latched panic the selected direction is the direction commanded
before when both are 0, the automation's latched direction when the automation's
number is the larger one, and the wall switch's latched direction when the wall
switch's number is the larger one. -/
theorem C26_higher_sequence_wins (b : BootInput) (is : List CycleInput) (i : CycleInput)
    (hbudget : seqBudget (is ++ [i]) < U32) :
    ((atArbitration b is i).analogCommandSeq ≠ 0 ∨ (atArbitration b is i).haCommandSeq ≠ 0 →
      (atArbitration b is i).analogCommandSeq ≠ (atArbitration b is i).haCommandSeq) ∧
    ((atArbitration b is i).panicLatched = false →
      ((atArbitration b is i).analogCommandSeq = 0 ∧ (atArbitration b is i).haCommandSeq = 0 →
        (atArbitration b is i).selectCommand =
          (CommandSource.NONE, (atArbitration b is i).commandedMotion)) ∧
      ((atArbitration b is i).analogCommandSeq < (atArbitration b is i).haCommandSeq →
        (atArbitration b is i).selectCommand =
          (CommandSource.HOME_ASSISTANT, (atArbitration b is i).haLatched)) ∧
      ((atArbitration b is i).haCommandSeq < (atArbitration b is i).analogCommandSeq →
        (atArbitration b is i).selectCommand =
          (CommandSource.WALL_SWITCH, (atArbitration b is i).analogLatched))) := by
  rw [seqBudget_snoc] at hbudget
  have h0 : SeqFresh (seqView (setup b)) := ⟨le_refl _, le_refl _, fun _ => rfl⟩
  have hq0 : (setup b).commandSeqCounter + (setup b).cmdQueue.length ≤ 0 := le_refl _
  obtain ⟨r1, r2⟩ := loops_seq is (setup b) 0 h0 hq0 (by omega)
  obtain ⟨p1, _, _⟩ := preArbitration_seq (loops (setup b) is) i r1 (by omega)
  refine ⟨?_, fun hp => ⟨fun h => ?_, fun h => ?_, fun h => ?_⟩⟩
  · intro hne heq
    have h3 : (atArbitration b is i).analogCommandSeq = 0 := p1.2.2 heq
    rcases hne with g | g
    · exact g h3
    · exact g (heq ▸ h3)
  · exact selectCommand_none _ hp h.1 h.2
  · exact selectCommand_ha _ hp h
  · exact selectCommand_wall _ hp h

/-- C26, instance: the automation's Opening command, arrived in the pass at
1000 ms after `bootNeutral`, is latched in the pass at 1100 ms with sequence
number 1 against 0 for the wall switch, and the automation is selected with
Opening. -/
theorem C26_higher_sequence_wins_witness :
    seqBudget ([askOpening 1000] ++ [quietInput 1100]) < U32 ∧
      (atArbitration bootNeutral [askOpening 1000] (quietInput 1100)).analogCommandSeq <
        (atArbitration bootNeutral [askOpening 1000] (quietInput 1100)).haCommandSeq ∧
      (atArbitration bootNeutral [askOpening 1000] (quietInput 1100)).selectCommand =
        (CommandSource.HOME_ASSISTANT, MotionState.OPENING) :=
  ⟨by decide, by decide,
    ((C26_higher_sequence_wins bootNeutral [askOpening 1000] (quietInput 1100)
      (by decide)).2 (by decide)).2.1 (by decide)⟩

end Controller

set_option maxRecDepth 100000
/-! ### A wall-switch command and the automation's latch -/

namespace Controller

theorem panicView_haDesired (c : Controller) : (panicView c).2.2.2.2.2.1 = c.haDesired := rfl

theorem panicked_haDesired (v : Bool × List HaCommand × MotionState × Nat × Nat × MotionState × Bool) :
    (panicked v).2.2.2.2.2.1 = MotionState.IDLE := rfl

/-- The inputs of a pass are taken in without a trace in the automation's latch
while the automation is silent. -/
theorem preArbitration_quiet (c : Controller) (i : CycleInput) (h : HaQuiet c) :
    HaQuiet (c.preArbitration i) := by
  obtain ⟨_, _, a3, _⟩ := analogStep_effect c i.analogRaw
  have h1 := haQuiet_of_kept _ _ h a3
  have h0 : HaQuiet { c.analogStep i.analogRaw with cmdQueue := [] } := h1
  have h2 := haQuiet_of_kept _ _ h0
    (foldl_handle_kept i.now i.pinLow (c.analogStep i.analogRaw).cmdQueue
      { c.analogStep i.analogRaw with cmdQueue := [] }).1
  rw [← processHaCommands_eq] at h2
  unfold preArbitration
  rw [(haStep_effect _).2.2.2.2.2 h2]
  exact h2

/-- The inputs of a pass leave an Idle desired direction of the automation
Idle. -/
theorem preArbitration_haDesired (c : Controller) (i : CycleInput)
    (h : (c.analogStep i.analogRaw).haDesired = MotionState.IDLE) :
    (c.preArbitration i).haDesired = MotionState.IDLE := by
  have k := (foldl_handle_kept i.now i.pinLow (c.analogStep i.analogRaw).cmdQueue
      { c.analogStep i.analogRaw with cmdQueue := [] }).1.2.2.2
  rw [← processHaCommands_eq] at k
  have e : ({ c.analogStep i.analogRaw with cmdQueue := [] } : Controller).haDesired =
      (c.analogStep i.analogRaw).haDesired := rfl
  rw [e, h, or_self] at k
  unfold preArbitration
  rw [(haStep_effect _).2.2.2.2.1]
  exact k

/-- While the automation is silent the arbitration does not select it and
leaves it silent. -/
theorem arbitrate_quiet (c : Controller) (now : Nat) (h : HaQuiet c) :
    HaQuiet (c.arbitrate now) ∧
      (c.arbitrate now).activeCommandSource ≠ CommandSource.HOME_ASSISTANT := by
  have hsel : c.selectCommand.1 ≠ CommandSource.HOME_ASSISTANT := by
    intro e
    have := selectCommand_ha_seq c e
    rw [h.2.2.1] at this
    exact absurd this (lt_irrefl 0)
  have hd : (c.arbitrate now).haDesired = MotionState.IDLE :=
    ((arbitrate_haDesired c now).2 hsel).1.trans h.1
  refine ⟨?_, by rw [arbitrate_activeCommandSource]; exact hsel⟩
  by_cases hw : c.selectCommand.1 = CommandSource.WALL_SWITCH
  · obtain ⟨_, _, w3, w4, w5⟩ := arbitrate_wall c now hw
    exact ⟨hd, w5, w4, w3⟩
  · have hv := arbitrate_other c now hw
    have e7 := congrArg (·.2.2.2.2.2.2.1) hv
    have e8 := congrArg (·.2.2.2.2.2.2.2.1) hv
    have e10 := congrArg (·.2.2.2.2.2.2.2.2.2.1) hv
    simp only [latchView] at e7 e8 e10
    exact ⟨hd, e10.trans h.2.1, e8.trans h.2.2.1, e7.trans h.2.2.2⟩

/-- After the arbitration a pass writes the automation's desired direction only
through a panic, which clears it, and through the messages of the pass. -/
theorem loop_haDesired (c : Controller) (i : CycleInput) (hi : noDirectionMsg i)
    (h : ((c.preArbitration i).arbitrate i.resetMillis).haDesired = MotionState.IDLE) :
    (c.loop i).haDesired = MotionState.IDLE := by
  obtain ⟨_, dp, _⟩ := driveRelays_views ((c.preArbitration i).arbitrate i.resetMillis) i.now
  rw [← commandPhase_eq] at dp
  have d1 : (c.commandPhase i).haDesired = MotionState.IDLE := by
    have e := congrArg (·.2.2.2.2.2.1) dp
    simp only [panicView_haDesired] at e
    exact e.trans h
  have d2 : ((c.commandPhase i).safetyPhase i).haDesired = MotionState.IDLE := by
    rcases safetyPhase_panicView (c.commandPhase i) i with g | ⟨_, g⟩
    · have e := congrArg (·.2.2.2.2.2.1) g
      simp only [panicView_haDesired] at e
      exact e.trans d1
    · have e := congrArg (·.2.2.2.2.2.1) g
      simp only [panicView_haDesired, panicked_haDesired] at e
      exact e
  have d3 := (foldl_mqtt_views i.mqttMillis i.mqttIn ((c.commandPhase i).safetyPhase i)).2.2.2.2 hi d2
  obtain ⟨_, r1, _⟩ := rebootCheck_views
    (i.mqttIn.foldl (fun a m => a.mqttReceive m i.mqttMillis) ((c.commandPhase i).safetyPhase i)) i.now
  rw [← loop_tail] at r1
  have e := congrArg (·.2.2.2.2.2.1) r1
  simp only [panicView_haDesired] at e
  exact e.trans d3

/-- The automation's latch and the selected source at the end of a pass are
those the arbitration left. -/
theorem loop_latch_of_arbitrate (c : Controller) (i : CycleInput) :
    (c.loop i).haLatched = ((c.preArbitration i).arbitrate i.resetMillis).haLatched ∧
      (c.loop i).haCommandSeq = ((c.preArbitration i).arbitrate i.resetMillis).haCommandSeq ∧
      (c.loop i).lastHaDesired = ((c.preArbitration i).arbitrate i.resetMillis).lastHaDesired ∧
      (c.loop i).activeCommandSource = (c.preArbitration i).selectCommand.1 := by
  have hv := loop_standingView c i
  have e5 := congrArg (·.2.2.2.2.1) hv
  have e6 := congrArg (·.2.2.2.2.2.1) hv
  have e7 := congrArg (·.2.2.2.2.2.2.1) hv
  have e10 := congrArg (·.2.2.2.2.2.2.2.2.2) hv
  simp only [standingView] at e5 e6 e7 e10
  exact ⟨e5, e6, e7, e10.trans (arbitrate_activeCommandSource _ _)⟩

/-- A pass without an Opening or Closing message leaves a silent automation
silent and does not select it. -/
theorem loop_quiet (c : Controller) (i : CycleInput) (h : HaQuiet c) (hi : noDirectionMsg i) :
    HaQuiet (c.loop i) ∧ (c.loop i).activeCommandSource ≠ CommandSource.HOME_ASSISTANT := by
  obtain ⟨a1, a2⟩ := arbitrate_quiet (c.preArbitration i) i.resetMillis (preArbitration_quiet c i h)
  obtain ⟨l1, l2, l3, l4⟩ := loop_latch_of_arbitrate c i
  refine ⟨⟨loop_haDesired c i hi a1.1, l3.trans a1.2.1, l2.trans a1.2.2.1, l1.trans a1.2.2.2⟩, ?_⟩
  rw [l4, ← arbitrate_activeCommandSource _ i.resetMillis]
  exact a2

theorem loops_quiet : ∀ (js : List CycleInput) (c : Controller), HaQuiet c →
    c.activeCommandSource ≠ CommandSource.HOME_ASSISTANT → (∀ j ∈ js, noDirectionMsg j) →
    HaQuiet (loops c js) ∧ (loops c js).activeCommandSource ≠ CommandSource.HOME_ASSISTANT
  | [], _, h, ha, _ => ⟨h, ha⟩
  | j :: js, c, h, _, hjs => by
    obtain ⟨q1, q2⟩ := loop_quiet c j h (hjs j (List.mem_cons_self _ _))
    exact loops_quiet js (c.loop j) q1 q2 (fun x hx => hjs x (List.mem_cons_of_mem _ hx))

/-- A pass won by the wall switch, in which the wall-switch step cleared the
automation's desired direction and no Opening or Closing message arrives,
leaves the automation silent. -/
theorem loop_wall_quiet (c : Controller) (i : CycleInput)
    (hd : (c.analogStep i.analogRaw).haDesired = MotionState.IDLE)
    (hw : (c.preArbitration i).selectCommand.1 = CommandSource.WALL_SWITCH)
    (hi : noDirectionMsg i) :
    HaQuiet (c.loop i) ∧ (c.loop i).activeCommandSource ≠ CommandSource.HOME_ASSISTANT := by
  obtain ⟨_, _, w3, w4, w5⟩ := arbitrate_wall (c.preArbitration i) i.resetMillis hw
  obtain ⟨l1, l2, l3, l4⟩ := loop_latch_of_arbitrate c i
  have hp := preArbitration_haDesired c i hd
  have ha : ((c.preArbitration i).arbitrate i.resetMillis).haDesired = MotionState.IDLE := by
    rcases (arbitrate_haDesired (c.preArbitration i) i.resetMillis).1 with g | g
    · exact g.trans hp
    · exact g
  refine ⟨⟨loop_haDesired c i hi ha, l3.trans w5, l2.trans w4, l1.trans w3⟩, ?_⟩
  rw [l4, hw]
  exact fun e => by cases e

/-- C27, as the code has it, counterexample: the wall switch is put on Closing
and accepted; the automation then commands Opening, which is latched; the
switch returns to Neutral, the wall switch wins that pass with Idle and the
cover is stopped.  In the next pass, in which no message arrives, the automation
is selected again with a new sequence number and the cover is commanded to open:
the desired direction the automation set earlier was not cleared. -/
theorem C27_neutral_return_keeps_automation :
    ((loops (coverAt 100) (neutralReturn.take 3)).preArbitration
        (switchInput 1300 MotionState.IDLE)).selectCommand =
      (CommandSource.WALL_SWITCH, MotionState.IDLE) ∧
    (loops (coverAt 100) neutralReturn).commandedMotion = MotionState.IDLE ∧
    (loops (coverAt 100) neutralReturn).haCommandSeq = 0 ∧
    noDirectionMsg (quietInput 1400) ∧
    ((loops (coverAt 100) neutralReturn).loop (quietInput 1400)).activeCommandSource =
      CommandSource.HOME_ASSISTANT ∧
    ((loops (coverAt 100) neutralReturn).loop (quietInput 1400)).commandedMotion =
      MotionState.OPENING := by
  decide

/-- C27, amended. When the wall-switch step of a pass latches a direction
(Opening or Closing), the wall switch wins the pass and no Opening or Closing
message of the automation arrives in it, then at the end of the pass the
automation's desired direction, latched direction and sequence number are
cleared, and they stay cleared and the automation is not the selected source in
all later passes in which no Opening or Closing message arrives. -/
theorem C27_wall_direction_clears_automation (c : Controller) (i : CycleInput)
    (js : List CycleInput) (hl : latchesDirection c i.analogRaw)
    (hw : (c.preArbitration i).selectCommand.1 = CommandSource.WALL_SWITCH)
    (hi : noDirectionMsg i) (hjs : ∀ j ∈ js, noDirectionMsg j) :
    HaQuiet (c.loop i) ∧ HaQuiet (loops (c.loop i) js) ∧
      (loops (c.loop i) js).activeCommandSource ≠ CommandSource.HOME_ASSISTANT := by
  obtain ⟨q1, q2⟩ := loop_wall_quiet c i (analogStep_latch_clears c i.analogRaw hl) hw hi
  exact ⟨q1, loops_quiet js (c.loop i) q1 q2 hjs⟩

/-- C27, amended, instance: the automation has commanded Opening; the wall
switch is put on Closing (pass at 1200 ms), held, and returned to Neutral
(pass at 1400 ms); the automation stays cleared in the pass at 1500 ms. -/
theorem C27_wall_direction_clears_automation_witness :
    latchesDirection openingAsked MotionState.CLOSING ∧
      HaQuiet (loops (openingAsked.loop (switchInput 1200 MotionState.CLOSING))
        [switchInput 1300 MotionState.CLOSING, switchInput 1400 MotionState.IDLE,
          quietInput 1500]) ∧
      (loops (openingAsked.loop (switchInput 1200 MotionState.CLOSING))
        [switchInput 1300 MotionState.CLOSING, switchInput 1400 MotionState.IDLE,
          quietInput 1500]).activeCommandSource ≠ CommandSource.HOME_ASSISTANT :=
  ⟨by decide,
    (C27_wall_direction_clears_automation openingAsked (switchInput 1200 MotionState.CLOSING)
      [switchInput 1300 MotionState.CLOSING, switchInput 1400 MotionState.IDLE, quietInput 1500]
      (by decide) (by decide) (by decide) (by decide)).2⟩

end Controller

set_option maxRecDepth 100000
/-! ### Edge arming of the wall switch -/

namespace Controller

theorem standingView_armed (c : Controller) : (standingView c).1 = c.analogEdgeArmed := rfl

/-- A pass with the switch away from Neutral whose wall-switch step leaves the
edge logic disarmed ends with the edge logic disarmed. -/
theorem loop_disarmed (c : Controller) (i : CycleInput) (hraw : i.analogRaw ≠ MotionState.IDLE)
    (h : (c.analogStep i.analogRaw).analogEdgeArmed = false) :
    (c.loop i).analogEdgeArmed = false := by
  have a4 := (analogStep_effect c i.analogRaw).2.2.2.1
  have p := foldl_handle_disarmed i.now i.pinLow (c.analogStep i.analogRaw).cmdQueue
    { c.analogStep i.analogRaw with cmdQueue := [] } h (by rw [← a4] at hraw; exact hraw)
  rw [← processHaCommands_eq] at p
  have q : (c.preArbitration i).analogEdgeArmed = false := by
    unfold preArbitration
    rw [(haStep_effect _).2.2.2.1]
    exact p
  have r : ((c.preArbitration i).arbitrate i.resetMillis).analogEdgeArmed = false := by
    rcases (arbitrate_kept (c.preArbitration i) i.resetMillis).2.2.2.2.2.2.2 with g | g
    · exact g.trans q
    · exact g
  have e := congrArg (·.1) (loop_standingView c i)
  simp only [standingView_armed] at e
  exact e.trans r

theorem directionsLatched_cons (c : Controller) (i : CycleInput) (is : List CycleInput) :
    directionsLatched c (i :: is) =
      (if latchesDirection c i.analogRaw then 1 else 0) + directionsLatched (c.loop i) is := rfl

/-- While the switch stays away from Neutral at most one direction is latched,
and none when the edge logic starts disarmed. -/
theorem directionsLatched_bound : ∀ (is : List CycleInput) (c : Controller),
    (∀ i ∈ is, i.analogRaw ≠ MotionState.IDLE) →
    directionsLatched c is ≤ 1 ∧ (c.analogEdgeArmed = false → directionsLatched c is = 0)
  | [], _, _ => ⟨Nat.zero_le _, fun _ => rfl⟩
  | i :: is, c, h => by
    have hraw := h i (List.mem_cons_self _ _)
    obtain ⟨d1, d2⟩ := analogStep_disarmed c i.analogRaw hraw
    have ih := directionsLatched_bound is (c.loop i)
      (fun x hx => h x (List.mem_cons_of_mem _ hx))
    rw [directionsLatched_cons]
    by_cases hl : latchesDirection c i.analogRaw
    · have z := ih.2 (loop_disarmed c i hraw (d2 hl))
      rw [if_pos hl, z]
      exact ⟨le_refl _, fun ha => absurd hl (d1 ha).2⟩
    · rw [if_neg hl, Nat.zero_add]
      exact ⟨ih.1, fun ha => ih.2 (loop_disarmed c i hraw (d1 ha).1)⟩

/-- C29. In passes in a row in which the debounced wall switch is never at
Neutral, whatever else the passes take in, at most one wall-switch step latches
a non-idle direction; when a step has latched one, or the edge logic is disarmed
at the start, no step of the following passes latches a direction. -/
theorem C29_one_direction_without_neutral (c : Controller) (i : CycleInput)
    (is : List CycleInput) (h : ∀ j ∈ i :: is, j.analogRaw ≠ MotionState.IDLE) :
    directionsLatched c (i :: is) ≤ 1 ∧
      (c.analogEdgeArmed = false → directionsLatched c (i :: is) = 0) ∧
      (latchesDirection c i.analogRaw → directionsLatched (c.loop i) is = 0) := by
  obtain ⟨b1, b2⟩ := directionsLatched_bound (i :: is) c h
  refine ⟨b1, b2, fun hl => ?_⟩
  have hraw := h i (List.mem_cons_self _ _)
  exact (directionsLatched_bound is (c.loop i)
    (fun x hx => h x (List.mem_cons_of_mem _ hx))).2
    (loop_disarmed c i hraw ((analogStep_disarmed c i.analogRaw hraw).2 hl))

/-- C29, instance: the switch goes from Neutral to Closing, to Opening and
back to Closing without passing Neutral; exactly one direction is latched. -/
theorem C29_one_direction_without_neutral_witness :
    (∀ j ∈ [switchInput 1000 MotionState.CLOSING, switchInput 1100 MotionState.OPENING,
        switchInput 1200 MotionState.CLOSING], j.analogRaw ≠ MotionState.IDLE) ∧
      latchesDirection (coverAt 100) MotionState.CLOSING ∧
      directionsLatched (coverAt 100)
        [switchInput 1000 MotionState.CLOSING, switchInput 1100 MotionState.OPENING,
          switchInput 1200 MotionState.CLOSING] ≤ 1 ∧
      directionsLatched ((coverAt 100).loop (switchInput 1000 MotionState.CLOSING))
        [switchInput 1100 MotionState.OPENING, switchInput 1200 MotionState.CLOSING] = 0 :=
  ⟨by decide, by decide,
    (C29_one_direction_without_neutral (coverAt 100) (switchInput 1000 MotionState.CLOSING)
      [switchInput 1100 MotionState.OPENING, switchInput 1200 MotionState.CLOSING]
      (by decide)).1,
    (C29_one_direction_without_neutral (coverAt 100) (switchInput 1000 MotionState.CLOSING)
      [switchInput 1100 MotionState.OPENING, switchInput 1200 MotionState.CLOSING]
      (by decide)).2.2 (by decide)⟩

end Controller

set_option maxRecDepth 100000
/-! ### A direct change between Opening and Closing -/

namespace Controller

/-- Latching Idle: nothing when the effective state is Idle already, else an
Idle command with a fresh sequence number. -/
theorem analogLatch_idle (c : Controller) :
    (c.lastAnalogEffective = MotionState.IDLE → c.analogLatch MotionState.IDLE = c) ∧
    (c.lastAnalogEffective ≠ MotionState.IDLE →
      (c.analogLatch MotionState.IDLE).analogLatched = MotionState.IDLE ∧
      (c.analogLatch MotionState.IDLE).lastAnalogEffective = MotionState.IDLE ∧
      (c.analogLatch MotionState.IDLE).analogCommandSeq = (c.commandSeqCounter + 1) % U32 ∧
      (c.analogLatch MotionState.IDLE).commandSeqCounter = (c.commandSeqCounter + 1) % U32 ∧
      (c.analogLatch MotionState.IDLE).haDesired = c.haDesired) := by
  constructor
  · intro h
    unfold analogLatch
    rw [if_neg (fun g => g h.symm)]
  · intro h
    unfold analogLatch
    rw [if_pos (fun g => h g.symm), if_neg (fun g => g rfl)]
    exact ⟨rfl, rfl, rfl, rfl, rfl⟩

/-- C30, as the code has it, counterexample: the wall switch was put on Opening
and the command accepted, the cover is commanded to open.  A pass in which the
switch is still on Opening leaves the command as it is; the pass in which the
switch has gone over to Closing instead issues a new wall-switch sequence number
and the commanded direction is Idle: the cover is stopped. -/
theorem C30_direct_flip_stops_cover :
    openingAccepted.commandedMotion = MotionState.OPENING ∧
    (openingAccepted.loop (switchInput 1100 MotionState.OPENING)).commandedMotion =
      MotionState.OPENING ∧
    (openingAccepted.loop (switchInput 1100 MotionState.CLOSING)).commandedMotion =
      MotionState.IDLE ∧
    (openingAccepted.analogStep MotionState.OPENING).analogCommandSeq =
      openingAccepted.analogCommandSeq ∧
    (openingAccepted.analogStep MotionState.CLOSING).analogCommandSeq ≠
      openingAccepted.analogCommandSeq := by
  decide

/-- With the edge logic disarmed a switch state that differs from the last one
and is not Neutral is stored as the last reading, is not latched as a direction
and leaves the edge logic disarmed.  When the
effective switch state is Idle, the wall-switch step writes neither the
wall-switch latch nor a sequence number; when it is a direction, the step
latches Idle for the wall switch with a fresh sequence number and the effective
state becomes Idle. -/
theorem analogStep_direct_flip (c : Controller) (raw : MotionState)
    (hraw : raw ≠ MotionState.IDLE) (hne : raw ≠ c.lastAnalogRaw)
    (hd : c.analogEdgeArmed = false) :
    ¬ latchesDirection c raw ∧ (c.analogStep raw).analogEdgeArmed = false ∧
    (c.analogStep raw).lastAnalogRaw = raw ∧
    (c.analogStep raw).lastAnalogEffective = MotionState.IDLE ∧
    (c.lastAnalogEffective = MotionState.IDLE →
      seqView (c.analogStep raw) = seqView c ∧
      (c.analogStep raw).analogLatched = c.analogLatched) ∧
    (c.lastAnalogEffective ≠ MotionState.IDLE →
      (c.analogStep raw).analogLatched = MotionState.IDLE ∧
      (c.analogStep raw).lastAnalogEffective = MotionState.IDLE ∧
      (c.analogStep raw).analogCommandSeq = (c.commandSeqCounter + 1) % U32 ∧
      (c.analogStep raw).commandSeqCounter = (c.commandSeqCounter + 1) % U32) := by
  obtain ⟨d1, d2⟩ := (analogStep_disarmed c raw hraw).1 hd
  obtain ⟨r1, _, _, _, _, _, r7, r8, r9, r10⟩ := analogRead_effect c raw
  have harm : (c.analogRead raw).analogEdgeArmed = false := by
    rw [r10, hd]; exact ite_self _
  have hstep : c.analogStep raw =
      ({ c.analogRead raw with lastAnalogRaw := raw }).analogLatch MotionState.IDLE := by
    rw [analogStep_eq]
    rcases analogEdge_cases (c.analogRead raw) raw with ⟨g, _⟩ | ⟨_, g, _⟩ | ⟨_, _, g, _⟩ |
      ⟨_, _, _, g⟩
    · exact absurd (g.trans r7) hne
    · exact absurd g hraw
    · rw [harm] at g; cases g
    · exact g
  have heff : ({ c.analogRead raw with lastAnalogRaw := raw } : Controller).lastAnalogEffective =
      c.lastAnalogEffective := r8
  obtain ⟨l1, l2⟩ := analogLatch_idle { c.analogRead raw with lastAnalogRaw := raw }
  have hlr : (c.analogStep raw).lastAnalogRaw = raw := by
    rw [hstep]
    exact (analogLatch_effect _ _).2.2.2.2.2.2.1
  have hle : (c.analogStep raw).lastAnalogEffective = MotionState.IDLE := by
    rw [hstep]
    by_cases h : c.lastAnalogEffective = MotionState.IDLE
    · rw [l1 (heff.trans h)]; exact heff.trans h
    · exact (l2 (fun g => h (heff.symm.trans g))).2.1
  refine ⟨d2, d1, hlr, hle, fun h => ?_, fun h => ?_⟩
  · rw [hstep, l1 (heff.trans h)]
    exact ⟨r1, r9⟩
  · obtain ⟨m1, m2, m3, m4, _⟩ := l2 (fun g => h (heff.symm.trans g))
    rw [hstep]
    have hc : ({ c.analogRead raw with lastAnalogRaw := raw } : Controller).commandSeqCounter =
        c.commandSeqCounter := congrArg (·.1) r1
    rw [hc] at m3 m4
    exact ⟨m1, m2, m3, m4⟩

/-- C30, amended. With the edge logic disarmed, as it is after an accepted
direction, a switch state that differs from the last one and is not Neutral is
not latched as a direction and leaves the edge logic disarmed.  When the
effective switch state is Idle, the wall-switch step writes neither the
wall-switch latch nor a sequence number; when it is a direction, the step
latches Idle for the wall switch with a fresh sequence number and the effective
state becomes Idle. -/
theorem C30_direct_flip_latches_idle (c : Controller) (raw : MotionState)
    (hraw : raw ≠ MotionState.IDLE) (hne : raw ≠ c.lastAnalogRaw)
    (hd : c.analogEdgeArmed = false) :
    ¬ latchesDirection c raw ∧ (c.analogStep raw).analogEdgeArmed = false ∧
    (c.lastAnalogEffective = MotionState.IDLE →
      seqView (c.analogStep raw) = seqView c ∧
      (c.analogStep raw).analogLatched = c.analogLatched) ∧
    (c.lastAnalogEffective ≠ MotionState.IDLE →
      (c.analogStep raw).analogLatched = MotionState.IDLE ∧
      (c.analogStep raw).lastAnalogEffective = MotionState.IDLE ∧
      (c.analogStep raw).analogCommandSeq = (c.commandSeqCounter + 1) % U32 ∧
      (c.analogStep raw).commandSeqCounter = (c.commandSeqCounter + 1) % U32) :=
  ⟨(analogStep_direct_flip c raw hraw hne hd).1, (analogStep_direct_flip c raw hraw hne hd).2.1,
    (analogStep_direct_flip c raw hraw hne hd).2.2.2.2⟩

/-- C30, amended, instance: after an accepted Opening the switch goes over to
Closing; Idle is latched for the wall switch with sequence number 2. -/
theorem C30_direct_flip_latches_idle_witness :
    openingAccepted.analogEdgeArmed = false ∧
      openingAccepted.lastAnalogEffective ≠ MotionState.IDLE ∧
      (openingAccepted.analogStep MotionState.CLOSING).analogLatched = MotionState.IDLE ∧
      (openingAccepted.analogStep MotionState.CLOSING).analogCommandSeq = 2 :=
  ⟨by decide, by decide,
    ((C30_direct_flip_latches_idle openingAccepted MotionState.CLOSING (by decide) (by decide)
      (by decide)).2.2.2 (by decide)).1,
    ((C30_direct_flip_latches_idle openingAccepted MotionState.CLOSING (by decide) (by decide)
      (by decide)).2.2.2 (by decide)).2.2.1⟩

end Controller

set_option maxRecDepth 100000
/-! ### Handing the authority over to the wall switch -/

namespace Controller

theorem analogRead_frame (c : Controller) (raw : MotionState) :
    (c.analogRead raw).commandedMotion = c.commandedMotion ∧
      (c.analogRead raw).clicks = c.clicks := by
  unfold analogRead; dsimp only; split_ifs <;> exact ⟨rfl, rfl⟩

theorem analogLatch_frame (c : Controller) (e : MotionState) :
    (c.analogLatch e).commandedMotion = c.commandedMotion ∧
      (c.analogLatch e).clicks = c.clicks ∧
      (c.analogLatch e).lastAnalogEffective = e := by
  unfold analogLatch
  by_cases h : e ≠ c.lastAnalogEffective
  · rw [if_pos h]
    by_cases he : e ≠ MotionState.IDLE
    · rw [if_pos he]; exact ⟨rfl, rfl, rfl⟩
    · rw [if_neg he]; exact ⟨rfl, rfl, rfl⟩
  · rw [if_neg h]; exact ⟨rfl, rfl, (not_not.mp h).symm⟩

/-- The wall-switch step writes neither the commanded direction nor the
tracker. -/
theorem analogStep_frame (c : Controller) (raw : MotionState) :
    (c.analogStep raw).commandedMotion = c.commandedMotion ∧
      (c.analogStep raw).clicks = c.clicks := by
  obtain ⟨r1, r2⟩ := analogRead_frame c raw
  rw [analogStep_eq]
  rcases analogEdge_latch (c.analogRead raw) raw with g | ⟨a, e, g⟩
  · rw [g]; exact ⟨r1, r2⟩
  · rw [g]
    obtain ⟨l1, l2, _⟩ := analogLatch_frame
      { c.analogRead raw with lastAnalogRaw := raw, analogEdgeArmed := a } e
    exact ⟨l1.trans r1, l2.trans r2⟩

/-- The wall-switch step on an armed edge logic, outside calibration mode, when
the switch leaves Neutral: the direction is latched with the next sequence
number and the automation's desired direction is cleared. -/
theorem analogStep_accept (c : Controller) (raw : MotionState) (hraw : raw ≠ MotionState.IDLE)
    (harm : c.analogEdgeArmed = true) (hraw0 : c.lastAnalogRaw = MotionState.IDLE)
    (heff : c.lastAnalogEffective = MotionState.IDLE) (hset : c.setModeActive = false) :
    c.analogStep raw =
      { c with analogCtlState := raw, lastAnalogRaw := raw, analogEdgeArmed := false,
               haDesired := MotionState.IDLE, haClearedLocally := true, mqttSetModeStreak := 0,
               lastAnalogEffective := raw, analogLatched := raw,
               commandSeqCounter := (c.commandSeqCounter + 1) % U32,
               analogCommandSeq := (c.commandSeqCounter + 1) % U32 } := by
  have h1 : c.analogRead raw = { c with analogCtlState := raw } := by
    unfold analogRead
    exact if_neg (by rw [Bool.not_eq_true]; exact hset)
  rw [analogStep_eq, h1]
  rcases analogEdge_cases { c with analogCtlState := raw } raw with
    ⟨g, _⟩ | ⟨_, g, _⟩ | ⟨_, _, _, g⟩ | ⟨_, _, g, _⟩
  · exact absurd (g.trans hraw0) hraw
  · exact absurd g hraw
  · rw [g]
    unfold analogLatch
    have hne : raw ≠ c.lastAnalogEffective := by rw [heff]; exact hraw
    rw [if_pos hne, if_pos hraw]
    rfl
  · exact absurd (harm.symm.trans g) (by decide)

/-- With an empty queue `processHaCommands` does nothing. -/
theorem processHaCommands_empty (c : Controller) (now : Nat) (pinLow : Bool)
    (h : c.cmdQueue = []) : c.processHaCommands now pinLow = c := by
  rw [processHaCommands_eq, h]
  show ({ c with cmdQueue := [] } : Controller) = c
  rw [← h]

/-- The automation step when the desired direction was cleared locally: the
latch follows, no sequence number is issued. -/
theorem haStep_cleared (d : Controller) (h1 : d.haDesired = MotionState.IDLE)
    (h2 : d.haClearedLocally = true) :
    d.haStep = d ∨
      d.haStep = { d with lastHaDesired := MotionState.IDLE, haLatched := MotionState.IDLE,
                          haClearedLocally := false } := by
  unfold haStep
  dsimp only
  by_cases hne : d.haDesired ≠ d.lastHaDesired
  · rw [if_pos hne, if_pos ⟨h2, h1⟩, h1]
    exact Or.inr rfl
  · rw [if_neg hne]
    exact Or.inl rfl

/-- What the cleared automation step leaves alone. -/
theorem haStep_cleared_frame (d : Controller) (h1 : d.haDesired = MotionState.IDLE)
    (h2 : d.haClearedLocally = true) :
    seqView d.haStep = seqView d ∧ d.haStep.analogLatched = d.analogLatched ∧
      d.haStep.panicLatched = d.panicLatched ∧ d.haStep.commandedMotion = d.commandedMotion ∧
      d.haStep.clicks = d.clicks ∧ d.haStep.setModeActive = d.setModeActive ∧
      d.haStep.lastAnalogRaw = d.lastAnalogRaw := by
  rcases haStep_cleared d h1 h2 with g | g <;> rw [g] <;> exact ⟨rfl, rfl, rfl, rfl, rfl, rfl, rfl⟩

/-- The veto lets Closing pass while `canClose()` holds. -/
theorem limitStep_closing (c : Controller) (src : CommandSource) (now : Nat)
    (h : c.clicks.canClose = true) :
    (c.limitStep src MotionState.CLOSING now).2 = MotionState.CLOSING := by
  unfold limitStep
  split_ifs
  · simp [closeLimitStep_target, openLimitStep_target, h]
  · rfl

/-- The fields a pass writes after the arbitration only through the panic and
the messages: in a pass without message that ends without a latched panic they
are as the arbitration left them. -/
theorem loop_fields_clean (c : Controller) (i : CycleInput) (hm : i.mqttIn = [])
    (hend : (c.loop i).panicLatched = false) :
    (c.loop i).cmdQueue = ((c.preArbitration i).arbitrate i.resetMillis).cmdQueue ∧
      (c.loop i).analogLatched = ((c.preArbitration i).arbitrate i.resetMillis).analogLatched ∧
      (c.loop i).analogCommandSeq = ((c.preArbitration i).arbitrate i.resetMillis).analogCommandSeq ∧
      (c.loop i).commandSeqCounter = ((c.preArbitration i).arbitrate i.resetMillis).commandSeqCounter := by
  obtain ⟨_, dp, _⟩ := driveRelays_views ((c.preArbitration i).arbitrate i.resetMillis) i.now
  rw [← commandPhase_eq] at dp
  obtain ⟨_, r1, _⟩ := rebootCheck_views
    (i.mqttIn.foldl (fun a m => a.mqttReceive m i.mqttMillis) ((c.commandPhase i).safetyPhase i)) i.now
  rw [← loop_tail, hm, List.foldl_nil] at r1
  have hv : panicView (c.loop i) = panicView ((c.preArbitration i).arbitrate i.resetMillis) := by
    rcases safetyPhase_panicView (c.commandPhase i) i with g | ⟨_, g⟩
    · exact r1.trans (g.trans dp)
    · have e := r1.trans g
      simp only [panicView, panicked, Prod.mk.injEq] at e
      rw [hend] at e
      exact absurd e.1 (by decide)
  simp only [panicView, Prod.mk.injEq] at hv
  exact ⟨hv.2.1, hv.2.2.1, hv.2.2.2.1, hv.2.2.2.2.1⟩

/-- The state of the edge logic, the commanded direction and the calibration
flag at the end of a pass are those the arbitration left. -/
theorem loop_fields_standing (c : Controller) (i : CycleInput) :
    (c.loop i).analogEdgeArmed = ((c.preArbitration i).arbitrate i.resetMillis).analogEdgeArmed ∧
      (c.loop i).lastAnalogRaw = ((c.preArbitration i).arbitrate i.resetMillis).lastAnalogRaw ∧
      (c.loop i).lastAnalogEffective =
        ((c.preArbitration i).arbitrate i.resetMillis).lastAnalogEffective ∧
      (c.loop i).commandedMotion = ((c.preArbitration i).arbitrate i.resetMillis).commandedMotion ∧
      (c.loop i).setModeActive = ((c.preArbitration i).arbitrate i.resetMillis).setModeActive := by
  have hv := loop_standingView c i
  simp only [standingView, Prod.mk.injEq] at hv
  exact ⟨hv.1, hv.2.2.1, hv.2.2.2.1, hv.2.2.2.2.2.2.2.1, hv.2.2.2.2.2.2.2.2.1⟩

/-- A pass without message, with a silent automation and no wall-switch
command after the wall-switch step, that ends without a latched panic: nothing
is selected, the automation stays silent, the queue stays empty, the edge logic
is as the wall-switch step left it, a commanded Idle stays and a commanded
Closing stays while `canClose()` holds. -/
theorem loop_coasting (c : Controller) (i : CycleInput) (hq : HaQuiet c)
    (hs : (c.analogStep i.analogRaw).analogCommandSeq = 0) (hc : c.cmdQueue = [])
    (hp : c.panicLatched = false) (hm : i.mqttIn = [])
    (hend : (c.loop i).panicLatched = false) :
    HaQuiet (c.loop i) ∧ (c.loop i).analogCommandSeq = 0 ∧ (c.loop i).cmdQueue = [] ∧
      (c.loop i).analogEdgeArmed = (c.analogStep i.analogRaw).analogEdgeArmed ∧
      (c.loop i).lastAnalogRaw = (c.analogStep i.analogRaw).lastAnalogRaw ∧
      (c.loop i).lastAnalogEffective = (c.analogStep i.analogRaw).lastAnalogEffective ∧
      (c.loop i).setModeActive = c.setModeActive ∧
      (c.commandedMotion = MotionState.IDLE → (c.loop i).commandedMotion = MotionState.IDLE) ∧
      (c.commandedMotion = MotionState.CLOSING → c.clicks.canClose = true →
        (c.loop i).commandedMotion = MotionState.CLOSING) := by
  obtain ⟨_, a2, a3, _, a5, a6⟩ := analogStep_effect c i.analogRaw
  obtain ⟨f1, f2⟩ := analogStep_frame c i.analogRaw
  have hqa : HaQuiet (c.analogStep i.analogRaw) := haQuiet_of_kept _ _ hq a3
  have hpre : c.preArbitration i = c.analogStep i.analogRaw := by
    unfold preArbitration
    rw [processHaCommands_empty _ _ _ (a2.trans hc)]
    exact (haStep_effect _).2.2.2.2.2 hqa
  have hsel := selectCommand_none (c.preArbitration i) (by rw [hpre, a5]; exact hp)
    (by rw [hpre]; exact hs) (by rw [hpre]; exact hqa.2.2.1)
  have hnw : (c.preArbitration i).selectCommand.1 ≠ CommandSource.WALL_SWITCH := by
    rw [hsel]; exact fun e => by cases e
  have hv := arbitrate_other (c.preArbitration i) i.resetMillis hnw
  simp only [latchView, Prod.mk.injEq] at hv
  obtain ⟨v1, _, v3, v4, _, v6, _, _, _, _, v11, _, v13⟩ := hv
  obtain ⟨c1, c2, c3, _⟩ := loop_fields_clean c i hm hend
  obtain ⟨s1, s2, s3, s4, s5⟩ := loop_fields_standing c i
  have hcm := arbitrate_commandedMotion (c.preArbitration i) i.resetMillis
  rw [hsel] at hcm
  have hi : noDirectionMsg i := by
    intro m hmem
    rw [hm] at hmem
    cases hmem
  refine ⟨(loop_quiet c i hq hi).1, ?_, ?_, ?_, ?_, ?_, ?_, ?_, ?_⟩
  · rw [c3, v6, hpre]; exact hs
  · rw [c1, v13, hpre, a2]; exact hc
  · rw [s1, v1, hpre]
  · rw [s2, v3, hpre]
  · rw [s3, v4, hpre]
  · rw [s5, v11, hpre]; exact a6
  · intro h0
    rw [s4, hcm]
    have e : (c.preArbitration i).commandedMotion = MotionState.IDLE := by
      rw [hpre, f1]; exact h0
    rw [e]
    exact limitStep_idle _ _ _
  · intro h0 hcan
    rw [s4, hcm]
    have e : (c.preArbitration i).commandedMotion = MotionState.CLOSING := by
      rw [hpre, f1]; exact h0
    rw [e]
    refine limitStep_closing _ _ _ ?_
    rw [manualStep_clicks, hpre, f2]
    exact hcan

theorem holdsClosing_cons (c : Controller) (j : CycleInput) (js : List CycleInput) :
    HoldsClosing c (j :: js) ↔
      (j.analogRaw = MotionState.CLOSING ∧ j.mqttIn = [] ∧ c.clicks.canClose = true ∧
        (c.loop j).panicLatched = false ∧ HoldsClosing (c.loop j) js) := Iff.rfl

/-- The wall-switch step does nothing but store the reading when the reading
is the last one. -/
theorem analogStep_same (c : Controller) (raw : MotionState) (h : raw = c.lastAnalogRaw) :
    c.analogStep raw = c.analogRead raw := by
  rw [analogStep_eq]
  rcases analogEdge_cases (c.analogRead raw) raw with ⟨_, g⟩ | ⟨g, _⟩ | ⟨g, _⟩ | ⟨g, _⟩
  · exact g
  all_goals exact absurd (h.trans (analogRead_effect c raw).2.2.2.2.2.2.1.symm) g

/-- While the switch is held on Closing after its command was used up and
nothing else arrives, the commanded direction stays Closing. -/
theorem loops_coasting_closing : ∀ (js : List CycleInput) (c : Controller) (k : Nat),
    HaQuiet c → c.analogCommandSeq = 0 → c.cmdQueue = [] → c.panicLatched = false →
    c.lastAnalogRaw = MotionState.CLOSING → c.commandedMotion = MotionState.CLOSING →
    HoldsClosing c js → (loops c (js.take k)).commandedMotion = MotionState.CLOSING
  | [], _, k, _, _, _, _, _, hcm, _ => by rw [List.take_nil]; exact hcm
  | _ :: _, _, 0, _, _, _, _, _, hcm, _ => hcm
  | j :: js, c, k + 1, hq, hs, hc, hp, hr, hcm, hold => by
    obtain ⟨h1, h2, h3, h4, h5⟩ := (holdsClosing_cons c j js).mp hold
    have hst : c.analogStep j.analogRaw = c.analogRead j.analogRaw :=
      analogStep_same c j.analogRaw (h1.trans hr.symm)
    obtain ⟨r1, _, _, _, _, _, r7, _⟩ := analogRead_effect c j.analogRaw
    have hs2 : (c.analogStep j.analogRaw).analogCommandSeq = 0 := by
      rw [hst]
      exact (congrArg (·.2.1) r1).trans hs
    obtain ⟨l1, l2, l3, _, l5, _, _, _, l9⟩ := loop_coasting c j hq hs2 hc hp h2 h4
    have e : loops c ((j :: js).take (k + 1)) = loops (c.loop j) (js.take k) := rfl
    rw [e]
    refine loops_coasting_closing js (c.loop j) k l1 l2 l3 h4 ?_ (l9 hcm h3) h5
    rw [l5, hst, r7]
    exact hr

/-- C28. The automation has commanded a direction, Opening or any other, with
sequence number `N`, the highest issued so far; the wall switch is armed and at Neutral, no panic is
latched, the controller is not in calibration mode and no command is queued.
In the pass in which the switch is found on Closing, the wall-switch command
gets the sequence number `N + 1` and the wall switch is selected with Closing.
When `canClose()` holds and the pass ends without a latched panic, the
commanded direction is Closing and the automation's desired direction is Idle
at the end of the pass, and the commanded direction is still Closing after each
of the following passes in which the switch stays on Closing, no message
arrives, `canClose()` holds and no panic is latched. -/
theorem C28_authority_handoff (c : Controller) (N : Nat) (i : CycleInput)
    (js : List CycleInput) (k : Nat)
    (hseq : c.haCommandSeq = N) (hcnt : c.commandSeqCounter = N) (hN : N + 1 < U32)
    (harm : c.analogEdgeArmed = true) (hraw0 : c.lastAnalogRaw = MotionState.IDLE)
    (heff : c.lastAnalogEffective = MotionState.IDLE) (hset : c.setModeActive = false)
    (hp : c.panicLatched = false) (hq : c.cmdQueue = [])
    (hold : HoldsClosing c (i :: js)) :
    (c.analogStep i.analogRaw).analogCommandSeq = N + 1 ∧
      (c.preArbitration i).selectCommand = (CommandSource.WALL_SWITCH, MotionState.CLOSING) ∧
      (c.loop i).commandedMotion = MotionState.CLOSING ∧
      (c.loop i).haDesired = MotionState.IDLE ∧
      (loops (c.loop i) (js.take k)).commandedMotion = MotionState.CLOSING := by
  obtain ⟨hi, hm, hcan, hend, hrest⟩ := (holdsClosing_cons c i js).mp hold
  have hs := analogStep_accept c MotionState.CLOSING (by decide) harm hraw0 heff hset
  rw [← hi] at hs
  have hmod : (c.commandSeqCounter + 1) % U32 = N + 1 := by
    rw [hcnt]; exact Nat.mod_eq_of_lt hN
  have a_seq : (c.analogStep i.analogRaw).analogCommandSeq = N + 1 := by
    rw [hs]; exact hmod
  have a_cnt : (c.analogStep i.analogRaw).haCommandSeq = N := by rw [hs]; exact hseq
  have a_des : (c.analogStep i.analogRaw).haDesired = MotionState.IDLE := by rw [hs]
  have a_clr : (c.analogStep i.analogRaw).haClearedLocally = true := by rw [hs]
  have a_lat : (c.analogStep i.analogRaw).analogLatched = MotionState.CLOSING := by
    rw [hs]; exact hi
  have a_raw : (c.analogStep i.analogRaw).lastAnalogRaw = MotionState.CLOSING := by
    rw [hs]; exact hi
  have a_pan : (c.analogStep i.analogRaw).panicLatched = false := by rw [hs]; exact hp
  have a_q : (c.analogStep i.analogRaw).cmdQueue = [] := by rw [hs]; exact hq
  have a_clk : (c.analogStep i.analogRaw).clicks = c.clicks := by rw [hs]
  have hpre : c.preArbitration i = (c.analogStep i.analogRaw).haStep := by
    unfold preArbitration
    rw [processHaCommands_empty _ _ _ a_q]
  obtain ⟨g1, g2, g3, _, g5, _, g7⟩ := haStep_cleared_frame _ a_des a_clr
  rw [← hpre] at g1 g2 g3 g5 g7
  have p_seq : (c.preArbitration i).analogCommandSeq = N + 1 :=
    (congrArg (·.2.1) g1).trans a_seq
  have p_cnt : (c.preArbitration i).haCommandSeq = N := (congrArg (·.2.2) g1).trans a_cnt
  have hsel := selectCommand_wall (c.preArbitration i) (g3.trans a_pan)
    (by rw [p_seq, p_cnt]; exact Nat.lt_succ_self N)
  rw [g2, a_lat] at hsel
  have hw : (c.preArbitration i).selectCommand.1 = CommandSource.WALL_SWITCH := by rw [hsel]
  have hni : noDirectionMsg i := by
    intro m hmem
    rw [hm] at hmem
    cases hmem
  obtain ⟨q1, _⟩ := loop_wall_quiet c i a_des hw hni
  obtain ⟨s1, s2, s3, s4, s5⟩ := loop_fields_standing c i
  obtain ⟨c1, _, c3, _⟩ := loop_fields_clean c i hm hend
  obtain ⟨_, w2, _⟩ := arbitrate_wall (c.preArbitration i) i.resetMillis hw
  obtain ⟨_, k2, _, _, _, _, k7, _⟩ := arbitrate_kept (c.preArbitration i) i.resetMillis
  have hcm : (c.loop i).commandedMotion = MotionState.CLOSING := by
    rw [s4, arbitrate_commandedMotion, hsel]
    refine limitStep_closing _ _ _ ?_
    rw [manualStep_clicks, g5, a_clk]
    exact hcan
  have hqe : (c.loop i).cmdQueue = [] := by
    rw [c1, k7, hpre, (haStep_effect _).2.1]
    exact a_q
  have hlr : (c.loop i).lastAnalogRaw = MotionState.CLOSING := by
    rw [s2, k2, g7]
    exact a_raw
  exact ⟨a_seq, hsel, hcm, q1.1,
    loops_coasting_closing js (c.loop i) k q1 (c3.trans w2) hqe hend hlr hcm hrest⟩

/-- C28, instance: the automation's Opening command has sequence number 1; the
switch is put on Closing in the pass at 1200 ms and held in the passes at
1300 ms and 1400 ms. -/
theorem C28_authority_handoff_witness :
    openingAsked.haLatched = MotionState.OPENING ∧ openingAsked.haCommandSeq = 1 ∧
      HoldsClosing openingAsked
        [switchInput 1200 MotionState.CLOSING, switchInput 1300 MotionState.CLOSING,
          switchInput 1400 MotionState.CLOSING] ∧
      (openingAsked.analogStep MotionState.CLOSING).analogCommandSeq = 1 + 1 ∧
      (openingAsked.loop (switchInput 1200 MotionState.CLOSING)).commandedMotion =
        MotionState.CLOSING ∧
      (openingAsked.loop (switchInput 1200 MotionState.CLOSING)).haDesired =
        MotionState.IDLE ∧
      (loops (openingAsked.loop (switchInput 1200 MotionState.CLOSING))
        [switchInput 1300 MotionState.CLOSING, switchInput 1400 MotionState.CLOSING]).commandedMotion =
        MotionState.CLOSING :=
  ⟨by decide, by decide, by decide,
    (C28_authority_handoff openingAsked 1 (switchInput 1200 MotionState.CLOSING)
      [switchInput 1300 MotionState.CLOSING, switchInput 1400 MotionState.CLOSING] 2
      (by decide) (by decide) (by decide) (by decide) (by decide) (by decide) (by decide)
      (by decide) (by decide) (by decide)).1,
    (C28_authority_handoff openingAsked 1 (switchInput 1200 MotionState.CLOSING)
      [switchInput 1300 MotionState.CLOSING, switchInput 1400 MotionState.CLOSING] 2
      (by decide) (by decide) (by decide) (by decide) (by decide) (by decide) (by decide)
      (by decide) (by decide) (by decide)).2.2⟩

end Controller

set_option maxRecDepth 100000
/-! ### A switch held at boot, and calibration mode -/

namespace Controller

theorem seq_next_ne (n : Nat) : (n + 1) % U32 ≠ n := by
  unfold U32; omega

/-- With the edge logic disarmed and the effective switch state Idle, a switch
away from Neutral latches nothing. -/
theorem analogStep_unarmed (c : Controller) (raw : MotionState) (hraw : raw ≠ MotionState.IDLE)
    (hd : c.analogEdgeArmed = false) (he : c.lastAnalogEffective = MotionState.IDLE) :
    seqView (c.analogStep raw) = seqView c ∧
      (c.analogStep raw).analogLatched = c.analogLatched ∧
      (c.analogStep raw).analogEdgeArmed = false ∧
      (c.analogStep raw).lastAnalogEffective = MotionState.IDLE ∧
      (c.analogStep raw).lastAnalogRaw = raw := by
  by_cases hne : raw = c.lastAnalogRaw
  · obtain ⟨r1, _, _, _, _, _, r7, r8, r9, r10⟩ := analogRead_effect c raw
    rw [analogStep_same c raw hne]
    refine ⟨r1, r9, ?_, r8.trans he, r7.trans hne.symm⟩
    rw [r10, hd]
    exact ite_self _
  · obtain ⟨_, f2, f3, f4, f5, _⟩ := analogStep_direct_flip c raw hraw hne hd
    exact ⟨(f5 he).1, (f5 he).2, f2, f4, f3⟩

theorem haStep_effective (c : Controller) :
    c.haStep.lastAnalogEffective = c.lastAnalogEffective ∧
      c.haStep.lastAnalogRaw = c.lastAnalogRaw ∧
      c.haStep.setModeActive = c.setModeActive := by
  unfold haStep; dsimp only; split_ifs <;> exact ⟨rfl, rfl, rfl⟩

/-- Entering calibration mode from outside: both sources are cleared, the wall
switch gets an Idle command with the next sequence number and the edge logic is
disarmed. -/
theorem enterSetMode_enters (c : Controller) (now : Nat) (h : c.setModeActive = false) :
    (c.enterSetMode now).analogLatched = MotionState.IDLE ∧
      (c.enterSetMode now).analogCommandSeq = (c.commandSeqCounter + 1) % U32 ∧
      (c.enterSetMode now).commandSeqCounter = (c.commandSeqCounter + 1) % U32 ∧
      (c.enterSetMode now).haDesired = MotionState.IDLE ∧
      (c.enterSetMode now).haClearedLocally = true ∧
      (c.enterSetMode now).haCommandSeq = c.haCommandSeq ∧
      (c.enterSetMode now).setModeActive = true ∧
      (c.enterSetMode now).analogEdgeArmed = false ∧
      (c.enterSetMode now).lastAnalogEffective = MotionState.IDLE := by
  unfold enterSetMode
  rw [if_neg (by rw [h]; decide)]
  exact ⟨rfl, rfl, rfl, rfl, rfl, rfl, rfl, rfl, rfl⟩

/-- Leaving calibration mode: both sources are cleared, the wall switch gets an
Idle command with the next sequence number, and the edge logic is armed exactly
when the switch is at Neutral. -/
theorem exitSetMode_exits (c : Controller) (now : Nat) (h : c.setModeActive = true) :
    (c.exitSetMode now).analogLatched = MotionState.IDLE ∧
      (c.exitSetMode now).analogCommandSeq = (c.commandSeqCounter + 1) % U32 ∧
      (c.exitSetMode now).commandSeqCounter = (c.commandSeqCounter + 1) % U32 ∧
      (c.exitSetMode now).haDesired = MotionState.IDLE ∧
      (c.exitSetMode now).haClearedLocally = true ∧
      (c.exitSetMode now).haCommandSeq = c.haCommandSeq ∧
      (c.exitSetMode now).setModeActive = false ∧
      (c.exitSetMode now).analogEdgeArmed = decide (c.analogCtlState = MotionState.IDLE) ∧
      (c.exitSetMode now).lastAnalogEffective = c.lastAnalogEffective := by
  unfold exitSetMode
  rw [if_neg (by rw [h]; decide)]
  exact ⟨rfl, rfl, rfl, rfl, rfl, rfl, rfl, rfl, rfl⟩

theorem enterSetMode_effective (c : Controller) (now : Nat) :
    (c.enterSetMode now).lastAnalogEffective = c.lastAnalogEffective ∨
      (c.enterSetMode now).lastAnalogEffective = MotionState.IDLE := by
  rcases Bool.eq_false_or_eq_true c.setModeActive with h | h
  · left; unfold enterSetMode; rw [if_pos h]
  · exact Or.inr (enterSetMode_enters c now h).2.2.2.2.2.2.2.2

theorem exitSetMode_effective (c : Controller) (now : Nat) :
    (c.exitSetMode now).lastAnalogEffective = c.lastAnalogEffective := by
  rcases Bool.eq_false_or_eq_true c.setModeActive with h | h
  · exact (exitSetMode_exits c now h).2.2.2.2.2.2.2.2
  · unfold exitSetMode; rw [if_pos (by rw [h]; decide)]

theorem toggleSimulationMode_effective (c : Controller) (now : Nat) (pinLow : Bool) :
    (c.toggleSimulationMode now pinLow).lastAnalogEffective = c.lastAnalogEffective ∧
      (c.toggleSimulationMode now pinLow).setModeActive = c.setModeActive := by
  unfold toggleSimulationMode applySimulationMode resetMqttSetModeStreak
  split_ifs <;> exact ⟨rfl, rfl⟩

/-- A queued command leaves the effective switch state alone or makes it Idle. -/
theorem handleHaCommand_effective (c : Controller) (cmd : HaCommand) (now : Nat)
    (pinLow : Bool) :
    (c.handleHaCommand cmd now pinLow).lastAnalogEffective = c.lastAnalogEffective ∨
      (c.handleHaCommand cmd now pinLow).lastAnalogEffective = MotionState.IDLE := by
  cases cmd
  · exact Or.inl rfl
  · exact Or.inl rfl
  · unfold handleHaCommand
    dsimp only
    by_cases h1 : c.mqttSetModeStreak < 255
    · rw [if_pos h1]
      by_cases h2 : c.mqttSetModeStreak + 1 ≥ MQTT_TOGGLE_THRESHOLD
      · rw [if_pos h2]
        rcases enterSetMode_effective
          (({ c with mqttSetModeStreak := c.mqttSetModeStreak + 1 } : Controller).toggleSimulationMode
            now pinLow) now with g | g
        · exact Or.inl (g.trans (toggleSimulationMode_effective _ now pinLow).1)
        · exact Or.inr g
      · rw [if_neg h2]
        exact enterSetMode_effective _ now
    · rw [if_neg h1]
      exact enterSetMode_effective c now
  · exact Or.inl (exitSetMode_effective _ now)
  · exact Or.inl rfl

theorem foldl_handle_effective (now : Nat) (pinLow : Bool) :
    ∀ (q : List HaCommand) (c : Controller), c.lastAnalogEffective = MotionState.IDLE →
      (q.foldl (fun a cmd => a.handleHaCommand cmd now pinLow) c).lastAnalogEffective =
        MotionState.IDLE
  | [], _, h => h
  | cmd :: q, c, h => by
    rw [List.foldl_cons]
    refine foldl_handle_effective now pinLow q _ ?_
    rcases handleHaCommand_effective c cmd now pinLow with g | g
    · exact g.trans h
    · exact g

/-- An Idle effective switch state after the wall-switch step is Idle at the
end of the pass. -/
theorem loop_effective_idle (c : Controller) (i : CycleInput)
    (h : (c.analogStep i.analogRaw).lastAnalogEffective = MotionState.IDLE) :
    (c.loop i).lastAnalogEffective = MotionState.IDLE := by
  have p := foldl_handle_effective i.now i.pinLow (c.analogStep i.analogRaw).cmdQueue
    { c.analogStep i.analogRaw with cmdQueue := [] } h
  rw [← processHaCommands_eq] at p
  have q : (c.preArbitration i).lastAnalogEffective = MotionState.IDLE := by
    unfold preArbitration
    rw [(haStep_effective _).1]
    exact p
  rw [(loop_fields_standing c i).2.2.1, (arbitrate_kept _ _).2.2.1]
  exact q

/-- While the switch is away from Neutral, a disarmed edge logic with an Idle
effective state stays so, whatever else the passes take in. -/
theorem loops_unarmed : ∀ (is : List CycleInput) (c : Controller),
    c.analogEdgeArmed = false → c.lastAnalogEffective = MotionState.IDLE →
    (∀ i ∈ is, i.analogRaw ≠ MotionState.IDLE) →
    (loops c is).analogEdgeArmed = false ∧ (loops c is).lastAnalogEffective = MotionState.IDLE
  | [], _, hd, he, _ => ⟨hd, he⟩
  | i :: is, c, hd, he, h => by
    have hraw := h i (List.mem_cons_self _ _)
    obtain ⟨_, _, u3, u4, _⟩ := analogStep_unarmed c i.analogRaw hraw hd he
    exact loops_unarmed is (c.loop i) (loop_disarmed c i hraw u3) (loop_effective_idle c i u4)
      (fun x hx => h x (List.mem_cons_of_mem _ hx))

/-- While the switch is away from Neutral, no message arrives and no panic is
latched, a controller on which nothing is commanded stays so. -/
theorem loops_held_idle : ∀ (is : List CycleInput) (c : Controller),
    c.analogEdgeArmed = false → c.lastAnalogEffective = MotionState.IDLE → HaQuiet c →
    c.analogCommandSeq = 0 → c.cmdQueue = [] → c.commandedMotion = MotionState.IDLE →
    c.setModeActive = false → c.lastAnalogRaw ≠ MotionState.IDLE →
    (∀ i ∈ is, i.analogRaw ≠ MotionState.IDLE) → (∀ i ∈ is, i.mqttIn = []) →
    (∀ k, k ≤ is.length → (loops c (is.take k)).panicLatched = false) →
    (loops c is).analogEdgeArmed = false ∧
      (loops c is).lastAnalogEffective = MotionState.IDLE ∧ HaQuiet (loops c is) ∧
      (loops c is).analogCommandSeq = 0 ∧ (loops c is).cmdQueue = [] ∧
      (loops c is).commandedMotion = MotionState.IDLE ∧
      (loops c is).setModeActive = false ∧ (loops c is).lastAnalogRaw ≠ MotionState.IDLE
  | [], _, hd, he, hq, hs, hc, hm, hset, hlr, _, _, _ => ⟨hd, he, hq, hs, hc, hm, hset, hlr⟩
  | i :: is, c, hd, he, hq, hs, hc, hm, hset, hlr, hraw, hmsg, hpan => by
    have hr := hraw i (List.mem_cons_self _ _)
    obtain ⟨u1, _, u3, u4, u5⟩ := analogStep_unarmed c i.analogRaw hr hd he
    have hs2 : (c.analogStep i.analogRaw).analogCommandSeq = 0 := by
      have e := u1
      simp only [seqView, Prod.mk.injEq] at e
      exact e.2.1.trans hs
    obtain ⟨l1, l2, l3, l4, l5, l6, l7, l8, _⟩ := loop_coasting c i hq hs2 hc
      (hpan 0 (Nat.zero_le _)) (hmsg i (List.mem_cons_self _ _))
      (hpan 1 (Nat.succ_le_succ (Nat.zero_le _)))
    exact loops_held_idle is (c.loop i) (l4.trans u3) (l6.trans u4) l1 l2 l3 (l8 hm)
      (l7.trans hset) (by rw [l5, u5]; exact hr)
      (fun x hx => hraw x (List.mem_cons_of_mem _ hx))
      (fun x hx => hmsg x (List.mem_cons_of_mem _ hx))
      (fun k hk => hpan (k + 1) (Nat.succ_le_succ hk))

/-- The wall-switch step when the switch comes back to Neutral with nothing
latched: the edge logic is armed and nothing else happens. -/
theorem analogStep_rearm (c : Controller) (hlr : c.lastAnalogRaw ≠ MotionState.IDLE)
    (he : c.lastAnalogEffective = MotionState.IDLE) :
    seqView (c.analogStep MotionState.IDLE) = seqView c ∧
      (c.analogStep MotionState.IDLE).analogEdgeArmed = true ∧
      (c.analogStep MotionState.IDLE).lastAnalogRaw = MotionState.IDLE ∧
      (c.analogStep MotionState.IDLE).lastAnalogEffective = MotionState.IDLE := by
  obtain ⟨r1, _, _, _, _, _, r7, r8, _⟩ := analogRead_effect c MotionState.IDLE
  have hstep : c.analogStep MotionState.IDLE =
      ({ c.analogRead MotionState.IDLE with
        lastAnalogRaw := MotionState.IDLE, analogEdgeArmed := true }).analogLatch
          MotionState.IDLE := by
    rw [analogStep_eq]
    rcases analogEdge_cases (c.analogRead MotionState.IDLE) MotionState.IDLE with
      ⟨g, _⟩ | ⟨_, _, g⟩ | ⟨_, g, _⟩ | ⟨_, g, _⟩
    · exact absurd (g.trans r7).symm hlr
    · exact g
    · exact absurd rfl g
    · exact absurd rfl g
  have hl := (analogLatch_idle
    { c.analogRead MotionState.IDLE with
      lastAnalogRaw := MotionState.IDLE, analogEdgeArmed := true }).1 (r8.trans he)
  rw [hstep, hl]
  exact ⟨r1, rfl, rfl, r8.trans he⟩

/-- C35. After a boot with the wall switch away from Neutral, for as long as
the switch has not been at Neutral: whatever else the passes take in, the
wall-switch step of a further pass with the switch away from Neutral issues no
sequence number and leaves the wall-switch latch alone; and when no message
has arrived and no panic was latched after any pass, the wall-switch sequence
number is 0 and
the commanded direction Idle.  After a pass that then finds the switch at
Neutral, the first switch state away from Neutral is latched as a direction. -/
theorem C35_held_switch_at_boot (b : BootInput) (is : List CycleInput) (n : CycleInput)
    (raw d : MotionState) (hb : b.analogAtBoot ≠ MotionState.IDLE)
    (hraw : ∀ i ∈ is, i.analogRaw ≠ MotionState.IDLE) (hr : raw ≠ MotionState.IDLE) :
    seqView ((loops (setup b) is).analogStep raw) = seqView (loops (setup b) is) ∧
    ((loops (setup b) is).analogStep raw).analogLatched = (loops (setup b) is).analogLatched ∧
    ((∀ i ∈ is, i.mqttIn = []) →
      (∀ k, k ≤ is.length → (loops (setup b) (is.take k)).panicLatched = false) →
      (loops (setup b) is).analogCommandSeq = 0 ∧
      (loops (setup b) is).commandedMotion = MotionState.IDLE ∧
      (n.analogRaw = MotionState.IDLE → n.mqttIn = [] →
        ((loops (setup b) is).loop n).panicLatched = false → d ≠ MotionState.IDLE →
        latchesDirection ((loops (setup b) is).loop n) d ∧
          (((loops (setup b) is).loop n).analogStep d).analogLatched = d)) := by
  have h0 : (setup b).analogEdgeArmed = false := decide_eq_false hb
  obtain ⟨j1, j2⟩ := loops_unarmed is (setup b) h0 rfl hraw
  obtain ⟨u1, u2, _⟩ := analogStep_unarmed (loops (setup b) is) raw hr j1 j2
  refine ⟨u1, u2, fun hmsg hpan => ?_⟩
  obtain ⟨k1, k2, k3, k4, k5, k6, k7, k8⟩ := loops_held_idle is (setup b) h0 rfl
    ⟨rfl, rfl, rfl, rfl⟩ rfl rfl rfl rfl hb hraw hmsg hpan
  refine ⟨k4, k6, fun hn hm hend hd => ?_⟩
  have hpl : (loops (setup b) is).panicLatched = false := by
    have := hpan is.length (le_refl _)
    rw [List.take_length] at this
    exact this
  have hre : seqView ((loops (setup b) is).analogStep n.analogRaw) =
        seqView (loops (setup b) is) ∧
      ((loops (setup b) is).analogStep n.analogRaw).analogEdgeArmed = true ∧
      ((loops (setup b) is).analogStep n.analogRaw).lastAnalogRaw = MotionState.IDLE ∧
      ((loops (setup b) is).analogStep n.analogRaw).lastAnalogEffective = MotionState.IDLE := by
    rw [hn]
    exact analogStep_rearm (loops (setup b) is) k8 k2
  obtain ⟨a1, a2, a3, a4⟩ := hre
  have hs2 : ((loops (setup b) is).analogStep n.analogRaw).analogCommandSeq = 0 := by
    have e := a1
    simp only [seqView, Prod.mk.injEq] at e
    exact e.2.1.trans k4
  obtain ⟨_, _, _, l4, l5, l6, l7, _⟩ := loop_coasting (loops (setup b) is) n k3 hs2 k5 hpl hm
    hend
  have hacc := analogStep_accept ((loops (setup b) is).loop n) d hd (l4.trans a2)
    (l5.trans a3) (l6.trans a4) (l7.trans k7)
  have hlat : (((loops (setup b) is).loop n).analogStep d).analogLatched = d := by rw [hacc]
  have hcnt : (((loops (setup b) is).loop n).analogStep d).commandSeqCounter =
      (((loops (setup b) is).loop n).commandSeqCounter + 1) % U32 := by rw [hacc]
  refine ⟨⟨?_, ?_⟩, hlat⟩
  · rw [hcnt]; exact seq_next_ne _
  · rw [hlat]; exact hd

/-- C35, instance: boot with the switch on Closing; it is held on Closing, put
on Opening, returned to Neutral (pass at 1200 ms) and put on Opening again:
nothing is latched before, and that Opening is latched. -/
theorem C35_held_switch_at_boot_witness :
    bootHeld.analogAtBoot ≠ MotionState.IDLE ∧
      (loops (setup bootHeld) [switchInput 1000 MotionState.CLOSING,
        switchInput 1100 MotionState.OPENING]).analogCommandSeq = 0 ∧
      (loops (setup bootHeld) [switchInput 1000 MotionState.CLOSING,
        switchInput 1100 MotionState.OPENING]).commandedMotion = MotionState.IDLE ∧
      latchesDirection ((loops (setup bootHeld) [switchInput 1000 MotionState.CLOSING,
        switchInput 1100 MotionState.OPENING]).loop (quietInput 1200)) MotionState.OPENING :=
  ⟨by decide,
    ((C35_held_switch_at_boot bootHeld
      [switchInput 1000 MotionState.CLOSING, switchInput 1100 MotionState.OPENING]
      (quietInput 1200) MotionState.CLOSING MotionState.OPENING (by decide) (by decide)
      (by decide)).2.2 (by decide) (by decide)).1,
    ((C35_held_switch_at_boot bootHeld
      [switchInput 1000 MotionState.CLOSING, switchInput 1100 MotionState.OPENING]
      (quietInput 1200) MotionState.CLOSING MotionState.OPENING (by decide) (by decide)
      (by decide)).2.2 (by decide) (by decide)).2.1,
    (((C35_held_switch_at_boot bootHeld
      [switchInput 1000 MotionState.CLOSING, switchInput 1100 MotionState.OPENING]
      (quietInput 1200) MotionState.CLOSING MotionState.OPENING (by decide) (by decide)
      (by decide)).2.2 (by decide) (by decide)).2.2 (by decide) (by decide) (by decide)
      (by decide)).1⟩

end Controller

set_option maxRecDepth 100000
/-! ### Calibration mode and the latched commands -/

namespace Controller

/-- In calibration mode the wall-switch step latches no direction, and a
switch away from Neutral leaves the edge logic disarmed. -/
theorem analogStep_setMode (c : Controller) (raw : MotionState) (h : c.setModeActive = true) :
    ¬ latchesDirection c raw ∧
      (raw ≠ MotionState.IDLE → (c.analogStep raw).analogEdgeArmed = false) ∧
      ((c.analogStep raw).analogLatched = c.analogLatched ∨
        (c.analogStep raw).analogLatched = MotionState.IDLE) := by
  obtain ⟨r1, _, _, _, _, _, _, _, r9, r10⟩ := analogRead_effect c raw
  have harm : (c.analogRead raw).analogEdgeArmed = false := by
    rw [r10, if_pos h]
  have hcnt : (c.analogRead raw).commandSeqCounter = c.commandSeqCounter := by
    have e := r1
    simp only [seqView, Prod.mk.injEq] at e
    exact e.1
  have key : ∀ d : Controller, d.commandSeqCounter = c.commandSeqCounter →
      d.analogLatched = c.analogLatched →
      ¬ ((d.analogLatch MotionState.IDLE).commandSeqCounter ≠ c.commandSeqCounter ∧
          (d.analogLatch MotionState.IDLE).analogLatched ≠ MotionState.IDLE) ∧
        ((d.analogLatch MotionState.IDLE).analogLatched = c.analogLatched ∨
          (d.analogLatch MotionState.IDLE).analogLatched = MotionState.IDLE) := by
    intro d hd1 hd2
    rcases (analogLatch_effect d MotionState.IDLE).2.2.2.2.2.2.2.2 with ⟨g1, g2⟩ | ⟨g, _⟩
    · exact ⟨fun hh => hh.1 (g1.trans hd1), Or.inl (g2.trans hd2)⟩
    · exact ⟨fun hh => hh.2 g, Or.inr g⟩
  unfold latchesDirection
  rw [analogStep_eq]
  rcases analogEdge_cases (c.analogRead raw) raw with
    ⟨_, g⟩ | ⟨_, hr, g⟩ | ⟨_, _, ha, _⟩ | ⟨_, _, _, g⟩
  · rw [g]
    exact ⟨fun hh => hh.1 hcnt, fun _ => harm, Or.inl r9⟩
  · rw [g]
    obtain ⟨k1, k2⟩ := key
      { c.analogRead raw with lastAnalogRaw := raw, analogEdgeArmed := true } hcnt r9
    exact ⟨k1, fun hne => absurd hr hne, k2⟩
  · rw [harm] at ha; cases ha
  · rw [g]
    obtain ⟨k1, k2⟩ := key { c.analogRead raw with lastAnalogRaw := raw } hcnt r9
    exact ⟨k1, fun _ => (analogLatch_effect _ _).2.2.2.2.2.2.2.1.trans harm, k2⟩

/-- C40. In calibration mode the wall-switch step of a pass never latches a
non-idle direction, whatever the switch state and whatever the state of the
edge logic before: the wall-switch latch is left alone or set to Idle, and a
switch away from Neutral leaves the edge logic disarmed. -/
theorem C40_calibration_disarms_switch (c : Controller) (raw : MotionState)
    (h : c.setModeActive = true) :
    ¬ latchesDirection c raw ∧
      (raw ≠ MotionState.IDLE → (c.analogStep raw).analogEdgeArmed = false) ∧
      ((c.analogStep raw).analogLatched = c.analogLatched ∨
        (c.analogStep raw).analogLatched = MotionState.IDLE) :=
  analogStep_setMode c raw h

/-- C40, instance: in calibration mode with the edge logic armed, the switch
put on Closing latches nothing. -/
theorem C40_calibration_disarms_switch_witness :
    calibrating.setModeActive = true ∧ calibrating.analogEdgeArmed = true ∧
      ¬ latchesDirection calibrating MotionState.CLOSING ∧
      (calibrating.analogStep MotionState.CLOSING).analogEdgeArmed = false :=
  ⟨by decide, by decide,
    (C40_calibration_disarms_switch calibrating MotionState.CLOSING (by decide)).1,
    (C40_calibration_disarms_switch calibrating MotionState.CLOSING (by decide)).2.1
      (by decide)⟩

/-- With the automation's desired direction cleared locally and an Idle
wall-switch command that carries the higher sequence number, the pass resolves
Idle. -/
theorem cleared_resolves_idle (d : Controller) (t : Nat)
    (h1 : d.haDesired = MotionState.IDLE) (h2 : d.haClearedLocally = true)
    (h3 : d.analogLatched = MotionState.IDLE) (h4 : d.haCommandSeq < d.analogCommandSeq) :
    d.haStep.selectCommand.2 = MotionState.IDLE ∧
      (d.haStep.arbitrate t).commandedMotion = MotionState.IDLE := by
  obtain ⟨g1, g2, _⟩ := haStep_cleared_frame d h1 h2
  simp only [seqView, Prod.mk.injEq] at g1
  have hsel : d.haStep.selectCommand.2 = MotionState.IDLE := by
    rcases Bool.eq_false_or_eq_true d.haStep.panicLatched with hp | hp
    · rw [selectCommand_panic _ hp]
    · rw [selectCommand_wall _ hp (by rw [g1.2.1, g1.2.2]; exact h4)]
      exact g2.trans h3
  refine ⟨hsel, ?_⟩
  rw [arbitrate_commandedMotion, hsel]
  exact limitStep_idle _ _ _

/-- C36. As long as the sequence counter has not wrapped: entering calibration
mode from outside, and leaving it, sets the wall-switch latch to Idle with the
next sequence number, which is above the automation's, and clears the
automation's desired direction; the automation step and the arbitration that
follow select Idle and the commanded direction is Idle, whatever was latched or
commanded before. -/
theorem C36_set_mode_clears_commands (c : Controller) (now t : Nat)
    (hfresh : c.haCommandSeq ≤ c.commandSeqCounter) (hb : c.commandSeqCounter + 1 < U32) :
    (c.setModeActive = false →
      (c.enterSetMode now).analogLatched = MotionState.IDLE ∧
      (c.enterSetMode now).analogCommandSeq = c.commandSeqCounter + 1 ∧
      (c.enterSetMode now).commandSeqCounter = c.commandSeqCounter + 1 ∧
      (c.enterSetMode now).haDesired = MotionState.IDLE ∧
      (c.enterSetMode now).haStep.selectCommand.2 = MotionState.IDLE ∧
      ((c.enterSetMode now).haStep.arbitrate t).commandedMotion = MotionState.IDLE) ∧
    (c.setModeActive = true →
      (c.exitSetMode now).analogLatched = MotionState.IDLE ∧
      (c.exitSetMode now).analogCommandSeq = c.commandSeqCounter + 1 ∧
      (c.exitSetMode now).commandSeqCounter = c.commandSeqCounter + 1 ∧
      (c.exitSetMode now).haDesired = MotionState.IDLE ∧
      (c.exitSetMode now).haStep.selectCommand.2 = MotionState.IDLE ∧
      ((c.exitSetMode now).haStep.arbitrate t).commandedMotion = MotionState.IDLE) := by
  have hmod : (c.commandSeqCounter + 1) % U32 = c.commandSeqCounter + 1 := Nat.mod_eq_of_lt hb
  constructor
  · intro h
    obtain ⟨e1, e2, e3, e4, e5, e6, _⟩ := enterSetMode_enters c now h
    rw [hmod] at e2 e3
    obtain ⟨r1, r2⟩ := cleared_resolves_idle (c.enterSetMode now) t e4 e5 e1
      (by rw [e6, e2]; exact Nat.lt_succ_of_le hfresh)
    exact ⟨e1, e2, e3, e4, r1, r2⟩
  · intro h
    obtain ⟨e1, e2, e3, e4, e5, e6, _⟩ := exitSetMode_exits c now h
    rw [hmod] at e2 e3
    obtain ⟨r1, r2⟩ := cleared_resolves_idle (c.exitSetMode now) t e4 e5 e1
      (by rw [e6, e2]; exact Nat.lt_succ_of_le hfresh)
    exact ⟨e1, e2, e3, e4, r1, r2⟩

/-- C36, instance: the automation has commanded Opening (sequence number 1);
entering calibration mode at 1200 ms latches Idle for the wall switch with
sequence number 2 and the commanded direction is Idle; so it is when
calibration mode is left at 1300 ms. -/
theorem C36_set_mode_clears_commands_witness :
    openingAsked.commandedMotion = MotionState.OPENING ∧
      (openingAsked.enterSetMode 1200).analogCommandSeq = 1 + 1 ∧
      ((openingAsked.enterSetMode 1200).haStep.arbitrate 1200).commandedMotion =
        MotionState.IDLE ∧
      (calibrating.exitSetMode 1300).haDesired = MotionState.IDLE ∧
      ((calibrating.exitSetMode 1300).haStep.arbitrate 1300).commandedMotion =
        MotionState.IDLE :=
  ⟨by decide,
    ((C36_set_mode_clears_commands openingAsked 1200 1200 (by decide) (by decide)).1
      (by decide)).2.1,
    ((C36_set_mode_clears_commands openingAsked 1200 1200 (by decide) (by decide)).1
      (by decide)).2.2.2.2.2,
    ((C36_set_mode_clears_commands calibrating 1300 1300 (by decide) (by decide)).2
      (by decide)).2.2.2.1,
    ((C36_set_mode_clears_commands calibrating 1300 1300 (by decide) (by decide)).2
      (by decide)).2.2.2.2.2⟩

/-- C31. After `onMqttSetMaxRuntime(s)` the configured maximum runtime is `s`
limited to the range from 30 to 1800 seconds: 30 when `s < 30`, 1800 when
`s > 1800`, `s` otherwise. -/
theorem C31_max_runtime_clamped (c : Controller) (s now : Nat) :
    (c.onMqttSetMaxRuntime s now).safetyMaxRunSeconds =
        (if s < 30 then 30 else if s > 1800 then 1800 else s) ∧
      (s < 30 → (c.onMqttSetMaxRuntime s now).safetyMaxRunSeconds = 30) ∧
      (1800 < s → (c.onMqttSetMaxRuntime s now).safetyMaxRunSeconds = 1800) ∧
      (30 ≤ s → s ≤ 1800 → (c.onMqttSetMaxRuntime s now).safetyMaxRunSeconds = s) ∧
      30 ≤ (c.onMqttSetMaxRuntime s now).safetyMaxRunSeconds ∧
      (c.onMqttSetMaxRuntime s now).safetyMaxRunSeconds ≤ 1800 := by
  have key : (c.onMqttSetMaxRuntime s now).safetyMaxRunSeconds =
      (if s < 30 then 30 else if s > 1800 then 1800 else s) := by
    unfold onMqttSetMaxRuntime
    dsimp only
    generalize (if s < 30 then 30 else if s > 1800 then 1800 else s) = k
    by_cases h : k = c.safetyMaxRunSeconds
    · rw [if_pos h]; exact h.symm
    · rw [if_neg h]
      unfold persistSafetyMaxRunSeconds resetSafetyRuntime
      dsimp only
      split_ifs <;> rfl
  rw [key]
  refine ⟨rfl, fun h => ?_, fun h => ?_, fun h1 h2 => ?_, ?_, ?_⟩
  · rw [if_pos h]
  · rw [if_neg (by omega), if_pos h]
  · rw [if_neg (by omega), if_neg (by omega)]
  · split_ifs <;> omega
  · split_ifs <;> omega

end Controller

set_option maxRecDepth 100000
/-! ### The no-movement guard after the first movement -/

namespace Controller

/-- The guard step of a pass that continues a run writes none of the fields of
the no-movement guard, unless it cuts the relays. -/
theorem guardStep_continues (c : Controller) (now : Nat)
    (hr : c.relays.current ≠ MotionState.IDLE) (h4 : c.driveActive = true)
    (h5 : c.lastRelay ≠ MotionState.IDLE)
    (hon : (c.guardStep now).relays.current ≠ MotionState.IDLE) :
    stallView (c.guardStep now) =
      (c.noClickMonitorActive, c.noClickStartMs, c.noClickPosAtEnable, c.driveActive,
        c.relays.current) := by
  have hc : stallView (c.guardCount now) = stallView c := by
    unfold guardCount
    by_cases h0 : c.driveLastUpdateMs = 0 <;> simp [hr, h4, h5, h0, stallView]
  have hb : stallView (c.guardBookkeeping now) =
      (c.noClickMonitorActive, c.noClickStartMs, c.noClickPosAtEnable, c.driveActive,
        c.relays.current) := by
    have e : stallView (c.guardBookkeeping now) =
        ((c.guardCount now).noClickMonitorActive, (c.guardCount now).noClickStartMs,
          (c.guardCount now).noClickPosAtEnable, (c.guardCount now).driveActive,
          c.relays.current) := by
      unfold guardBookkeeping noteRelay
      rw [guardCount_relays]
      split_ifs with h
      · rfl
      · rw [not_not] at h; simp [stallView, h]
    rw [e]
    simp only [stallView, Prod.mk.injEq] at hc
    rw [hc.1, hc.2.1, hc.2.2.1, hc.2.2.2.1]
  have hg : c.guardStep now = c.guardBookkeeping now := by
    rcases maxRuntimeCheck_cases (c.guardBookkeeping now) now with h | h
    · exact h
    · exact absurd h hon
  rw [hg, hb]

/-- A disarmed guard makes the no-movement check do nothing. -/
theorem noClickCheck_disarmed (c : Controller) (now : Nat)
    (h : c.noClickMonitorActive = false) : c.noClickCheck now = c := by
  unfold noClickCheck
  rw [if_neg (by rw [h]; decide)]

/-- The no-movement check on an armed guard when the position has changed: the
guard is disarmed and nothing else happens. -/
theorem noClickCheck_moved (c : Controller) (now : Nat) (h : c.noClickMonitorActive = true)
    (hm : c.clicks.position ≠ c.noClickPosAtEnable) :
    stallView (c.noClickCheck now) =
        (false, c.noClickStartMs, c.noClickPosAtEnable, c.driveActive, c.lastRelay) ∧
      (c.noClickCheck now).panicLog = c.panicLog := by
  unfold noClickCheck
  rw [if_pos h, if_pos hm]
  exact ⟨rfl, rfl⟩

/-- When the relays are still driven at the end of the pass, the pass after the
no-movement check leaves the guard alone. -/
theorem pass_end_after_check (c : Controller) (i : CycleInput)
    (hon : (c.loop i).relays.current ≠ MotionState.IDLE) :
    stallView (c.loop i) = stallView ((c.beforeNoClick i).noClickCheck i.now) ∧
      (c.loop i).panicLog = ((c.beforeNoClick i).noClickCheck i.now).panicLog := by
  rw [loop_eq] at hon ⊢
  rw [(rebootCheck_frame _ _).2, (foldl_mqtt_frame _ _ _).2] at hon
  have hlog : ∀ a : Controller, (a.rebootCheck i.now).panicLog = a.panicLog := by
    intro a; unfold rebootCheck; split_ifs <;> rfl
  rw [(rebootCheck_frame _ _).1, (foldl_mqtt_frame _ _ _).1, hlog, foldl_mqtt_panicLog]
  rcases rangePanicCheck_cases ((c.beforeNoClick i).noClickCheck i.now) i.now with h | h
  · rw [h]; exact ⟨rfl, rfl⟩
  · exact absurd h hon

/-- In a pass that continues a run with the guard disarmed, the guard is
disarmed at the no-movement check, and the run is still counted as going on. -/
theorem runningPass_before (c : Controller) (i : CycleInput)
    (hm : c.noClickMonitorActive = false) (hd : c.driveActive = true)
    (hl : c.lastRelay ≠ MotionState.IDLE) (hpass : RunningPass c i) :
    (c.beforeNoClick i).noClickMonitorActive = false ∧
      (c.beforeNoClick i).driveActive = true ∧
      (c.beforeNoClick i).lastRelay ≠ MotionState.IDLE ∧
      (c.beforeNoClick i).panicLog = c.panicLog := by
  obtain ⟨hr, hb⟩ := hpass
  have hs := commandPhase_stallView c i
  simp only [stallView, Prod.mk.injEq] at hs
  have hfr := trackerPhase_frame ((c.commandPhase i).guardStep i.now) i
    (c.commandPhase i).relays.current
  have hon : ((c.commandPhase i).guardStep i.now).relays.current ≠ MotionState.IDLE := by
    rw [← hfr.2.1]; exact hb
  have hk := guardStep_continues (c.commandPhase i) i.now hr (hs.2.2.2.1.trans hd)
    (by rw [hs.2.2.2.2]; exact hl) hon
  have hg : (c.commandPhase i).guardStep i.now = (c.commandPhase i).guardBookkeeping i.now := by
    rcases maxRuntimeCheck_cases ((c.commandPhase i).guardBookkeeping i.now) i.now with h | h
    · exact h
    · exact absurd h hon
  have hlog : ((c.commandPhase i).guardStep i.now).panicLog = (c.commandPhase i).panicLog := by
    rw [hg]; unfold guardBookkeeping; simp
  have hv : stallView (c.beforeNoClick i) =
      ((c.commandPhase i).noClickMonitorActive, (c.commandPhase i).noClickStartMs,
        (c.commandPhase i).noClickPosAtEnable, (c.commandPhase i).driveActive,
        (c.commandPhase i).relays.current) := by
    unfold beforeNoClick
    rw [hfr.1, hk]
  simp only [stallView, Prod.mk.injEq] at hv
  refine ⟨hv.1.trans (hs.1.trans hm), hv.2.2.2.1.trans (hs.2.2.2.1.trans hd), ?_, ?_⟩
  · rw [hv.2.2.2.2]; exact hr
  · unfold beforeNoClick
    rw [hfr.2.2.2, hlog, commandPhase_panicLog]

/-- One more pass of a continuous run with the guard disarmed: the check does
nothing, no panic is raised in the pass, the guard stays disarmed. -/
theorem runningPass_step (c : Controller) (i : CycleInput)
    (hm : c.noClickMonitorActive = false) (hd : c.driveActive = true)
    (hl : c.lastRelay ≠ MotionState.IDLE) (hpass : RunningPass c i)
    (hend : (c.loop i).relays.current ≠ MotionState.IDLE) :
    (c.loop i).noClickMonitorActive = false ∧ (c.loop i).driveActive = true ∧
      (c.loop i).lastRelay ≠ MotionState.IDLE ∧ (c.loop i).panicLog = c.panicLog := by
  obtain ⟨b1, b2, b3, b4⟩ := runningPass_before c i hm hd hl hpass
  obtain ⟨e1, e2⟩ := pass_end_after_check c i hend
  rw [noClickCheck_disarmed _ _ b1] at e1 e2
  simp only [stallView, Prod.mk.injEq] at e1
  exact ⟨e1.1.trans b1, e1.2.2.2.1.trans b2, by rw [e1.2.2.2.2]; exact b3, e2.trans b4⟩

/-- Along a continuous run the disarmed guard stays disarmed and no panic is
raised. -/
theorem continuousRun_invariant : ∀ (is : List CycleInput) (c : Controller),
    c.noClickMonitorActive = false → c.driveActive = true →
    c.lastRelay ≠ MotionState.IDLE → ContinuousRun c is →
    (loops c is).noClickMonitorActive = false ∧ (loops c is).driveActive = true ∧
      (loops c is).lastRelay ≠ MotionState.IDLE ∧ (loops c is).panicLog = c.panicLog
  | [], _, hm, hd, hl, _ => ⟨hm, hd, hl, rfl⟩
  | i :: is, c, hm, hd, hl, hrun => by
    obtain ⟨hpass, hend, hrest⟩ := hrun
    obtain ⟨s1, s2, s3, s4⟩ := runningPass_step c i hm hd hl hpass hend
    obtain ⟨r1, r2, r3, r4⟩ := continuousRun_invariant is (c.loop i) s1 s2 s3 hrest
    exact ⟨r1, r2, r3, r4.trans s4⟩

/-- C39. The no-movement guard, armed at time `t0` with position `p0`, stands
armed at the check of the pass `i0`, where the position read differs from `p0`.
The check then disarms the guard without raising a panic.  In the passes `is`
that continue the run (realized direction never Idle) and in a further pass
`iN` of it, the guard stays disarmed: the check of `iN` does nothing, whatever
the position it reads and however long the position has stood still, and no
panic was raised in the passes `is`. -/
theorem C39_guard_disarmed_after_movement (c0 : Controller) (i0 : CycleInput)
    (is : List CycleInput) (iN : CycleInput) (t0 : Nat) (p0 : Int)
    (hv : StalledSince t0 p0 (stallView (c0.beforeNoClick i0)))
    (hmoved : (c0.beforeNoClick i0).clicks.position ≠ p0)
    (hend : (c0.loop i0).relays.current ≠ MotionState.IDLE)
    (hrun : ContinuousRun (c0.loop i0) is)
    (hlast : RunningPass (loops c0 (i0 :: is)) iN) :
    ((c0.beforeNoClick i0).noClickCheck i0.now).noClickMonitorActive = false ∧
      ((c0.beforeNoClick i0).noClickCheck i0.now).panicLog = (c0.beforeNoClick i0).panicLog ∧
      (c0.loop i0).noClickMonitorActive = false ∧
      (loops c0 (i0 :: is)).noClickMonitorActive = false ∧
      (loops c0 (i0 :: is)).panicLog = (c0.loop i0).panicLog ∧
      ((loops c0 (i0 :: is)).beforeNoClick iN).noClickMonitorActive = false ∧
      ((loops c0 (i0 :: is)).beforeNoClick iN).noClickCheck iN.now =
        (loops c0 (i0 :: is)).beforeNoClick iN := by
  obtain ⟨h1, _, h3, h4, h5⟩ := hv
  simp only [stallView] at h1 h3 h4 h5
  have hne : (c0.beforeNoClick i0).clicks.position ≠ (c0.beforeNoClick i0).noClickPosAtEnable := by
    rw [h3]; exact hmoved
  obtain ⟨n1, n2⟩ := noClickCheck_moved (c0.beforeNoClick i0) i0.now h1 hne
  have e1 := (pass_end_after_check c0 i0 hend).1.trans n1
  simp only [stallView, Prod.mk.injEq] at e1 n1
  have hl : (c0.loop i0).lastRelay ≠ MotionState.IDLE := by rw [e1.2.2.2.2]; exact h5
  obtain ⟨r1, r2, r3, r4⟩ := continuousRun_invariant is (c0.loop i0) e1.1
    (e1.2.2.2.1.trans h4) hl hrun
  have hloops : loops c0 (i0 :: is) = loops (c0.loop i0) is := rfl
  rw [hloops] at hlast ⊢
  obtain ⟨b1, _⟩ := runningPass_before (loops (c0.loop i0) is) iN r1 r2 r3 hlast
  exact ⟨n1.1, n2, e1.1, r1, r4, b1, noClickCheck_disarmed _ _ b1⟩

/-- C39, instance: the enable relay closes in the pass at 3200 ms, with the
position at 100; one pulse arrives in the pass at 3400 ms and the guard is
disarmed there; the cover then stands still while the run goes on, and the
check of the pass at 20000 ms does nothing. -/
theorem C39_guard_disarmed_after_movement_witness :
    ((loops closingArmed [quietInput 3200]).beforeNoClick
        (moveInput 3400 [3300000, 3400000])).noClickMonitorActive = true ∧
      ((loops closingArmed [quietInput 3200]).beforeNoClick
        (moveInput 3400 [3300000, 3400000])).noClickPosAtEnable = 100 ∧
      ((loops closingArmed [quietInput 3200]).beforeNoClick
        (moveInput 3400 [3300000, 3400000])).clicks.position ≠ 100 ∧
      ((loops (loops closingArmed [quietInput 3200])
        [moveInput 3400 [3300000, 3400000], quietInput 5000, quietInput 9000]).beforeNoClick
          (quietInput 20000)).noClickCheck 20000 =
        (loops (loops closingArmed [quietInput 3200])
          [moveInput 3400 [3300000, 3400000], quietInput 5000, quietInput 9000]).beforeNoClick
            (quietInput 20000) :=
  ⟨by decide, by decide, by decide,
    (C39_guard_disarmed_after_movement (loops closingArmed [quietInput 3200])
      (moveInput 3400 [3300000, 3400000]) [quietInput 5000, quietInput 9000]
      (quietInput 20000) 3200 100
      ⟨by decide, by decide, by decide, by decide, by decide⟩ (by decide) (by decide)
      (by decide) (by decide)).2.2.2.2.2.2⟩

end Controller

/-! ### Motion start and the span of the tracker -/

namespace ClickCounter

/-- What `persistPos` leaves alone. -/
theorem cc_persistPos_frame (s : ClickCounter) (force : Bool) (now : Nat) :
    (s.persistPos force now).edgeCountIsr = s.edgeCountIsr ∧
      (s.persistPos force now).edgePhase = s.edgePhase ∧
      (s.persistPos force now).sensorExpectedLow = s.sensorExpectedLow ∧
      (s.persistPos force now).sensorLiveLow = s.sensorLiveLow ∧
      (s.persistPos force now).pos = s.pos ∧ (s.persistPos force now).endPos = s.endPos ∧
      (s.persistPos force now).simulate = s.simulate ∧
      (s.persistPos force now).lastIsrUs = s.lastIsrUs ∧
      (s.persistPos force now).motion = s.motion := by
  unfold persistPos
  split_ifs <;> exact ⟨rfl, rfl, rfl, rfl, rfl, rfl, rfl, rfl, rfl⟩

/-- In hardware mode `prepareForMotion` reads the live level, drops the edges
counted so far and resets the edge phase; position and span stay. -/
theorem cc_prepare_hardware (s : ClickCounter) (now : Nat) (pinLow : Bool)
    (hs : s.simulate = false) :
    (s.prepareForMotion now pinLow).edgeCountIsr = 0 ∧
      (s.prepareForMotion now pinLow).edgePhase = 0 ∧
      (s.prepareForMotion now pinLow).sensorExpectedLow = pinLow ∧
      (s.prepareForMotion now pinLow).sensorLiveLow = pinLow ∧
      (s.prepareForMotion now pinLow).pos = s.pos ∧
      (s.prepareForMotion now pinLow).endPos = s.endPos ∧
      (s.prepareForMotion now pinLow).simulate = false ∧
      (s.prepareForMotion now pinLow).lastIsrUs = 0 ∧
      (s.prepareForMotion now pinLow).motion = s.motion := by
  unfold prepareForMotion
  rw [if_neg (by rw [hs]; decide)]
  unfold refreshLiveLevel clearPendingEdges
  simp only [hs, Bool.false_eq_true, if_false]
  split_ifs
  · exact ⟨(cc_persistPos_frame _ true now).1, (cc_persistPos_frame _ true now).2.1,
      (cc_persistPos_frame _ true now).2.2.1, (cc_persistPos_frame _ true now).2.2.2.1,
      (cc_persistPos_frame _ true now).2.2.2.2.1, (cc_persistPos_frame _ true now).2.2.2.2.2.1,
      (cc_persistPos_frame _ true now).2.2.2.2.2.2.1,
      (cc_persistPos_frame _ true now).2.2.2.2.2.2.2.1,
      (cc_persistPos_frame _ true now).2.2.2.2.2.2.2.2⟩
  · exact ⟨rfl, rfl, rfl, rfl, rfl, rfl, rfl, rfl, rfl⟩

/-- In simulation `prepareForMotion` leaves position and span alone as well. -/
theorem cc_prepare_frame (s : ClickCounter) (now : Nat) (pinLow : Bool) :
    (s.prepareForMotion now pinLow).pos = s.pos ∧
      (s.prepareForMotion now pinLow).endPos = s.endPos := by
  rcases Bool.eq_false_or_eq_true s.simulate with h | h
  · unfold prepareForMotion
    rw [if_pos h]
    exact ⟨rfl, rfl⟩
  · obtain ⟨_, _, _, _, p5, p6, _⟩ := cc_prepare_hardware s now pinLow h
    exact ⟨p5, p6⟩

/-- The method `setMotion` writes neither the position nor the span. -/
theorem cc_setMotion_frame (s : ClickCounter) (m : MotionState) (now : Nat) (pinLow : Bool) :
    (s.setMotion m now pinLow).pos = s.pos ∧ (s.setMotion m now pinLow).endPos = s.endPos := by
  obtain ⟨p1, p2⟩ := cc_prepare_frame s now pinLow
  unfold setMotion
  dsimp only
  split_ifs <;> exact ⟨by first | exact p1 | rfl, by first | exact p2 | rfl⟩

/-- The method `setMotion` for a direction, called on an idle tracker in
hardware mode. -/
theorem cc_setMotion_start (s : ClickCounter) (m : MotionState) (now : Nat) (pinLow : Bool)
    (hs : s.simulate = false) (hi : s.motion = MotionState.IDLE) (hm : m ≠ MotionState.IDLE) :
    (s.setMotion m now pinLow).edgeCountIsr = 0 ∧ (s.setMotion m now pinLow).edgePhase = 0 ∧
      (s.setMotion m now pinLow).sensorExpectedLow = pinLow ∧
      (s.setMotion m now pinLow).sensorLiveLow = pinLow ∧
      (s.setMotion m now pinLow).simulate = false ∧ (s.setMotion m now pinLow).motion = m := by
  obtain ⟨p1, p2, p3, p4, _, _, p7, _⟩ := cc_prepare_hardware s now pinLow hs
  have e : s.setMotion m now pinLow =
      { ({ s.prepareForMotion now pinLow with
            lastActiveDirection := m, tailHoldUntil := 0 } : ClickCounter) with
          lastActiveDirection := m, motion := m } := by
    unfold setMotion
    simp only [hi, hm, ne_eq, not_false_eq_true, and_self, if_true]
  rw [e]
  exact ⟨p1, p2, p3, p4, p7, rfl⟩

/-- With no edge counted, taking in the edges in hardware mode leaves the
position alone. -/
theorem cc_drain_nothing (s : ClickCounter) (now : Nat) (hs : s.simulate = false)
    (he : s.edgeCountIsr = 0) : (s.drain now).pos = s.pos := by
  unfold drain
  rw [if_neg (by rw [hs]; decide)]
  unfold drainHardwareEdges
  dsimp only
  rw [if_pos he]

/-- C34. In hardware mode, `setMotion(m)` for a direction `m` on a tracker whose
direction is Idle leaves the count of pending edges at 0, the edge phase at 0,
the expected sensor level equal to the live level just read, `position()` and
`end()` unchanged and the direction `m`; the edges counted before the call are
dropped, so taking in the edges right after it leaves the position where it
was. -/
theorem C34_motion_start_drops_edges (s : ClickCounter) (m : MotionState) (now now2 : Nat)
    (pinLow : Bool) (hs : s.simulate = false) (hi : s.motion = MotionState.IDLE)
    (hm : m ≠ MotionState.IDLE) :
    (s.setMotion m now pinLow).edgeCountIsr = 0 ∧ (s.setMotion m now pinLow).edgePhase = 0 ∧
      (s.setMotion m now pinLow).sensorExpectedLow = (s.setMotion m now pinLow).sensorLiveLow ∧
      (s.setMotion m now pinLow).sensorLiveLow = pinLow ∧
      (s.setMotion m now pinLow).position = s.position ∧
      (s.setMotion m now pinLow).endOf = s.endOf ∧
      (s.setMotion m now pinLow).motion = m ∧
      ((s.setMotion m now pinLow).drain now2).position = s.position := by
  obtain ⟨a1, a2, a3, a4, a5, a6⟩ := cc_setMotion_start s m now pinLow hs hi hm
  obtain ⟨f1, f2⟩ := cc_setMotion_frame s m now pinLow
  exact ⟨a1, a2, a3.trans a4.symm, a4, f1, f2, a6,
    (cc_drain_nothing _ now2 a5 a1).trans f1⟩

/-- C34, instance: an idle tracker at position 100 with 5 edges counted and a
LOW sensor pin is told to close. -/
theorem C34_motion_start_drops_edges_witness :
    (trackerAt 100 MotionState.IDLE 5).edgeCountIsr = 5 ∧
      ((trackerAt 100 MotionState.IDLE 5).setMotion MotionState.CLOSING 1000 true).edgeCountIsr =
        0 ∧
      ((trackerAt 100 MotionState.IDLE 5).setMotion MotionState.CLOSING 1000
        true).sensorExpectedLow = true ∧
      (((trackerAt 100 MotionState.IDLE 5).setMotion MotionState.CLOSING 1000 true).drain
        1010).position = 100 :=
  ⟨by decide,
    (C34_motion_start_drops_edges (trackerAt 100 MotionState.IDLE 5) MotionState.CLOSING 1000
      1010 true (by decide) (by decide) (by decide)).1,
    (C34_motion_start_drops_edges (trackerAt 100 MotionState.IDLE 5) MotionState.CLOSING 1000
      1010 true (by decide) (by decide) (by decide)).2.2.1.trans
      (C34_motion_start_drops_edges (trackerAt 100 MotionState.IDLE 5) MotionState.CLOSING 1000
        1010 true (by decide) (by decide) (by decide)).2.2.2.1,
    (C34_motion_start_drops_edges (trackerAt 100 MotionState.IDLE 5) MotionState.CLOSING 1000
      1010 true (by decide) (by decide) (by decide)).2.2.2.2.2.2.2⟩

theorem cc_loadPos_end (s : ClickCounter) : (s.loadPos).endPos = s.endPos := by
  unfold loadPos
  dsimp only
  split_ifs <;> rfl

theorem cc_loadEnd_nonneg (s : ClickCounter) : 0 ≤ (s.loadEnd).endPos := by
  have hd : ¬ (DEFAULT_END < 0) := by unfold DEFAULT_END; decide
  have hd2 : (0 : Int) ≤ DEFAULT_END := by unfold DEFAULT_END; decide
  unfold loadEnd
  cases s.nvsEnd with
  | none =>
    dsimp only
    rw [if_neg hd]
    exact hd2
  | some e =>
    dsimp only
    by_cases h : e < 0
    · rw [if_pos h]; exact hd2
    · rw [if_neg h]; exact not_lt.mp h

/-- After `begin` the span is not negative: a stored negative span and a
missing store give the default 256. -/
theorem cc_begin_end (s : ClickCounter) (sim prefsOk : Bool) (now : Nat) (pinLow : Bool) :
    0 ≤ (s.begin sim prefsOk now pinLow).endPos := by
  have key : ∀ u : ClickCounter, 0 ≤ (u.loadFromNvs).endPos := by
    intro u
    unfold loadFromNvs
    rw [cc_loadPos_end]
    exact cc_loadEnd_nonneg u
  have hd2 : (0 : Int) ≤ DEFAULT_END := by unfold DEFAULT_END; decide
  cases prefsOk
  · unfold begin
    dsimp only
    simp only [Bool.false_eq_true, if_false, refreshLiveLevel]
    split_ifs <;> exact hd2
  · unfold begin
    dsimp only
    rw [if_pos rfl]
    generalize ha : ClickCounter.loadFromNvs _ = a
    have hk : 0 ≤ a.endPos := ha ▸ key _
    by_cases h1 : a.simulate = true
    · rw [if_pos h1]; exact hk
    · rw [if_neg h1]
      simp only [refreshLiveLevel]
      split_ifs <;> exact hk

/-- The method `update` never writes the span. -/
theorem cc_update_end (s : ClickCounter) (allow : Bool) (now : Nat) :
    (s.update allow now).endPos = s.endPos := by
  cases allow
  · exact (cc_update_false s now).1
  · unfold update
    have h1 := congrArg (·.1) (cc_finishUpdate_frame ((s.drain now).applyLimits true) now).1
    have h2 := congrArg (·.1) (cc_applyLimits_true (s.drain now))
    have h3 := congrArg (·.1) (cc_drain_limitsView s now)
    exact h1.trans (h2.trans h3)

/-- After `setOpenHere` the span is not negative. -/
theorem cc_setOpenHere_end (s : ClickCounter) (now : Nat) : 0 ≤ (s.setOpenHere now).endPos := by
  have key : ∀ (u : ClickCounter) (c : Prop) [Decidable c],
      0 ≤ ((if c then ({ u.clampCalibrationRange with panicFlag := false } : ClickCounter).persistEnd
        else { u.clampCalibrationRange with panicFlag := false }).persistPos true now).endPos := by
    intro u c _
    have h0 : 0 ≤ ({ u.clampCalibrationRange with panicFlag := false } : ClickCounter).endPos :=
      cc_clamp_end_nonneg u
    have e := cc_mark_tail _ c now h0
    simp only [calibView, Prod.mk.injEq] at e
    rw [e.2.1]
    exact h0
  unfold setOpenHere
  exact key _ _

/-- After `setClosedHere` the span is not negative. -/
theorem cc_setClosedHere_end (s : ClickCounter) (now : Nat) :
    0 ≤ (s.setClosedHere now).endPos := by
  have key : ∀ (u : ClickCounter) (c : Prop) [Decidable c],
      0 ≤ ((if c then ({ u.clampCalibrationRange with panicFlag := false } : ClickCounter).persistEnd
        else { u.clampCalibrationRange with panicFlag := false }).persistPos true now).endPos := by
    intro u c _
    have h0 : 0 ≤ ({ u.clampCalibrationRange with panicFlag := false } : ClickCounter).endPos :=
      cc_clamp_end_nonneg u
    have e := cc_mark_tail _ c now h0
    simp only [calibView, Prod.mk.injEq] at e
    rw [e.2.1]
    exact h0
  unfold setClosedHere
  exact key _ _

/-- After `finalizeCalibration` the span is not negative. -/
theorem cc_finalize_end (s : ClickCounter) (now : Nat) :
    0 ≤ (s.finalizeCalibration now).endPos := by
  obtain ⟨h0, _, hv⟩ := cc_finalize_calibView s now _ rfl
  obtain ⟨_, f2, _⟩ := calibView_fields _ _ _ _ _ _ _ _ _ _ _ hv
  rw [f2]
  exact h0

/-- C33. From a state with `end() >= 0`, `end() >= 0` holds after each of the
operations of the tracker: `begin` (which loads the span), `update` with either
argument, `setMotion`, `beginCalibration`, `setOpenHere`, `setClosedHere` and
`finalizeCalibration`.  For `begin`, the two marks and `finalizeCalibration`
this holds from every state, so also when `setOpenHere` shifts the frame by
more than the span. -/
theorem C33_span_never_negative (s : ClickCounter) (sim prefsOk allow pinLow : Bool)
    (m : MotionState) (now : Nat) (he : 0 ≤ s.endOf) :
    0 ≤ (s.begin sim prefsOk now pinLow).endOf ∧ 0 ≤ (s.update allow now).endOf ∧
      0 ≤ (s.setMotion m now pinLow).endOf ∧ 0 ≤ (s.beginCalibration).endOf ∧
      0 ≤ (s.setOpenHere now).endOf ∧ 0 ≤ (s.setClosedHere now).endOf ∧
      0 ≤ (s.finalizeCalibration now).endOf := by
  refine ⟨cc_begin_end s sim prefsOk now pinLow, ?_, ?_, he, cc_setOpenHere_end s now,
    cc_setClosedHere_end s now, cc_finalize_end s now⟩
  · show 0 ≤ (s.update allow now).endPos
    rw [cc_update_end]; exact he
  · show 0 ≤ (s.setMotion m now pinLow).endPos
    rw [(cc_setMotion_frame s m now pinLow).2]; exact he

/-- C33, instance: calibration is entered at position 1 of span 0; the open
mark there shifts the frame by more than the span, and the span stays 0. -/
theorem C33_span_never_negative_witness :
    0 ≤ (onePastZeroSpan.beginCalibration).endOf ∧
      (onePastZeroSpan.beginCalibration).endOf < (onePastZeroSpan.beginCalibration).position ∧
      0 ≤ ((onePastZeroSpan.beginCalibration).setOpenHere 2000).endOf :=
  ⟨by decide, by decide,
    (C33_span_never_negative onePastZeroSpan.beginCalibration false true true false
      MotionState.IDLE 2000 (by decide)).2.2.2.2.1⟩

end ClickCounter

/-! ### One pulse per update never raises the range panic -/

namespace ClickCounter

theorem cc_direction_phase (s : ClickCounter) (now : Nat) :
    (s.computeEffectiveDirection now).2.2.edgePhase = s.edgePhase ∧
      (s.computeEffectiveDirection now).2.2.pos = s.pos := by
  unfold computeEffectiveDirection
  split_ifs <;> exact ⟨rfl, rfl⟩

/-- The first edge of a pulse only flips the phase. -/
theorem cc_processEdge_first (s : ClickCounter) (now : Nat) (hp : s.edgePhase = 0) :
    (s.processEdge now).1.pos = s.pos ∧ (s.processEdge now).1.edgePhase = 1 := by
  unfold processEdge
  dsimp only
  rw [hp, if_neg (by decide)]
  exact ⟨rfl, rfl⟩

/-- The second edge of a pulse moves the position by at most one step. -/
theorem cc_processEdge_second (s : ClickCounter) (now : Nat) (hp : s.edgePhase = 1) :
    s.pos - 1 ≤ (s.processEdge now).1.pos ∧ (s.processEdge now).1.pos ≤ s.pos + 1 ∧
      (s.processEdge now).1.edgePhase = 0 := by
  obtain ⟨d1, d2⟩ := cc_direction_phase
    { s with edgePhase := (s.edgePhase ^^^ 1) % 256, sensorLiveLow := !s.sensorLiveLow } now
  have hph : (s.edgePhase ^^^ 1) % 256 = 0 := by rw [hp]; rfl
  have d1' := d1.trans hph
  have d2' : _ = s.pos := d2
  unfold processEdge
  dsimp only
  rw [if_pos hph]
  generalize ClickCounter.computeEffectiveDirection _ now = r at d1' d2' ⊢
  have key : ∀ x : Int, (({ r.2.2 with pos := x } : ClickCounter).persistPos false now).pos = x ∧
      (({ r.2.2 with pos := x } : ClickCounter).persistPos false now).edgePhase = 0 := by
    intro x
    obtain ⟨_, f2, _, _, f5, _⟩ := cc_persistPos_frame ({ r.2.2 with pos := x } : ClickCounter)
      false now
    exact ⟨f5, f2.trans d1'⟩
  split_ifs
  · refine ⟨?_, ?_, (key _).2⟩ <;> rw [(key _).1, d2'] <;> omega
  · refine ⟨?_, ?_, (key _).2⟩ <;> rw [(key _).1, d2'] <;> omega
  · refine ⟨?_, ?_, d1'⟩ <;> rw [d2'] <;> omega

theorem pulses_arith (p n : Nat) (a b c : Int) (k : Nat) (hp : p ≤ 1)
    (h1 : b - (if p = 1 then 1 else 0) ≤ a) (h2 : a ≤ b + (if p = 1 then 1 else 0))
    (h3 : a - (k : Int) ≤ c) (h4 : c ≤ a + (k : Int)) (hk : k = ((p + 1) % 2 + n) / 2) :
    b - (((p + (n + 1)) / 2 : Nat) : Int) ≤ c ∧ c ≤ b + (((p + (n + 1)) / 2 : Nat) : Int) := by
  have hcases : p = 0 ∨ p = 1 := by omega
  rcases hcases with rfl | rfl
  · simp only [zero_ne_one, if_false] at h1 h2
    subst hk
    constructor <;> omega
  · simp only [if_true] at h1 h2
    subst hk
    constructor <;> omega

/-- The loop over `n` edges moves the position by at most the number of pulses
the edges complete. -/
theorem cc_edgeLoop_pulses (now : Nat) :
    ∀ (n : Nat) (s : ClickCounter) (b : Bool) (p : Nat), s.edgePhase = p → p ≤ 1 →
      s.pos - (((p + n) / 2 : Nat) : Int) ≤ (edgeLoop n (s, b) now).1.pos ∧
        (edgeLoop n (s, b) now).1.pos ≤ s.pos + (((p + n) / 2 : Nat) : Int)
  | 0, s, b, p, _, hp1 => by
    have h3 : (p + 0) / 2 = 0 := by omega
    rw [h3]
    exact ⟨by show s.pos - ((0 : Nat) : Int) ≤ s.pos; omega,
      by show s.pos ≤ s.pos + ((0 : Nat) : Int); omega⟩
  | n + 1, s, b, p, hp, hp1 => by
    have hstep : s.pos - (if p = 1 then 1 else 0) ≤ (s.processEdge now).1.pos ∧
        (s.processEdge now).1.pos ≤ s.pos + (if p = 1 then 1 else 0) ∧
        (s.processEdge now).1.edgePhase = (p + 1) % 2 := by
      have hcases : p = 0 ∨ p = 1 := by omega
      rcases hcases with h | h
      · obtain ⟨g1, g2⟩ := cc_processEdge_first s now (hp.trans h)
        rw [h, g1, g2]
        exact ⟨by simp, by simp, rfl⟩
      · obtain ⟨g1, g2, g3⟩ := cc_processEdge_second s now (hp.trans h)
        rw [h, g3]
        exact ⟨by simpa using g1, by simpa using g2, rfl⟩
    obtain ⟨s1, s2, s3⟩ := hstep
    have ih := cc_edgeLoop_pulses now n (s.processEdge now).1 (b || (s.processEdge now).2)
      ((p + 1) % 2) s3 (by omega)
    rw [edgeLoop]
    exact pulses_arith p n _ _ _ _ hp1 s1 s2 ih.1 ih.2 rfl

/-- One batch moves the position by at most the number of pulses its edges
complete. -/
theorem cc_batch_pulses (s : ClickCounter) (edges now : Nat) (hp1 : s.edgePhase ≤ 1) :
    s.pos - (((s.edgePhase + edges) / 2 : Nat) : Int) ≤ (s.processEdgeBatch edges now).pos ∧
      (s.processEdgeBatch edges now).pos ≤ s.pos + (((s.edgePhase + edges) / 2 : Nat) : Int) := by
  unfold processEdgeBatch
  by_cases he : edges = 0
  · rw [if_pos he]
    constructor <;> omega
  · have h := cc_edgeLoop_pulses now edges s false s.edgePhase rfl hp1
    rw [if_neg he]
    dsimp only
    split_ifs <;> exact h

/-- Taking in the edges of a pass moves the position by at most the number of
pulses they complete. -/
theorem cc_drain_pulses (s : ClickCounter) (now : Nat) (hp1 : s.edgePhase ≤ 1) :
    s.pos - (((s.edgePhase + drainedEdges s now) / 2 : Nat) : Int) ≤ (s.drain now).pos ∧
      (s.drain now).pos ≤ s.pos + (((s.edgePhase + drainedEdges s now) / 2 : Nat) : Int) := by
  unfold drain drainedEdges
  rcases Bool.eq_false_or_eq_true s.simulate with hs | hs
  · rw [if_pos hs, if_pos hs]
    unfold simulateTicks
    by_cases hm : s.motion = MotionState.IDLE
    · rw [if_pos hm, if_pos hm]
      constructor <;> (dsimp only; omega)
    · rw [if_neg hm, if_neg hm]
      dsimp only
      split_ifs with h1 h2 h2
      · exact cc_batch_pulses _ _ now hp1
      · rw [not_not] at h2; rw [h2]; constructor <;> (dsimp only; omega)
      · exact cc_batch_pulses _ _ now hp1
      · rw [not_not] at h2; rw [h2]; constructor <;> (dsimp only; omega)
  · rw [if_neg (by rw [hs]; decide), if_neg (by rw [hs]; decide)]
    unfold drainHardwareEdges
    dsimp only
    by_cases he : s.edgeCountIsr = 0
    · rw [if_pos he]
      constructor <;> (dsimp only; omega)
    · rw [if_neg he]
      exact cc_batch_pulses { s with edgeCountIsr := 0 } s.edgeCountIsr now hp1

theorem no_panic_arith (p e d : Int) (k : Nat) (he : 0 ≤ e) (h1 : -1 ≤ p) (h2 : p ≤ e + 1)
    (hk : k ≤ 1) (g1 : p - (k : Int) ≤ d) (g2 : d ≤ p + (k : Int)) :
    ¬ (d < -2 ∨ d > e + 2) ∧
      -1 ≤ (if (if d < -1 then -1 else d) > e + 1 then e + 1 else (if d < -1 then -1 else d)) ∧
      (if (if d < -1 then -1 else d) > e + 1 then e + 1 else (if d < -1 then -1 else d)) ≤
        e + 1 := by
  refine ⟨by omega, ?_, ?_⟩ <;> split_ifs <;> omega

/-- C38. From every state with `end() >= 0` and `-1 <= position() <= end() + 1`,
as `update(false)` leaves it, and an edge phase of 0 or 1: when the edges that
one `update(false)` takes in complete at most one pulse, the call leaves the
panic flag as it was, the span as it was, and the position in
`[-1, end() + 1]` again.  So a cover that runs on past a limit at one pulse per
pass is clamped in every pass and the out-of-range panic is never raised. -/
theorem C38_single_pulse_no_panic (s : ClickCounter) (now : Nat) (he : 0 ≤ s.endOf)
    (h1 : -1 ≤ s.position) (h2 : s.position ≤ s.endOf + 1) (hp : s.edgePhase ≤ 1)
    (hpulse : (s.edgePhase + drainedEdges s now) / 2 ≤ 1) :
    (s.update false now).panicked = s.panicked ∧ (s.update false now).endOf = s.endOf ∧
      -1 ≤ (s.update false now).position ∧
      (s.update false now).position ≤ (s.update false now).endOf + 1 := by
  obtain ⟨u1, u2, u3⟩ := cc_update_false s now
  obtain ⟨g1, g2⟩ := cc_drain_pulses s now hp
  obtain ⟨a1, a2, a3⟩ := no_panic_arith s.pos s.endPos (s.drain now).pos _ he h1 h2 hpulse g1 g2
  unfold panicked endOf position
  rw [u1, u2, u3, decide_eq_false a1, Bool.or_false]
  exact ⟨rfl, rfl, a2, a3⟩

/-- C38, instance: at position 201 of 200 while Closing, the two edges of one
more pulse are taken in: no panic, and the position is 201 again. -/
theorem C38_single_pulse_no_panic_witness :
    (trackerAt 201 MotionState.CLOSING 2).position = (trackerAt 201 MotionState.CLOSING 2).endOf + 1 ∧
      ((trackerAt 201 MotionState.CLOSING 2).drain 1000).position = 202 ∧
      ((trackerAt 201 MotionState.CLOSING 2).update false 1000).panicked = false ∧
      ((trackerAt 201 MotionState.CLOSING 2).update false 1000).position = 201 :=
  ⟨by decide, by decide,
    (C38_single_pulse_no_panic (trackerAt 201 MotionState.CLOSING 2) 1000 (by decide)
      (by decide) (by decide) (by decide) (by decide)).1,
    by decide⟩

end ClickCounter

set_option maxRecDepth 1000000
/-! ### Calibration with two marks -/

namespace ClickCounter

/-- The open mark set right after calibration is entered with a positive span:
the position is 0 and calibration stays active. -/
theorem cc_open_mark_first (s : ClickCounter) (now : Nat) (he : 0 < s.endPos) :
    ((s.beginCalibration).setOpenHere now).pos = 0 ∧
      ((s.beginCalibration).setOpenHere now).calibrationActive = true := by
  obtain ⟨u, hu, hset⟩ := cc_setOpenHere_steps s.beginCalibration now rfl
  obtain ⟨u1, u2, u3, u4, u5, u6, u7, u8, u9, u10⟩ := calibView_fields _ _ _ _ _ _ _ _ _ _ _ hu
  have h7 : u.calibEntryPos = 0 := by
    rw [u7]
    show s.pos - s.pos = 0
    omega
  have hrc := cc_recompute_open u u4 u5 u6 u1 (by rw [h7]; unfold INT32_MIN; omega)
    (by rw [u8]; exact he)
  have hv := hset _ _ _ _ _ _ _ _ _ _ hrc
  obtain ⟨v1, _, _, v4, _⟩ := calibView_fields _ _ _ _ _ _ _ _ _ _ _ hv
  exact ⟨v1, v4⟩

/-- In calibration at a position `p` with `0 < p <= 8192`, the closed mark
followed by `finalizeCalibration` leaves position and span at `p`. -/
theorem cc_closed_mark_final (s : ClickCounter) (now1 now2 : Nat)
    (ha : s.calibrationActive = true) (h0 : 0 < s.pos) (h1 : s.pos ≤ 8192) :
    ((s.setClosedHere now1).finalizeCalibration now2).pos = s.pos ∧
      ((s.setClosedHere now1).finalizeCalibration now2).endPos = s.pos := by
  obtain ⟨u, hu, hset⟩ := cc_setClosedHere_steps s now1 ha (le_of_lt h0)
  obtain ⟨u1, u2, u3, u4, u5, u6, u7, u8, u9, u10⟩ := calibView_fields _ _ _ _ _ _ _ _ _ _ _ hu
  have hrc := cc_recompute_closed u u4 u6 (u10.trans u1.symm) (by rw [u1]; exact le_of_lt h0)
    (by rw [u1]; exact h1)
  rw [u1, u3, u5, u7, u8, u9] at hrc
  have hv := hset _ _ _ _ _ _ _ _ _ _ hrc
  obtain ⟨v1, v2, v3, v4, v5, v6, v7, v8, v9, v10⟩ := calibView_fields _ _ _ _ _ _ _ _ _ _ _ hv
  have hrc2 := cc_recompute_closed (s.setClosedHere now1) v4 v6 (v10.trans v1.symm)
    (by rw [v1]; exact le_of_lt h0) (by rw [v1]; exact h1)
  rw [v1, v3, v5, v7, v8, v9] at hrc2
  obtain ⟨_, _, hfin⟩ := cc_finalize_calibView (s.setClosedHere now1) now2 _ rfl
  obtain ⟨a1, a2, _⟩ := calibView_fields _ _ _ _ _ _ _ _ _ _ _ hrc2
  rw [a1, a2] at hfin
  obtain ⟨e1, e2, _, _⟩ := cc_closed_span_cases s.pos s.calibEntryEnd
  obtain ⟨g1, g2, _⟩ := calibView_fields _ _ _ _ _ _ _ _ _ _ _ hfin
  have hneg : ¬ s.pos < 0 := by omega
  rw [if_neg hneg, if_neg (not_lt.mpr e1)] at g1
  rw [g1, g2]
  exact ⟨rfl, e2 h0⟩

theorem normalise_mark (u : ClickCounter) (r : Int) (h0 : 0 < r) (h1 : r ≤ 8192) :
    u.normaliseCandidate r = r := by
  unfold normaliseCandidate SET_MAX_POS
  dsimp only
  split_ifs <;> omega

/-- In calibration at the open mark (position 0) with the closed mark `r`
steps away, `0 < r <= 8192`: `recomputeSpanFromMarks` and
`clampCalibrationRange` leave the position at 0 and set the span to `r`. -/
theorem cc_recompute_marks (u : ClickCounter) (ha : u.calibrationActive = true)
    (hc : u.calibClosedSet = true) (hp : u.pos = 0) (h0 : 0 < u.calibClosedRaw)
    (h1 : u.calibClosedRaw ≤ 8192) :
    ((u.recomputeSpanFromMarks).clampCalibrationRange).pos = 0 ∧
      ((u.recomputeSpanFromMarks).clampCalibrationRange).endPos = u.calibClosedRaw := by
  have hcand : u.spanCandidate = u.calibClosedRaw := by
    unfold spanCandidate; rw [hc]; rfl
  have hne : u.spanCandidate ≠ INT32_MIN := by
    rw [hcand]; unfold INT32_MIN; omega
  have hv := cc_recompute_calibView u ha _ _ rfl rfl
  rw [if_pos hne, hcand, hc, hp, normalise_mark u _ h0 h1] at hv
  obtain ⟨f1, f2, _⟩ := calibView_fields _ _ _ _ _ _ _ _ _ _ _ hv
  have hcl := cc_clamp_calibView (u.recomputeSpanFromMarks)
  obtain ⟨c1, c2, _⟩ := calibView_fields _ _ _ _ _ _ _ _ _ _ _ hcl
  rw [c1, c2, f1, f2]
  constructor
  · unfold limitPos SET_MIN_POS SET_MAX_POS
    cases u.calibOpenSet <;> simp <;> omega
  · unfold SET_MAX_POS
    omega

/-- In calibration with the closed mark `r` steps on the Closing side of the
position, `0 < r <= 8192`: the open mark followed by `finalizeCalibration`
leaves the position at 0 and the span at `r`. -/
theorem cc_open_mark_final (m : ClickCounter) (now1 now2 : Nat) (r : Int)
    (ha : m.calibrationActive = true) (hc : m.calibClosedSet = true)
    (hr : m.calibClosedRaw - m.pos = r) (h0 : 0 < r) (h1 : r ≤ 8192) :
    ((m.setOpenHere now1).finalizeCalibration now2).pos = 0 ∧
      ((m.setOpenHere now1).finalizeCalibration now2).endPos = r := by
  obtain ⟨u, hu, hset⟩ := cc_setOpenHere_steps m now1 ha
  obtain ⟨u1, u2, u3, u4, u5, u6, u7, u8, u9, u10⟩ := calibView_fields _ _ _ _ _ _ _ _ _ _ _ hu
  rw [hc, if_pos rfl, hr] at u10
  obtain ⟨k1, k2⟩ := cc_recompute_marks u u4 (u6.trans hc) u1 (by rw [u10]; exact h0)
    (by rw [u10]; exact h1)
  have hview : calibView (u.recomputeSpanFromMarks).clampCalibrationRange =
      (((u.recomputeSpanFromMarks).clampCalibrationRange).pos,
        ((u.recomputeSpanFromMarks).clampCalibrationRange).endPos,
        ((u.recomputeSpanFromMarks).clampCalibrationRange).panicFlag,
        ((u.recomputeSpanFromMarks).clampCalibrationRange).calibrationActive,
        ((u.recomputeSpanFromMarks).clampCalibrationRange).calibOpenSet,
        ((u.recomputeSpanFromMarks).clampCalibrationRange).calibClosedSet,
        ((u.recomputeSpanFromMarks).clampCalibrationRange).calibEntryPos,
        ((u.recomputeSpanFromMarks).clampCalibrationRange).calibEntryEnd,
        ((u.recomputeSpanFromMarks).clampCalibrationRange).calibOpenRaw,
        ((u.recomputeSpanFromMarks).clampCalibrationRange).calibClosedRaw) := rfl
  have hv := hset _ _ _ _ _ _ _ _ _ _ hview
  obtain ⟨v1, _, _, v4, _, v6, _, _, _, v10⟩ := calibView_fields _ _ _ _ _ _ _ _ _ _ _ hv
  have w4 : (m.setOpenHere now1).calibrationActive = true := by
    rw [v4]
    have hrv := cc_recompute_calibView u u4 _ _ rfl rfl
    have hcl := cc_clamp_calibView (u.recomputeSpanFromMarks)
    obtain ⟨_, _, _, c4, _⟩ := calibView_fields _ _ _ _ _ _ _ _ _ _ _ hcl
    obtain ⟨_, _, _, r4, _⟩ := calibView_fields _ _ _ _ _ _ _ _ _ _ _ hrv
    exact c4.trans r4
  have w6 : (m.setOpenHere now1).calibClosedSet = true := by
    rw [v6]
    have hrv := cc_recompute_calibView u u4 _ _ rfl rfl
    have hcl := cc_clamp_calibView (u.recomputeSpanFromMarks)
    obtain ⟨_, _, _, _, _, c6, _⟩ := calibView_fields _ _ _ _ _ _ _ _ _ _ _ hcl
    obtain ⟨_, _, _, _, _, r6, _⟩ := calibView_fields _ _ _ _ _ _ _ _ _ _ _ hrv
    exact c6.trans (r6.trans (u6.trans hc))
  have w10 : (m.setOpenHere now1).calibClosedRaw = r := by
    rw [v10]
    have hrv := cc_recompute_calibView u u4 _ _ rfl rfl
    have hcl := cc_clamp_calibView (u.recomputeSpanFromMarks)
    obtain ⟨_, _, _, _, _, _, _, _, _, c10⟩ := calibView_fields _ _ _ _ _ _ _ _ _ _ _ hcl
    obtain ⟨_, _, _, _, _, _, _, _, _, r10⟩ := calibView_fields _ _ _ _ _ _ _ _ _ _ _ hrv
    exact c10.trans (r10.trans u10)
  obtain ⟨n1, n2⟩ := cc_recompute_marks (m.setOpenHere now1) w4 w6 (v1.trans k1)
    (by rw [w10]; exact h0) (by rw [w10]; exact h1)
  obtain ⟨_, _, hfin⟩ := cc_finalize_calibView (m.setOpenHere now1) now2 _ rfl
  obtain ⟨g1, g2, _⟩ := calibView_fields _ _ _ _ _ _ _ _ _ _ _ hfin
  rw [g1, g2, n1, n2, w10]
  refine ⟨?_, rfl⟩
  rw [if_neg (lt_irrefl 0), if_neg (by omega)]

/-- The closed mark set right after calibration is entered at a position `p`
with `0 <= p <= 8192`: the position stays `p`, the mark is at `p`, and
calibration stays active. -/
theorem cc_closed_mark_first (s : ClickCounter) (now : Nat) (h0 : 0 ≤ s.pos)
    (h1 : s.pos ≤ 8192) :
    ((s.beginCalibration).setClosedHere now).pos = s.pos ∧
      ((s.beginCalibration).setClosedHere now).calibrationActive = true ∧
      ((s.beginCalibration).setClosedHere now).calibClosedSet = true ∧
      ((s.beginCalibration).setClosedHere now).calibClosedRaw = s.pos := by
  obtain ⟨u, hu, hset⟩ := cc_setClosedHere_steps s.beginCalibration now rfl h0
  obtain ⟨u1, u2, u3, u4, u5, u6, u7, u8, u9, u10⟩ := calibView_fields _ _ _ _ _ _ _ _ _ _ _ hu
  have hrc := cc_recompute_closed u u4 u6 (u10.trans u1.symm) (by rw [u1]; exact h0)
    (by rw [u1]; exact h1)
  have hv := hset _ _ _ _ _ _ _ _ _ _ hrc
  obtain ⟨v1, _, _, v4, _, v6, _, _, _, v10⟩ := calibView_fields _ _ _ _ _ _ _ _ _ _ _ hv
  exact ⟨v1.trans u1, v4, v6, v10.trans u1⟩

/-- C32, as the code has it, counterexample: calibration is entered at position 0
and the closed mark set there; the cover is then driven towards Opening for 513
pulses, taken in by `update(true)` in 9 batches of 57.  The position stops at
-512, the lower end of the calibration range, and after the open mark and
`finalizeCalibration` the span is 512, not 513. -/
theorem C32_closed_mark_first_saturates :
    calibFresh.position = 0 ∧
    (movedInCalibration (calibFresh.setClosedHere 1000) MotionState.OPENING (List.replicate 9 57)
      2000).position = -512 ∧
    (((movedInCalibration (calibFresh.setClosedHere 1000) MotionState.OPENING
      (List.replicate 9 57) 2000).setOpenHere 3000).finalizeCalibration 4000).endOf = 512 := by
  decide

/-- C32, amended. Calibration is entered from a state `s` with a positive span
and the first mark is set at once; `m1` and `m2` are tracker states that differ
from the state after the first mark in the position only, which is `N` steps
further towards Closing after the open mark (`m1`) and `N` steps further towards
Opening after the closed mark (`m2`), with `0 < N <= 8192`: the tracker has
counted all `N` pulses.  Then (a) `setClosedHere` and `finalizeCalibration` on
`m1` give `end() == N` and `position() == N`, and (b), when calibration was
entered at a position in `[0, 8192]`, `setOpenHere` and `finalizeCalibration` on
`m2` give `end() == N` and `position() == 0`. -/
theorem C32_two_marks_measure_distance (s m1 m2 : ClickCounter) (N : Int) (t1 t2 t3 : Nat)
    (hN0 : 0 < N) (hN1 : N ≤ 8192) (he : 0 < s.endOf)
    (h1 : calibView m1 =
      calibView { (s.beginCalibration).setOpenHere t1 with
        pos := ((s.beginCalibration).setOpenHere t1).pos + N })
    (h2 : calibView m2 =
      calibView { (s.beginCalibration).setClosedHere t1 with
        pos := ((s.beginCalibration).setClosedHere t1).pos - N }) :
    (((m1.setClosedHere t2).finalizeCalibration t3).endOf = N ∧
      ((m1.setClosedHere t2).finalizeCalibration t3).position = N) ∧
    (0 ≤ s.position → s.position ≤ 8192 →
      ((m2.setOpenHere t2).finalizeCalibration t3).endOf = N ∧
      ((m2.setOpenHere t2).finalizeCalibration t3).position = 0) := by
  unfold endOf position
  constructor
  · obtain ⟨a1, a2⟩ := cc_open_mark_first s t1 he
    simp only [calibView, Prod.mk.injEq] at h1
    have hp : m1.pos = N := by rw [h1.1, a1]; omega
    obtain ⟨r1, r2⟩ := cc_closed_mark_final m1 t2 t3 (h1.2.2.2.1.trans a2)
      (by rw [hp]; exact hN0) (by rw [hp]; exact hN1)
    exact ⟨r2.trans hp, r1.trans hp⟩
  · intro hp0 hp1
    obtain ⟨b1, b2, b3, b4⟩ := cc_closed_mark_first s t1 hp0 hp1
    simp only [calibView, Prod.mk.injEq] at h2
    have hr : m2.calibClosedRaw - m2.pos = N := by
      rw [h2.1, h2.2.2.2.2.2.2.2.2.2, b1, b4]; omega
    obtain ⟨r1, r2⟩ := cc_open_mark_final m2 t2 t3 N (h2.2.2.2.1.trans b2)
      (h2.2.2.2.2.2.1.trans b3) hr hN0 hN1
    exact ⟨r2, r1⟩

/-- C32, amended, instance: a tracker at position 100 of span 200; the cover
moves 50 pulses between the marks, taken in by `update(true)` in batches of 20
and 30; in either order the span becomes 50. -/
theorem C32_two_marks_measure_distance_witness :
    (((movedInCalibration (((trackerAt 100 MotionState.IDLE 0).beginCalibration).setOpenHere 1000)
        MotionState.CLOSING [20, 30] 2000).setClosedHere 3000).finalizeCalibration 4000).endOf =
      50 ∧
    (((movedInCalibration (((trackerAt 100 MotionState.IDLE 0).beginCalibration).setClosedHere 1000)
        MotionState.OPENING [20, 30] 2000).setOpenHere 3000).finalizeCalibration 4000).endOf =
      50 :=
  ⟨((C32_two_marks_measure_distance (trackerAt 100 MotionState.IDLE 0)
      (movedInCalibration (((trackerAt 100 MotionState.IDLE 0).beginCalibration).setOpenHere 1000)
        MotionState.CLOSING [20, 30] 2000)
      (movedInCalibration (((trackerAt 100 MotionState.IDLE 0).beginCalibration).setClosedHere 1000)
        MotionState.OPENING [20, 30] 2000)
      50 1000 3000 4000 (by decide) (by decide) (by decide) rfl rfl).1).1,
    ((C32_two_marks_measure_distance (trackerAt 100 MotionState.IDLE 0)
      (movedInCalibration (((trackerAt 100 MotionState.IDLE 0).beginCalibration).setOpenHere 1000)
        MotionState.CLOSING [20, 30] 2000)
      (movedInCalibration (((trackerAt 100 MotionState.IDLE 0).beginCalibration).setClosedHere 1000)
        MotionState.OPENING [20, 30] 2000)
      50 1000 3000 4000 (by decide) (by decide) (by decide) rfl rfl).2
      (by decide) (by decide)).1⟩

end ClickCounter

end PoolCover
